import Mathlib

/-!
# skiboot fast reboot: CPU synchronisation protocol

A shallow embedding of `core/fast-reboot.c`.  Every C function of that file is
a Lean function over an explicit machine state.  A unit (hardware thread) is
identified by its index in the registry, which plays the role of the
`struct cpu_thread *` pointer.  Everything the running unit cannot control
(loads of memory owned by other units, the time base, hardware registers, the
status returned by collaborators) is answered by an `Env`; every effect the
unit performs is appended to the `trace` of the machine.  Busy-wait loops take
a `fuel` bound on their number of iterations and report `spinning` when it is
used up.

The table of ECC protected ranges of `libflash/blocklevel.c` (namespace
`Blocklevel`) and the LPC accesses of `hw/lpc.c` (namespace `Lpc`) are embedded
after the definitions of the fast reboot.  All definitions come first; the
lemmas and the theorems on the three files follow.
-/

namespace FastReboot

/-! ## Data model -/

/-- Modelled from the spec: `enum cpu_thread_state` is declared in `cpu.h`, which
is not part of the sources.  The code only names `cpu_state_present` and
`cpu_state_active`; every other value of the enumeration is `cpu_state_other`. -/
inductive cpu_thread_state where
  | cpu_state_present
  | cpu_state_active
  | cpu_state_other (tag : Nat)
  deriving DecidableEq, Repr

/-- Result of `tb_compare` (`timebase.h`). -/
inductive tb_cmpval where
  | TB_ABEFOREB
  | TB_AEQUALB
  | TB_AAFTERB
  deriving DecidableEq, Repr

/-- Processor generations (`proc_gen`). -/
inductive proc_gen_t where
  | proc_gen_unknown
  | proc_gen_p7
  | proc_gen_p8
  | proc_gen_p9
  deriving DecidableEq, Repr

/-- The first argument of `opal_quiesce`. -/
inductive quiesce_type where
  | QUIESCE_HOLD
  | QUIESCE_RESUME
  | QUIESCE_RESUME_FAST_REBOOT
  deriving DecidableEq, Repr

/-- The chip quirks tested by `fast_reboot`. -/
inductive quirk where
  | QUIRK_MAMBO_CALLOUTS
  | QUIRK_NO_DIRECT_CTL
  deriving DecidableEq, Repr

/-- Log levels used by `prlog` in this file. -/
inductive log_level where
  | PR_NOTICE
  | PR_INFO
  | PR_DEBUG
  deriving DecidableEq, Repr

/-- Modelled from the spec: `struct cpu_thread` is declared in `cpu.h`, which is not
part of the sources.  `garded` is the flag that `for_each_ungarded_cpu` skips,
`primary` is the `pir` of the lead thread of the unit's physical core (its
sibling group), `save_r1` is the saved resume address. -/
structure cpu_thread where
  pir : Nat
  primary : Nat
  garded : Bool
  in_fast_sleep : Bool
  save_r1 : Nat
  state : cpu_thread_state
  deriving DecidableEq, Repr

/-- Every effect a unit performs, in program order.  The arguments of `prlog` after
the format string are not recorded.  `wait_returned` is not an instruction: it records
that a call of `cpu_state_wait_all_others` returned, with the arguments and the result
of the call. -/
inductive Event where
  | prlog (level : log_level) (fmt : String)
  | sync
  | barrier
  | smt_lowest
  | smt_medium
  | cpu_relax
  | load_state (cpu : Nat) (v : cpu_thread_state)
  | load_tb (v : Nat)
  | load_release (v : Bool)
  | load_hid0 (v : Nat)
  | store_state (cpu : Nat) (v : cpu_thread_state)
  | store_save_r1 (cpu : Nat) (v : Nat)
  | store_release (v : Bool)
  | nvram_query_eq (key value : String) (res : Bool)
  | opal_quiesce (type : quiesce_type) (cpu_target : Int) (rc : Int)
  | sreset_all_prepare (rc : Int)
  | copy_exception_vectors
  | setup_reset_vector
  | sreset_all_others (rc : Int)
  | sreset_all_finish
  | branch_0x100
  | init_shared_sprs
  | fast_sleep_exit
  | cleanup_local_tlb
  | chiptod_wakeup_resync
  | init_replicated_sprs
  | icp_prep_for_pm
  | mtspr_lpcr (v : Nat)
  | enter_nap
  | set_hid0 (v : Nat)
  | opal_slw_set_reg (pir : Nat) (v : Nat)
  | icp_kick_cpu (cpu : Nat)
  | reset_cpu_xive
  | reset_cpu_icp
  | xive_reset
  | cpu_fast_reboot_complete
  | cpu_set_sreset_enable (enable : Bool)
  | cpu_set_ipi_enable (enable : Bool)
  | start_preload_kernel
  | fsp_console_reset
  | psi_irq_reset
  | pci_reset (rc : Int)
  | cec_reboot
  | ipmi_set_fw_progress_sensor
  | secondary_cpu_entry
  | load_and_boot_kernel (resume : Bool)
  | wait_returned (state : cpu_thread_state) (timeout_tb : Nat) (result : Bool)
  deriving DecidableEq, Repr

/-- Everything the running unit does not control.  `cpu_state t cpu`, `mftb t`,
`fast_boot_release t` and `hid0 t` are the values a load performed at clock `t`
returns; the other fields are the globals, constants and collaborator statuses
that `fast-reboot.c` uses and that are declared outside the sources. -/
structure Env where
  cpu_state : Nat → Nat → cpu_thread_state
  mftb : Nat → Nat
  fast_boot_release : Nat → Bool
  hid0 : Nat → Nat
  lpcr : Nat
  tb_compare : Nat → Nat → tb_cmpval
  msecs_to_tb : Nat → Nat
  proc_gen : proc_gen_t
  boot_cpu : Nat
  chip_quirk : quirk → Bool
  nvram_query_eq : String → String → Bool
  opal_quiesce : quiesce_type → Int
  sreset_all_prepare : Int
  sreset_all_others : Int
  pci_reset : Int
  has_cec_reboot : Bool
  SPR_HID0_POWER8_4LPARMODE : Nat
  SPR_HID0_POWER8_2LPARMODE : Nat
  SPR_HID0_POWER8_DYNLPARDIS : Nat
  SPR_LPCR_P8_PECE : Nat
  SPR_LPCR_P8_PECE2 : Nat

/-- The memory image as the running unit leaves it, its clock (the number of loads
it has performed on shared or hardware state) and the effects it has performed.
`fast_boot_release`, `fast_reboot_disabled` and `fast_reboot_count` are the three
static variables of `fast-reboot.c`; a `NULL` reason is `none`. -/
structure Machine where
  clock : Nat
  trace : List Event
  cpus : List cpu_thread
  fast_boot_release : Bool
  fast_reboot_disabled : Option String
  fast_reboot_count : Int
  deriving DecidableEq, Repr

/-- How a function of `fast-reboot.c` ends on the running unit. -/
inductive Outcome where
  | returned
  | spinning
  | branched
  | napping
  | worker_loop
  | payload
  | halted
  deriving DecidableEq, Repr

/-! ## Primitive steps -/

/-- Append one effect to the trace. -/
def emit (e : Event) (m : Machine) : Machine :=
  { m with trace := m.trace ++ [e] }

/-- A load of `cpu->state` for another unit. -/
def load_state (env : Env) (cpu : Nat) (m : Machine) : cpu_thread_state × Machine :=
  (env.cpu_state m.clock cpu,
    { m with clock := m.clock + 1,
             trace := m.trace ++ [Event.load_state cpu (env.cpu_state m.clock cpu)] })

/-- The `mftb()` read of the 64-bit time base. -/
def mftb (env : Env) (m : Machine) : Nat × Machine :=
  (env.mftb m.clock % 2 ^ 64,
    { m with clock := m.clock + 1,
             trace := m.trace ++ [Event.load_tb (env.mftb m.clock % 2 ^ 64)] })

/-- A load of the volatile `fast_boot_release` by a unit that does not own it. -/
def load_release (env : Env) (m : Machine) : Bool × Machine :=
  (env.fast_boot_release m.clock,
    { m with clock := m.clock + 1,
             trace := m.trace ++ [Event.load_release (env.fast_boot_release m.clock)] })

/-- The `mfspr(SPR_HID0)` read. -/
def load_hid0 (env : Env) (m : Machine) : Nat × Machine :=
  (env.hid0 m.clock % 2 ^ 64,
    { m with clock := m.clock + 1,
             trace := m.trace ++ [Event.load_hid0 (env.hid0 m.clock % 2 ^ 64)] })

/-- Modelled from the spec: `for_each_cpu` (absent from the sources) visits every
unit of the registry in registry order. -/
def all_cpus (cpus : List cpu_thread) : List Nat :=
  List.range cpus.length

/-- The descriptor behind a unit index (`none` past the end of the registry). -/
def cpu_at (cpus : List cpu_thread) (cpu : Nat) : Option cpu_thread :=
  cpus.get? cpu

/-- Whether the unit at an index is non-garded. -/
def is_ungarded (cpus : List cpu_thread) (cpu : Nat) : Bool :=
  match cpu_at cpus cpu with
  | some c => !c.garded
  | none => false

/-- Modelled from the spec: `for_each_ungarded_cpu` (absent from the sources) visits
the non-garded units of the registry in registry order. -/
def ungarded_cpus (cpus : List cpu_thread) : List Nat :=
  (all_cpus cpus).filter (is_ungarded cpus)

/-! ## `cpu_state_wait_all_others` -/

/-- The inner `while (cpu->state != state)` loop of `cpu_state_wait_all_others`.
`some true`: the loop was left because the state was observed; `some false`: the
function returned `false` from inside the loop; `none`: still spinning. -/
def wait_loop (env : Env) (cpu : Nat) (state : cpu_thread_state)
    (timeout_tb end_tb : Nat) : Nat → Machine → Option Bool × Machine
  | 0, m => (none, m)
  | fuel + 1, m =>
    if (load_state env cpu m).1 ≠ state then
      if timeout_tb ≠ 0 then
        if env.tb_compare (mftb env (emit Event.barrier (load_state env cpu m).2)).1 end_tb
            = tb_cmpval.TB_AAFTERB then
          (some false,
            emit Event.smt_medium (mftb env (emit Event.barrier (load_state env cpu m).2)).2)
        else
          wait_loop env cpu state timeout_tb end_tb fuel
            (mftb env (emit Event.barrier (load_state env cpu m).2)).2
      else
        wait_loop env cpu state timeout_tb end_tb fuel
          (emit Event.barrier (load_state env cpu m).2)
    else
      (some true, (load_state env cpu m).2)

/-- The body of the `for_each_ungarded_cpu` loop for one unit other than the caller. -/
def wait_cpu (env : Env) (cpu : Nat) (state : cpu_thread_state)
    (timeout_tb end_tb fuel : Nat) (m : Machine) : Option Bool × Machine :=
  if (load_state env cpu m).1 ≠ state then
    match wait_loop env cpu state timeout_tb end_tb fuel
        (emit Event.smt_lowest (load_state env cpu m).2) with
    | (some true, m1) => (some true, emit Event.smt_medium m1)
    | r => r
  else
    (some true, (load_state env cpu m).2)

/-- The `for_each_ungarded_cpu` loop of `cpu_state_wait_all_others` over the units
still to visit. -/
def wait_cpus (env : Env) (me : Nat) (state : cpu_thread_state)
    (timeout_tb end_tb fuel : Nat) : List Nat → Machine → Option Bool × Machine
  | [], m => (some true, m)
  | cpu :: rest, m =>
    if cpu = me then
      wait_cpus env me state timeout_tb end_tb fuel rest m
    else
      match wait_cpu env cpu state timeout_tb end_tb fuel m with
      | (some true, m1) => wait_cpus env me state timeout_tb end_tb fuel rest m1
      | r => r

/-- The deadline `end = mftb() + timeout_tb` of a call made in machine `m`. -/
def wait_end (env : Env) (timeout_tb : Nat) (m : Machine) : Nat :=
  ((mftb env m).1 + timeout_tb) % 2 ^ 64

/-- `cpu_state_wait_all_others(state, timeout_tb)` run by unit `me`.
`some b`: the call returned `b`; `none`: it is still spinning after `fuel`
iterations of one of its loops. -/
def cpu_state_wait_all_others (env : Env) (me : Nat) (state : cpu_thread_state)
    (timeout_tb fuel : Nat) (m : Machine) : Option Bool × Machine :=
  match wait_cpus env me state timeout_tb (wait_end env timeout_tb m) fuel
      (ungarded_cpus m.cpus) (emit Event.sync (mftb env m).2) with
  | (some true, m1) =>
    (some true, emit (Event.wait_returned state timeout_tb true) (emit Event.sync m1))
  | (some false, m1) => (some false, emit (Event.wait_returned state timeout_tb false) m1)
  | (none, m1) => (none, m1)

/-! ## `disable_fast_reboot` and `fast_reboot` -/

/-- Status `OPAL_SUCCESS` of `opal-api.h`. -/
def OPAL_SUCCESS : Int := 0

/-- A unit descriptor used when an index lies past the end of the registry. -/
def no_cpu : cpu_thread :=
  { pir := 0, primary := 0, garded := true, in_fast_sleep := false, save_r1 := 0,
    state := cpu_thread_state.cpu_state_other 0 }

/-- The descriptor of the running unit, `this_cpu()`. -/
def this_cpu (m : Machine) (me : Nat) : cpu_thread :=
  (cpu_at m.cpus me).getD no_cpu

/-- Apply `f` to the descriptor at index `cpu`, leaving every other one as it is. -/
def update_cpu (f : cpu_thread → cpu_thread) : List cpu_thread → Nat → List cpu_thread
  | [], _ => []
  | c :: cs, 0 => f c :: cs
  | c :: cs, n + 1 => c :: update_cpu f cs n

/-- The store `cpu->save_r1 = v`. -/
def store_save_r1 (cpu v : Nat) (m : Machine) : Machine :=
  { m with cpus := update_cpu (fun c => { c with save_r1 := v }) m.cpus cpu,
           trace := m.trace ++ [Event.store_save_r1 cpu v] }

/-- The store `cpu->state = v`. -/
def store_state (cpu : Nat) (v : cpu_thread_state) (m : Machine) : Machine :=
  { m with cpus := update_cpu (fun c => { c with state := v }) m.cpus cpu,
           trace := m.trace ++ [Event.store_state cpu v] }

/-- The store `fast_boot_release = v`. -/
def store_release (v : Bool) (m : Machine) : Machine :=
  { m with fast_boot_release := v, trace := m.trace ++ [Event.store_release v] }

/-- A call of `opal_quiesce(type, -1)`; its status is returned with the machine. -/
def opal_quiesce (env : Env) (type : quiesce_type) (m : Machine) : Machine :=
  emit (Event.opal_quiesce type (-1) (env.opal_quiesce type)) m

/-- `disable_fast_reboot(reason)`: the assignment `fast_reboot_disabled = reason`. -/
def disable_fast_reboot (reason : Option String) (m : Machine) : Machine :=
  { m with fast_reboot_disabled := reason }

/-- The loop `for_each_ungarded_cpu(cpu) cpu->save_r1 = 0;` of `fast_reboot`. -/
def clear_save_r1 : List Nat → Machine → Machine
  | [], m => m
  | cpu :: rest, m => clear_save_r1 rest (store_save_r1 cpu 0 m)

/-- The statements of `fast_reboot` from the `for_each_ungarded_cpu` loop to the call
of `sreset_all_others`, included. -/
def fast_reboot_broadcast (env : Env) (m : Machine) : Machine :=
  emit (Event.sreset_all_others env.sreset_all_others)
    (emit Event.setup_reset_vector
      (emit Event.copy_exception_vectors (clear_save_r1 (ungarded_cpus m.cpus) m)))

/-- The part of `fast_reboot` after the secondaries were prepared (from the
`for_each_ungarded_cpu` loop to the end of the function).  After `ba 0x100` control is
at the reset vector and never comes back: the outcome is `branched`. -/
def fast_reboot_commit (env : Env) (me fuel : Nat) (m : Machine) : Outcome × Machine :=
  if env.sreset_all_others ≠ OPAL_SUCCESS then
    (Outcome.returned,
      emit (Event.prlog log_level.PR_NOTICE
          "RESET: Fast reboot failed to system reset secondaries\n")
        (fast_reboot_broadcast env m))
  else
    match cpu_state_wait_all_others env me cpu_thread_state.cpu_state_present
        (env.msecs_to_tb 100) fuel (fast_reboot_broadcast env m) with
    | (none, m1) => (Outcome.spinning, m1)
    | (some false, m1) =>
      (Outcome.returned,
        emit (Event.prlog log_level.PR_NOTICE
          "RESET: Fast reboot timed out waiting for secondaries to call in\n") m1)
    | (some true, m1) =>
      (Outcome.branched,
        emit Event.branch_0x100
          (opal_quiesce env quiesce_type.QUIESCE_RESUME_FAST_REBOOT
            (emit Event.sreset_all_finish
              (emit (Event.prlog log_level.PR_DEBUG
                "RESET: Releasing special wakeups...\n") m1))))

/-- The `nvram_query_eq` call that `fast_reboot` makes on P9 only. -/
def fast_reboot_nvram (env : Env) (m : Machine) : Machine :=
  if env.proc_gen = proc_gen_t.proc_gen_p9 then
    emit (Event.nvram_query_eq "experimental-fast-reset" "feeling-lucky"
      (env.nvram_query_eq "experimental-fast-reset" "feeling-lucky")) m
  else m

/-- The statements of `fast_reboot` from the log line "Initiating fast reboot" to the
call of `sreset_all_prepare`, included. -/
def fast_reboot_prepare (env : Env) (m : Machine) : Machine :=
  emit (Event.sreset_all_prepare env.sreset_all_prepare)
    (emit Event.sync
      (store_release false
        (emit (Event.prlog log_level.PR_NOTICE "RESET: Initiating fast reboot %d...\n")
          { m with fast_reboot_count := m.fast_reboot_count + 1 })))

/-- `fast_reboot()` run by unit `me`. -/
def fast_reboot (env : Env) (me fuel : Nat) (m : Machine) : Outcome × Machine :=
  if env.proc_gen = proc_gen_t.proc_gen_p9 ∧
      env.nvram_query_eq "experimental-fast-reset" "feeling-lucky" = false then
    (Outcome.returned, fast_reboot_nvram env m)
  else if env.chip_quirk quirk.QUIRK_MAMBO_CALLOUTS = false ∧
      (env.proc_gen ≠ proc_gen_t.proc_gen_p8 ∧ env.proc_gen ≠ proc_gen_t.proc_gen_p9) then
    (Outcome.returned,
      emit (Event.prlog log_level.PR_DEBUG "RESET: Fast reboot not available on this CPU\n")
        (fast_reboot_nvram env m))
  else if env.chip_quirk quirk.QUIRK_NO_DIRECT_CTL = true then
    (Outcome.returned,
      emit (Event.prlog log_level.PR_DEBUG "RESET: Fast reboot disabled by quirk\n")
        (fast_reboot_nvram env m))
  else if env.opal_quiesce quiesce_type.QUIESCE_HOLD = 0 then
    (Outcome.returned,
      emit (Event.prlog log_level.PR_NOTICE
          "RESET: Fast reboot disabled because OPAL quiesce timed out\n")
        (opal_quiesce env quiesce_type.QUIESCE_HOLD (fast_reboot_nvram env m)))
  else if m.fast_reboot_disabled ≠ none then
    (Outcome.returned,
      opal_quiesce env quiesce_type.QUIESCE_RESUME
        (emit (Event.prlog log_level.PR_DEBUG "RESET: Fast reboot disabled because %s\n")
          (opal_quiesce env quiesce_type.QUIESCE_HOLD (fast_reboot_nvram env m))))
  else if env.sreset_all_prepare ≠ 0 then
    (Outcome.returned,
      opal_quiesce env quiesce_type.QUIESCE_RESUME
        (emit (Event.prlog log_level.PR_NOTICE
            "RESET: Fast reboot failed to prepare secondaries for system reset\n")
          (fast_reboot_prepare env
            (opal_quiesce env quiesce_type.QUIESCE_HOLD (fast_reboot_nvram env m)))))
  else
    fast_reboot_commit env me fuel
      (fast_reboot_prepare env
        (opal_quiesce env quiesce_type.QUIESCE_HOLD (fast_reboot_nvram env m)))

/-! ## `cleanup_cpu_state`, `check_split_core` and `fast_reboot_entry` -/

/-- Modelled from the spec: `cpu_is_thread0` (absent from the sources) tells whether a
unit is the lead thread of its physical core. -/
def cpu_is_thread0 (c : cpu_thread) : Bool :=
  c.primary == c.pir

/-- Modelled from the spec: `cpu_is_sibling` (absent from the sources) tells whether two
units belong to the same physical core (sibling group). -/
def cpu_is_sibling (a b : cpu_thread) : Bool :=
  a.primary == b.primary

/-- The P8-only part of the per-core cleanup of `cleanup_cpu_state`. -/
def cleanup_p8 (env : Env) (me : Nat) (m : Machine) : Machine :=
  if env.proc_gen = proc_gen_t.proc_gen_p8 then
    if (this_cpu m me).in_fast_sleep = true then
      emit Event.cleanup_local_tlb
        (emit Event.fast_sleep_exit
          (emit (Event.prlog log_level.PR_DEBUG
            "RESET: CPU 0x%04x in fast sleep undoing workarounds...\n") m))
    else
      emit Event.cleanup_local_tlb m
  else m

/-- `cleanup_cpu_state()` run by unit `me`. -/
def cleanup_cpu_state (env : Env) (me : Nat) (m : Machine) : Machine :=
  if cpu_is_thread0 (this_cpu m me) = true then
    emit Event.init_replicated_sprs
      (emit Event.chiptod_wakeup_resync
        (cleanup_p8 env me (emit Event.init_shared_sprs m)))
  else
    emit Event.init_replicated_sprs m

/-- The 64-bit complement `~v`. -/
def not64 (v : Nat) : Nat :=
  (2 ^ 64 - 1) ^^^ (v % 2 ^ 64)

/-- The mask `SPR_HID0_POWER8_4LPARMODE | SPR_HID0_POWER8_2LPARMODE`. -/
def split_mask (env : Env) : Nat :=
  env.SPR_HID0_POWER8_4LPARMODE ||| env.SPR_HID0_POWER8_2LPARMODE

/-- The loop `while (mfspr(SPR_HID0) & mask) cpu_relax();` of `check_split_core`;
`false` when it is still spinning. -/
def unsplit_wait (env : Env) : Nat → Machine → Bool × Machine
  | 0, m => (false, m)
  | fuel + 1, m =>
    if (load_hid0 env m).1 &&& split_mask env ≠ 0 then
      unsplit_wait env fuel (emit Event.cpu_relax (load_hid0 env m).2)
    else
      (true, (load_hid0 env m).2)

/-- The `for_each_cpu` loop of `check_split_core` over the units still to visit. -/
def kick_siblings (me : Nat) : List Nat → Machine → Machine
  | [], m => m
  | cpu :: rest, m =>
    if cpu_is_sibling ((cpu_at m.cpus cpu).getD no_cpu) (this_cpu m me) = false ∨ cpu = me then
      kick_siblings me rest m
    else
      kick_siblings me rest (emit (Event.icp_kick_cpu cpu) m)

/-- `check_split_core()` run by unit `me`: `returned`, `napping` (it went to
`enter_nap`, which does not return) or `spinning` (in the wait for unsplit). -/
def check_split_core (env : Env) (me fuel : Nat) (m : Machine) : Outcome × Machine :=
  if (load_hid0 env m).1 &&& split_mask env = 0 then
    (Outcome.returned, (load_hid0 env m).2)
  else if (this_cpu m me).pir &&& 7 ≠ 0 then
    (Outcome.napping,
      emit Event.enter_nap
        (emit (Event.mtspr_lpcr
            (((env.lpcr % 2 ^ 64) &&& not64 env.SPR_LPCR_P8_PECE) ||| env.SPR_LPCR_P8_PECE2))
          (emit Event.icp_prep_for_pm
            (emit (Event.prlog log_level.PR_INFO "RESET: CPU 0x%04x is split !\n")
              (load_hid0 env m).2))))
  else
    match unsplit_wait env fuel
        (emit (Event.opal_slw_set_reg (this_cpu m me).pir
            ((load_hid0 env m).1 &&& not64 env.SPR_HID0_POWER8_DYNLPARDIS))
          (emit (Event.set_hid0
              ((load_hid0 env m).1 &&& not64 env.SPR_HID0_POWER8_DYNLPARDIS))
            (emit (Event.prlog log_level.PR_INFO "RESET: Primary, unsplitting... \n")
              (emit (Event.prlog log_level.PR_INFO "RESET: CPU 0x%04x is split !\n")
                (load_hid0 env m).2)))) with
    | (false, m1) => (Outcome.spinning, m1)
    | (true, m1) =>
      (Outcome.returned,
        kick_siblings me (all_cpus m1.cpus)
          (emit (Event.prlog log_level.PR_INFO "RESET: Waking unsplit secondaries... \n") m1))

/-- The loop `while (!fast_boot_release) barrier();` of `fast_reboot_entry`; `false`
when it is still spinning. -/
def release_wait (env : Env) : Nat → Machine → Bool × Machine
  | 0, m => (false, m)
  | fuel + 1, m =>
    if (load_release env m).1 = false then
      release_wait env fuel (emit Event.barrier (load_release env m).2)
    else
      (true, (load_release env m).2)

/-- The end of the branch `this_cpu() != boot_cpu` of `fast_reboot_entry`:
`sync(); cleanup_cpu_state(); __secondary_cpu_entry();`. -/
def secondary_finish (env : Env) (me : Nat) (m : Machine) : Outcome × Machine :=
  (Outcome.worker_loop,
    emit Event.secondary_cpu_entry (cleanup_cpu_state env me (emit Event.sync m)))

/-- The branch `this_cpu() != boot_cpu` of `fast_reboot_entry`. -/
def fast_reboot_secondary (env : Env) (me fuel : Nat) (m : Machine) : Outcome × Machine :=
  if (load_release env m).1 = false then
    match release_wait env fuel (emit Event.smt_lowest (load_release env m).2) with
    | (false, m1) => (Outcome.spinning, m1)
    | (true, m1) => secondary_finish env me (emit Event.smt_medium m1)
  else
    secondary_finish env me (load_release env m).2

/-- The statements of `fast_reboot_entry` from `cpu_fast_reboot_complete()` to
`pci_reset()`, included. -/
def post_reboot_cleanup (env : Env) (m : Machine) : Machine :=
  emit (Event.pci_reset env.pci_reset)
    ((if env.proc_gen = proc_gen_t.proc_gen_p8 then emit Event.psi_irq_reset else id)
      (emit Event.fsp_console_reset
        (emit Event.start_preload_kernel
          (emit (Event.cpu_set_ipi_enable true)
            (emit (Event.cpu_set_sreset_enable true)
              (emit Event.cpu_fast_reboot_complete m))))))

/-- The end of `fast_reboot_entry` on the boot CPU, after the second wait returned. -/
def boot_finish (env : Env) (m : Machine) : Outcome × Machine :=
  if env.pci_reset ≠ 0 then
    (Outcome.halted,
      (if env.has_cec_reboot = true then emit Event.cec_reboot else id)
        (emit (Event.prlog log_level.PR_NOTICE "RESET: Fast reboot failed to reset PCI\n")
          (post_reboot_cleanup env
            (store_release false
              (emit (Event.prlog log_level.PR_INFO "RESET: All done, cleaning up...\n")
                (emit Event.sync m))))))
  else
    (Outcome.payload,
      emit (Event.load_and_boot_kernel true)
        (emit Event.ipmi_set_fw_progress_sensor
          (post_reboot_cleanup env
            (store_release false
              (emit (Event.prlog log_level.PR_INFO "RESET: All done, cleaning up...\n")
                (emit Event.sync m))))))

/-- The statements of `fast_reboot_entry` on the boot CPU between the two waits: from
the optional `xive_reset()` to the `sync()` that follows the store of
`cpu_state_active`. -/
def boot_release (env : Env) (me : Nat) (m : Machine) : Machine :=
  emit Event.sync
    (store_state me cpu_thread_state.cpu_state_active
      (emit Event.sync
        (cleanup_cpu_state env me
          (store_release true
            (emit Event.sync
              (emit (Event.prlog log_level.PR_INFO "RESET: Releasing secondaries...\n")
                ((if env.proc_gen = proc_gen_t.proc_gen_p9 then emit Event.xive_reset else id)
                  m)))))))

/-- The part of `fast_reboot_entry` run by the boot CPU (after the test
`this_cpu() != boot_cpu`). -/
def fast_reboot_boot (env : Env) (me fuel : Nat) (m : Machine) : Outcome × Machine :=
  match cpu_state_wait_all_others env me cpu_thread_state.cpu_state_present 0 fuel
      (emit (Event.prlog log_level.PR_INFO "RESET: Boot CPU waiting for everybody...\n") m) with
  | (none, m1) => (Outcome.spinning, m1)
  | (some _, m1) =>
    match cpu_state_wait_all_others env me cpu_thread_state.cpu_state_active 0 fuel
        (boot_release env me m1) with
    | (none, m2) => (Outcome.spinning, m2)
    | (some _, m2) => boot_finish env m2

/-- The statements of `fast_reboot_entry` after the interrupt reset and the unsplit
check: the store of `cpu_state_present` and the two branches. -/
def fast_reboot_present (env : Env) (me fuel : Nat) (m : Machine) : Outcome × Machine :=
  if me ≠ env.boot_cpu then
    fast_reboot_secondary env me fuel
      (emit Event.sync (store_state me cpu_thread_state.cpu_state_present (emit Event.sync m)))
  else
    fast_reboot_boot env me fuel
      (emit Event.sync (store_state me cpu_thread_state.cpu_state_present (emit Event.sync m)))

/-- `fast_reboot_entry()` run by unit `me`, the entry from the reset vector. -/
def fast_reboot_entry (env : Env) (me fuel : Nat) (m : Machine) : Outcome × Machine :=
  if env.proc_gen = proc_gen_t.proc_gen_p9 then
    fast_reboot_present env me fuel
      (emit Event.reset_cpu_xive
        (emit (Event.prlog log_level.PR_DEBUG "RESET: CPU 0x%04x reset in\n") m))
  else if env.proc_gen = proc_gen_t.proc_gen_p8 then
    match check_split_core env me fuel
        (emit Event.reset_cpu_icp
          (emit (Event.prlog log_level.PR_DEBUG "RESET: CPU 0x%04x reset in\n") m)) with
    | (Outcome.returned, m1) => fast_reboot_present env me fuel m1
    | r => r
  else
    fast_reboot_present env me fuel
      (emit (Event.prlog log_level.PR_DEBUG "RESET: CPU 0x%04x reset in\n") m)

/-! ## Specification vocabulary -/

/-- A sequence of calls `disable_fast_reboot(r)`, one for each `r` of `reasons`, in
order. -/
def disable_calls (reasons : List (Option String)) (m : Machine) : Machine :=
  reasons.foldl (fun acc r => disable_fast_reboot r acc) m

/-- The events a machine `m2` reached from `m` has added to the trace of `m`. -/
def new_events (m m2 : Machine) : List Event :=
  m2.trace.drop m.trace.length

/-- A store into the registry: a unit's state field or its saved resume address. -/
def writes_registry : Event → Bool
  | Event.store_state _ _ => true
  | Event.store_save_r1 _ _ => true
  | _ => false

/-- The request to park the secondaries, `sreset_all_prepare`. -/
def prepares : Event → Bool
  | Event.sreset_all_prepare _ => true
  | _ => false

/-- The installation of the exception vectors and of the reset vector. -/
def installs_vectors : Event → Bool
  | Event.copy_exception_vectors => true
  | Event.setup_reset_vector => true
  | _ => false

/-- The broadcast reset, `sreset_all_others`. -/
def broadcasts : Event → Bool
  | Event.sreset_all_others _ => true
  | _ => false

/-- A quiesce hold that was obtained: `opal_quiesce(QUIESCE_HOLD, -1)` returning non-zero. -/
def holds : Event → Bool
  | Event.opal_quiesce quiesce_type.QUIESCE_HOLD _ rc => decide (rc ≠ 0)
  | _ => false

/-- A quiesce resume of either kind. -/
def resumes : Event → Bool
  | Event.opal_quiesce quiesce_type.QUIESCE_RESUME _ _ => true
  | Event.opal_quiesce quiesce_type.QUIESCE_RESUME_FAST_REBOOT _ _ => true
  | _ => false

/-- A log line or the read-only NVRAM query: the effects that call no collaborator of
the reboot sequence. -/
def inert : Event → Bool
  | Event.prlog _ _ => true
  | Event.nvram_query_eq _ _ _ => true
  | _ => false

/-- The hardware is unsupported: neither P8 nor P9 without the simulator quirk, or the
no-direct-control quirk, or P9 without the experimental opt-in. -/
def unsupported (env : Env) : Prop :=
  (env.proc_gen ≠ proc_gen_t.proc_gen_p8 ∧ env.proc_gen ≠ proc_gen_t.proc_gen_p9 ∧
      env.chip_quirk quirk.QUIRK_MAMBO_CALLOUTS = false) ∨
  env.chip_quirk quirk.QUIRK_NO_DIRECT_CTL = true ∨
  (env.proc_gen = proc_gen_t.proc_gen_p9 ∧
    env.nvram_query_eq "experimental-fast-reset" "feeling-lucky" = false)

/-- Whether an event is an observation of the time base past the deadline `end_tb`. -/
def late (env : Env) (end_tb : Nat) : Event → Bool
  | Event.load_tb v => decide (env.tb_compare v end_tb = tb_cmpval.TB_AAFTERB)
  | _ => false

/-- The record of the return of a call of `cpu_state_wait_all_others` with result `r`
(nothing when the call is still spinning). -/
def ret_events (state : cpu_thread_state) (timeout_tb : Nat) : Option Bool → List Event
  | some b => [Event.wait_returned state timeout_tb b]
  | none => []

/-- The effects of the polling loops of a wait: barriers, priority changes and loads. -/
def poll_event : Event → Bool
  | Event.sync => true
  | Event.barrier => true
  | Event.smt_lowest => true
  | Event.smt_medium => true
  | Event.load_state _ _ => true
  | Event.load_tb _ => true
  | _ => false

/-- The effects a wait may perform: those of its polling loops and the record of its
return. -/
def wait_event : Event → Bool
  | Event.wait_returned _ _ _ => true
  | e => poll_event e

/-- The effects `fast_reboot` may perform after the broadcast reset: the wait, log
lines, the release of the special wakeups, the fast-reboot resume and the branch. -/
def after_broadcast_event : Event → Bool
  | Event.prlog _ _ => true
  | Event.sreset_all_finish => true
  | Event.opal_quiesce quiesce_type.QUIESCE_RESUME_FAST_REBOOT _ _ => true
  | Event.branch_0x100 => true
  | e => wait_event e

/-- The NVRAM query `fast_reboot` starts with on P9. -/
def nvram_events (env : Env) : List Event :=
  if env.proc_gen = proc_gen_t.proc_gen_p9 then
    [Event.nvram_query_eq "experimental-fast-reset" "feeling-lucky"
      (env.nvram_query_eq "experimental-fast-reset" "feeling-lucky")]
  else []

/-- The effects of `fast_reboot` up to the call of `sreset_all_prepare`, included. -/
def prepare_events (env : Env) : List Event :=
  nvram_events env ++
    [Event.opal_quiesce quiesce_type.QUIESCE_HOLD (-1)
        (env.opal_quiesce quiesce_type.QUIESCE_HOLD),
      Event.prlog log_level.PR_NOTICE "RESET: Initiating fast reboot %d...\n",
      Event.store_release false,
      Event.sync,
      Event.sreset_all_prepare env.sreset_all_prepare]

/-- What the events `ev` of a wait on the single unit `cpu` and its result `r` satisfy. -/
structure LoopSpec (env : Env) (cpu : Nat) (state : cpu_thread_state)
    (timeout_tb end_tb : Nat) (r : Option Bool) (ev : List Event) : Prop where
  loads : ∀ c s, Event.load_state c s ∈ ev → c = cpu ∧ ∃ t, s = env.cpu_state t c
  seen : r = some true → Event.load_state cpu state ∈ ev
  unseen : r ≠ some true → Event.load_state cpu state ∉ ev
  failed : r = some false → timeout_tb ≠ 0 ∧ ∃ ev0 v,
    ev = ev0 ++ [Event.load_tb v, Event.smt_medium] ∧
    env.tb_compare v end_tb = tb_cmpval.TB_AAFTERB ∧ ∀ e ∈ ev0, late env end_tb e = false
  on_time : r ≠ some false → ∀ e ∈ ev, late env end_tb e = false
  quiet : ∀ e ∈ ev, poll_event e = true

/-- What the events `ev` of the loop over the units `l` and its result `r` satisfy. -/
structure CpusSpec (env : Env) (me : Nat) (state : cpu_thread_state)
    (timeout_tb end_tb : Nat) (l : List Nat) (r : Option Bool) (ev : List Event) : Prop where
  loads : ∀ c s, Event.load_state c s ∈ ev → (c ∈ l ∧ c ≠ me) ∧ ∃ t, s = env.cpu_state t c
  seen : r = some true → ∀ c ∈ l, c ≠ me → Event.load_state c state ∈ ev
  stuck : r ≠ some true → ∃ u ∈ l, u ≠ me ∧ Event.load_state u state ∉ ev ∧
    (∀ c s, Event.load_state c s ∈ ev → c ≤ u) ∧
    (∀ c ∈ l, c ≠ me → c < u → Event.load_state c state ∈ ev)
  failed : r = some false → timeout_tb ≠ 0 ∧ ∃ ev0 v,
    ev = ev0 ++ [Event.load_tb v, Event.smt_medium] ∧
    env.tb_compare v end_tb = tb_cmpval.TB_AAFTERB ∧ ∀ e ∈ ev0, late env end_tb e = false
  on_time : r ≠ some false → ∀ e ∈ ev, late env end_tb e = false
  quiet : ∀ e ∈ ev, poll_event e = true

/-- The part of the machine a wait leaves untouched: the whole memory image. -/
def same_memory (m m1 : Machine) : Prop :=
  m1.cpus = m.cpus ∧ m1.fast_boot_release = m.fast_boot_release ∧
  m1.fast_reboot_disabled = m.fast_reboot_disabled ∧
  m1.fast_reboot_count = m.fast_reboot_count

/-- The effects of the reset handler up to its test `this_cpu() != boot_cpu`: the log
line, the reset of the interrupt presentation, the unsplit coordinator and the store of
`cpu_state_present` between two `sync()`. -/
def entry_event : Event → Bool
  | Event.prlog _ _ => true
  | Event.reset_cpu_xive => true
  | Event.reset_cpu_icp => true
  | Event.load_hid0 _ => true
  | Event.icp_prep_for_pm => true
  | Event.mtspr_lpcr _ => true
  | Event.enter_nap => true
  | Event.set_hid0 _ => true
  | Event.opal_slw_set_reg _ _ => true
  | Event.cpu_relax => true
  | Event.icp_kick_cpu _ => true
  | Event.sync => true
  | Event.store_state _ cpu_thread_state.cpu_state_present => true
  | _ => false

/-- The effects of `cleanup_cpu_state`. -/
def cleanup_event : Event → Bool
  | Event.init_shared_sprs => true
  | Event.prlog _ _ => true
  | Event.fast_sleep_exit => true
  | Event.cleanup_local_tlb => true
  | Event.chiptod_wakeup_resync => true
  | Event.init_replicated_sprs => true
  | _ => false

/-- The effects of the branch `this_cpu() != boot_cpu` of the reset handler. -/
def secondary_event : Event → Bool
  | Event.load_release _ => true
  | Event.smt_lowest => true
  | Event.barrier => true
  | Event.smt_medium => true
  | Event.sync => true
  | Event.secondary_cpu_entry => true
  | e => cleanup_event e

/-- The global post-reboot cleanup of the reset handler and the payload loader: every
call from `cpu_fast_reboot_complete()` to `load_and_boot_kernel()`. -/
def global_cleanup : Event → Bool
  | Event.cpu_fast_reboot_complete => true
  | Event.cpu_set_sreset_enable _ => true
  | Event.cpu_set_ipi_enable _ => true
  | Event.start_preload_kernel => true
  | Event.fsp_console_reset => true
  | Event.psi_irq_reset => true
  | Event.pci_reset _ => true
  | Event.cec_reboot => true
  | Event.ipmi_set_fw_progress_sensor => true
  | Event.load_and_boot_kernel _ => true
  | _ => false

/-- The effects of the boot CPU between its two waits, `cl` being those of its call of
`cleanup_cpu_state`: the optional `xive_reset()`, the store that sets the release flag,
the cleanup, then the store of `cpu_state_active` between two `sync()`. -/
def release_events (env : Env) (me : Nat) (cl : List Event) : List Event :=
  (if env.proc_gen = proc_gen_t.proc_gen_p9 then [Event.xive_reset] else []) ++
    ([Event.prlog log_level.PR_INFO "RESET: Releasing secondaries...\n",
      Event.sync,
      Event.store_release true] ++
      (cl ++
        [Event.sync,
         Event.store_state me cpu_thread_state.cpu_state_active,
         Event.sync]))

/-- The effects of the boot CPU after the store that clears the release flag: the
global post-reboot cleanup, then the cold-boot fallback or the payload loader. -/
def global_events (env : Env) : List Event :=
  [Event.cpu_fast_reboot_complete,
   Event.cpu_set_sreset_enable true,
   Event.cpu_set_ipi_enable true,
   Event.start_preload_kernel,
   Event.fsp_console_reset] ++
    ((if env.proc_gen = proc_gen_t.proc_gen_p8 then [Event.psi_irq_reset] else []) ++
      (Event.pci_reset env.pci_reset ::
        (if env.pci_reset ≠ 0 then
          Event.prlog log_level.PR_NOTICE "RESET: Fast reboot failed to reset PCI\n" ::
            (if env.has_cec_reboot = true then [Event.cec_reboot] else [])
        else
          [Event.ipmi_set_fw_progress_sensor, Event.load_and_boot_kernel true])))

/-- The effects of the boot CPU after its second wait returned. -/
def finish_events (env : Env) : List Event :=
  [Event.sync,
   Event.prlog log_level.PR_INFO "RESET: All done, cleaning up...\n",
   Event.store_release false] ++ global_events env

/-- The way the boot CPU's part of the reset handler (after the test
`this_cpu() != boot_cpu`) ends, with the events it has performed: still in the wait for
present, still in the wait for active, or through the global cleanup. -/
inductive BootShape (env : Env) (me : Nat) : Outcome → List Event → Prop where
  | wait_present (w1 : List Event) :
      (∀ e ∈ w1, wait_event e = true) →
      (∀ s t b, Event.wait_returned s t b ∉ w1) →
      BootShape env me Outcome.spinning
        (Event.prlog log_level.PR_INFO "RESET: Boot CPU waiting for everybody...\n" :: w1)
  | wait_active (w1 cl w2 : List Event) (b1 : Bool) :
      (∀ e ∈ w1, wait_event e = true) →
      Event.wait_returned cpu_thread_state.cpu_state_present 0 b1 ∈ w1 →
      (∀ e ∈ cl, cleanup_event e = true) →
      Event.init_replicated_sprs ∈ cl →
      (∀ e ∈ w2, wait_event e = true) →
      (∀ s t b, Event.wait_returned s t b ∉ w2) →
      BootShape env me Outcome.spinning
        (Event.prlog log_level.PR_INFO "RESET: Boot CPU waiting for everybody...\n" ::
          (w1 ++ (release_events env me cl ++ w2)))
  | finished (w1 cl w2 : List Event) (b1 b2 : Bool) :
      (∀ e ∈ w1, wait_event e = true) →
      Event.wait_returned cpu_thread_state.cpu_state_present 0 b1 ∈ w1 →
      (∀ e ∈ cl, cleanup_event e = true) →
      Event.init_replicated_sprs ∈ cl →
      (∀ e ∈ w2, wait_event e = true) →
      Event.wait_returned cpu_thread_state.cpu_state_active 0 b2 ∈ w2 →
      BootShape env me (if env.pci_reset ≠ 0 then Outcome.halted else Outcome.payload)
        (Event.prlog log_level.PR_INFO "RESET: Boot CPU waiting for everybody...\n" ::
          (w1 ++ (release_events env me cl ++ (w2 ++ finish_events env))))

/-- The way a run of the reset handler ends on unit `me`, with the events it has
performed: stopped in the unsplit coordinator, the branch of the units other than the
boot CPU, or the part run by the boot CPU. -/
inductive EntryShape (env : Env) (me : Nat) : Outcome → List Event → Prop where
  | parked (h : List Event) (o : Outcome) :
      (∀ e ∈ h, entry_event e = true) →
      (o = Outcome.napping ∨ o = Outcome.spinning) →
      EntryShape env me o h
  | secondary (h t : List Event) (o : Outcome) :
      me ≠ env.boot_cpu →
      (∀ e ∈ h, entry_event e = true) →
      (∀ e ∈ t, secondary_event e = true) →
      (o = Outcome.spinning ∨
        (o = Outcome.worker_loop ∧ t.getLast? = some Event.secondary_cpu_entry)) →
      EntryShape env me o (h ++ t)
  | boot (h t : List Event) (o : Outcome) :
      me = env.boot_cpu →
      (∀ e ∈ h, entry_event e = true) →
      BootShape env me o t →
      EntryShape env me o (h ++ t)

/-- Whether unit `c` is a thread of the physical core of unit `me` other than `me`
itself: the units the `for_each_cpu` loop of `check_split_core` does not skip. -/
def other_sibling (cpus : List cpu_thread) (me c : Nat) : Bool :=
  cpu_is_sibling ((cpu_at cpus c).getD no_cpu) ((cpu_at cpus me).getD no_cpu) && decide (c ≠ me)

/-- The effects of the wait for unsplit: reads of `HID0` and `cpu_relax()`. -/
def unsplit_poll : Event → Bool
  | Event.load_hid0 _ => true
  | Event.cpu_relax => true
  | _ => false

/-- The effects of the lead thread of a split core in `check_split_core` before its
wait for unsplit, `v` being the value read from `HID0`. -/
def unsplit_events (env : Env) (pir v : Nat) : List Event :=
  [Event.load_hid0 v,
   Event.prlog log_level.PR_INFO "RESET: CPU 0x%04x is split !\n",
   Event.prlog log_level.PR_INFO "RESET: Primary, unsplitting... \n",
   Event.set_hid0 (v &&& not64 env.SPR_HID0_POWER8_DYNLPARDIS),
   Event.opal_slw_set_reg pir (v &&& not64 env.SPR_HID0_POWER8_DYNLPARDIS)]

/-- The effects of `cleanup_cpu_state` on a unit whose descriptor is `c`: the per-core
part when `c` is the lead thread of its core, then `init_replicated_sprs()`. -/
def cleanup_events (env : Env) (c : cpu_thread) : List Event :=
  (if cpu_is_thread0 c = true then
    Event.init_shared_sprs ::
      ((if env.proc_gen = proc_gen_t.proc_gen_p8 then
        (if c.in_fast_sleep = true then
          [Event.prlog log_level.PR_DEBUG
            "RESET: CPU 0x%04x in fast sleep undoing workarounds...\n",
           Event.fast_sleep_exit]
        else []) ++ [Event.cleanup_local_tlb]
      else []) ++ [Event.chiptod_wakeup_resync])
  else []) ++ [Event.init_replicated_sprs]

/-- Every unit of `units` runs `cleanup_cpu_state()` once, in the order of the list. -/
def cleanup_all (env : Env) (units : List Nat) (m : Machine) : Machine :=
  units.foldl (fun x u => cleanup_cpu_state env u x) m

/-- The writes of the unsplit coordinator: the split-mode register `HID0`, its copy in
the SLW image, and the wake signals. -/
def unsplit_action : Event → Bool
  | Event.set_hid0 _ => true
  | Event.opal_slw_set_reg _ _ => true
  | Event.icp_kick_cpu _ => true
  | _ => false

/-- The effects of a thread other than the lead one of a split core in
`check_split_core`, `v` being the value read from `HID0`. -/
def nap_events (env : Env) (v : Nat) : List Event :=
  [Event.load_hid0 v,
   Event.prlog log_level.PR_INFO "RESET: CPU 0x%04x is split !\n",
   Event.icp_prep_for_pm,
   Event.mtspr_lpcr (((env.lpcr % 2 ^ 64) &&& not64 env.SPR_LPCR_P8_PECE)
     ||| env.SPR_LPCR_P8_PECE2),
   Event.enter_nap]

/-- The effects of the reset handler before its store of `cpu_state_present`: the log
lines, the reset of the interrupt presentation and the unsplit coordinator. -/
def coordinator_event : Event → Bool
  | Event.prlog _ _ => true
  | Event.reset_cpu_xive => true
  | Event.reset_cpu_icp => true
  | Event.load_hid0 _ => true
  | Event.icp_prep_for_pm => true
  | Event.mtspr_lpcr _ => true
  | Event.enter_nap => true
  | Event.set_hid0 _ => true
  | Event.opal_slw_set_reg _ _ => true
  | Event.cpu_relax => true
  | Event.icp_kick_cpu _ => true
  | _ => false

/-- The effects of a unit that waits for the release flag: the loads that read it
false, the priority lowering and the barriers. -/
def spin_event : Event → Bool
  | Event.load_release false => true
  | Event.smt_lowest => true
  | Event.barrier => true
  | _ => false

/-- The effects of the reset handler on a unit other than the boot CPU once it has read
the release flag true: the optional priority restore `md`, the barrier, the cleanup and
the entry into the worker loop. -/
def released_events (env : Env) (c : cpu_thread) (md : List Event) : List Event :=
  Event.load_release true ::
    (md ++ Event.sync :: (cleanup_events env c ++ [Event.secondary_cpu_entry]))

/-- The store of `cpu_state_present` of the reset handler, between its two `sync()`. -/
def present_events (me : Nat) : List Event :=
  [Event.sync, Event.store_state me cpu_thread_state.cpu_state_present, Event.sync]

/-- The stores of the release flag and the effects only `cpu_state_wait_all_others`
has: the reads of the time base and of the state of a unit, and the record of its
return. -/
def flag_or_wait : Event → Bool
  | Event.store_release _ => true
  | Event.load_tb _ => true
  | Event.load_state _ _ => true
  | Event.wait_returned _ _ _ => true
  | _ => false

/-- The calls `cleanup_cpu_state` makes to reinitialise the core and the unit. -/
def cleanup_call : Event → Bool
  | Event.init_shared_sprs => true
  | Event.fast_sleep_exit => true
  | Event.cleanup_local_tlb => true
  | Event.chiptod_wakeup_resync => true
  | Event.init_replicated_sprs => true
  | _ => false

/-- The state fields of the registry, in registry order. -/
def states (cpus : List cpu_thread) : List cpu_thread_state :=
  cpus.map (fun c => c.state)

/-- A store into the state field of a unit. -/
def state_store : Event → Bool
  | Event.store_state _ _ => true
  | _ => false

/-! ## Example configurations -/

/-- The comparison of two 64-bit time-base values used in the example configurations:
equal, or ordered by the sign of the wrapping difference `b - a`. -/
def example_tb_compare (a b : Nat) : tb_cmpval :=
  if a = b then tb_cmpval.TB_AEQUALB
  else if (b + 2 ^ 64 - a) % 2 ^ 64 < 2 ^ 63 then tb_cmpval.TB_ABEFOREB
  else tb_cmpval.TB_AAFTERB

/-- A P8 machine whose other units are `cpu_state_present` at every load, whose time
base advances by one per load for the first hundred loads, and whose collaborators all
succeed. -/
def example_env : Env :=
  { cpu_state := fun _ _ => cpu_thread_state.cpu_state_present
    mftb := fun t => if t < 100 then 1000 + t else 1100
    fast_boot_release := fun _ => true
    hid0 := fun _ => 0
    lpcr := 0
    tb_compare := example_tb_compare
    msecs_to_tb := fun ms => ms * 512000
    proc_gen := proc_gen_t.proc_gen_p8
    boot_cpu := 0
    chip_quirk := fun _ => false
    nvram_query_eq := fun _ _ => false
    opal_quiesce := fun _ => 1
    sreset_all_prepare := 0
    sreset_all_others := 0
    pci_reset := 0
    has_cec_reboot := true
    SPR_HID0_POWER8_4LPARMODE := 2 ^ 61
    SPR_HID0_POWER8_2LPARMODE := 2 ^ 57
    SPR_HID0_POWER8_DYNLPARDIS := 2 ^ 48
    SPR_LPCR_P8_PECE := 2 ^ 17 - 2 ^ 12
    SPR_LPCR_P8_PECE2 := 2 ^ 14 }

/-- A unit descriptor of the example configurations. -/
def example_cpu (pir primary : Nat) (garded : Bool) : cpu_thread :=
  { pir := pir, primary := primary, garded := garded, in_fast_sleep := false, save_r1 := 7,
    state := cpu_thread_state.cpu_state_other 0 }

/-- Three units: unit 0 and unit 1 are non-garded, unit 2 is garded. -/
def example_machine : Machine :=
  { clock := 0
    trace := []
    cpus := [example_cpu 0 0 false, example_cpu 1 0 false, example_cpu 2 0 true]
    fast_boot_release := false
    fast_reboot_disabled := none
    fast_reboot_count := 0 }

/-- The environment `example_env` in which unit 0 and the garded unit 2 never show
`cpu_state_present`. -/
def example_env_others : Env :=
  { example_env with
    cpu_state := fun _ cpu =>
      if cpu = 1 then cpu_thread_state.cpu_state_present
      else cpu_thread_state.cpu_state_other 3 }

/-- The machine `example_machine` with other values in the state fields of the registry. -/
def example_machine_others : Machine :=
  { example_machine with
    cpus := [{ example_cpu 0 0 false with state := cpu_thread_state.cpu_state_active },
             example_cpu 1 0 false,
             { example_cpu 2 0 true with state := cpu_thread_state.cpu_state_present }] }

/-- The environment `example_env` in which no unit ever shows `cpu_state_present`. -/
def example_env_stuck : Env :=
  { example_env with cpu_state := fun _ _ => cpu_thread_state.cpu_state_other 3 }

/-- The environment `example_env` in which the quiesce hold is refused. -/
def example_env_hold_fails : Env :=
  { example_env with opal_quiesce := fun _ => 0 }

/-- The environment `example_env` on a processor older than P8. -/
def example_env_p7 : Env :=
  { example_env with proc_gen := proc_gen_t.proc_gen_p7 }

/-- The environment `example_env` in which preparing the secondaries fails. -/
def example_env_prepare_fails : Env :=
  { example_env with sreset_all_prepare := -1 }

/-- The machine `example_machine` after `disable_fast_reboot("no fast reboot")`. -/
def example_machine_disabled : Machine :=
  disable_fast_reboot (some "no fast reboot") example_machine

/-- The environment `example_env_stuck` in which every load takes 100 ms of time base. -/
def example_env_timeout : Env :=
  { example_env_stuck with mftb := fun t => 1000 + t * 51200000 }

/-- The environment `example_env` in which the other units show `cpu_state_present`
during the first three loads and `cpu_state_active` afterwards. -/
def example_env_reboot : Env :=
  { example_env with
    cpu_state := fun t _ =>
      if t < 3 then cpu_thread_state.cpu_state_present else cpu_thread_state.cpu_state_active }

/-- The environment `example_env` in which `HID0` reads with the 4-LPAR split bit set
during the first three loads and unsplit afterwards. -/
def example_env_split : Env :=
  { example_env with hid0 := fun t => if t < 3 then 2 ^ 61 else 0 }

/-- Four units on two cores: units 0, 1 and 3 are the threads `8`, `9` and `10` of the
core whose lead thread is unit 0, unit 2 is the lead thread `16` of another core. -/
def example_machine_cores : Machine :=
  { example_machine with
    cpus := [example_cpu 8 8 false, example_cpu 9 8 false, example_cpu 16 16 false,
             example_cpu 10 8 false] }

/-- The environment `example_env_reboot` in which `pci_reset()` fails. -/
def example_env_pci_fails : Env :=
  { example_env_reboot with pci_reset := -1 }

/-- The units of `example_machine_cores` that are the threads of the core of thread
`8`, in the order in which they run the cleanup. -/
def example_core : List Nat := [3, 0, 1]

/-- The machine `example_machine_cores` at clock 3, from which `example_env_split` reads
`HID0` unsplit. -/
def example_machine_later : Machine :=
  { example_machine_cores with clock := 3 }

end FastReboot

namespace Blocklevel

/-! ## `libflash/blocklevel.c`: the table of ECC protected ranges -/

/-- The macro `PROT_REALLOC_NUM`: the number of entries the table grows by. -/
def PROT_REALLOC_NUM : Nat := 25

/-- Modelled from the spec: `struct bl_prot_range` of `blocklevel.h` (absent from the
sources), a range of `len` bytes from `start`. The unsigned type of its two fields is
not in the sources either: the functions below take its modulus `W` (`2 ^ 32` or
`2 ^ 64`) as a parameter, arithmetic that involves a field being done modulo `W` and
arithmetic on `uint32_t` values alone modulo `2 ^ 32`. -/
structure bl_prot_range where
  start : Nat
  len : Nat
  deriving DecidableEq, Repr

/-- Modelled from the spec: `struct blocklevel_range` of `blocklevel.h` (absent from
the sources). `prot` holds the `n_prot` entries in use of the array, in order;
`total_prot` is the number of entries allocated. -/
structure blocklevel_range where
  prot : List bl_prot_range
  total_prot : Nat
  deriving DecidableEq, Repr

/-- The field `n_prot`: the number of entries in use. -/
def blocklevel_range.n_prot (ranges : blocklevel_range) : Nat :=
  ranges.prot.length

/-- Modelled from the spec: `struct blocklevel_device` of `blocklevel.h` (absent from
the sources), reduced to the field `ecc_prot`, the only one the functions on the
protection table read or write. -/
structure blocklevel_device where
  ecc_prot : blocklevel_range
  deriving DecidableEq, Repr

/-- A device whose protection table is zero-initialised: no entry, nothing allocated. -/
def empty_device : blocklevel_device :=
  { ecc_prot := { prot := [], total_prot := 0 } }

/-- The `for` loop of `ecc_protected` over the entries still to visit, `pos` and `len`
being `uint64_t` values. -/
def ecc_protected_loop (W pos len : Nat) : List bl_prot_range → Int
  | [] => 0
  | r :: rest =>
    if r.start ≤ pos ∧ (r.start + r.len) % W ≥ (pos + len) % 2 ^ 64 then
      1
    else if (r.start ≥ pos ∧ r.start < (pos + len) % 2 ^ 64) ∨
        (r.start ≤ pos ∧ (r.start + r.len) % W > pos) then
      -1
    else
      ecc_protected_loop W pos len rest

/-- `ecc_protected(bl, pos, len)`: `1` when the region is ECC protected, `0` when it is
not, `-1` when it is partially protected. -/
def ecc_protected (W : Nat) (bl : blocklevel_device) (pos len : Nat) : Int :=
  ecc_protected_loop W (pos % 2 ^ 64) (if len % 2 ^ 64 = 0 then 1 else len % 2 ^ 64)
    bl.ecc_prot.prot

/-- The state of the first loop of `insert_bl_prot_range`: the entries `prot[0..i)`
already visited, the entries `prot[i..n_prot)` from the current one on, and the locals
`pos` and `len`; `i` is the length of `visited`. -/
structure scan_state where
  visited : List bl_prot_range
  current : List bl_prot_range
  pos : Nat
  len : Nat
  deriving DecidableEq, Repr

/-- The statement `if (pos <= prot[i].start && pos + len >= prot[i].start) ...` of
the first loop of `insert_bl_prot_range`: the entry, `pos` and `len` after it. -/
def extend_down (W : Nat) (r : bl_prot_range) (pos len : Nat) : bl_prot_range × Nat × Nat :=
  if pos ≤ r.start ∧ (pos + len) % 2 ^ 32 ≥ r.start then
    (if (r.len + (r.start - pos)) % W ≥ len then
      ({ start := pos, len := (r.len + (r.start - pos)) % W },
        (pos + (r.len + (r.start - pos)) % W) % W % 2 ^ 32, 0)
    else
      ({ start := pos, len := (r.len + (r.start - pos)) % W },
        (pos + (r.len + (r.start - pos)) % W) % W % 2 ^ 32,
        len - (r.len + (r.start - pos)) % W))
  else
    (r, pos, len)

/-- The statement `if (pos >= prot[i].start && pos < prot[i].start + prot[i].len) ...`
of the first loop of `insert_bl_prot_range`: `pos` and `len` after it. -/
def jump_over (W : Nat) (r : bl_prot_range) (pos len : Nat) : Nat × Nat :=
  if pos ≥ r.start ∧ pos < (r.start + r.len) % W then
    (if (r.start + r.len) % W - pos > len then
      ((r.start + r.len) % W % 2 ^ 32, (len + W - ((r.start + r.len) % W - pos)) % W % 2 ^ 32)
    else
      (pos, 0))
  else
    (pos, len)

/-- The body of the first loop of `insert_bl_prot_range` after its first test: the
entry `prot[i]`, `pos` and `len` when the last test of the body is reached. -/
def scan_step (W : Nat) (r : bl_prot_range) (pos len : Nat) : bl_prot_range × Nat × Nat :=
  ((extend_down W r pos len).1,
    jump_over W (extend_down W r pos len).1 (extend_down W r pos len).2.1
      (extend_down W r pos len).2.2)

/-- The first loop of `insert_bl_prot_range`,
`for (i = 0; i < ranges->n_prot && len > 0; i++)`, from entry `i` on. -/
def insert_scan (W : Nat) :
    List bl_prot_range → List bl_prot_range → Nat → Nat → scan_state
  | visited, [], pos, len => ⟨visited, [], pos, len⟩
  | visited, r :: rest, pos, len =>
    if len = 0 then
      ⟨visited, r :: rest, pos, len⟩
    else if r.start ≤ pos ∧ (r.start + r.len) % W ≥ (pos + len) % 2 ^ 32 then
      ⟨visited, r :: rest, pos, 0⟩
    else if (scan_step W r pos len).2.1 < (scan_step W r pos len).1.start ∧
        ((scan_step W r pos len).2.1 + (scan_step W r pos len).2.2) % 2 ^ 32
          ≤ (scan_step W r pos len).1.start then
      ⟨visited, (scan_step W r pos len).1 :: rest, (scan_step W r pos len).2.1,
        (scan_step W r pos len).2.2⟩
    else
      insert_scan W (visited ++ [(scan_step W r pos len).1]) rest
        (scan_step W r pos len).2.1 (scan_step W r pos len).2.2

/-- The loop that merges adjacent entries at the end of `insert_bl_prot_range`, from
entry `i` on, the argument being `prot[i..n_prot)`; every iteration shortens that list
by one entry, so a fuel equal to its length is never used up. -/
def merge_loop (W : Nat) : Nat → List bl_prot_range → List bl_prot_range
  | fuel + 1, a :: b :: rest =>
    if (a.start + a.len) % W = b.start then
      merge_loop W fuel ({ start := a.start, len := (a.len + b.len) % W } :: rest)
    else
      a :: merge_loop W fuel (b :: rest)
  | _, l => l

/-- The end of `insert_bl_prot_range`: the merge, run only when
`ranges->n_prot + 1 == ranges->total_prot`. It reads the array through the pointer
`prot` taken on entry, which is the current array: a call that reallocated leaves
`n_prot + 1` different from `total_prot`. -/
def merge_ranges (W : Nat) (ranges : blocklevel_range) : blocklevel_range :=
  if ranges.n_prot + 1 = ranges.total_prot then
    { ranges with prot := merge_loop W ranges.prot.length ranges.prot }
  else
    ranges

/-- `insert_bl_prot_range(ranges, range)`, the fields of `range` being given as
`start` and `len`; `realloc_ok` tells whether a call of `realloc` succeeds. -/
def insert_bl_prot_range (W : Nat) (realloc_ok : Bool) (ranges : blocklevel_range)
    (start len : Nat) : Bool × blocklevel_range :=
  if len % 2 ^ 32 = 0 then
    (true, ranges)
  else if (start % 2 ^ 32 + len % 2 ^ 32) % 2 ^ 32 < len % 2 ^ 32 then
    (false, ranges)
  else
    match insert_scan W [] ranges.prot (start % 2 ^ 32) (len % 2 ^ 32) with
    | ⟨visited, current, pos, len1⟩ =>
      if len1 ≠ 0 then
        if ranges.n_prot = ranges.total_prot then
          if realloc_ok = true then
            (true, merge_ranges W
              { prot := visited ++ { start := pos, len := len1 } :: current,
                total_prot := ranges.total_prot + PROT_REALLOC_NUM })
          else
            (false, { ranges with prot := visited ++ current })
        else
          (true, merge_ranges W
            { ranges with prot := visited ++ { start := pos, len := len1 } :: current })
      else
        (true, merge_ranges W { ranges with prot := visited ++ current })

/-- `blocklevel_ecc_protect(bl, start, len)`, with its status; `BYTES_PER_ECC` is a
macro of `ecc.h`, absent from the sources. -/
def blocklevel_ecc_protect (W BYTES_PER_ECC : Nat) (realloc_ok : Bool)
    (bl : blocklevel_device) (start len : Nat) : Int × blocklevel_device :=
  if len % 2 ^ 32 < BYTES_PER_ECC then
    (-1, bl)
  else
    ((if (insert_bl_prot_range W realloc_ok bl.ecc_prot (start % 2 ^ 32) (len % 2 ^ 32)).1
        then 0 else 1),
      { bl with ecc_prot :=
        (insert_bl_prot_range W realloc_ok bl.ecc_prot (start % 2 ^ 32) (len % 2 ^ 32)).2 })

/-- The two calls `blocklevel_ecc_protect(bl, 0, 16)` and
`blocklevel_ecc_protect(bl, 8, 16)` on a device whose table is empty, `BYTES_PER_ECC`
being 8 and `realloc` succeeding: the two statuses and the device afterwards. -/
def example_overlap (W : Nat) : Int × Int × blocklevel_device :=
  ((blocklevel_ecc_protect W 8 true empty_device 0 16).1,
    blocklevel_ecc_protect W 8 true (blocklevel_ecc_protect W 8 true empty_device 0 16).2 8 16)

/-! ## `libflash/blocklevel.c`: the smart write -/

/-- The loop of `blocklevel_flashcmp` with `left` iterations to go, at index `i`, the
local `same` being given; the buffers are given by the byte at each offset. The
operands of `m_buf[i] & ~f_buf[i]` are promoted to `int`: as `m_buf[i]` is a byte, only
the low eight bits of the complement count. -/
def flashcmp_loop (f_buf m_buf : Nat → Nat) : Nat → Nat → Bool → Int
  | 0, _, same => if same = true then 0 else 1
  | left + 1, i, same =>
    if (m_buf i % 256) &&& (255 ^^^ (f_buf i % 256)) ≠ 0 then
      -1
    else
      flashcmp_loop f_buf m_buf left (i + 1)
        (if same = true ∧ m_buf i % 256 ≠ f_buf i % 256 then false else same)

/-- `blocklevel_flashcmp(flash_buf, mem_buf, len)`: `-1` when an erase must happen
before the write, `0` when flash and memory are identical, `1` when the flash can
simply be written to. -/
def blocklevel_flashcmp (flash_buf mem_buf : Nat → Nat) (len : Nat) : Int :=
  flashcmp_loop flash_buf mem_buf len 0 true

/-- An example of a flash buffer. -/
def example_flash_buf : Nat → Nat :=
  fun i => if i = 2 then 0xf0 else 0xff

/-- An example of a memory buffer. -/
def example_mem_buf : Nat → Nat :=
  fun i => if i = 2 then 0x0f else 0xff

/-! ## Specification vocabulary for the table of ECC protected ranges -/

/-- Whether the byte at offset `b` lies in an entry of the table. -/
def covered (prot : List bl_prot_range) (b : Nat) : Bool :=
  prot.any (fun r => decide (r.start ≤ b ∧ b < r.start + r.len))

/-- A table in which every entry has a length that is not zero and an end below
`2 ^ 32`, and every entry ends at or before the start of every later entry. -/
def well_formed (prot : List bl_prot_range) : Prop :=
  (∀ r ∈ prot, 0 < r.len ∧ r.start + r.len < 2 ^ 32) ∧
  prot.Pairwise (fun a b => a.start + a.len ≤ b.start)

/-- A sequence of calls of `blocklevel_ecc_protect`, each given by its arguments `start`
and `len` and by whether a call of `realloc` within it succeeds: the device after the
last call. -/
def protect_calls (W BYTES_PER_ECC : Nat) (bl : blocklevel_device) :
    List (Nat × Nat × Bool) → blocklevel_device
  | [] => bl
  | c :: calls =>
    protect_calls W BYTES_PER_ECC
      (blocklevel_ecc_protect W BYTES_PER_ECC c.2.2 bl c.1 c.2.1).2 calls

/-- The two calls `blocklevel_ecc_protect(bl, 0, 16)` and
`blocklevel_ecc_protect(bl, 16, 16)` on a device whose table is empty, `BYTES_PER_ECC`
being 8 and `realloc` succeeding: the two statuses and the device afterwards. -/
def example_adjacent (W : Nat) : Int × Int × blocklevel_device :=
  ((blocklevel_ecc_protect W 8 true empty_device 0 16).1,
    blocklevel_ecc_protect W 8 true (blocklevel_ecc_protect W 8 true empty_device 0 16).2 16 16)

/-- An example of a sequence of calls of `blocklevel_ecc_protect`. -/
def example_calls : List (Nat × Nat × Bool) :=
  [(32, 16, true), (0, 16, true), (8, 16, true), (24, 16, false), (100, 4, true),
    (40, 2 ^ 32 - 8, true), (48, 16, true)]

/-! ## `libflash/blocklevel.c`: the writes through the backend -/

/-- Modelled from the spec: the items `blocklevel.c` takes from `libflash/errors.h`,
`blocklevel.h` and `ecc.h`, which are absent from the sources: three error codes, the
flag `WRITE_NEED_ERASE`, the size `ecc_buffer_size(len)` of a buffer with its ECC bytes,
`ecc_buffer_size_minus_ecc(len)`, and `memcpy_to_ecc(dst, src, len)`, given as the
status and the content of `dst` afterwards for a content of `src`. -/
structure Libflash where
  FLASH_ERR_PARM_ERROR : Int
  FLASH_ERR_MALLOC_FAILED : Int
  FLASH_ERR_ECC_INVALID : Int
  WRITE_NEED_ERASE : Nat
  ecc_buffer_size : Nat → Nat
  ecc_buffer_size_minus_ecc : Nat → Nat
  memcpy_to_ecc : (Nat → Nat) → Nat → Int × (Nat → Nat)

/-- Modelled from the spec: the fields of `struct blocklevel_device` of `blocklevel.h`
(absent from the sources) other than `ecc_prot`, over a state `σ` of the backend: the
callbacks, `none` for a null pointer, and the fields `keep_alive`, `flags` and
`erase_mask`. `read` takes `pos` and `len` and gives the status, the content of the
buffer afterwards and the state; `write` takes `pos`, the content of the buffer and
`len`; `erase` takes `pos` and `len`; `get_info` gives the status and the value stored
through `erase_granule`. A buffer is given by the byte at each offset. -/
structure backend (σ : Type) where
  reacquire : Option (σ → Int × σ)
  release : Option (σ → Int × σ)
  read : Option (Nat → Nat → σ → Int × (Nat → Nat) × σ)
  write : Option (Nat → (Nat → Nat) → Nat → σ → Int × σ)
  erase : Option (Nat → Nat → σ → Int × σ)
  get_info : Option (σ → Int × Nat × σ)
  keep_alive : Bool
  flags : Nat
  erase_mask : Nat

/-- How a call ends: it returns a status, or it calls through a null pointer, or the
iterations allowed to its loop are used up. -/
inductive write_outcome (σ : Type) where
  | returned (rc : Int) (s : σ)
  | null_call (s : σ)
  | spinning (s : σ)

/-- `reacquire(bl)`: the status and the state of the backend afterwards. -/
def reacquire {σ : Type} (ops : backend σ) (s : σ) : Int × σ :=
  if ops.keep_alive = false then
    match ops.reacquire with
    | some f => f s
    | none => (0, s)
  else (0, s)

/-- `release(bl)`: the status and the state of the backend afterwards; `errno` is left
out. -/
def release {σ : Type} (ops : backend σ) (s : σ) : Int × σ :=
  if ops.keep_alive = false then
    match ops.release with
    | some f => f s
    | none => (0, s)
  else (0, s)

/-- `blocklevel_raw_write(bl, pos, buf, len)`, `buf` being `none` for a null pointer;
`errno` is left out. -/
def blocklevel_raw_write {σ : Type} (h : Libflash) (ops : backend σ) (pos : Nat)
    (buf : Option (Nat → Nat)) (len : Nat) (s : σ) : Int × σ :=
  match ops.write, buf with
  | some write, some b =>
    if (reacquire ops s).1 ≠ 0 then reacquire ops s
    else
      ((write pos b len (reacquire ops s).2).1,
        (release ops (write pos b len (reacquire ops s).2).2).2)
  | _, _ => (h.FLASH_ERR_PARM_ERROR, s)

/-- `blocklevel_write(bl, pos, buf, len)`, `buf` being `none` for a null pointer;
`malloc_ok n` tells whether a call `malloc(n)` succeeds; `errno` is left out. -/
def blocklevel_write {σ : Type} (W : Nat) (h : Libflash) (malloc_ok : Nat → Bool)
    (ops : backend σ) (bl : blocklevel_device) (pos : Nat) (buf : Option (Nat → Nat))
    (len : Nat) (s : σ) : Int × σ :=
  match buf with
  | none => (h.FLASH_ERR_PARM_ERROR, s)
  | some b =>
    if ecc_protected W bl pos len = 0 then
      blocklevel_raw_write h ops pos (some b) len s
    else if malloc_ok (h.ecc_buffer_size len) = false then
      (h.FLASH_ERR_MALLOC_FAILED, s)
    else if (h.memcpy_to_ecc b len).1 ≠ 0 then
      (h.FLASH_ERR_ECC_INVALID, s)
    else
      blocklevel_raw_write h ops pos (some (h.memcpy_to_ecc b len).2)
        (h.ecc_buffer_size len) s

/-- `blocklevel_get_info(bl, NULL, NULL, &erase_granule)`: the status, the value of
`erase_granule` afterwards (given on entry as `erase_granule`) and the state; the
warning and `errno` are left out. -/
def blocklevel_get_info {σ : Type} (h : Libflash) (ops : backend σ) (erase_granule : Nat)
    (s : σ) : Int × Nat × σ :=
  match ops.get_info with
  | none => (h.FLASH_ERR_PARM_ERROR, erase_granule, s)
  | some get_info =>
    if (reacquire ops s).1 ≠ 0 then ((reacquire ops s).1, erase_granule, (reacquire ops s).2)
    else
      ((get_info (reacquire ops s).2).1, (get_info (reacquire ops s).2).2.1 % 2 ^ 32,
        (release ops (get_info (reacquire ops s).2).2.2).2)

/-- The local `erase_block` of the loop of `blocklevel_smart_write`, a `uint32_t`:
`pos & ~(erase_size - 1)`, the mask being a `uint32_t`. -/
def erase_block (erase_size pos : Nat) : Nat :=
  pos &&& ((2 ^ 32 - 1) ^^^ ((erase_size + 2 ^ 32 - 1) % 2 ^ 32))

/-- The local `block_offset` of the loop of `blocklevel_smart_write`, a `uint32_t`:
`pos & (erase_size - 1)`. -/
def block_offset (erase_size pos : Nat) : Nat :=
  pos &&& ((erase_size + 2 ^ 32 - 1) % 2 ^ 32)

/-- The local `size` of the loop of `blocklevel_smart_write`, a `uint32_t`, when the
backend is read: `erase_size > len ? len : erase_size`, shrunk to the erase boundary. -/
def chunk_size (erase_size pos len : Nat) : Nat :=
  if erase_size < (block_offset erase_size pos +
      (if erase_size > len then len else erase_size) % 2 ^ 32) % 2 ^ 32 then
    (erase_size + 2 ^ 32 - block_offset erase_size pos) % 2 ^ 32
  else
    (if erase_size > len then len else erase_size) % 2 ^ 32

/-- The content of `erase_buf` after `memcpy(erase_buf + block_offset, write_buf, size)`. -/
def patch (erase_buf : Nat → Nat) (offset : Nat) (write_buf : Nat → Nat) (size : Nat) :
    Nat → Nat :=
  fun i => if offset ≤ i ∧ i < offset + size then write_buf (i - offset) else erase_buf i

/-- The statement `if (cmp != 0) ...` of the loop of `blocklevel_smart_write`; the
status of `bl->erase` is not looked at. -/
def write_block {σ : Type} (ops : backend σ) (erase_size pos : Nat) (erase_buf : Nat → Nat)
    (write_buf : Nat → Nat) (size : Nat) (cmp : Int) (s : σ) : write_outcome σ :=
  if cmp ≠ 0 then
    match ops.write with
    | none =>
      if cmp = -1 then
        match ops.erase with
        | none => write_outcome.null_call s
        | some erase =>
          write_outcome.null_call (erase (erase_block erase_size pos) erase_size s).2
      else write_outcome.null_call s
    | some write =>
      if cmp = -1 then
        match ops.erase with
        | none => write_outcome.null_call s
        | some erase =>
          write_outcome.returned
            (write (erase_block erase_size pos)
              (patch erase_buf (block_offset erase_size pos) write_buf size) erase_size
              (erase (erase_block erase_size pos) erase_size s).2).1
            (write (erase_block erase_size pos)
              (patch erase_buf (block_offset erase_size pos) write_buf size) erase_size
              (erase (erase_block erase_size pos) erase_size s).2).2
      else
        write_outcome.returned
          (write (erase_block erase_size pos)
            (patch erase_buf (block_offset erase_size pos) write_buf size) erase_size s).1
          (write (erase_block erase_size pos)
            (patch erase_buf (block_offset erase_size pos) write_buf size) erase_size s).2
  else write_outcome.returned 0 s

/-- The loop `while (len > 0)` of `blocklevel_smart_write` with a bound on the number
of its iterations, `pos` and `len` being `uint64_t` values: the outcome when the label
`out` is reached, with the value of `rc`. -/
def smart_write_loop {σ : Type} (ops : backend σ) (erase_size : Nat) :
    Nat → Nat → (Nat → Nat) → Nat → σ → write_outcome σ
  | fuel, pos, write_buf, len, s =>
    if len = 0 then write_outcome.returned 0 s
    else
      match fuel with
      | 0 => write_outcome.spinning s
      | fuel + 1 =>
        match ops.read with
        | none => write_outcome.null_call s
        | some read =>
          if (read (erase_block erase_size pos) erase_size s).1 ≠ 0 then
            write_outcome.returned (read (erase_block erase_size pos) erase_size s).1
              (read (erase_block erase_size pos) erase_size s).2.2
          else
            match write_block ops erase_size pos
                (read (erase_block erase_size pos) erase_size s).2.1 write_buf
                (chunk_size erase_size pos len)
                (blocklevel_flashcmp
                  (fun i => (read (erase_block erase_size pos) erase_size s).2.1
                    (block_offset erase_size pos + i))
                  write_buf (chunk_size erase_size pos len))
                (read (erase_block erase_size pos) erase_size s).2.2 with
            | write_outcome.returned rc s1 =>
              if rc ≠ 0 then write_outcome.returned rc s1
              else
                smart_write_loop ops erase_size fuel
                  ((pos + chunk_size erase_size pos len) % 2 ^ 64)
                  (fun i => write_buf (i + chunk_size erase_size pos len))
                  ((len + 2 ^ 64 - chunk_size erase_size pos len) % 2 ^ 64) s1
            | o => o

/-- The end of `blocklevel_smart_write` from the label `out`: `release(bl)`, then the
return of `rc`. -/
def smart_write_out {σ : Type} (ops : backend σ) : write_outcome σ → write_outcome σ
  | write_outcome.returned rc s => write_outcome.returned rc (release ops s).2
  | o => o

/-- `blocklevel_smart_write(bl, pos, buf, len)`, `pos` and `len` being `uint64_t`
values and `buf` being `none` for a null pointer; `malloc_ok n` tells whether a call
`malloc(n)` succeeds, `fuel` bounds the number of iterations of the loop; `errno` is
left out. -/
def blocklevel_smart_write {σ : Type} (W : Nat) (h : Libflash) (malloc_ok : Nat → Bool)
    (fuel : Nat) (ops : backend σ) (bl : blocklevel_device) (pos : Nat)
    (buf : Option (Nat → Nat)) (len : Nat) (s : σ) : write_outcome σ :=
  match buf with
  | none => write_outcome.returned h.FLASH_ERR_PARM_ERROR s
  | some b =>
    if ops.flags &&& h.WRITE_NEED_ERASE = 0 then
      write_outcome.returned (blocklevel_write W h malloc_ok ops bl pos (some b) len s).1
        (blocklevel_write W h malloc_ok ops bl pos (some b) len s).2
    else if (blocklevel_get_info h ops 0 s).1 ≠ 0 then
      write_outcome.returned (blocklevel_get_info h ops 0 s).1 (blocklevel_get_info h ops 0 s).2.2
    else if ecc_protected W bl pos len ≠ 0 then
      (if malloc_ok (h.ecc_buffer_size len) = false then
        write_outcome.returned h.FLASH_ERR_MALLOC_FAILED (blocklevel_get_info h ops 0 s).2.2
      else if (h.memcpy_to_ecc b
          (h.ecc_buffer_size_minus_ecc (h.ecc_buffer_size len))).1 ≠ 0 then
        write_outcome.returned h.FLASH_ERR_ECC_INVALID (blocklevel_get_info h ops 0 s).2.2
      else if malloc_ok (blocklevel_get_info h ops 0 s).2.1 = false then
        write_outcome.returned h.FLASH_ERR_MALLOC_FAILED (blocklevel_get_info h ops 0 s).2.2
      else if (reacquire ops (blocklevel_get_info h ops 0 s).2.2).1 ≠ 0 then
        write_outcome.returned (reacquire ops (blocklevel_get_info h ops 0 s).2.2).1
          (reacquire ops (blocklevel_get_info h ops 0 s).2.2).2
      else
        smart_write_out ops
          (smart_write_loop ops (blocklevel_get_info h ops 0 s).2.1 fuel pos
            (h.memcpy_to_ecc b (h.ecc_buffer_size_minus_ecc (h.ecc_buffer_size len))).2
            (h.ecc_buffer_size len) (reacquire ops (blocklevel_get_info h ops 0 s).2.2).2))
    else if malloc_ok (blocklevel_get_info h ops 0 s).2.1 = false then
      write_outcome.returned h.FLASH_ERR_MALLOC_FAILED (blocklevel_get_info h ops 0 s).2.2
    else if (reacquire ops (blocklevel_get_info h ops 0 s).2.2).1 ≠ 0 then
      write_outcome.returned (reacquire ops (blocklevel_get_info h ops 0 s).2.2).1
        (reacquire ops (blocklevel_get_info h ops 0 s).2.2).2
    else
      smart_write_out ops
        (smart_write_loop ops (blocklevel_get_info h ops 0 s).2.1 fuel pos b len
          (reacquire ops (blocklevel_get_info h ops 0 s).2.2).2)

/-- The calls a model of a flash chip receives. -/
inductive flash_op where
  | read (pos len : Nat)
  | erase (pos len : Nat)
  | write (pos len : Nat)
  deriving DecidableEq, Repr

/-- The state of a model of a NOR flash chip: the content of each cell and the calls
received so far; the byte stored in a cell is its content modulo 256. -/
structure nor_state where
  mem : Nat → Nat
  log : List flash_op

/-- The byte stored at address `a`. -/
def stored (s : nor_state) (a : Nat) : Nat :=
  s.mem a % 2 ^ 8

/-- A model of a NOR flash chip as a backend, with its erase size and its flags: a
read returns the stored bytes, an erase sets every byte of the range to `0xff`, a write
stores in every byte of the range the bits set both in it and in the byte written;
every call succeeds and is logged, `get_info` tells the erase size, and there is
nothing to reacquire or to release. -/
def nor_flash (erase_size flags : Nat) : backend nor_state :=
  { reacquire := none
    release := none
    read := some (fun pos len s =>
      (0, fun i => stored s (pos + i), { s with log := s.log ++ [flash_op.read pos len] }))
    write := some (fun pos buf len s =>
      (0, { mem := fun a =>
              if pos ≤ a ∧ a < pos + len then stored s a &&& (buf (a - pos) % 2 ^ 8)
              else s.mem a
            log := s.log ++ [flash_op.write pos len] }))
    erase := some (fun pos len s =>
      (0, { mem := fun a => if pos ≤ a ∧ a < pos + len then 0xff else s.mem a
            log := s.log ++ [flash_op.erase pos len] }))
    get_info := some (fun s => (0, erase_size, s))
    keep_alive := false
    flags := flags
    erase_mask := erase_size - 1 }

/-- The state of the backend when a call returned. -/
def write_outcome.state {σ : Type} : write_outcome σ → σ
  | write_outcome.returned _ s => s
  | write_outcome.null_call s => s
  | write_outcome.spinning s => s

/-- The position and the length of a call. -/
def flash_op.range : flash_op → Nat × Nat
  | flash_op.read pos len => (pos, len)
  | flash_op.erase pos len => (pos, len)
  | flash_op.write pos len => (pos, len)

/-- Whether a call is a read. -/
def flash_op.is_read : flash_op → Bool
  | flash_op.read _ _ => true
  | _ => false

/-- Example values of the items taken from the absent headers, without ECC bytes. -/
def example_libflash : Libflash :=
  { FLASH_ERR_PARM_ERROR := 3
    FLASH_ERR_MALLOC_FAILED := 1
    FLASH_ERR_ECC_INVALID := 9
    WRITE_NEED_ERASE := 1
    ecc_buffer_size := fun n => n
    ecc_buffer_size_minus_ecc := fun n => n
    memcpy_to_ecc := fun b _ => (0, b) }

/-- An example of a NOR flash chip: every byte holds `0xf0` and no call was made. -/
def example_nor : nor_state :=
  { mem := fun _ => 0xf0, log := [] }

/-- An example of a buffer to write: the bytes `0xf0`, `0xf0`, `0x70`, `0x0f`, then
`0xf0` for ever. -/
def example_buf : Nat → Nat :=
  fun i => if i = 2 then 0x70 else if i = 3 then 0x0f else 0xf0

end Blocklevel

namespace Lpc

/-! ## `hw/lpc.c`: accesses to the LPC bus through the OPB -/

/-- Modelled from the spec: the status `OPAL_SUCCESS` of `opal-api.h` (absent from the
sources). -/
def OPAL_SUCCESS : Int := 0

/-- Modelled from the spec: the status `OPAL_PARAMETER` of `opal-api.h` (absent from
the sources). -/
def OPAL_PARAMETER : Int := -1

/-- Modelled from the spec: the status `OPAL_HARDWARE` of `opal-api.h` (absent from the
sources). -/
def OPAL_HARDWARE : Int := -6

/-- Modelled from the spec: `enum OpalLPCAddressType` of `opal-api.h` (absent from the
sources); `unknown` stands for any other value of the enumeration type. -/
inductive OpalLPCAddressType where
  | OPAL_LPC_MEM
  | OPAL_LPC_IO
  | OPAL_LPC_FW
  | unknown (value : Nat)
  deriving DecidableEq, Repr

/-- The hardware primitives and the bit-field macros `lpc.c` takes from headers that
are absent from the sources, over a hardware state `σ`: the MMIO stores and loads of
`io.h` (address, then value), `xscom_write` (chip, address, value) and `xscom_read`
(chip, address; status and value read) of `xscom.h`, `time_wait_nopoll` of
`timebase.h`, and `PPC_BIT`, `PPC_BITMASK`, `SETFIELD` and `GETFIELD`. -/
structure Platform (σ : Type) where
  out_8 : Nat → Nat → σ → σ
  out_be16 : Nat → Nat → σ → σ
  out_be32 : Nat → Nat → σ → σ
  in_8 : Nat → σ → Nat × σ
  in_be16 : Nat → σ → Nat × σ
  in_be32 : Nat → σ → Nat × σ
  xscom_write : Nat → Nat → Nat → σ → Int × σ
  xscom_read : Nat → Nat → σ → (Int × Nat) × σ
  time_wait_nopoll : Nat → σ → σ
  PPC_BIT : Nat → Nat
  PPC_BITMASK : Nat → Nat → Nat
  SETFIELD : Nat → Nat → Nat → Nat
  GETFIELD : Nat → Nat → Nat

/-- The fields of `struct lpcm` read or written by the accesses: `mbase` is `0` for a
null pointer; the lock, the clients and the SerIRQ routes are left out. -/
structure lpcm where
  chip_id : Nat
  xbase : Nat
  mbase : Nat
  fw_idsel : Nat
  fw_rdsz : Nat
  deriving DecidableEq, Repr

/-- Modelled from the spec: `struct proc_chip` of `chip.h` (absent from the sources),
reduced to its field `lpc`, `none` for a null pointer. -/
structure proc_chip where
  lpc : Option lpcm
  deriving DecidableEq, Repr

/-- The state the accesses run in: the hardware, the static `lpc_default_chip_id` and
the chips `get_chip` finds (`none` for a null pointer). -/
structure System (σ : Type) where
  hw : σ
  lpc_default_chip_id : Int
  get_chip : Nat → Option proc_chip

/-- The macros of `lpc.c` for the ECCB registers, the LPC host controller registers
and the OPB windows. -/
def ECCB_CTL : Nat := 0
def ECCB_STAT : Nat := 2
def ECCB_DATA : Nat := 3
def ECCB_CTL_MAGIC : Nat := 0xd000000000000000
def ECCB_ADDRLEN_4B : Nat := 0x4
def ECCB_TIMEOUT : Nat := 1000000
def LPC_HC_FW_SEG_IDSEL : Nat := 0x24
def LPC_HC_FW_RD_ACC_SIZE : Nat := 0x28
def LPC_HC_FW_RD_1B : Nat := 0x00000000
def LPC_HC_FW_RD_2B : Nat := 0x01000000
def LPC_HC_FW_RD_4B : Nat := 0x02000000
def lpc_io_opb_base : Nat := 0xd0010000
def lpc_mem_opb_base : Nat := 0xe0000000
def lpc_fw_opb_base : Nat := 0xf0000000
def lpc_reg_opb_base : Nat := 0xc0012000

/-- The mask `ECCB_CTL_DATASZ`. -/
def ECCB_CTL_DATASZ {σ : Type} (p : Platform σ) : Nat := p.PPC_BITMASK 4 7

/-- The bit `ECCB_CTL_READ`. -/
def ECCB_CTL_READ {σ : Type} (p : Platform σ) : Nat := p.PPC_BIT 15

/-- The mask `ECCB_CTL_ADDRLEN`. -/
def ECCB_CTL_ADDRLEN {σ : Type} (p : Platform σ) : Nat := p.PPC_BITMASK 23 25

/-- The mask `ECCB_CTL_ADDR`. -/
def ECCB_CTL_ADDR {σ : Type} (p : Platform σ) : Nat := p.PPC_BITMASK 32 63

/-- The mask `ECCB_STAT_RD_DATA`. -/
def ECCB_STAT_RD_DATA {σ : Type} (p : Platform σ) : Nat := p.PPC_BITMASK 6 37

/-- The bit `ECCB_STAT_OP_DONE`. -/
def ECCB_STAT_OP_DONE {σ : Type} (p : Platform σ) : Nat := p.PPC_BIT 52

/-- The mask `ECCB_STAT_PIB_ERR | ECCB_STAT_ERRORS1 | ECCB_STAT_ERRORS2`. -/
def ECCB_STAT_ERR_MASK {σ : Type} (p : Platform σ) : Nat :=
  p.PPC_BITMASK 0 5 ||| p.PPC_BITMASK 45 51 ||| p.PPC_BITMASK 53 55

/-- The value of `ctl` in `opb_write` and `opb_read` after the three `SETFIELD`. -/
def eccb_ctl {σ : Type} (p : Platform σ) (ctl addr sz : Nat) : Nat :=
  p.SETFIELD (ECCB_CTL_ADDR p)
    (p.SETFIELD (ECCB_CTL_ADDRLEN p) (p.SETFIELD (ECCB_CTL_DATASZ p) ctl sz) ECCB_ADDRLEN_4B)
    addr

/-- `opb_mmio_write(lpc, addr, data, sz)`; the message of the last case is left out. -/
def opb_mmio_write {σ : Type} (p : Platform σ) (lpc : lpcm) (addr data sz : Nat) (s : σ) :
    Int × σ :=
  if sz = 1 then (OPAL_SUCCESS, p.out_8 (lpc.mbase + addr) (data % 2 ^ 8) s)
  else if sz = 2 then (OPAL_SUCCESS, p.out_be16 (lpc.mbase + addr) (data % 2 ^ 16) s)
  else if sz = 4 then (OPAL_SUCCESS, p.out_be32 (lpc.mbase + addr) (data % 2 ^ 32) s)
  else (OPAL_PARAMETER, s)

/-- The loop `for (tout = 0; tout < ECCB_TIMEOUT; tout++)` of `opb_write`, with the
number of iterations left; the messages are left out. -/
def opb_write_poll {σ : Type} (p : Platform σ) (lpc : lpcm) : Nat → σ → Int × σ
  | 0, s => (OPAL_HARDWARE, s)
  | left + 1, s =>
    match p.xscom_read lpc.chip_id ((lpc.xbase + ECCB_STAT) % 2 ^ 32) s with
    | ((rc, stat), s1) =>
      if rc ≠ 0 then (rc, s1)
      else if stat &&& ECCB_STAT_OP_DONE p ≠ 0 then
        (if stat &&& ECCB_STAT_ERR_MASK p ≠ 0 then (OPAL_HARDWARE, s1)
         else (OPAL_SUCCESS, s1))
      else opb_write_poll p lpc left (p.time_wait_nopoll 100 s1)

/-- `opb_write(lpc, addr, data, sz)`; the messages are left out. -/
def opb_write {σ : Type} (p : Platform σ) (lpc : lpcm) (addr data sz : Nat) (s : σ) :
    Int × σ :=
  if lpc.mbase ≠ 0 then
    opb_mmio_write p lpc addr data sz s
  else if sz ≠ 1 ∧ sz ≠ 2 ∧ sz ≠ 4 then
    (OPAL_PARAMETER, s)
  else
    match p.xscom_write lpc.chip_id ((lpc.xbase + ECCB_DATA) % 2 ^ 32)
        ((data * 2 ^ (if sz = 1 then 56 else if sz = 2 then 48 else 32)) % 2 ^ 64) s with
    | (rc, s1) =>
      if rc ≠ 0 then (rc, s1)
      else
        match p.xscom_write lpc.chip_id ((lpc.xbase + ECCB_CTL) % 2 ^ 32)
            (eccb_ctl p ECCB_CTL_MAGIC addr sz) s1 with
        | (rc, s2) =>
          if rc ≠ 0 then (rc, s2)
          else opb_write_poll p lpc ECCB_TIMEOUT s2

/-- `opb_mmio_read(lpc, addr, data, sz)`: the status, the value of `*data` afterwards
and the hardware; the message of the last case is left out. -/
def opb_mmio_read {σ : Type} (p : Platform σ) (lpc : lpcm) (addr data sz : Nat) (s : σ) :
    Int × Nat × σ :=
  if sz = 1 then
    (OPAL_SUCCESS, (p.in_8 (lpc.mbase + addr) s).1 % 2 ^ 8, (p.in_8 (lpc.mbase + addr) s).2)
  else if sz = 2 then
    (OPAL_SUCCESS, (p.in_be16 (lpc.mbase + addr) s).1 % 2 ^ 16,
      (p.in_be16 (lpc.mbase + addr) s).2)
  else if sz = 4 then
    (OPAL_SUCCESS, (p.in_be32 (lpc.mbase + addr) s).1 % 2 ^ 32,
      (p.in_be32 (lpc.mbase + addr) s).2)
  else (OPAL_PARAMETER, data, s)

/-- The loop `for (tout = 0; tout < ECCB_TIMEOUT; tout++)` of `opb_read`, with the
number of iterations left; the messages are left out. -/
def opb_read_poll {σ : Type} (p : Platform σ) (lpc : lpcm) (data sz : Nat) :
    Nat → σ → Int × Nat × σ
  | 0, s => (OPAL_HARDWARE, data, s)
  | left + 1, s =>
    match p.xscom_read lpc.chip_id ((lpc.xbase + ECCB_STAT) % 2 ^ 32) s with
    | ((rc, stat), s1) =>
      if rc ≠ 0 then (rc, data, s1)
      else if stat &&& ECCB_STAT_OP_DONE p ≠ 0 then
        (if stat &&& ECCB_STAT_ERR_MASK p ≠ 0 then (OPAL_HARDWARE, data, s1)
         else if sz = 1 then
           (0, p.GETFIELD (ECCB_STAT_RD_DATA p) stat % 2 ^ 32 / 2 ^ 24, s1)
         else if sz = 2 then
           (0, p.GETFIELD (ECCB_STAT_RD_DATA p) stat % 2 ^ 32 / 2 ^ 16, s1)
         else
           (0, p.GETFIELD (ECCB_STAT_RD_DATA p) stat % 2 ^ 32, s1))
      else opb_read_poll p lpc data sz left (p.time_wait_nopoll 100 s1)

/-- `opb_read(lpc, addr, data, sz)`: the status, the value of `*data` afterwards and
the hardware; the messages are left out. -/
def opb_read {σ : Type} (p : Platform σ) (lpc : lpcm) (addr data sz : Nat) (s : σ) :
    Int × Nat × σ :=
  if lpc.mbase ≠ 0 then
    opb_mmio_read p lpc addr data sz s
  else if sz ≠ 1 ∧ sz ≠ 2 ∧ sz ≠ 4 then
    (OPAL_PARAMETER, data, s)
  else
    match p.xscom_write lpc.chip_id ((lpc.xbase + ECCB_CTL) % 2 ^ 32)
        (eccb_ctl p (ECCB_CTL_MAGIC ||| ECCB_CTL_READ p) addr sz) s with
    | (rc, s1) =>
      if rc ≠ 0 then (rc, data, s1)
      else opb_read_poll p lpc data sz ECCB_TIMEOUT s1

/-- `lpc_set_fw_idsel(lpc, idsel)`, `idsel` being a `uint8_t`: the status, the
controller and the hardware afterwards; the messages are left out. -/
def lpc_set_fw_idsel {σ : Type} (p : Platform σ) (lpc : lpcm) (idsel : Nat) (s : σ) :
    Int × lpcm × σ :=
  if idsel = lpc.fw_idsel then (OPAL_SUCCESS, lpc, s)
  else if idsel > 0xf then (OPAL_PARAMETER, lpc, s)
  else
    match opb_read p lpc ((lpc_reg_opb_base + LPC_HC_FW_SEG_IDSEL) % 2 ^ 32) 0 4 s with
    | (rc, val, s1) =>
      if rc ≠ 0 then (rc, lpc, s1)
      else
        match opb_write p lpc ((lpc_reg_opb_base + LPC_HC_FW_SEG_IDSEL) % 2 ^ 32)
            ((val &&& 0xfffffff0) ||| idsel) 4 s1 with
        | (rc, s2) =>
          if rc ≠ 0 then (rc, lpc, s2)
          else (OPAL_SUCCESS, { lpc with fw_idsel := idsel }, s2)

/-- `lpc_set_fw_rdsz(lpc, rdsz)`, `rdsz` being a `uint8_t`: the status, the controller
and the hardware afterwards; the message is left out. -/
def lpc_set_fw_rdsz {σ : Type} (p : Platform σ) (lpc : lpcm) (rdsz : Nat) (s : σ) :
    Int × lpcm × σ :=
  if rdsz = lpc.fw_rdsz then (OPAL_SUCCESS, lpc, s)
  else if rdsz ≠ 1 ∧ rdsz ≠ 2 ∧ rdsz ≠ 4 then (OPAL_PARAMETER, lpc, s)
  else
    match opb_write p lpc ((lpc_reg_opb_base + LPC_HC_FW_RD_ACC_SIZE) % 2 ^ 32)
        (if rdsz = 1 then LPC_HC_FW_RD_1B else if rdsz = 2 then LPC_HC_FW_RD_2B
          else LPC_HC_FW_RD_4B) 4 s with
    | (rc, s1) =>
      if rc ≠ 0 then (rc, lpc, s1)
      else (OPAL_SUCCESS, { lpc with fw_rdsz := rdsz }, s1)

/-- The case `OPAL_LPC_FW` of `lpc_opb_prepare` after the test on the segments. -/
def lpc_fw_prepare {σ : Type} (p : Platform σ) (lpc : lpcm) (addr sz : Nat)
    (is_write : Bool) (s : σ) : Int × lpcm × σ :=
  match lpc_set_fw_idsel p lpc (addr / 2 ^ 28 % 2 ^ 8) s with
  | (rc, lpc1, s1) =>
    if rc ≠ 0 then (rc, lpc1, s1)
    else if is_write = false then
      match lpc_set_fw_rdsz p lpc1 (sz % 2 ^ 8) s1 with
      | (rc, lpc2, s2) =>
        if rc ≠ 0 then (rc, lpc2, s2) else (OPAL_SUCCESS, lpc2, s2)
    else (OPAL_SUCCESS, lpc1, s1)

/-- `lpc_opb_prepare(lpc, addr_type, addr, sz, opb_base, is_write)`, `addr` and `sz`
being `uint32_t` values: the status, the value of `*opb_base`, the controller and the
hardware afterwards. -/
def lpc_opb_prepare {σ : Type} (p : Platform σ) (lpc : lpcm)
    (addr_type : OpalLPCAddressType) (addr sz opb_base : Nat) (is_write : Bool) (s : σ) :
    Int × Nat × lpcm × σ :=
  if (addr + sz) % 2 ^ 32 < addr then (OPAL_PARAMETER, opb_base, lpc, s)
  else
    match addr_type with
    | OpalLPCAddressType.OPAL_LPC_IO =>
      if (addr + sz) % 2 ^ 32 > 0x10000 then (OPAL_PARAMETER, opb_base, lpc, s)
      else if sz ≠ 1 then (OPAL_PARAMETER, opb_base, lpc, s)
      else (OPAL_SUCCESS, lpc_io_opb_base, lpc, s)
    | OpalLPCAddressType.OPAL_LPC_MEM =>
      if (addr + sz) % 2 ^ 32 > 0x10000000 then (OPAL_PARAMETER, opb_base, lpc, s)
      else if sz ≠ 1 then (OPAL_PARAMETER, opb_base, lpc, s)
      else (OPAL_SUCCESS, lpc_mem_opb_base, lpc, s)
    | OpalLPCAddressType.OPAL_LPC_FW =>
      if ((addr + sz) % 2 ^ 32 + 2 ^ 32 - 1) % 2 ^ 32 / 2 ^ 28 ≠ addr / 2 ^ 28 % 2 ^ 8 then
        (OPAL_PARAMETER, lpc_fw_opb_base, lpc, s)
      else
        ((lpc_fw_prepare p lpc addr sz is_write s).1, lpc_fw_opb_base,
          (lpc_fw_prepare p lpc addr sz is_write s).2)
    | OpalLPCAddressType.unknown _ => (OPAL_PARAMETER, opb_base, lpc, s)

/-- `__lpc_write(lpc, addr_type, addr, data, sz)`: the status, the controller and the
hardware afterwards. The lock is left out; `opb_base` is not initialised and is written
by every successful `lpc_opb_prepare`. -/
def __lpc_write {σ : Type} (p : Platform σ) (lpc : lpcm) (addr_type : OpalLPCAddressType)
    (addr data sz : Nat) (s : σ) : Int × lpcm × σ :=
  match lpc_opb_prepare p lpc addr_type addr sz 0 true s with
  | (rc, opb_base, lpc1, s1) =>
    if rc ≠ 0 then (rc, lpc1, s1)
    else
      ((opb_write p lpc1 ((opb_base + addr) % 2 ^ 32) data sz s1).1, lpc1,
        (opb_write p lpc1 ((opb_base + addr) % 2 ^ 32) data sz s1).2)

/-- The chips after a call on the controller of chip `chip_id` left it as `lpc`. -/
def set_lpc {σ : Type} (sys : System σ) (chip_id : Nat) (lpc : lpcm) (s : σ) : System σ :=
  { sys with hw := s, get_chip := Function.update sys.get_chip chip_id (some { lpc := some lpc }) }

/-- `lpc_write(addr_type, addr, data, sz)`: the status and the system afterwards. -/
def lpc_write {σ : Type} (p : Platform σ) (addr_type : OpalLPCAddressType)
    (addr data sz : Nat) (sys : System σ) : Int × System σ :=
  if sys.lpc_default_chip_id < 0 then (OPAL_PARAMETER, sys)
  else
    match sys.get_chip sys.lpc_default_chip_id.toNat with
    | none => (OPAL_PARAMETER, sys)
    | some chip =>
      match chip.lpc with
      | none => (OPAL_PARAMETER, sys)
      | some lpc =>
        ((__lpc_write p lpc addr_type addr data sz sys.hw).1,
          set_lpc sys sys.lpc_default_chip_id.toNat
            (__lpc_write p lpc addr_type addr data sz sys.hw).2.1
            (__lpc_write p lpc addr_type addr data sz sys.hw).2.2)

/-- `__lpc_read(lpc, addr_type, addr, data, sz)`: the status, the value of `*data`, the
controller and the hardware afterwards. The lock is left out; `opb_base` is not
initialised and is written by every successful `lpc_opb_prepare`. -/
def __lpc_read {σ : Type} (p : Platform σ) (lpc : lpcm) (addr_type : OpalLPCAddressType)
    (addr data sz : Nat) (s : σ) : Int × Nat × lpcm × σ :=
  match lpc_opb_prepare p lpc addr_type addr sz 0 false s with
  | (rc, opb_base, lpc1, s1) =>
    if rc ≠ 0 then (rc, data, lpc1, s1)
    else
      ((opb_read p lpc1 ((opb_base + addr) % 2 ^ 32) data sz s1).1,
        (opb_read p lpc1 ((opb_base + addr) % 2 ^ 32) data sz s1).2.1, lpc1,
        (opb_read p lpc1 ((opb_base + addr) % 2 ^ 32) data sz s1).2.2)

/-- `lpc_read(addr_type, addr, data, sz)`: the status, the value of `*data` and the
system afterwards. -/
def lpc_read {σ : Type} (p : Platform σ) (addr_type : OpalLPCAddressType)
    (addr data sz : Nat) (sys : System σ) : Int × Nat × System σ :=
  if sys.lpc_default_chip_id < 0 then (OPAL_PARAMETER, data, sys)
  else
    match sys.get_chip sys.lpc_default_chip_id.toNat with
    | none => (OPAL_PARAMETER, data, sys)
    | some chip =>
      match chip.lpc with
      | none => (OPAL_PARAMETER, data, sys)
      | some lpc =>
        ((__lpc_read p lpc addr_type addr data sz sys.hw).1,
          (__lpc_read p lpc addr_type addr data sz sys.hw).2.1,
          set_lpc sys sys.lpc_default_chip_id.toNat
            (__lpc_read p lpc addr_type addr data sz sys.hw).2.2.1
            (__lpc_read p lpc addr_type addr data sz sys.hw).2.2.2)

/-- Whether `OpalLPCAddressType` value `t` is one of the three address spaces. -/
def known_type : OpalLPCAddressType → Bool
  | OpalLPCAddressType.unknown _ => false
  | _ => true

/-- The invalid accesses: `addr + sz` wraps past `2 ^ 32`; an IO access that is not a
byte access or ends above `0x10000`; a MEM access that is not a byte access or ends
above `0x10000000`; a FW access whose first byte `addr` and last byte `addr + sz - 1`
lie in different segments of 256 MB; an unknown address type. -/
def invalid_access (t : OpalLPCAddressType) (addr sz : Nat) : Bool :=
  decide (2 ^ 32 ≤ addr + sz) ||
  (decide (t = OpalLPCAddressType.OPAL_LPC_IO) && (decide (sz ≠ 1) || decide (0x10000 < addr + sz))) ||
  (decide (t = OpalLPCAddressType.OPAL_LPC_MEM) &&
    (decide (sz ≠ 1) || decide (0x10000000 < addr + sz))) ||
  (decide (t = OpalLPCAddressType.OPAL_LPC_FW) && decide (1 ≤ sz) &&
    decide (addr / 2 ^ 28 ≠ (addr + sz - 1) / 2 ^ 28)) ||
  !known_type t

/-- The accesses of the example platform, in the order they were made. -/
inductive Access where
  | mmio_write (addr value : Nat)
  | mmio_read (addr : Nat)
  | xscom_write (chip addr value : Nat)
  | xscom_read (chip addr : Nat)
  deriving DecidableEq, Repr

/-- The position of the lowest bit set in a mask of 64 bits (`0` for an empty mask). -/
def mask_to_lsh (m : Nat) : Nat :=
  ((List.range 64).find? (fun i => m.testBit i)).getD 0

/-- The hardware of the example platform: a memory of bytes behind the MMIO window and
the accesses made so far. -/
structure example_hw where
  mem : Nat → Nat
  log : List Access

/-- An example platform: the MMIO stores and loads go to a memory of bytes in
big-endian order, every XSCOM access succeeds and reads the status "operation done",
and every access is logged; the bit-field macros number the bits from the most
significant one. -/
def example_platform : Platform example_hw :=
  { out_8 := fun a v s =>
      { mem := Function.update s.mem a (v % 2 ^ 8), log := s.log ++ [Access.mmio_write a v] }
    out_be16 := fun a v s =>
      { mem := Function.update (Function.update s.mem a (v / 2 ^ 8 % 2 ^ 8)) (a + 1) (v % 2 ^ 8),
        log := s.log ++ [Access.mmio_write a v] }
    out_be32 := fun a v s =>
      { mem := Function.update (Function.update (Function.update (Function.update s.mem
          a (v / 2 ^ 24 % 2 ^ 8)) (a + 1) (v / 2 ^ 16 % 2 ^ 8)) (a + 2) (v / 2 ^ 8 % 2 ^ 8))
          (a + 3) (v % 2 ^ 8),
        log := s.log ++ [Access.mmio_write a v] }
    in_8 := fun a s => (s.mem a, { s with log := s.log ++ [Access.mmio_read a] })
    in_be16 := fun a s =>
      (s.mem a * 2 ^ 8 + s.mem (a + 1), { s with log := s.log ++ [Access.mmio_read a] })
    in_be32 := fun a s =>
      (s.mem a * 2 ^ 24 + s.mem (a + 1) * 2 ^ 16 + s.mem (a + 2) * 2 ^ 8 + s.mem (a + 3),
        { s with log := s.log ++ [Access.mmio_read a] })
    xscom_write := fun c a v s => (0, { s with log := s.log ++ [Access.xscom_write c a v] })
    xscom_read := fun c a s => ((0, 2 ^ 11), { s with log := s.log ++ [Access.xscom_read c a] })
    time_wait_nopoll := fun _ s => s
    PPC_BIT := fun n => 2 ^ (63 - n)
    PPC_BITMASK := fun bs be => 2 ^ (64 - bs) - 2 ^ (63 - be)
    SETFIELD := fun m v val =>
      (v &&& ((2 ^ 64 - 1) ^^^ m)) ||| ((val * 2 ^ mask_to_lsh m) % 2 ^ 64 &&& m)
    GETFIELD := fun m v => (v &&& m) / 2 ^ mask_to_lsh m }

/-- An example controller, as `lpc_init` leaves it, reached through XSCOM. -/
def example_lpcm : lpcm :=
  { chip_id := 0, xbase := 0xb0020, mbase := 0, fw_idsel := 0xff, fw_rdsz := 0xff }

/-- An example system: one chip, chip 0, whose controller is the default one, a memory
of zeroes and no access made yet. -/
def example_system : System example_hw :=
  { hw := { mem := fun _ => 0, log := [] }
    lpc_default_chip_id := 0
    get_chip := fun c => if c = 0 then some { lpc := some example_lpcm } else none }

/-! ## `hw/lpc.c`: the OPAL variants of the accesses -/

/-- The loop `while(sz--)` of `opal_lpc_write` with `sz` iterations to go, `addr` and
`data` being `uint32_t` values: the status, the controller and the hardware
afterwards. -/
def opal_lpc_write_loop {σ : Type} (p : Platform σ) (addr_type : OpalLPCAddressType) :
    Nat → lpcm → Nat → Nat → σ → Int × lpcm × σ
  | 0, lpc, _, _, s => (OPAL_SUCCESS, lpc, s)
  | sz + 1, lpc, addr, data, s =>
    if (__lpc_write p lpc addr_type addr (data &&& 0xff) 1 s).1 ≠ 0 then
      __lpc_write p lpc addr_type addr (data &&& 0xff) 1 s
    else
      opal_lpc_write_loop p addr_type sz
        (__lpc_write p lpc addr_type addr (data &&& 0xff) 1 s).2.1
        ((addr + 1) % 2 ^ 32) (data / 2 ^ 8)
        (__lpc_write p lpc addr_type addr (data &&& 0xff) 1 s).2.2

/-- `opal_lpc_write(chip_id, addr_type, addr, data, sz)`, the arguments being
`uint32_t` values: the status and the system afterwards. -/
def opal_lpc_write {σ : Type} (p : Platform σ) (chip_id : Nat)
    (addr_type : OpalLPCAddressType) (addr data sz : Nat) (sys : System σ) :
    Int × System σ :=
  match sys.get_chip chip_id with
  | none => (OPAL_PARAMETER, sys)
  | some chip =>
    match chip.lpc with
    | none => (OPAL_PARAMETER, sys)
    | some lpc =>
      if addr_type = OpalLPCAddressType.OPAL_LPC_FW ∨ sz = 1 then
        ((__lpc_write p lpc addr_type addr data sz sys.hw).1,
          set_lpc sys chip_id (__lpc_write p lpc addr_type addr data sz sys.hw).2.1
            (__lpc_write p lpc addr_type addr data sz sys.hw).2.2)
      else
        ((opal_lpc_write_loop p addr_type sz lpc addr data sys.hw).1,
          set_lpc sys chip_id (opal_lpc_write_loop p addr_type sz lpc addr data sys.hw).2.1
            (opal_lpc_write_loop p addr_type sz lpc addr data sys.hw).2.2)

/-- The loop `while(sz--)` of `opal_lpc_read` with `sz` iterations to go, `addr` and
`data` (the value of `*data`) being `uint32_t` values: the status, the value of `*data`,
the controller and the hardware afterwards. The local `byte` is not initialised and is
written by every successful `__lpc_read` of one byte. The shift `byte << (8 * sz)` is
taken modulo `2 ^ 32`; C leaves it undefined from a count of 32 on, which takes a `sz`
above 4. -/
def opal_lpc_read_loop {σ : Type} (p : Platform σ) (addr_type : OpalLPCAddressType) :
    Nat → lpcm → Nat → Nat → σ → Int × Nat × lpcm × σ
  | 0, lpc, _, data, s => (OPAL_SUCCESS, data, lpc, s)
  | sz + 1, lpc, addr, data, s =>
    if (__lpc_read p lpc addr_type addr 0 1 s).1 ≠ 0 then
      ((__lpc_read p lpc addr_type addr 0 1 s).1, data,
        (__lpc_read p lpc addr_type addr 0 1 s).2.2)
    else
      opal_lpc_read_loop p addr_type sz
        (__lpc_read p lpc addr_type addr 0 1 s).2.2.1
        ((addr + 1) % 2 ^ 32)
        (data ||| ((__lpc_read p lpc addr_type addr 0 1 s).2.1 * 2 ^ (8 * sz)) % 2 ^ 32)
        (__lpc_read p lpc addr_type addr 0 1 s).2.2.2

/-- `opal_lpc_read(chip_id, addr_type, addr, data, sz)`, the arguments being `uint32_t`
values and `data` the value of `*data` on entry: the status, the value of `*data` and
the system afterwards. -/
def opal_lpc_read {σ : Type} (p : Platform σ) (chip_id : Nat)
    (addr_type : OpalLPCAddressType) (addr data sz : Nat) (sys : System σ) :
    Int × Nat × System σ :=
  match sys.get_chip chip_id with
  | none => (OPAL_PARAMETER, data, sys)
  | some chip =>
    match chip.lpc with
    | none => (OPAL_PARAMETER, data, sys)
    | some lpc =>
      if addr_type = OpalLPCAddressType.OPAL_LPC_FW ∨ sz = 1 then
        ((__lpc_read p lpc addr_type addr data sz sys.hw).1,
          (__lpc_read p lpc addr_type addr data sz sys.hw).2.1,
          set_lpc sys chip_id (__lpc_read p lpc addr_type addr data sz sys.hw).2.2.1
            (__lpc_read p lpc addr_type addr data sz sys.hw).2.2.2)
      else
        ((opal_lpc_read_loop p addr_type sz lpc addr 0 sys.hw).1,
          (opal_lpc_read_loop p addr_type sz lpc addr 0 sys.hw).2.1,
          set_lpc sys chip_id (opal_lpc_read_loop p addr_type sz lpc addr 0 sys.hw).2.2.1
            (opal_lpc_read_loop p addr_type sz lpc addr 0 sys.hw).2.2.2)

/-- A storage of bytes behind the OPB of controller `lpc`, `mem s a` being the byte
stored at OPB address `a` in the hardware state `s`: a write of one byte that succeeds
stores the low eight bits of the value at its address and leaves every other byte; a
read of one byte succeeds, returns the byte stored at its address and leaves every
byte. -/
def byte_storage {σ : Type} (p : Platform σ) (lpc : lpcm) (mem : σ → Nat → Nat) : Prop :=
  (∀ a v s, (opb_write p lpc a v 1 s).1 = OPAL_SUCCESS →
    mem (opb_write p lpc a v 1 s).2 = Function.update (mem s) a (v % 2 ^ 8)) ∧
  (∀ a d s, (opb_read p lpc a d 1 s).1 = OPAL_SUCCESS ∧
    (opb_read p lpc a d 1 s).2.1 = mem s a ∧ mem (opb_read p lpc a d 1 s).2.2 = mem s)

/-- The value `data` with its `sz` low bytes in reverse order. -/
def reversed_bytes : Nat → Nat → Nat
  | 0, _ => 0
  | sz + 1, data => data % 2 ^ 8 * 2 ^ (8 * sz) + reversed_bytes sz (data / 2 ^ 8)

/-- The OPB base address of the window of an address space. -/
def window_base : OpalLPCAddressType → Nat
  | OpalLPCAddressType.OPAL_LPC_IO => lpc_io_opb_base
  | OpalLPCAddressType.OPAL_LPC_MEM => lpc_mem_opb_base
  | OpalLPCAddressType.OPAL_LPC_FW => lpc_fw_opb_base
  | OpalLPCAddressType.unknown _ => 0

/-- The size of the IO space and of the MEM space. -/
def window_size : OpalLPCAddressType → Nat
  | OpalLPCAddressType.OPAL_LPC_IO => 0x10000
  | OpalLPCAddressType.OPAL_LPC_MEM => 0x10000000
  | _ => 0

/-- An example controller reached through MMIO. -/
def example_lpcm_mmio : lpcm :=
  { chip_id := 0, xbase := 0xb0020, mbase := 0x6030000000000, fw_idsel := 0xff,
    fw_rdsz := 0xff }

/-- An example system whose chip 0 has the controller reached through MMIO, a memory
of zeroes and no access made yet. -/
def example_system_mmio : System example_hw :=
  { hw := { mem := fun _ => 0, log := [] }
    lpc_default_chip_id := 0
    get_chip := fun c => if c = 0 then some { lpc := some example_lpcm_mmio } else none }

/-- The byte the example platform stores at an OPB address behind the controller
reached through MMIO. -/
def example_mem (s : example_hw) (a : Nat) : Nat :=
  s.mem (example_lpcm_mmio.mbase + a) % 2 ^ 8

end Lpc

namespace FastReboot

/-! ## Lemmas on the wait -/

@[simp] theorem emit_trace (e : Event) (m : Machine) : (emit e m).trace = m.trace ++ [e] := rfl

@[simp] theorem emit_clock (e : Event) (m : Machine) : (emit e m).clock = m.clock := rfl

@[simp] theorem emit_cpus (e : Event) (m : Machine) : (emit e m).cpus = m.cpus := rfl

@[simp] theorem emit_release (e : Event) (m : Machine) :
    (emit e m).fast_boot_release = m.fast_boot_release := rfl

@[simp] theorem emit_disabled (e : Event) (m : Machine) :
    (emit e m).fast_reboot_disabled = m.fast_reboot_disabled := rfl

@[simp] theorem emit_count (e : Event) (m : Machine) :
    (emit e m).fast_reboot_count = m.fast_reboot_count := rfl

theorem same_memory_refl (m : Machine) : same_memory m m := ⟨rfl, rfl, rfl, rfl⟩

theorem same_memory_trans {a b c : Machine} (h1 : same_memory a b) (h2 : same_memory b c) :
    same_memory a c :=
  ⟨h2.1.trans h1.1, h2.2.1.trans h1.2.1, h2.2.2.1.trans h1.2.2.1, h2.2.2.2.trans h1.2.2.2⟩

theorem same_memory_emit (e : Event) (m : Machine) : same_memory m (emit e m) :=
  ⟨rfl, rfl, rfl, rfl⟩

theorem same_memory_load_state (env : Env) (cpu : Nat) (m : Machine) :
    same_memory m (load_state env cpu m).2 := ⟨rfl, rfl, rfl, rfl⟩

theorem same_memory_mftb (env : Env) (m : Machine) : same_memory m (mftb env m).2 :=
  ⟨rfl, rfl, rfl, rfl⟩

/-- Events that are loads of `cpu` not showing `state`, on time and allowed in a wait,
may be put in front of the events of a wait on `cpu`. -/
theorem LoopSpec.prepend {env : Env} {cpu : Nat} {state : cpu_thread_state}
    {timeout_tb end_tb : Nat} {r : Option Bool} {ev : List Event} (pre : List Event)
    (hl : ∀ c s, Event.load_state c s ∈ pre →
      (c = cpu ∧ ∃ t, s = env.cpu_state t c) ∧ s ≠ state)
    (ht : ∀ e ∈ pre, late env end_tb e = false)
    (hq : ∀ e ∈ pre, poll_event e = true)
    (h : LoopSpec env cpu state timeout_tb end_tb r ev) :
    LoopSpec env cpu state timeout_tb end_tb r (pre ++ ev) where
  loads := by
    intro c s hm
    rcases List.mem_append.1 hm with hm | hm
    · exact (hl c s hm).1
    · exact h.loads c s hm
  seen := fun hr => List.mem_append.2 (Or.inr (h.seen hr))
  unseen := by
    intro hr hm
    rcases List.mem_append.1 hm with hm | hm
    · exact (hl cpu state hm).2 rfl
    · exact h.unseen hr hm
  failed := by
    intro hr
    obtain ⟨h0, ev0, v, he, hv, hb⟩ := h.failed hr
    refine ⟨h0, pre ++ ev0, v, by rw [he, List.append_assoc], hv, ?_⟩
    intro e hm
    rcases List.mem_append.1 hm with hm | hm
    · exact ht e hm
    · exact hb e hm
  on_time := by
    intro hr e hm
    rcases List.mem_append.1 hm with hm | hm
    · exact ht e hm
    · exact h.on_time hr e hm
  quiet := by
    intro e hm
    rcases List.mem_append.1 hm with hm | hm
    · exact hq e hm
    · exact h.quiet e hm

@[simp] theorem load_state_fst (env : Env) (cpu : Nat) (m : Machine) :
    (load_state env cpu m).1 = env.cpu_state m.clock cpu := rfl

@[simp] theorem load_state_trace (env : Env) (cpu : Nat) (m : Machine) :
    (load_state env cpu m).2.trace
      = m.trace ++ [Event.load_state cpu (env.cpu_state m.clock cpu)] := rfl

@[simp] theorem load_state_clock (env : Env) (cpu : Nat) (m : Machine) :
    (load_state env cpu m).2.clock = m.clock + 1 := rfl

@[simp] theorem mftb_fst (env : Env) (m : Machine) :
    (mftb env m).1 = env.mftb m.clock % 2 ^ 64 := rfl

@[simp] theorem mftb_trace (env : Env) (m : Machine) :
    (mftb env m).2.trace = m.trace ++ [Event.load_tb (env.mftb m.clock % 2 ^ 64)] := rfl

@[simp] theorem mftb_clock (env : Env) (m : Machine) :
    (mftb env m).2.clock = m.clock + 1 := rfl

theorem wait_loop_spec (env : Env) (cpu : Nat) (state : cpu_thread_state)
    (timeout_tb end_tb : Nat) : ∀ (fuel : Nat) (m : Machine), ∃ ev,
      (wait_loop env cpu state timeout_tb end_tb fuel m).2.trace = m.trace ++ ev ∧
      same_memory m (wait_loop env cpu state timeout_tb end_tb fuel m).2 ∧
      LoopSpec env cpu state timeout_tb end_tb
        (wait_loop env cpu state timeout_tb end_tb fuel m).1 ev := by
  intro fuel
  induction fuel with
  | zero =>
    intro m
    refine ⟨[], by simp [wait_loop], same_memory_refl m, ?_⟩
    constructor <;> simp [wait_loop]
  | succ fuel ih =>
    intro m
    by_cases hs : env.cpu_state m.clock cpu = state
    · have hw : wait_loop env cpu state timeout_tb end_tb (fuel + 1) m
          = (some true, (load_state env cpu m).2) := by
        simp [wait_loop, hs]
      rw [hw]
      refine ⟨[Event.load_state cpu (env.cpu_state m.clock cpu)], by simp,
        same_memory_load_state env cpu m, ?_⟩
      constructor <;> simp [hs, late, poll_event]
      exact ⟨m.clock, hs.symm⟩
    · have hpre : ∀ c s, Event.load_state c s ∈
            [Event.load_state cpu (env.cpu_state m.clock cpu), Event.barrier] →
            (c = cpu ∧ ∃ t, s = env.cpu_state t c) ∧ s ≠ state := by
        intro c s hm
        simp at hm
        obtain ⟨rfl, rfl⟩ := hm
        exact ⟨⟨rfl, m.clock, rfl⟩, hs⟩
      by_cases ht : timeout_tb = 0
      · have hw : wait_loop env cpu state timeout_tb end_tb (fuel + 1) m
            = wait_loop env cpu state timeout_tb end_tb fuel
                (emit Event.barrier (load_state env cpu m).2) := by
          simp [wait_loop, hs, ht]
        rw [hw]
        obtain ⟨ev, h1, h2, h3⟩ := ih (emit Event.barrier (load_state env cpu m).2)
        refine ⟨[Event.load_state cpu (env.cpu_state m.clock cpu), Event.barrier] ++ ev,
          by simpa using h1,
          same_memory_trans
            (same_memory_trans (same_memory_load_state env cpu m) (same_memory_emit _ _)) h2,
          LoopSpec.prepend _ hpre ?_ ?_ h3⟩
        · intro e hm
          simp at hm
          rcases hm with rfl | rfl <;> rfl
        · intro e hm
          simp at hm
          rcases hm with rfl | rfl <;> rfl
      · by_cases hl : env.tb_compare
            (mftb env (emit Event.barrier (load_state env cpu m).2)).1 end_tb
              = tb_cmpval.TB_AAFTERB
        · have hw : wait_loop env cpu state timeout_tb end_tb (fuel + 1) m
              = (some false, emit Event.smt_medium
                  (mftb env (emit Event.barrier (load_state env cpu m).2)).2) := by
            rw [wait_loop]
            simp only [load_state_fst, ne_eq, hs, not_false_eq_true, if_true, ht, hl]
          rw [hw]
          refine ⟨[Event.load_state cpu (env.cpu_state m.clock cpu), Event.barrier] ++
              [Event.load_tb (mftb env (emit Event.barrier (load_state env cpu m).2)).1,
                Event.smt_medium], by simp, ?_, ?_⟩
          · exact same_memory_trans
              (same_memory_trans (same_memory_load_state env cpu m) (same_memory_emit _ _))
              (same_memory_trans (same_memory_mftb env _) (same_memory_emit _ _))
          · constructor
            · intro c s hm
              simp at hm
              obtain ⟨rfl, rfl⟩ := hm
              exact ⟨rfl, m.clock, rfl⟩
            · simp
            · intro _ hm
              simp at hm
              exact hs hm.symm
            · intro _
              refine ⟨ht, _, _, rfl, hl, ?_⟩
              intro e hm
              simp at hm
              rcases hm with rfl | rfl <;> rfl
            · simp
            · intro e hm
              simp at hm
              rcases hm with rfl | rfl | rfl | rfl <;> rfl
        · have hw : wait_loop env cpu state timeout_tb end_tb (fuel + 1) m
              = wait_loop env cpu state timeout_tb end_tb fuel
                  (mftb env (emit Event.barrier (load_state env cpu m).2)).2 := by
            rw [wait_loop]
            simp only [load_state_fst, ne_eq, hs, not_false_eq_true, if_true, ht, hl, if_false]
          rw [hw]
          obtain ⟨ev, h1, h2, h3⟩ :=
            ih (mftb env (emit Event.barrier (load_state env cpu m).2)).2
          refine ⟨[Event.load_state cpu (env.cpu_state m.clock cpu), Event.barrier,
              Event.load_tb (mftb env (emit Event.barrier (load_state env cpu m).2)).1] ++ ev,
            by simpa using h1,
            same_memory_trans
              (same_memory_trans (same_memory_load_state env cpu m) (same_memory_emit _ _))
              (same_memory_trans (same_memory_mftb env _) h2),
            LoopSpec.prepend _ ?_ ?_ ?_ h3⟩
          · intro c s hm
            simp at hm
            obtain ⟨rfl, rfl⟩ := hm
            exact ⟨⟨rfl, m.clock, rfl⟩, hs⟩
          · intro e hm
            simp only [List.mem_cons, List.mem_singleton, List.not_mem_nil, or_false] at hm
            rcases hm with rfl | rfl | rfl
            · rfl
            · rfl
            · simpa [late] using hl
          · intro e hm
            simp only [List.mem_cons, List.mem_singleton, List.not_mem_nil, or_false] at hm
            rcases hm with rfl | rfl | rfl <;> rfl

/-- A successful wait on one unit may be followed by the return to medium priority. -/
theorem LoopSpec.append_medium {env : Env} {cpu : Nat} {state : cpu_thread_state}
    {timeout_tb end_tb : Nat} {ev : List Event}
    (h : LoopSpec env cpu state timeout_tb end_tb (some true) ev) :
    LoopSpec env cpu state timeout_tb end_tb (some true) (ev ++ [Event.smt_medium]) where
  loads := by
    intro c s hm
    simp at hm
    exact h.loads c s hm
  seen := fun hr => List.mem_append.2 (Or.inl (h.seen hr))
  unseen := fun hr => absurd rfl hr
  failed := by simp
  on_time := by
    intro hr e hm
    rcases List.mem_append.1 hm with hm | hm
    · exact h.on_time hr e hm
    · simp at hm
      subst hm
      rfl
  quiet := by
    intro e hm
    rcases List.mem_append.1 hm with hm | hm
    · exact h.quiet e hm
    · simp at hm
      subst hm
      rfl

theorem wait_cpu_spec (env : Env) (cpu : Nat) (state : cpu_thread_state)
    (timeout_tb end_tb fuel : Nat) (m : Machine) : ∃ ev,
      (wait_cpu env cpu state timeout_tb end_tb fuel m).2.trace = m.trace ++ ev ∧
      same_memory m (wait_cpu env cpu state timeout_tb end_tb fuel m).2 ∧
      LoopSpec env cpu state timeout_tb end_tb
        (wait_cpu env cpu state timeout_tb end_tb fuel m).1 ev := by
  by_cases hs : env.cpu_state m.clock cpu = state
  · have hw : wait_cpu env cpu state timeout_tb end_tb fuel m
        = (some true, (load_state env cpu m).2) := by
      simp [wait_cpu, hs]
    rw [hw]
    refine ⟨[Event.load_state cpu (env.cpu_state m.clock cpu)], by simp,
      same_memory_load_state env cpu m, ?_⟩
    constructor <;> simp [hs, late, poll_event]
    exact ⟨m.clock, hs.symm⟩
  · obtain ⟨ev, h1, h2, h3⟩ := wait_loop_spec env cpu state timeout_tb end_tb fuel
      (emit Event.smt_lowest (load_state env cpu m).2)
    have hpre : LoopSpec env cpu state timeout_tb end_tb
        (wait_loop env cpu state timeout_tb end_tb fuel
          (emit Event.smt_lowest (load_state env cpu m).2)).1
        ([Event.load_state cpu (env.cpu_state m.clock cpu), Event.smt_lowest] ++ ev) := by
      refine LoopSpec.prepend _ ?_ ?_ ?_ h3
      · intro c s hm
        simp at hm
        obtain ⟨rfl, rfl⟩ := hm
        exact ⟨⟨rfl, m.clock, rfl⟩, hs⟩
      · intro e hm
        simp at hm
        rcases hm with rfl | rfl <;> rfl
      · intro e hm
        simp at hm
        rcases hm with rfl | rfl <;> rfl
    have hmem : same_memory m (wait_loop env cpu state timeout_tb end_tb fuel
        (emit Event.smt_lowest (load_state env cpu m).2)).2 :=
      same_memory_trans
        (same_memory_trans (same_memory_load_state env cpu m) (same_memory_emit _ _)) h2
    have hw : wait_cpu env cpu state timeout_tb end_tb fuel m
        = match wait_loop env cpu state timeout_tb end_tb fuel
            (emit Event.smt_lowest (load_state env cpu m).2) with
          | (some true, m1) => (some true, emit Event.smt_medium m1)
          | r => r := by
      simp [wait_cpu, hs]
    rw [hw]
    rcases hr : wait_loop env cpu state timeout_tb end_tb fuel
      (emit Event.smt_lowest (load_state env cpu m).2) with ⟨r, m1⟩
    rw [hr] at h1 hpre hmem
    simp only at h1 hpre hmem
    rcases r with _ | _ | _
    · exact ⟨_, by simpa using h1, hmem, hpre⟩
    · exact ⟨_, by simpa using h1, hmem, hpre⟩
    · refine ⟨([Event.load_state cpu (env.cpu_state m.clock cpu), Event.smt_lowest] ++ ev)
          ++ [Event.smt_medium], ?_, same_memory_trans hmem (same_memory_emit _ _),
          hpre.append_medium⟩
      simp at h1
      simp [h1]

theorem wait_cpus_spec (env : Env) (me : Nat) (state : cpu_thread_state)
    (timeout_tb end_tb fuel : Nat) : ∀ (l : List Nat) (m : Machine),
      l.Pairwise (fun a b => a < b) → ∃ ev,
      (wait_cpus env me state timeout_tb end_tb fuel l m).2.trace = m.trace ++ ev ∧
      same_memory m (wait_cpus env me state timeout_tb end_tb fuel l m).2 ∧
      CpusSpec env me state timeout_tb end_tb l
        (wait_cpus env me state timeout_tb end_tb fuel l m).1 ev := by
  intro l
  induction l with
  | nil =>
    intro m _
    refine ⟨[], by simp [wait_cpus], same_memory_refl m, ?_⟩
    constructor <;> simp [wait_cpus]
  | cons cpu rest ih =>
    intro m hp
    have hlt : ∀ c ∈ rest, cpu < c := (List.pairwise_cons.1 hp).1
    have hp2 : rest.Pairwise (fun a b => a < b) := (List.pairwise_cons.1 hp).2
    by_cases hme : cpu = me
    · have hw : wait_cpus env me state timeout_tb end_tb fuel (cpu :: rest) m
          = wait_cpus env me state timeout_tb end_tb fuel rest m := by
        simp [wait_cpus, hme]
      rw [hw]
      obtain ⟨ev, h1, h2, h3⟩ := ih m hp2
      refine ⟨ev, h1, h2, ?_⟩
      constructor
      · intro c s hm
        exact ⟨⟨List.mem_cons_of_mem _ (h3.loads c s hm).1.1, (h3.loads c s hm).1.2⟩,
          (h3.loads c s hm).2⟩
      · intro hr c hc hne
        rcases List.mem_cons.1 hc with rfl | hc
        · exact absurd hme hne
        · exact h3.seen hr c hc hne
      · intro hr
        obtain ⟨u, hu, hne, hns, hle, hbefore⟩ := h3.stuck hr
        refine ⟨u, List.mem_cons_of_mem _ hu, hne, hns, hle, ?_⟩
        intro c hc hcne hcu
        rcases List.mem_cons.1 hc with rfl | hc
        · exact absurd hme hcne
        · exact hbefore c hc hcne hcu
      · exact h3.failed
      · exact h3.on_time
      · exact h3.quiet
    · obtain ⟨ev1, a1, a2, a3⟩ := wait_cpu_spec env cpu state timeout_tb end_tb fuel m
      have hw : wait_cpus env me state timeout_tb end_tb fuel (cpu :: rest) m
          = match wait_cpu env cpu state timeout_tb end_tb fuel m with
            | (some true, m1) => wait_cpus env me state timeout_tb end_tb fuel rest m1
            | r => r := by
        simp [wait_cpus, hme]
      rw [hw]
      rcases hr : wait_cpu env cpu state timeout_tb end_tb fuel m with ⟨r, m1⟩
      rw [hr] at a1 a2 a3
      simp only at a1 a2 a3
      have hstop : r ≠ some true → CpusSpec env me state timeout_tb end_tb (cpu :: rest) r ev1 := by
        intro hne
        constructor
        · intro c s hm
          obtain ⟨rfl, ht⟩ := a3.loads c s hm
          exact ⟨⟨List.mem_cons_self _ _, hme⟩, ht⟩
        · intro h
          exact absurd h hne
        · intro _
          refine ⟨cpu, List.mem_cons_self _ _, hme, a3.unseen hne, ?_, ?_⟩
          · intro c s hm
            exact le_of_eq (a3.loads c s hm).1
          · intro c hc _ hcu
            rcases List.mem_cons.1 hc with rfl | hc
            · exact absurd hcu (lt_irrefl _)
            · exact absurd hcu (not_lt.2 (le_of_lt (hlt c hc)))
        · exact a3.failed
        · exact a3.on_time
        · exact a3.quiet
      rcases r with _ | _ | _
      · exact ⟨ev1, a1, a2, hstop (by simp)⟩
      · exact ⟨ev1, a1, a2, hstop (by simp)⟩
      · obtain ⟨ev2, b1, b2, b3⟩ := ih m1 hp2
        refine ⟨ev1 ++ ev2, by rw [b1, a1, List.append_assoc], same_memory_trans a2 b2, ?_⟩
        constructor
        · intro c s hm
          rcases List.mem_append.1 hm with hm | hm
          · obtain ⟨rfl, ht⟩ := a3.loads c s hm
            exact ⟨⟨List.mem_cons_self _ _, hme⟩, ht⟩
          · exact ⟨⟨List.mem_cons_of_mem _ (b3.loads c s hm).1.1, (b3.loads c s hm).1.2⟩,
              (b3.loads c s hm).2⟩
        · intro h c hc hne
          rcases List.mem_cons.1 hc with rfl | hc
          · exact List.mem_append.2 (Or.inl (a3.seen rfl))
          · exact List.mem_append.2 (Or.inr (b3.seen h c hc hne))
        · intro h
          obtain ⟨u, hu, hne, hns, hle, hbefore⟩ := b3.stuck h
          refine ⟨u, List.mem_cons_of_mem _ hu, hne, ?_, ?_, ?_⟩
          · intro hm
            rcases List.mem_append.1 hm with hm | hm
            · exact absurd (a3.loads u state hm).1 (ne_of_gt (hlt u hu))
            · exact hns hm
          · intro c s hm
            rcases List.mem_append.1 hm with hm | hm
            · rw [(a3.loads c s hm).1]
              exact le_of_lt (hlt u hu)
            · exact hle c s hm
          · intro c hc hcne hcu
            rcases List.mem_cons.1 hc with rfl | hc
            · exact List.mem_append.2 (Or.inl (a3.seen rfl))
            · exact List.mem_append.2 (Or.inr (hbefore c hc hcne hcu))
        · intro h
          obtain ⟨h0, ev0, v, he, hv, hb⟩ := b3.failed h
          refine ⟨h0, ev1 ++ ev0, v, by rw [he, List.append_assoc], hv, ?_⟩
          intro e hm
          rcases List.mem_append.1 hm with hm | hm
          · exact a3.on_time (by simp) e hm
          · exact hb e hm
        · intro h e hm
          rcases List.mem_append.1 hm with hm | hm
          · exact a3.on_time (by simp) e hm
          · exact b3.on_time h e hm
        · intro e hm
          rcases List.mem_append.1 hm with hm | hm
          · exact a3.quiet e hm
          · exact b3.quiet e hm

theorem ungarded_cpus_pairwise (cpus : List cpu_thread) :
    (ungarded_cpus cpus).Pairwise (fun a b => a < b) :=
  List.Pairwise.filter _ (List.pairwise_lt_range cpus.length)

/-- A successful loop over the units may be followed by the closing `sync()`. -/
theorem CpusSpec.append_sync {env : Env} {me : Nat} {state : cpu_thread_state}
    {timeout_tb end_tb : Nat} {l : List Nat} {ev : List Event}
    (h : CpusSpec env me state timeout_tb end_tb l (some true) ev) :
    CpusSpec env me state timeout_tb end_tb l (some true) (ev ++ [Event.sync]) where
  loads := by
    intro c s hm
    simp at hm
    exact h.loads c s hm
  seen := fun hr c hc hne => List.mem_append.2 (Or.inl (h.seen hr c hc hne))
  stuck := fun hr => absurd rfl hr
  failed := by simp
  on_time := by
    intro hr e hm
    rcases List.mem_append.1 hm with hm | hm
    · exact h.on_time hr e hm
    · simp at hm
      subst hm
      rfl
  quiet := by
    intro e hm
    rcases List.mem_append.1 hm with hm | hm
    · exact h.quiet e hm
    · simp at hm
      subst hm
      rfl

theorem wait_event_of_poll (e : Event) (h : poll_event e = true) : wait_event e = true := by
  cases e <;> simp_all [wait_event, poll_event]

theorem ret_events_quiet (state : cpu_thread_state) (timeout_tb : Nat) (r : Option Bool) :
    ∀ e ∈ ret_events state timeout_tb r, wait_event e = true := by
  intro e he
  rcases r with _ | b
  · simp [ret_events] at he
  · simp [ret_events] at he
    subst he
    rfl

theorem load_state_not_mem_ret_events (state : cpu_thread_state) (timeout_tb : Nat)
    (r : Option Bool) (c : Nat) (v : cpu_thread_state) :
    Event.load_state c v ∉ ret_events state timeout_tb r := by
  rcases r with _ | b <;> simp [ret_events]

/-- The events of a call of `cpu_state_wait_all_others`: the read of the time base that
fixes the deadline, the opening `sync()`, the events `ev` of the loop (with the closing
`sync()` on success), then the record of the return. -/
theorem wait_all_spec (env : Env) (me : Nat) (state : cpu_thread_state)
    (timeout_tb fuel : Nat) (m : Machine) : ∃ ev,
      (cpu_state_wait_all_others env me state timeout_tb fuel m).2.trace
        = m.trace ++ (Event.load_tb (mftb env m).1 :: Event.sync ::
            (ev ++ ret_events state timeout_tb
              (cpu_state_wait_all_others env me state timeout_tb fuel m).1)) ∧
      same_memory m (cpu_state_wait_all_others env me state timeout_tb fuel m).2 ∧
      CpusSpec env me state timeout_tb (wait_end env timeout_tb m) (ungarded_cpus m.cpus)
        (cpu_state_wait_all_others env me state timeout_tb fuel m).1 ev := by
  obtain ⟨ev, h1, h2, h3⟩ := wait_cpus_spec env me state timeout_tb (wait_end env timeout_tb m)
    fuel (ungarded_cpus m.cpus) (emit Event.sync (mftb env m).2) (ungarded_cpus_pairwise m.cpus)
  have hmem : same_memory m (wait_cpus env me state timeout_tb (wait_end env timeout_tb m)
      fuel (ungarded_cpus m.cpus) (emit Event.sync (mftb env m).2)).2 :=
    same_memory_trans (same_memory_trans (same_memory_mftb env m) (same_memory_emit _ _)) h2
  unfold cpu_state_wait_all_others
  rcases hr : wait_cpus env me state timeout_tb (wait_end env timeout_tb m)
      fuel (ungarded_cpus m.cpus) (emit Event.sync (mftb env m).2) with ⟨r, m1⟩
  rw [hr] at h1 h3 hmem
  simp only at h1 h3 hmem
  rcases r with _ | _ | _
  · exact ⟨ev, by simpa [ret_events] using h1, hmem, h3⟩
  · refine ⟨ev, ?_, same_memory_trans hmem (same_memory_emit _ _), h3⟩
    simp at h1
    simp [h1, ret_events]
  · refine ⟨ev ++ [Event.sync], ?_,
      same_memory_trans hmem (same_memory_trans (same_memory_emit _ _) (same_memory_emit _ _)),
      h3.append_sync⟩
    simp at h1
    simp [h1, ret_events]

/-- The result and the final clock of the inner loop only depend on the clock, on the
time base and on the states of the unit waited for. -/
theorem wait_loop_congr (env env2 : Env) (cpu : Nat) (state : cpu_thread_state)
    (timeout_tb end_tb : Nat) (hs : ∀ t, env2.cpu_state t cpu = env.cpu_state t cpu)
    (ht : env2.mftb = env.mftb) (hc : env2.tb_compare = env.tb_compare) :
    ∀ (fuel : Nat) (m m2 : Machine), m2.clock = m.clock →
      (wait_loop env2 cpu state timeout_tb end_tb fuel m2).1
          = (wait_loop env cpu state timeout_tb end_tb fuel m).1 ∧
      (wait_loop env2 cpu state timeout_tb end_tb fuel m2).2.clock
          = (wait_loop env cpu state timeout_tb end_tb fuel m).2.clock := by
  intro fuel
  induction fuel with
  | zero =>
    intro m m2 h
    simp [wait_loop, h]
  | succ fuel ih =>
    intro m m2 h
    rw [wait_loop, wait_loop]
    simp only [load_state_fst, mftb_fst, emit_clock, load_state_clock, hs, ht, hc, h]
    split_ifs
    · simp [h]
    · exact ih _ _ (by simp [h])
    · exact ih _ _ (by simp [h])
    · simp [h]

theorem wait_cpu_congr (env env2 : Env) (cpu : Nat) (state : cpu_thread_state)
    (timeout_tb end_tb fuel : Nat) (hs : ∀ t, env2.cpu_state t cpu = env.cpu_state t cpu)
    (ht : env2.mftb = env.mftb) (hc : env2.tb_compare = env.tb_compare)
    (m m2 : Machine) (h : m2.clock = m.clock) :
      (wait_cpu env2 cpu state timeout_tb end_tb fuel m2).1
          = (wait_cpu env cpu state timeout_tb end_tb fuel m).1 ∧
      (wait_cpu env2 cpu state timeout_tb end_tb fuel m2).2.clock
          = (wait_cpu env cpu state timeout_tb end_tb fuel m).2.clock := by
  have hl := wait_loop_congr env env2 cpu state timeout_tb end_tb hs ht hc fuel
    (emit Event.smt_lowest (load_state env cpu m).2)
    (emit Event.smt_lowest (load_state env2 cpu m2).2) (by simp [h])
  unfold wait_cpu
  simp only [load_state_fst, hs, h]
  split_ifs
  · rcases h1 : wait_loop env cpu state timeout_tb end_tb fuel
        (emit Event.smt_lowest (load_state env cpu m).2) with ⟨r, m1⟩
    rcases h2 : wait_loop env2 cpu state timeout_tb end_tb fuel
        (emit Event.smt_lowest (load_state env2 cpu m2).2) with ⟨r2, m3⟩
    rw [h1, h2] at hl
    simp only at hl
    obtain ⟨rfl, hk⟩ := hl
    rcases r2 with _ | _ | _ <;> simp [hk]
  · simp [h]

theorem wait_cpus_congr (env env2 : Env) (me : Nat) (state : cpu_thread_state)
    (timeout_tb end_tb fuel : Nat)
    (ht : env2.mftb = env.mftb) (hc : env2.tb_compare = env.tb_compare) :
    ∀ (l : List Nat) (m m2 : Machine), m2.clock = m.clock →
      (∀ cpu ∈ l, cpu ≠ me → ∀ t, env2.cpu_state t cpu = env.cpu_state t cpu) →
      (wait_cpus env2 me state timeout_tb end_tb fuel l m2).1
          = (wait_cpus env me state timeout_tb end_tb fuel l m).1 ∧
      (wait_cpus env2 me state timeout_tb end_tb fuel l m2).2.clock
          = (wait_cpus env me state timeout_tb end_tb fuel l m).2.clock := by
  intro l
  induction l with
  | nil =>
    intro m m2 h _
    simp [wait_cpus, h]
  | cons cpu rest ih =>
    intro m m2 h hs
    have hrest : ∀ c ∈ rest, c ≠ me → ∀ t, env2.cpu_state t c = env.cpu_state t c :=
      fun c hc => hs c (List.mem_cons_of_mem _ hc)
    by_cases hme : cpu = me
    · simp only [wait_cpus, hme, if_true]
      exact ih m m2 h hrest
    · have hl := wait_cpu_congr env env2 cpu state timeout_tb end_tb fuel
        (hs cpu (List.mem_cons_self _ _) hme) ht hc m m2 h
      simp only [wait_cpus, hme, if_false]
      rcases h1 : wait_cpu env cpu state timeout_tb end_tb fuel m with ⟨r, m1⟩
      rcases h2 : wait_cpu env2 cpu state timeout_tb end_tb fuel m2 with ⟨r2, m3⟩
      rw [h1, h2] at hl
      simp only at hl
      obtain ⟨rfl, hk⟩ := hl
      rcases r2 with _ | _ | _
      · simp [hk]
      · simp [hk]
      · exact ih m1 m3 hk hrest

theorem wait_loop_clock_le (env : Env) (cpu : Nat) (state : cpu_thread_state)
    (timeout_tb end_tb : Nat) : ∀ (fuel : Nat) (m : Machine),
      m.clock ≤ (wait_loop env cpu state timeout_tb end_tb fuel m).2.clock := by
  intro fuel
  induction fuel with
  | zero => intro m; simp [wait_loop]
  | succ fuel ih =>
    intro m
    rw [wait_loop]
    split_ifs
    · simp; omega
    · exact le_trans (by simp; omega) (ih _)
    · exact le_trans (by simp) (ih _)
    · simp

theorem wait_cpu_clock_le (env : Env) (cpu : Nat) (state : cpu_thread_state)
    (timeout_tb end_tb fuel : Nat) (m : Machine) :
      m.clock ≤ (wait_cpu env cpu state timeout_tb end_tb fuel m).2.clock := by
  have h := wait_loop_clock_le env cpu state timeout_tb end_tb fuel
    (emit Event.smt_lowest (load_state env cpu m).2)
  unfold wait_cpu
  split_ifs
  · rcases h1 : wait_loop env cpu state timeout_tb end_tb fuel
        (emit Event.smt_lowest (load_state env cpu m).2) with ⟨r, m1⟩
    rw [h1] at h
    simp at h
    rcases r with _ | _ | _ <;> simp <;> omega
  · simp

/-- Once the time base stays past the deadline from clock `T` on, a bounded wait on one
unit returns within `T - clock + 1` iterations. -/
theorem wait_loop_returns (env : Env) (cpu : Nat) (state : cpu_thread_state)
    (timeout_tb end_tb T : Nat) (h0 : timeout_tb ≠ 0)
    (hT : ∀ t, T ≤ t → env.tb_compare (env.mftb t % 2 ^ 64) end_tb = tb_cmpval.TB_AAFTERB) :
    ∀ (fuel : Nat) (m : Machine), T - m.clock < fuel →
      (wait_loop env cpu state timeout_tb end_tb fuel m).1 ≠ none := by
  intro fuel
  induction fuel with
  | zero => intro m h; omega
  | succ fuel ih =>
    intro m h
    rw [wait_loop]
    split_ifs with h1 h2
    · simp
    · refine ih _ ?_
      simp only [mftb_fst, emit_clock, load_state_clock] at h2
      have hlt : m.clock + 1 < T := by
        by_contra hc
        exact h2 (hT _ (not_lt.1 hc))
      simp
      omega
    · simp

theorem wait_cpu_returns (env : Env) (cpu : Nat) (state : cpu_thread_state)
    (timeout_tb end_tb T : Nat) (h0 : timeout_tb ≠ 0)
    (hT : ∀ t, T ≤ t → env.tb_compare (env.mftb t % 2 ^ 64) end_tb = tb_cmpval.TB_AAFTERB)
    (fuel : Nat) (m : Machine) (h : T - m.clock < fuel) :
      (wait_cpu env cpu state timeout_tb end_tb fuel m).1 ≠ none := by
  have hl := wait_loop_returns env cpu state timeout_tb end_tb T h0 hT fuel
    (emit Event.smt_lowest (load_state env cpu m).2) (by simp; omega)
  unfold wait_cpu
  split_ifs
  · rcases h1 : wait_loop env cpu state timeout_tb end_tb fuel
        (emit Event.smt_lowest (load_state env cpu m).2) with ⟨r, m1⟩
    rw [h1] at hl
    rcases r with _ | _ | _ <;> simp at hl ⊢
  · simp

theorem wait_cpus_returns (env : Env) (me : Nat) (state : cpu_thread_state)
    (timeout_tb end_tb T : Nat) (h0 : timeout_tb ≠ 0)
    (hT : ∀ t, T ≤ t → env.tb_compare (env.mftb t % 2 ^ 64) end_tb = tb_cmpval.TB_AAFTERB)
    (fuel : Nat) : ∀ (l : List Nat) (m : Machine), T - m.clock < fuel →
      (wait_cpus env me state timeout_tb end_tb fuel l m).1 ≠ none := by
  intro l
  induction l with
  | nil => intro m _; simp [wait_cpus]
  | cons cpu rest ih =>
    intro m h
    by_cases hme : cpu = me
    · simp only [wait_cpus, hme, if_true]
      exact ih m h
    · have hc := wait_cpu_returns env cpu state timeout_tb end_tb T h0 hT fuel m h
      have hk := wait_cpu_clock_le env cpu state timeout_tb end_tb fuel m
      simp only [wait_cpus, hme, if_false]
      rcases h1 : wait_cpu env cpu state timeout_tb end_tb fuel m with ⟨r, m1⟩
      rw [h1] at hc hk
      simp only at hc hk
      rcases r with _ | _ | _
      · exact absurd rfl hc
      · simp
      · exact ih m1 (by omega)

theorem update_cpu_length (f : cpu_thread → cpu_thread) :
    ∀ (cpus : List cpu_thread) (i : Nat), (update_cpu f cpus i).length = cpus.length := by
  intro cpus
  induction cpus with
  | nil => intro i; rfl
  | cons c cs ih =>
    intro i
    cases i with
    | zero => rfl
    | succ n => simp [update_cpu, ih]

theorem cpu_at_update_cpu (f : cpu_thread → cpu_thread) :
    ∀ (cpus : List cpu_thread) (i c : Nat),
      cpu_at (update_cpu f cpus i) c
        = (cpu_at cpus c).map (fun x => if c = i then f x else x) := by
  intro cpus
  induction cpus with
  | nil => intro i c; simp [update_cpu, cpu_at]
  | cons x xs ih =>
    intro i c
    cases i with
    | zero =>
      cases c with
      | zero => simp [update_cpu, cpu_at]
      | succ k => simp [update_cpu, cpu_at]
    | succ n =>
      cases c with
      | zero => simp [update_cpu, cpu_at]
      | succ k =>
        have h := ih n k
        simpa [update_cpu, cpu_at] using h

/-- A store that keeps the `garded` flag keeps the list of non-garded units. -/
theorem ungarded_cpus_update_cpu (f : cpu_thread → cpu_thread)
    (hf : ∀ c, (f c).garded = c.garded) (cpus : List cpu_thread) (i : Nat) :
    ungarded_cpus (update_cpu f cpus i) = ungarded_cpus cpus := by
  unfold ungarded_cpus all_cpus
  rw [update_cpu_length]
  apply List.filter_congr
  intro c _
  unfold is_ungarded
  rw [cpu_at_update_cpu]
  cases cpu_at cpus c with
  | none => rfl
  | some x =>
    by_cases h : c = i <;> simp [h, hf]

theorem clear_save_r1_trace : ∀ (l : List Nat) (m : Machine),
    (clear_save_r1 l m).trace = m.trace ++ l.map (fun c => Event.store_save_r1 c 0) := by
  intro l
  induction l with
  | nil => intro m; simp [clear_save_r1]
  | cons c rest ih =>
    intro m
    rw [clear_save_r1, ih]
    simp [store_save_r1]

theorem clear_save_r1_frame : ∀ (l : List Nat) (m : Machine),
    (clear_save_r1 l m).clock = m.clock ∧
    ungarded_cpus (clear_save_r1 l m).cpus = ungarded_cpus m.cpus ∧
    (clear_save_r1 l m).fast_boot_release = m.fast_boot_release ∧
    (clear_save_r1 l m).fast_reboot_disabled = m.fast_reboot_disabled ∧
    (clear_save_r1 l m).fast_reboot_count = m.fast_reboot_count := by
  intro l
  induction l with
  | nil => intro m; simp [clear_save_r1]
  | cons c rest ih =>
    intro m
    rw [clear_save_r1]
    obtain ⟨h1, h2, h3, h4, h5⟩ := ih (store_save_r1 c 0 m)
    refine ⟨h1, ?_, h3, h4, h5⟩
    rw [h2]
    exact ungarded_cpus_update_cpu (fun x => { x with save_r1 := 0 }) (fun _ => rfl) m.cpus c

theorem fast_reboot_broadcast_trace (env : Env) (m : Machine) :
    (fast_reboot_broadcast env m).trace = m.trace ++
      ((ungarded_cpus m.cpus).map (fun c => Event.store_save_r1 c 0) ++
        [Event.copy_exception_vectors, Event.setup_reset_vector,
          Event.sreset_all_others env.sreset_all_others]) := by
  simp [fast_reboot_broadcast, clear_save_r1_trace]

theorem fast_reboot_broadcast_frame (env : Env) (m : Machine) :
    (fast_reboot_broadcast env m).clock = m.clock ∧
    ungarded_cpus (fast_reboot_broadcast env m).cpus = ungarded_cpus m.cpus := by
  obtain ⟨h1, h2, _⟩ := clear_save_r1_frame (ungarded_cpus m.cpus) m
  exact ⟨by simpa [fast_reboot_broadcast] using h1, by simpa [fast_reboot_broadcast] using h2⟩

/-- A unit that never shows the target state keeps the call from succeeding. -/
theorem wait_all_never_succeeds (env : Env) (me : Nat) (state : cpu_thread_state)
    (timeout_tb fuel : Nat) (m : Machine) (u : Nat) (hu : u ∈ ungarded_cpus m.cpus)
    (hne : u ≠ me) (hn : ∀ t, env.cpu_state t u ≠ state) :
    (cpu_state_wait_all_others env me state timeout_tb fuel m).1 ≠ some true := by
  intro hr
  obtain ⟨ev, _, _, h3⟩ := wait_all_spec env me state timeout_tb fuel m
  obtain ⟨_, t, ht⟩ := h3.loads u state (h3.seen hr u hu hne)
  exact hn t ht.symm

/-- With a non-zero timeout, a unit that never shows the target state and a time base
that stays past the deadline from clock `T` on, the call returns failure when given
more than `T - clock` iterations. -/
theorem wait_all_fails (env : Env) (me : Nat) (state : cpu_thread_state)
    (timeout_tb fuel : Nat) (m : Machine) (h0 : timeout_tb ≠ 0)
    (u : Nat) (hu : u ∈ ungarded_cpus m.cpus)
    (hne : u ≠ me) (hn : ∀ t, env.cpu_state t u ≠ state) (T : Nat)
    (hT : ∀ t, T ≤ t → env.tb_compare (env.mftb t % 2 ^ 64) (wait_end env timeout_tb m)
      = tb_cmpval.TB_AAFTERB)
    (hf : T - m.clock < fuel) :
    (cpu_state_wait_all_others env me state timeout_tb fuel m).1 = some false := by
  have hsome := wait_cpus_returns env me state timeout_tb (wait_end env timeout_tb m) T h0 hT
    fuel (ungarded_cpus m.cpus) (emit Event.sync (mftb env m).2) (by simp; omega)
  have hnt := wait_all_never_succeeds env me state timeout_tb fuel m u hu hne hn
  unfold cpu_state_wait_all_others at hnt ⊢
  rcases h1 : wait_cpus env me state timeout_tb (wait_end env timeout_tb m) fuel
    (ungarded_cpus m.cpus) (emit Event.sync (mftb env m).2) with ⟨r, m1⟩
  rw [h1] at hsome hnt
  rcases r with _ | _ | _
  · exact absurd rfl hsome
  · rfl
  · exact absurd rfl hnt

theorem wait_end_broadcast (env : Env) (timeout_tb : Nat) (m : Machine) :
    wait_end env timeout_tb (fast_reboot_broadcast env m) = wait_end env timeout_tb m := by
  simp [wait_end, (fast_reboot_broadcast_frame env m).1]

/-- The events of the part of `fast_reboot` that follows the preparation: the stores
of the saved resume addresses, the vectors, the broadcast, then `ev`, whose shape is
fixed by the way the function ends. -/
theorem fast_reboot_commit_spec (env : Env) (me fuel : Nat) (m : Machine) : ∃ ev,
    (fast_reboot_commit env me fuel m).2.trace = m.trace ++
      (((ungarded_cpus m.cpus).map (fun c => Event.store_save_r1 c 0) ++
        [Event.copy_exception_vectors, Event.setup_reset_vector,
          Event.sreset_all_others env.sreset_all_others]) ++ ev) ∧
    (env.sreset_all_others ≠ OPAL_SUCCESS →
      (fast_reboot_commit env me fuel m).1 = Outcome.returned ∧
      ev = [Event.prlog log_level.PR_NOTICE
        "RESET: Fast reboot failed to system reset secondaries\n"]) ∧
    (env.sreset_all_others = OPAL_SUCCESS →
      ((fast_reboot_commit env me fuel m).1 = Outcome.spinning ∧
        ∀ e ∈ ev, wait_event e = true) ∨
      ((fast_reboot_commit env me fuel m).1 = Outcome.returned ∧
        ∃ ev0 v, ev = ev0 ++ [Event.load_tb v, Event.smt_medium,
            Event.wait_returned cpu_thread_state.cpu_state_present (env.msecs_to_tb 100) false,
            Event.prlog log_level.PR_NOTICE
              "RESET: Fast reboot timed out waiting for secondaries to call in\n"] ∧
          env.tb_compare v (wait_end env (env.msecs_to_tb 100) m) = tb_cmpval.TB_AAFTERB ∧
          ∀ e ∈ ev0, wait_event e = true) ∨
      ((fast_reboot_commit env me fuel m).1 = Outcome.branched ∧
        ∃ ev0, ev = ev0 ++ [Event.prlog log_level.PR_DEBUG
              "RESET: Releasing special wakeups...\n",
            Event.sreset_all_finish,
            Event.opal_quiesce quiesce_type.QUIESCE_RESUME_FAST_REBOOT (-1)
              (env.opal_quiesce quiesce_type.QUIESCE_RESUME_FAST_REBOOT),
            Event.branch_0x100] ∧
          (∀ e ∈ ev0, wait_event e = true) ∧
          ∀ u ∈ ungarded_cpus m.cpus, u ≠ me →
            Event.load_state u cpu_thread_state.cpu_state_present ∈ ev0)) := by
  by_cases hs : env.sreset_all_others ≠ OPAL_SUCCESS
  · refine ⟨[Event.prlog log_level.PR_NOTICE
      "RESET: Fast reboot failed to system reset secondaries\n"], ?_, ?_, ?_⟩
    · simp [fast_reboot_commit, hs, fast_reboot_broadcast_trace]
    · intro _
      simp [fast_reboot_commit, hs]
    · intro h
      exact absurd h hs
  · have hs2 : env.sreset_all_others = OPAL_SUCCESS := not_not.1 hs
    obtain ⟨ev, h1, _, h3⟩ := wait_all_spec env me cpu_thread_state.cpu_state_present
      (env.msecs_to_tb 100) fuel (fast_reboot_broadcast env m)
    rw [wait_end_broadcast, (fast_reboot_broadcast_frame env m).2] at h3
    rw [fast_reboot_broadcast_trace] at h1
    have hw : fast_reboot_commit env me fuel m
        = match cpu_state_wait_all_others env me cpu_thread_state.cpu_state_present
            (env.msecs_to_tb 100) fuel (fast_reboot_broadcast env m) with
          | (none, m1) => (Outcome.spinning, m1)
          | (some false, m1) =>
            (Outcome.returned,
              emit (Event.prlog log_level.PR_NOTICE
                "RESET: Fast reboot timed out waiting for secondaries to call in\n") m1)
          | (some true, m1) =>
            (Outcome.branched,
              emit Event.branch_0x100
                (opal_quiesce env quiesce_type.QUIESCE_RESUME_FAST_REBOOT
                  (emit Event.sreset_all_finish
                    (emit (Event.prlog log_level.PR_DEBUG
                      "RESET: Releasing special wakeups...\n") m1)))) := by
      simp [fast_reboot_commit, hs2]
    rw [hw]
    have hquiet : ∀ r, ∀ e ∈ Event.load_tb (mftb env (fast_reboot_broadcast env m)).1 ::
        Event.sync :: (ev ++ ret_events cpu_thread_state.cpu_state_present
          (env.msecs_to_tb 100) r), wait_event e = true := by
      intro r e he
      rcases List.mem_cons.1 he with rfl | he
      · rfl
      · rcases List.mem_cons.1 he with rfl | he
        · rfl
        · rcases List.mem_append.1 he with he | he
          · exact wait_event_of_poll e (h3.quiet e he)
          · exact ret_events_quiet _ _ _ e he
    rcases hr : cpu_state_wait_all_others env me cpu_thread_state.cpu_state_present
      (env.msecs_to_tb 100) fuel (fast_reboot_broadcast env m) with ⟨r, m1⟩
    rw [hr] at h1 h3
    simp only at h1 h3
    rcases r with _ | _ | _
    · refine ⟨_, by simpa using h1, fun h => absurd h hs, fun _ => Or.inl ⟨rfl, hquiet none⟩⟩
    · obtain ⟨_, ev0, v, he, hv, _⟩ := h3.failed rfl
      refine ⟨(Event.load_tb (mftb env (fast_reboot_broadcast env m)).1 :: Event.sync ::
            (ev ++ ret_events cpu_thread_state.cpu_state_present
              (env.msecs_to_tb 100) (some false)))
          ++ [Event.prlog log_level.PR_NOTICE
            "RESET: Fast reboot timed out waiting for secondaries to call in\n"],
        by simp [h1], fun h => absurd h hs, fun _ => Or.inr (Or.inl ⟨rfl,
          Event.load_tb (mftb env (fast_reboot_broadcast env m)).1 :: Event.sync :: ev0, v,
          by simp [he, ret_events], hv, ?_⟩)⟩
      intro e hm
      apply hquiet (some false) e
      rw [he]
      rcases List.mem_cons.1 hm with rfl | hm
      · exact List.mem_cons_self _ _
      · rcases List.mem_cons.1 hm with rfl | hm
        · simp
        · simp [hm]
    · refine ⟨(Event.load_tb (mftb env (fast_reboot_broadcast env m)).1 :: Event.sync ::
            (ev ++ ret_events cpu_thread_state.cpu_state_present
              (env.msecs_to_tb 100) (some true)))
          ++ [Event.prlog log_level.PR_DEBUG "RESET: Releasing special wakeups...\n",
            Event.sreset_all_finish,
            Event.opal_quiesce quiesce_type.QUIESCE_RESUME_FAST_REBOOT (-1)
              (env.opal_quiesce quiesce_type.QUIESCE_RESUME_FAST_REBOOT),
            Event.branch_0x100],
        by simp [h1, opal_quiesce], fun h => absurd h hs,
        fun _ => Or.inr (Or.inr ⟨rfl, _, rfl, hquiet (some true), ?_⟩)⟩
      intro u hu hne
      exact List.mem_cons_of_mem _ (List.mem_cons_of_mem _
        (List.mem_append.2 (Or.inl (h3.seen rfl u hu hne))))

theorem after_broadcast_of_wait (e : Event) (h : wait_event e = true) :
    after_broadcast_event e = true := by
  cases e <;> simp_all [wait_event, poll_event, after_broadcast_event]

/-- Every effect of `fast_reboot` after the broadcast is one it may perform there. -/
theorem fast_reboot_commit_tail (env : Env) (me fuel : Nat) (m : Machine) : ∃ ev,
    (fast_reboot_commit env me fuel m).2.trace = m.trace ++
      (((ungarded_cpus m.cpus).map (fun c => Event.store_save_r1 c 0) ++
        [Event.copy_exception_vectors, Event.setup_reset_vector,
          Event.sreset_all_others env.sreset_all_others]) ++ ev) ∧
    ∀ e ∈ ev, after_broadcast_event e = true := by
  obtain ⟨ev, h1, h2, h3⟩ := fast_reboot_commit_spec env me fuel m
  refine ⟨ev, h1, ?_⟩
  by_cases hs : env.sreset_all_others ≠ OPAL_SUCCESS
  · rw [(h2 hs).2]
    intro e he
    simp at he
    subst he
    rfl
  · rcases h3 (not_not.1 hs) with ⟨_, hq⟩ | ⟨_, ev0, v, he, _, hq⟩ | ⟨_, ev0, he, hq, _⟩
    · exact fun e he => after_broadcast_of_wait e (hq e he)
    · rw [he]
      intro e hm
      rcases List.mem_append.1 hm with hm | hm
      · exact after_broadcast_of_wait e (hq e hm)
      · simp at hm
        rcases hm with rfl | rfl | rfl | rfl <;> rfl
    · rw [he]
      intro e hm
      rcases List.mem_append.1 hm with hm | hm
      · exact after_broadcast_of_wait e (hq e hm)
      · simp at hm
        rcases hm with rfl | rfl | rfl | rfl <;> rfl

theorem fast_reboot_nvram_trace (env : Env) (m : Machine) :
    (fast_reboot_nvram env m).trace = m.trace ++ nvram_events env := by
  unfold fast_reboot_nvram nvram_events
  split_ifs <;> simp

theorem fast_reboot_nvram_frame (env : Env) (m : Machine) :
    (fast_reboot_nvram env m).clock = m.clock ∧ (fast_reboot_nvram env m).cpus = m.cpus := by
  unfold fast_reboot_nvram
  split_ifs <;> exact ⟨rfl, rfl⟩

theorem same_memory_nvram (env : Env) (m : Machine) :
    same_memory m (fast_reboot_nvram env m) := by
  unfold fast_reboot_nvram
  split_ifs
  · exact same_memory_emit _ _
  · exact same_memory_refl m

theorem same_memory_opal_quiesce (env : Env) (type : quiesce_type) (m : Machine) :
    same_memory m (opal_quiesce env type m) := same_memory_emit _ _

@[simp] theorem opal_quiesce_trace (env : Env) (type : quiesce_type) (m : Machine) :
    (opal_quiesce env type m).trace
      = m.trace ++ [Event.opal_quiesce type (-1) (env.opal_quiesce type)] := rfl

/-- The machine in which `fast_reboot` enters its part after the preparation. -/
theorem fast_reboot_prepared (env : Env) (m : Machine) :
    (fast_reboot_prepare env
      (opal_quiesce env quiesce_type.QUIESCE_HOLD (fast_reboot_nvram env m))).trace
        = m.trace ++ prepare_events env ∧
    (fast_reboot_prepare env
      (opal_quiesce env quiesce_type.QUIESCE_HOLD (fast_reboot_nvram env m))).clock
        = m.clock ∧
    (fast_reboot_prepare env
      (opal_quiesce env quiesce_type.QUIESCE_HOLD (fast_reboot_nvram env m))).cpus
        = m.cpus := by
  refine ⟨?_, ?_, ?_⟩
  · simp [fast_reboot_prepare, store_release, fast_reboot_nvram_trace, prepare_events]
  · simpa [fast_reboot_prepare, store_release, opal_quiesce] using
      (fast_reboot_nvram_frame env m).1
  · simpa [fast_reboot_prepare, store_release, opal_quiesce] using
      (fast_reboot_nvram_frame env m).2

theorem new_events_append (m m2 : Machine) (ev : List Event) (h : m2.trace = m.trace ++ ev) :
    new_events m m2 = ev := by
  simp [new_events, h]

/-- The events of a call of `fast_reboot` that reaches the part after the preparation,
relative to the machine `m` in which `fast_reboot` was called. -/
theorem fast_reboot_committed (env : Env) (me fuel : Nat) (m : Machine) : ∃ ev,
    new_events m (fast_reboot_commit env me fuel (fast_reboot_prepare env
        (opal_quiesce env quiesce_type.QUIESCE_HOLD (fast_reboot_nvram env m)))).2
      = prepare_events env ++
        (((ungarded_cpus m.cpus).map (fun c => Event.store_save_r1 c 0) ++
          [Event.copy_exception_vectors, Event.setup_reset_vector,
            Event.sreset_all_others env.sreset_all_others]) ++ ev) ∧
    (∀ e ∈ ev, after_broadcast_event e = true) ∧
    (env.sreset_all_others ≠ OPAL_SUCCESS →
      (fast_reboot_commit env me fuel (fast_reboot_prepare env
        (opal_quiesce env quiesce_type.QUIESCE_HOLD (fast_reboot_nvram env m)))).1
          = Outcome.returned ∧
      ev = [Event.prlog log_level.PR_NOTICE
        "RESET: Fast reboot failed to system reset secondaries\n"]) ∧
    (env.sreset_all_others = OPAL_SUCCESS →
      ((fast_reboot_commit env me fuel (fast_reboot_prepare env
        (opal_quiesce env quiesce_type.QUIESCE_HOLD (fast_reboot_nvram env m)))).1
          = Outcome.spinning ∧
        ∀ e ∈ ev, wait_event e = true) ∨
      ((fast_reboot_commit env me fuel (fast_reboot_prepare env
        (opal_quiesce env quiesce_type.QUIESCE_HOLD (fast_reboot_nvram env m)))).1
          = Outcome.returned ∧
        ∃ ev0 v, ev = ev0 ++ [Event.load_tb v, Event.smt_medium,
            Event.wait_returned cpu_thread_state.cpu_state_present (env.msecs_to_tb 100) false,
            Event.prlog log_level.PR_NOTICE
              "RESET: Fast reboot timed out waiting for secondaries to call in\n"] ∧
          env.tb_compare v (wait_end env (env.msecs_to_tb 100) m) = tb_cmpval.TB_AAFTERB ∧
          ∀ e ∈ ev0, wait_event e = true) ∨
      ((fast_reboot_commit env me fuel (fast_reboot_prepare env
        (opal_quiesce env quiesce_type.QUIESCE_HOLD (fast_reboot_nvram env m)))).1
          = Outcome.branched ∧
        ∃ ev0, ev = ev0 ++ [Event.prlog log_level.PR_DEBUG
              "RESET: Releasing special wakeups...\n",
            Event.sreset_all_finish,
            Event.opal_quiesce quiesce_type.QUIESCE_RESUME_FAST_REBOOT (-1)
              (env.opal_quiesce quiesce_type.QUIESCE_RESUME_FAST_REBOOT),
            Event.branch_0x100] ∧
          (∀ e ∈ ev0, wait_event e = true) ∧
          ∀ u ∈ ungarded_cpus m.cpus, u ≠ me →
            Event.load_state u cpu_thread_state.cpu_state_present ∈ ev0)) := by
  obtain ⟨ht, hk, hc⟩ := fast_reboot_prepared env m
  obtain ⟨ev, h1, h2, h3⟩ := fast_reboot_commit_spec env me fuel (fast_reboot_prepare env
    (opal_quiesce env quiesce_type.QUIESCE_HOLD (fast_reboot_nvram env m)))
  obtain ⟨ev2, g1, g2⟩ := fast_reboot_commit_tail env me fuel (fast_reboot_prepare env
    (opal_quiesce env quiesce_type.QUIESCE_HOLD (fast_reboot_nvram env m)))
  have hev : ev2 = ev := by
    have := g1.symm.trans h1
    simpa using this
  subst hev
  have hend : wait_end env (env.msecs_to_tb 100) (fast_reboot_prepare env
      (opal_quiesce env quiesce_type.QUIESCE_HOLD (fast_reboot_nvram env m)))
        = wait_end env (env.msecs_to_tb 100) m := by
    simp [wait_end, hk]
  rw [hend, hc] at h3
  rw [ht, hc, List.append_assoc] at h1
  exact ⟨ev2, new_events_append _ _ _ h1, g2, h2, h3⟩

/-- With a successful broadcast, a non-zero `msecs_to_tb(100)`, a unit that never shows
`cpu_state_present` and a time base that stays past the deadline from clock `T` on, the
part of `fast_reboot` after the preparation returns to the caller. -/
theorem fast_reboot_commit_times_out (env : Env) (me fuel : Nat) (m : Machine)
    (hs : env.sreset_all_others = OPAL_SUCCESS) (h0 : env.msecs_to_tb 100 ≠ 0)
    (u : Nat) (hu : u ∈ ungarded_cpus m.cpus) (hne : u ≠ me)
    (hn : ∀ t, env.cpu_state t u ≠ cpu_thread_state.cpu_state_present) (T : Nat)
    (hT : ∀ t, T ≤ t → env.tb_compare (env.mftb t % 2 ^ 64)
      (wait_end env (env.msecs_to_tb 100) m) = tb_cmpval.TB_AAFTERB)
    (hf : T - m.clock < fuel) :
    (fast_reboot_commit env me fuel m).1 = Outcome.returned := by
  have hw := wait_all_fails env me cpu_thread_state.cpu_state_present (env.msecs_to_tb 100)
    fuel (fast_reboot_broadcast env m) h0 u
    (by rw [(fast_reboot_broadcast_frame env m).2]; exact hu) hne hn T
    (by rw [wait_end_broadcast]; exact hT)
    (by rw [(fast_reboot_broadcast_frame env m).1]; exact hf)
  unfold fast_reboot_commit
  rw [if_neg (not_not.2 hs)]
  rcases hr : cpu_state_wait_all_others env me cpu_thread_state.cpu_state_present
    (env.msecs_to_tb 100) fuel (fast_reboot_broadcast env m) with ⟨r, m1⟩
  rw [hr] at hw
  simp only at hw
  subst hw
  rfl

/-! ## Lemmas on the reset handler -/

theorem cleanup_cpu_state_spec (env : Env) (me : Nat) (m : Machine) : ∃ cl,
    (cleanup_cpu_state env me m).trace = m.trace ++ cl ∧
    (∀ e ∈ cl, cleanup_event e = true) ∧
    Event.init_replicated_sprs ∈ cl ∧
    same_memory m (cleanup_cpu_state env me m) ∧
    (cleanup_cpu_state env me m).clock = m.clock := by
  unfold cleanup_cpu_state cleanup_p8
  split_ifs
  · exact ⟨[Event.init_shared_sprs, Event.prlog log_level.PR_DEBUG
        "RESET: CPU 0x%04x in fast sleep undoing workarounds...\n", Event.fast_sleep_exit,
        Event.cleanup_local_tlb, Event.chiptod_wakeup_resync, Event.init_replicated_sprs],
      by simp, by simp [cleanup_event], by simp, ⟨rfl, rfl, rfl, rfl⟩, rfl⟩
  · exact ⟨[Event.init_shared_sprs, Event.cleanup_local_tlb, Event.chiptod_wakeup_resync,
        Event.init_replicated_sprs],
      by simp, by simp [cleanup_event], by simp, ⟨rfl, rfl, rfl, rfl⟩, rfl⟩
  · exact ⟨[Event.init_shared_sprs, Event.chiptod_wakeup_resync, Event.init_replicated_sprs],
      by simp, by simp [cleanup_event], by simp, ⟨rfl, rfl, rfl, rfl⟩, rfl⟩
  · exact ⟨[Event.init_replicated_sprs],
      by simp, by simp [cleanup_event], by simp, ⟨rfl, rfl, rfl, rfl⟩, rfl⟩

theorem unsplit_wait_spec (env : Env) : ∀ (fuel : Nat) (m : Machine), ∃ ev,
    (unsplit_wait env fuel m).2.trace = m.trace ++ ev ∧
    (∀ e ∈ ev, entry_event e = true) ∧
    same_memory m (unsplit_wait env fuel m).2 := by
  intro fuel
  induction fuel with
  | zero => intro m; exact ⟨[], by simp [unsplit_wait], by simp, same_memory_refl m⟩
  | succ fuel ih =>
    intro m
    rw [unsplit_wait]
    split_ifs
    · obtain ⟨ev, h1, h2, h3⟩ := ih (emit Event.cpu_relax (load_hid0 env m).2)
      refine ⟨[Event.load_hid0 (load_hid0 env m).1, Event.cpu_relax] ++ ev, ?_, ?_, ?_⟩
      · rw [h1]
        simp [load_hid0]
      · intro e he
        rcases List.mem_append.1 he with he | he
        · simp at he
          rcases he with rfl | rfl <;> rfl
        · exact h2 e he
      · exact same_memory_trans (b := emit Event.cpu_relax (load_hid0 env m).2)
          ⟨rfl, rfl, rfl, rfl⟩ h3
    · exact ⟨[Event.load_hid0 (load_hid0 env m).1], by simp [load_hid0],
        by simp [entry_event], ⟨rfl, rfl, rfl, rfl⟩⟩

theorem kick_siblings_spec (me : Nat) : ∀ (l : List Nat) (m : Machine), ∃ ev,
    (kick_siblings me l m).trace = m.trace ++ ev ∧
    (∀ e ∈ ev, entry_event e = true) ∧
    same_memory m (kick_siblings me l m) := by
  intro l
  induction l with
  | nil => intro m; exact ⟨[], by simp [kick_siblings], by simp, same_memory_refl m⟩
  | cons c rest ih =>
    intro m
    rw [kick_siblings]
    split_ifs
    · exact ih m
    · obtain ⟨ev, h1, h2, h3⟩ := ih (emit (Event.icp_kick_cpu c) m)
      refine ⟨Event.icp_kick_cpu c :: ev, by simp [h1], ?_,
        same_memory_trans (same_memory_emit _ _) h3⟩
      intro e he
      rcases List.mem_cons.1 he with rfl | he
      · rfl
      · exact h2 e he

/-- The unsplit coordinator returns, parks the unit or is still waiting for the
unsplit; it leaves the memory image unchanged. -/
theorem check_split_core_spec (env : Env) (me fuel : Nat) (m : Machine) : ∃ ev,
    (check_split_core env me fuel m).2.trace = m.trace ++ ev ∧
    (∀ e ∈ ev, entry_event e = true) ∧
    same_memory m (check_split_core env me fuel m).2 ∧
    ((check_split_core env me fuel m).1 = Outcome.returned ∨
      (check_split_core env me fuel m).1 = Outcome.napping ∨
      (check_split_core env me fuel m).1 = Outcome.spinning) := by
  unfold check_split_core
  split_ifs
  · exact ⟨[Event.load_hid0 (load_hid0 env m).1], by simp [load_hid0],
      by simp [entry_event], ⟨rfl, rfl, rfl, rfl⟩, Or.inl rfl⟩
  · exact ⟨[Event.load_hid0 (load_hid0 env m).1,
        Event.prlog log_level.PR_INFO "RESET: CPU 0x%04x is split !\n",
        Event.icp_prep_for_pm,
        Event.mtspr_lpcr (((env.lpcr % 2 ^ 64) &&& not64 env.SPR_LPCR_P8_PECE)
          ||| env.SPR_LPCR_P8_PECE2),
        Event.enter_nap], by simp [load_hid0],
      by simp [entry_event], ⟨rfl, rfl, rfl, rfl⟩, Or.inr (Or.inl rfl)⟩
  · obtain ⟨ev, h1, h2, h3⟩ := unsplit_wait_spec env fuel
      (emit (Event.opal_slw_set_reg (this_cpu m me).pir
          ((load_hid0 env m).1 &&& not64 env.SPR_HID0_POWER8_DYNLPARDIS))
        (emit (Event.set_hid0
            ((load_hid0 env m).1 &&& not64 env.SPR_HID0_POWER8_DYNLPARDIS))
          (emit (Event.prlog log_level.PR_INFO "RESET: Primary, unsplitting... \n")
            (emit (Event.prlog log_level.PR_INFO "RESET: CPU 0x%04x is split !\n")
              (load_hid0 env m).2))))
    have hpre : ∀ e ∈ [Event.load_hid0 (load_hid0 env m).1,
        Event.prlog log_level.PR_INFO "RESET: CPU 0x%04x is split !\n",
        Event.prlog log_level.PR_INFO "RESET: Primary, unsplitting... \n",
        Event.set_hid0 ((load_hid0 env m).1 &&& not64 env.SPR_HID0_POWER8_DYNLPARDIS),
        Event.opal_slw_set_reg (this_cpu m me).pir
          ((load_hid0 env m).1 &&& not64 env.SPR_HID0_POWER8_DYNLPARDIS)] ++ ev,
        entry_event e = true := by
      intro e he
      rcases List.mem_append.1 he with he | he
      · simp at he
        rcases he with rfl | rfl | rfl | rfl | rfl <;> rfl
      · exact h2 e he
    rcases hr : unsplit_wait env fuel
      (emit (Event.opal_slw_set_reg (this_cpu m me).pir
          ((load_hid0 env m).1 &&& not64 env.SPR_HID0_POWER8_DYNLPARDIS))
        (emit (Event.set_hid0
            ((load_hid0 env m).1 &&& not64 env.SPR_HID0_POWER8_DYNLPARDIS))
          (emit (Event.prlog log_level.PR_INFO "RESET: Primary, unsplitting... \n")
            (emit (Event.prlog log_level.PR_INFO "RESET: CPU 0x%04x is split !\n")
              (load_hid0 env m).2)))) with ⟨b, m1⟩
    rw [hr] at h1 h3
    simp only at h1 h3
    have hm1 : same_memory m m1 := same_memory_trans ⟨rfl, rfl, rfl, rfl⟩ h3
    cases b with
    | false =>
      refine ⟨_, ?_, hpre, hm1, Or.inr (Or.inr rfl)⟩
      simp [h1, load_hid0]
    | true =>
      obtain ⟨ev2, k1, k2, k3⟩ := kick_siblings_spec me (all_cpus m1.cpus)
        (emit (Event.prlog log_level.PR_INFO "RESET: Waking unsplit secondaries... \n") m1)
      refine ⟨([Event.load_hid0 (load_hid0 env m).1,
        Event.prlog log_level.PR_INFO "RESET: CPU 0x%04x is split !\n",
        Event.prlog log_level.PR_INFO "RESET: Primary, unsplitting... \n",
        Event.set_hid0 ((load_hid0 env m).1 &&& not64 env.SPR_HID0_POWER8_DYNLPARDIS),
        Event.opal_slw_set_reg (this_cpu m me).pir
          ((load_hid0 env m).1 &&& not64 env.SPR_HID0_POWER8_DYNLPARDIS)] ++ ev) ++
          (Event.prlog log_level.PR_INFO "RESET: Waking unsplit secondaries... \n" :: ev2),
        ?_, ?_, same_memory_trans hm1 (same_memory_trans (same_memory_emit _ _) k3),
        Or.inl rfl⟩
      · simp only [k1]
        simp [h1, load_hid0]
      · intro e he
        rcases List.mem_append.1 he with he | he
        · exact hpre e he
        · rcases List.mem_cons.1 he with rfl | he
          · rfl
          · exact k2 e he

theorem release_wait_spec (env : Env) : ∀ (fuel : Nat) (m : Machine), ∃ ev,
    (release_wait env fuel m).2.trace = m.trace ++ ev ∧
    (∀ e ∈ ev, secondary_event e = true) ∧
    same_memory m (release_wait env fuel m).2 := by
  intro fuel
  induction fuel with
  | zero => intro m; exact ⟨[], by simp [release_wait], by simp, same_memory_refl m⟩
  | succ fuel ih =>
    intro m
    rw [release_wait]
    split_ifs
    · obtain ⟨ev, h1, h2, h3⟩ := ih (emit Event.barrier (load_release env m).2)
      refine ⟨[Event.load_release (load_release env m).1, Event.barrier] ++ ev, ?_, ?_, ?_⟩
      · rw [h1]
        simp [load_release]
      · intro e he
        rcases List.mem_append.1 he with he | he
        · simp at he
          rcases he with rfl | rfl <;> rfl
        · exact h2 e he
      · exact same_memory_trans (b := emit Event.barrier (load_release env m).2)
          ⟨rfl, rfl, rfl, rfl⟩ h3
    · exact ⟨[Event.load_release (load_release env m).1], by simp [load_release],
        by simp [secondary_event], ⟨rfl, rfl, rfl, rfl⟩⟩

/-- Once the release flag reads true from clock `T` on, the spin on the flag ends within
`T - clock + 1` iterations. -/
theorem release_wait_ends (env : Env) (T : Nat)
    (hT : ∀ t, T ≤ t → env.fast_boot_release t = true) :
    ∀ (fuel : Nat) (m : Machine), T - m.clock < fuel → (release_wait env fuel m).1 = true := by
  intro fuel
  induction fuel with
  | zero => intro m h; omega
  | succ fuel ih =>
    intro m h
    rw [release_wait]
    split_ifs with h1
    · refine ih _ ?_
      have hlt : m.clock < T := by
        by_contra hc
        have := hT m.clock (not_lt.1 hc)
        simp [load_release, this] at h1
      simp [load_release]
      omega
    · rfl

/-- The branch `this_cpu() != boot_cpu` of the reset handler is still spinning on the
release flag or ends in `__secondary_cpu_entry`, its last effect. -/
theorem fast_reboot_secondary_spec (env : Env) (me fuel : Nat) (m : Machine) : ∃ ev,
    (fast_reboot_secondary env me fuel m).2.trace = m.trace ++ ev ∧
    (∀ e ∈ ev, secondary_event e = true) ∧
    ((fast_reboot_secondary env me fuel m).1 = Outcome.spinning ∨
      ((fast_reboot_secondary env me fuel m).1 = Outcome.worker_loop ∧
        ev.getLast? = some Event.secondary_cpu_entry)) := by
  have hfin : ∀ (x : Machine) (pre : List Event), x.trace = m.trace ++ pre →
      (∀ e ∈ pre, secondary_event e = true) → ∃ ev,
        (secondary_finish env me x).2.trace = m.trace ++ ev ∧
        (∀ e ∈ ev, secondary_event e = true) ∧
        ((secondary_finish env me x).1 = Outcome.spinning ∨
          ((secondary_finish env me x).1 = Outcome.worker_loop ∧
            ev.getLast? = some Event.secondary_cpu_entry)) := by
    intro x pre hx hpre
    obtain ⟨cl, c1, c2, _, _, _⟩ := cleanup_cpu_state_spec env me (emit Event.sync x)
    refine ⟨(pre ++ (Event.sync :: cl)) ++ [Event.secondary_cpu_entry], ?_, ?_,
      Or.inr ⟨rfl, List.getLast?_concat _⟩⟩
    · simp [secondary_finish, c1, hx]
    · intro e he
      simp only [List.mem_append, List.mem_cons, List.mem_singleton, List.not_mem_nil,
        or_false] at he
      rcases he with (he | rfl | he) | rfl
      · exact hpre e he
      · rfl
      · have := c2 e he
        revert this
        cases e <;> simp [secondary_event, cleanup_event]
      · rfl
  unfold fast_reboot_secondary
  split_ifs
  · obtain ⟨ev, h1, h2, _⟩ := release_wait_spec env fuel
      (emit Event.smt_lowest (load_release env m).2)
    have hpre : ∀ e ∈ [Event.load_release (load_release env m).1, Event.smt_lowest] ++ ev,
        secondary_event e = true := by
      intro e he
      rcases List.mem_append.1 he with he | he
      · simp at he
        rcases he with rfl | rfl <;> rfl
      · exact h2 e he
    rcases hr : release_wait env fuel (emit Event.smt_lowest (load_release env m).2)
      with ⟨b, m1⟩
    rw [hr] at h1
    simp only at h1
    cases b with
    | false =>
      exact ⟨_, by simp [h1, load_release], hpre, Or.inl rfl⟩
    | true =>
      refine hfin (emit Event.smt_medium m1)
        (([Event.load_release (load_release env m).1, Event.smt_lowest] ++ ev)
          ++ [Event.smt_medium]) (by simp [h1, load_release]) ?_
      intro e he
      rcases List.mem_append.1 he with he | he
      · exact hpre e he
      · simp at he
        subst he
        rfl
  · exact hfin (load_release env m).2 [Event.load_release (load_release env m).1]
      (by simp [load_release]) (by simp [secondary_event])

/-- Once the release flag reads true from clock `T` on, the branch
`this_cpu() != boot_cpu` ends in the worker loop when given more than `T - clock`
iterations. -/
theorem fast_reboot_secondary_ends (env : Env) (me : Nat) (T : Nat)
    (hT : ∀ t, T ≤ t → env.fast_boot_release t = true) (fuel : Nat) (m : Machine)
    (hf : T - m.clock < fuel) :
    (fast_reboot_secondary env me fuel m).1 = Outcome.worker_loop := by
  have h := release_wait_ends env T hT fuel (emit Event.smt_lowest (load_release env m).2)
    (by simp [load_release]; omega)
  unfold fast_reboot_secondary
  split_ifs
  · rcases hr : release_wait env fuel (emit Event.smt_lowest (load_release env m).2)
      with ⟨b, m1⟩
    rw [hr] at h
    simp only at h
    subst h
    rfl
  · rfl

theorem boot_release_trace (env : Env) (me : Nat) (m : Machine) : ∃ cl,
    (boot_release env me m).trace = m.trace ++ release_events env me cl ∧
    (∀ e ∈ cl, cleanup_event e = true) ∧
    Event.init_replicated_sprs ∈ cl := by
  by_cases h : env.proc_gen = proc_gen_t.proc_gen_p9
  · obtain ⟨cl, c1, c2, c3, _, _⟩ := cleanup_cpu_state_spec env me
      (store_release true (emit Event.sync
        (emit (Event.prlog log_level.PR_INFO "RESET: Releasing secondaries...\n")
          (emit Event.xive_reset m))))
    refine ⟨cl, ?_, c2, c3⟩
    unfold boot_release release_events
    rw [if_pos h, if_pos h]
    show (cleanup_cpu_state env me _).trace ++ [Event.sync] ++ _ ++ [Event.sync] = _
    rw [c1]
    simp [store_release]
  · obtain ⟨cl, c1, c2, c3, _, _⟩ := cleanup_cpu_state_spec env me
      (store_release true (emit Event.sync
        (emit (Event.prlog log_level.PR_INFO "RESET: Releasing secondaries...\n") m)))
    refine ⟨cl, ?_, c2, c3⟩
    unfold boot_release release_events
    rw [if_neg h, if_neg h]
    show (cleanup_cpu_state env me _).trace ++ [Event.sync] ++ _ ++ [Event.sync] = _
    simp only [id_eq]
    rw [c1]
    simp [store_release]

theorem boot_finish_spec (env : Env) (m : Machine) :
    (boot_finish env m).2.trace = m.trace ++ finish_events env ∧
    (boot_finish env m).1 = (if env.pci_reset ≠ 0 then Outcome.halted else Outcome.payload) ∧
    (boot_finish env m).2.fast_boot_release = false := by
  unfold boot_finish post_reboot_cleanup finish_events global_events
  split_ifs <;> simp [store_release]

/-- The events of the boot CPU's part of the reset handler have one of the three
shapes of `BootShape`. -/
theorem fast_reboot_boot_shape (env : Env) (me fuel : Nat) (m : Machine) : ∃ t,
    (fast_reboot_boot env me fuel m).2.trace = m.trace ++ t ∧
    ((fast_reboot_boot env me fuel m).1 = Outcome.spinning ∨
      (fast_reboot_boot env me fuel m).2.fast_boot_release = false) ∧
    BootShape env me (fast_reboot_boot env me fuel m).1 t := by
  have hnomark : ∀ (ev : List Event), (∀ e ∈ ev, poll_event e = true) → ∀ x s t b,
      Event.wait_returned s t b ∉ Event.load_tb x :: Event.sync :: (ev ++ []) := by
    intro ev hev x s t b hm
    simp at hm
    have := hev _ hm
    simp [poll_event] at this
  have hquiet : ∀ (ev : List Event) s t r, (∀ e ∈ ev, poll_event e = true) → ∀ x,
      ∀ e ∈ Event.load_tb x :: Event.sync :: (ev ++ ret_events s t r), wait_event e = true := by
    intro ev s t r hev x e he
    rcases List.mem_cons.1 he with rfl | he
    · rfl
    · rcases List.mem_cons.1 he with rfl | he
      · rfl
      · rcases List.mem_append.1 he with he | he
        · exact wait_event_of_poll e (hev e he)
        · exact ret_events_quiet _ _ _ e he
  obtain ⟨ev1, a1, _, a3⟩ := wait_all_spec env me cpu_thread_state.cpu_state_present 0 fuel
    (emit (Event.prlog log_level.PR_INFO "RESET: Boot CPU waiting for everybody...\n") m)
  unfold fast_reboot_boot
  rcases h1 : cpu_state_wait_all_others env me cpu_thread_state.cpu_state_present 0 fuel
    (emit (Event.prlog log_level.PR_INFO "RESET: Boot CPU waiting for everybody...\n") m)
    with ⟨r1, m1⟩
  rw [h1] at a1 a3
  simp only at a1 a3
  rcases r1 with _ | b1
  · have ht : m1.trace = m.trace ++
        (Event.prlog log_level.PR_INFO "RESET: Boot CPU waiting for everybody...\n" ::
          (Event.load_tb (mftb env (emit (Event.prlog log_level.PR_INFO
              "RESET: Boot CPU waiting for everybody...\n") m)).1 :: Event.sync ::
            (ev1 ++ []))) := by
      simp [a1, ret_events]
    have hq1 := hquiet ev1 cpu_thread_state.cpu_state_present 0 none a3.quiet
      (mftb env (emit (Event.prlog log_level.PR_INFO
        "RESET: Boot CPU waiting for everybody...\n") m)).1
    simp only [ret_events] at hq1
    simp only
    exact ⟨_, ht, Or.inl trivial, BootShape.wait_present _ hq1 (hnomark ev1 a3.quiet _)⟩
  · obtain ⟨cl, c1, c2, c3⟩ := boot_release_trace env me m1
    obtain ⟨ev2, d1, _, d3⟩ := wait_all_spec env me cpu_thread_state.cpu_state_active 0 fuel
      (boot_release env me m1)
    simp only
    rcases h2 : cpu_state_wait_all_others env me cpu_thread_state.cpu_state_active 0 fuel
      (boot_release env me m1) with ⟨r2, m2⟩
    rw [h2] at d1 d3
    simp only at d1 d3
    have hmark1 : Event.wait_returned cpu_thread_state.cpu_state_present 0 b1 ∈
        Event.load_tb (mftb env (emit (Event.prlog log_level.PR_INFO
            "RESET: Boot CPU waiting for everybody...\n") m)).1 :: Event.sync ::
          (ev1 ++ ret_events cpu_thread_state.cpu_state_present 0 (some b1)) := by
      simp [ret_events]
    rcases r2 with _ | b2
    · have ht : m2.trace = m.trace ++
          (Event.prlog log_level.PR_INFO "RESET: Boot CPU waiting for everybody...\n" ::
            ((Event.load_tb (mftb env (emit (Event.prlog log_level.PR_INFO
                "RESET: Boot CPU waiting for everybody...\n") m)).1 :: Event.sync ::
              (ev1 ++ ret_events cpu_thread_state.cpu_state_present 0 (some b1))) ++
            (release_events env me cl ++
              (Event.load_tb (mftb env (boot_release env me m1)).1 :: Event.sync ::
                (ev2 ++ []))))) := by
        simp [d1, c1, a1, ret_events]
      have hq2 := hquiet ev2 cpu_thread_state.cpu_state_active 0 none d3.quiet
        (mftb env (boot_release env me m1)).1
      simp only [ret_events] at hq2
      simp only
      exact ⟨_, ht, Or.inl trivial,
        BootShape.wait_active _ cl _ b1 (hquiet ev1 _ _ _ a3.quiet _) hmark1 c2 c3
          hq2 (hnomark ev2 d3.quiet _)⟩
    · obtain ⟨f1, f2, f3⟩ := boot_finish_spec env m2
      have ht : (boot_finish env m2).2.trace = m.trace ++
          (Event.prlog log_level.PR_INFO "RESET: Boot CPU waiting for everybody...\n" ::
            ((Event.load_tb (mftb env (emit (Event.prlog log_level.PR_INFO
                "RESET: Boot CPU waiting for everybody...\n") m)).1 :: Event.sync ::
              (ev1 ++ ret_events cpu_thread_state.cpu_state_present 0 (some b1))) ++
            (release_events env me cl ++
              ((Event.load_tb (mftb env (boot_release env me m1)).1 :: Event.sync ::
                (ev2 ++ ret_events cpu_thread_state.cpu_state_active 0 (some b2))) ++
                finish_events env)))) := by
        simp [f1, d1, c1, a1, ret_events]
      simp only
      refine ⟨_, ht, Or.inr f3, ?_⟩
      rw [f2]
      exact BootShape.finished _ cl _ b1 b2 (hquiet ev1 _ _ _ a3.quiet _) hmark1 c2 c3
        (hquiet ev2 _ _ _ d3.quiet _) (by simp [ret_events])

theorem fast_reboot_present_shape (env : Env) (me fuel : Nat) (m x : Machine)
    (h : List Event) (hx : m.trace = x.trace ++ h) (hh : ∀ e ∈ h, entry_event e = true) :
    EntryShape env me (fast_reboot_present env me fuel m).1
      (new_events x (fast_reboot_present env me fuel m).2) := by
  have hpre : (emit Event.sync (store_state me cpu_thread_state.cpu_state_present
      (emit Event.sync m))).trace = x.trace ++ (h ++ [Event.sync,
        Event.store_state me cpu_thread_state.cpu_state_present, Event.sync]) := by
    simp [store_state, hx]
  have hh2 : ∀ e ∈ h ++ [Event.sync,
      Event.store_state me cpu_thread_state.cpu_state_present, Event.sync],
      entry_event e = true := by
    intro e he
    rcases List.mem_append.1 he with he | he
    · exact hh e he
    · simp at he
      rcases he with rfl | rfl | rfl <;> rfl
  unfold fast_reboot_present
  split_ifs with hme
  · obtain ⟨t, t1, t2, t3⟩ := fast_reboot_secondary_spec env me fuel
      (emit Event.sync (store_state me cpu_thread_state.cpu_state_present (emit Event.sync m)))
    rw [hpre, List.append_assoc] at t1
    rw [new_events_append _ _ _ t1]
    exact EntryShape.secondary _ t _ hme hh2 t2 t3
  · obtain ⟨t, t1, _, t3⟩ := fast_reboot_boot_shape env me fuel
      (emit Event.sync (store_state me cpu_thread_state.cpu_state_present (emit Event.sync m)))
    rw [hpre, List.append_assoc] at t1
    rw [new_events_append _ _ _ t1]
    exact EntryShape.boot _ t _ (not_not.1 hme) hh2 t3

/-- The events of a run of the reset handler have one of the shapes of `EntryShape`. -/
theorem fast_reboot_entry_shape (env : Env) (me fuel : Nat) (m : Machine) :
    EntryShape env me (fast_reboot_entry env me fuel m).1
      (new_events m (fast_reboot_entry env me fuel m).2) := by
  unfold fast_reboot_entry
  split_ifs with h9 h8
  · exact fast_reboot_present_shape env me fuel _ m
      [Event.prlog log_level.PR_DEBUG "RESET: CPU 0x%04x reset in\n", Event.reset_cpu_xive]
      (by simp) (by simp [entry_event])
  · obtain ⟨ev, c1, c2, _, c4⟩ := check_split_core_spec env me fuel
      (emit Event.reset_cpu_icp
        (emit (Event.prlog log_level.PR_DEBUG "RESET: CPU 0x%04x reset in\n") m))
    have hh : ∀ e ∈ [Event.prlog log_level.PR_DEBUG "RESET: CPU 0x%04x reset in\n",
        Event.reset_cpu_icp] ++ ev, entry_event e = true := by
      intro e he
      rcases List.mem_append.1 he with he | he
      · simp at he
        rcases he with rfl | rfl <;> rfl
      · exact c2 e he
    rcases hr : check_split_core env me fuel
      (emit Event.reset_cpu_icp
        (emit (Event.prlog log_level.PR_DEBUG "RESET: CPU 0x%04x reset in\n") m))
      with ⟨o, m1⟩
    rw [hr] at c1 c4
    simp only at c1 c4
    have ht : m1.trace = m.trace ++
        ([Event.prlog log_level.PR_DEBUG "RESET: CPU 0x%04x reset in\n",
          Event.reset_cpu_icp] ++ ev) := by
      simp [c1]
    cases o with
    | returned => exact fast_reboot_present_shape env me fuel m1 m _ ht hh
    | napping =>
      simp only
      rw [new_events_append _ _ _ ht]
      exact EntryShape.parked _ _ hh (Or.inl rfl)
    | spinning =>
      simp only
      rw [new_events_append _ _ _ ht]
      exact EntryShape.parked _ _ hh (Or.inr rfl)
    | branched => simp at c4
    | worker_loop => simp at c4
    | payload => simp at c4
    | halted => simp at c4
  · exact fast_reboot_present_shape env me fuel _ m
      [Event.prlog log_level.PR_DEBUG "RESET: CPU 0x%04x reset in\n"]
      (by simp) (by simp [entry_event])

/-- When no event of `A` satisfies `p` and `x` does, a split of `A ++ B` at an occurrence
of `x` falls inside `B`. -/
theorem split_after (p : Event → Bool) : ∀ (A B pre post : List Event) (x : Event),
    (∀ e ∈ A, p e = false) → p x = true → A ++ B = pre ++ x :: post →
    ∃ rest, pre = A ++ rest ∧ B = rest ++ x :: post := by
  intro A
  induction A with
  | nil =>
    intro B pre post x _ _ h
    exact ⟨pre, rfl, by simpa using h⟩
  | cons a A ih =>
    intro B pre post x hA hx h
    cases pre with
    | nil =>
      simp at h
      have := hA a (List.mem_cons_self _ _)
      rw [h.1, hx] at this
      exact absurd this (by simp)
    | cons b pre =>
      simp at h
      obtain ⟨rest, h1, h2⟩ := ih B pre post x
        (fun e he => hA e (List.mem_cons_of_mem _ he)) hx h.2
      exact ⟨rest, by simp [h.1, h1], h2⟩

/-- An event that satisfies `p` does not occur in a list none of whose events does. -/
theorem not_split_of_none (p : Event → Bool) (l pre post : List Event) (x : Event)
    (hl : ∀ e ∈ l, p e = false) (hx : p x = true) (h : l = pre ++ x :: post) : False := by
  have hm : x ∈ l := by rw [h]; simp
  have := hl x hm
  rw [hx] at this
  exact absurd this (by simp)

/-- The events of the unsplit coordinator, of a wait, of the local cleanup and of the
branch of the other units are no global cleanup, no store of the release flag and no
store of `cpu_state_active`. -/
theorem neutral_of_class (e : Event)
    (h : entry_event e = true ∨ wait_event e = true ∨ cleanup_event e = true ∨
      secondary_event e = true) :
    global_cleanup e = false ∧ (∀ v, e ≠ Event.store_release v) ∧
    (∀ c, e ≠ Event.store_state c cpu_thread_state.cpu_state_active) ∧
    (∀ b, e ≠ Event.load_and_boot_kernel b) := by
  cases e <;>
    first
    | (simp_all [entry_event, wait_event, poll_event, cleanup_event, secondary_event,
        global_cleanup]; done)
    | (rename_i c v
       cases v <;>
         simp_all [entry_event, wait_event, poll_event, cleanup_event, secondary_event,
           global_cleanup])

theorem global_events_spec (env : Env) :
    (∀ e ∈ global_events env, ∀ v, e ≠ Event.store_release v) ∧
    (∀ b, Event.load_and_boot_kernel b ∈ global_events env → b = true ∧ env.pci_reset = 0) ∧
    (env.pci_reset = 0 → ∃ g, global_events env = g ++ [Event.load_and_boot_kernel true] ∧
      ∀ b, Event.load_and_boot_kernel b ∉ g) := by
  unfold global_events
  refine ⟨?_, ?_, ?_⟩
  · intro e he v
    simp only [List.mem_append, List.mem_cons] at he
    split_ifs at he <;> simp at he <;> aesop
  · intro b hb
    simp only [List.mem_append, List.mem_cons] at hb
    split_ifs at hb <;> simp at hb <;> aesop
  · intro h0
    simp only [h0, ne_eq, not_true_eq_false, if_false]
    refine ⟨[Event.cpu_fast_reboot_complete, Event.cpu_set_sreset_enable true,
      Event.cpu_set_ipi_enable true, Event.start_preload_kernel, Event.fsp_console_reset] ++
      ((if env.proc_gen = proc_gen_t.proc_gen_p8 then [Event.psi_irq_reset] else []) ++
        [Event.pci_reset 0, Event.ipmi_set_fw_progress_sensor]), by simp, ?_⟩
    intro b hb
    simp only [List.mem_append, List.mem_cons] at hb
    split_ifs at hb <;> simp at hb

theorem xive_events_spec (env : Env) :
    ∀ e ∈ (if env.proc_gen = proc_gen_t.proc_gen_p9 then [Event.xive_reset] else []),
      e = Event.xive_reset := by
  intro e he
  split_ifs at he <;> simp at he
  exact he

/-- The order of the stores of the release flag on a run of the reset handler, read
off the shape of its events. -/
theorem entry_shape_protocol (env : Env) (me : Nat) (o : Outcome) (l : List Event)
    (hs : EntryShape env me o l) :
    (∀ pre post, l = pre ++ Event.store_release true :: post →
      ∃ b, Event.wait_returned cpu_thread_state.cpu_state_present 0 b ∈ pre) ∧
    (∀ pre post, l = pre ++ Event.store_state me cpu_thread_state.cpu_state_active :: post →
      ∃ p1 p2, pre = p1 ++ Event.store_release true :: p2 ∧
        Event.init_replicated_sprs ∈ p2) ∧
    (∀ pre e post, l = pre ++ e :: post → global_cleanup e = true →
      ∃ p1 p2 b, pre = p1 ++ Event.store_release false :: p2 ∧
        Event.wait_returned cpu_thread_state.cpu_state_active 0 b ∈ p1 ∧
        ∀ v, Event.store_release v ∉ p2) := by
  -- the three events looked for, as predicates
  have q1 : ∀ e : Event, (∀ v, e ≠ Event.store_release v) →
      decide (e = Event.store_release true) = false := by
    intro e h
    simpa using h true
  have q2 : ∀ e : Event, (∀ c, e ≠ Event.store_state c cpu_thread_state.cpu_state_active) →
      decide (e = Event.store_state me cpu_thread_state.cpu_state_active) = false := by
    intro e h
    simpa using h me
  have hent : ∀ h : List Event, (∀ e ∈ h, entry_event e = true) → ∀ e ∈ h,
      global_cleanup e = false ∧ (∀ v, e ≠ Event.store_release v) ∧
      (∀ c, e ≠ Event.store_state c cpu_thread_state.cpu_state_active) ∧
      (∀ b, e ≠ Event.load_and_boot_kernel b) :=
    fun h hh e he => neutral_of_class e (Or.inl (hh e he))
  have hwait : ∀ w : List Event, (∀ e ∈ w, wait_event e = true) → ∀ e ∈ w,
      global_cleanup e = false ∧ (∀ v, e ≠ Event.store_release v) ∧
      (∀ c, e ≠ Event.store_state c cpu_thread_state.cpu_state_active) ∧
      (∀ b, e ≠ Event.load_and_boot_kernel b) :=
    fun w hw e he => neutral_of_class e (Or.inr (Or.inl (hw e he)))
  have hcl : ∀ w : List Event, (∀ e ∈ w, cleanup_event e = true) → ∀ e ∈ w,
      global_cleanup e = false ∧ (∀ v, e ≠ Event.store_release v) ∧
      (∀ c, e ≠ Event.store_state c cpu_thread_state.cpu_state_active) ∧
      (∀ b, e ≠ Event.load_and_boot_kernel b) :=
    fun w hw e he => neutral_of_class e (Or.inr (Or.inr (Or.inl (hw e he))))
  have hsec : ∀ w : List Event, (∀ e ∈ w, secondary_event e = true) → ∀ e ∈ w,
      global_cleanup e = false ∧ (∀ v, e ≠ Event.store_release v) ∧
      (∀ c, e ≠ Event.store_state c cpu_thread_state.cpu_state_active) ∧
      (∀ b, e ≠ Event.load_and_boot_kernel b) :=
    fun w hw e he => neutral_of_class e (Or.inr (Or.inr (Or.inr (hw e he))))
  -- a list of neutral events holds none of the three events
  have hnone : ∀ w : List Event, (∀ e ∈ w,
      global_cleanup e = false ∧ (∀ v, e ≠ Event.store_release v) ∧
      (∀ c, e ≠ Event.store_state c cpu_thread_state.cpu_state_active) ∧
      (∀ b, e ≠ Event.load_and_boot_kernel b)) →
      (∀ pre post, w = pre ++ Event.store_release true :: post →
        ∃ b, Event.wait_returned cpu_thread_state.cpu_state_present 0 b ∈ pre) ∧
      (∀ pre post, w = pre ++ Event.store_state me cpu_thread_state.cpu_state_active :: post →
        ∃ p1 p2, pre = p1 ++ Event.store_release true :: p2 ∧
          Event.init_replicated_sprs ∈ p2) ∧
      (∀ pre e post, w = pre ++ e :: post → global_cleanup e = true →
        ∃ p1 p2 b, pre = p1 ++ Event.store_release false :: p2 ∧
          Event.wait_returned cpu_thread_state.cpu_state_active 0 b ∈ p1 ∧
          ∀ v, Event.store_release v ∉ p2) := by
    intro w hw
    refine ⟨?_, ?_, ?_⟩
    · intro pre post h
      exact (not_split_of_none (fun e => decide (e = Event.store_release true)) w pre post
        (Event.store_release true) (fun e he => q1 e (hw e he).2.1) (by simp) h).elim
    · intro pre post h
      exact (not_split_of_none
        (fun e => decide (e = Event.store_state me cpu_thread_state.cpu_state_active))
        w pre post (Event.store_state me cpu_thread_state.cpu_state_active)
        (fun e he => q2 e (hw e he).2.2.1) (by simp) h).elim
    · intro pre e post h hg
      exact (not_split_of_none global_cleanup w pre post e (fun x hx => (hw x hx).1) hg h).elim
  -- the first two properties, for the two shapes that hold the store setting the flag
  have hset : ∀ (h w1 cl Z : List Event) (b1 : Bool), (∀ e ∈ h, entry_event e = true) →
      (∀ e ∈ w1, wait_event e = true) →
      Event.wait_returned cpu_thread_state.cpu_state_present 0 b1 ∈ w1 →
      (∀ e ∈ cl, cleanup_event e = true) → Event.init_replicated_sprs ∈ cl →
      (∀ pre post, h ++ (Event.prlog log_level.PR_INFO
          "RESET: Boot CPU waiting for everybody...\n" ::
            (w1 ++ (release_events env me cl ++ Z))) = pre ++ Event.store_release true :: post →
        ∃ b, Event.wait_returned cpu_thread_state.cpu_state_present 0 b ∈ pre) ∧
      (∀ pre post, h ++ (Event.prlog log_level.PR_INFO
          "RESET: Boot CPU waiting for everybody...\n" ::
            (w1 ++ (release_events env me cl ++ Z)))
          = pre ++ Event.store_state me cpu_thread_state.cpu_state_active :: post →
        ∃ p1 p2, pre = p1 ++ Event.store_release true :: p2 ∧
          Event.init_replicated_sprs ∈ p2) := by
    intro h w1 cl Z b1 hh hw1 hm1 hcl1 hinit
    refine ⟨?_, ?_⟩
    · intro pre post heq
      have hA : ∀ e ∈ h ++ (Event.prlog log_level.PR_INFO
          "RESET: Boot CPU waiting for everybody...\n" :: w1),
          decide (e = Event.store_release true) = false := by
        intro e he
        rcases List.mem_append.1 he with he | he
        · exact q1 e (hent h hh e he).2.1
        · rcases List.mem_cons.1 he with rfl | he
          · rfl
          · exact q1 e (hwait w1 hw1 e he).2.1
      obtain ⟨rest, hpre, _⟩ := split_after (fun e => decide (e = Event.store_release true))
        (h ++ (Event.prlog log_level.PR_INFO
          "RESET: Boot CPU waiting for everybody...\n" :: w1))
        (release_events env me cl ++ Z) pre post (Event.store_release true) hA (by simp)
        (by simpa using heq)
      exact ⟨b1, by rw [hpre]; simp [hm1]⟩
    · intro pre post heq
      have hA : ∀ e ∈ (h ++ (Event.prlog log_level.PR_INFO
          "RESET: Boot CPU waiting for everybody...\n" :: w1)) ++
          ((if env.proc_gen = proc_gen_t.proc_gen_p9 then [Event.xive_reset] else []) ++
            ([Event.prlog log_level.PR_INFO "RESET: Releasing secondaries...\n", Event.sync,
              Event.store_release true] ++ (cl ++ [Event.sync]))),
          decide (e = Event.store_state me cpu_thread_state.cpu_state_active) = false := by
        intro e he
        simp only [List.mem_append, List.mem_cons, List.mem_singleton, List.not_mem_nil,
          or_false] at he
        rcases he with (he | rfl | he) | he | (rfl | rfl | rfl) | he | rfl
        · exact q2 e (hent h hh e he).2.2.1
        · rfl
        · exact q2 e (hwait w1 hw1 e he).2.2.1
        · rw [xive_events_spec env e he]
          rfl
        · rfl
        · rfl
        · rfl
        · exact q2 e (hcl cl hcl1 e he).2.2.1
        · rfl
      obtain ⟨rest, hpre, _⟩ := split_after
        (fun e => decide (e = Event.store_state me cpu_thread_state.cpu_state_active))
        ((h ++ (Event.prlog log_level.PR_INFO
          "RESET: Boot CPU waiting for everybody...\n" :: w1)) ++
          ((if env.proc_gen = proc_gen_t.proc_gen_p9 then [Event.xive_reset] else []) ++
            ([Event.prlog log_level.PR_INFO "RESET: Releasing secondaries...\n", Event.sync,
              Event.store_release true] ++ (cl ++ [Event.sync]))))
        (Event.store_state me cpu_thread_state.cpu_state_active :: Event.sync :: Z)
        pre post (Event.store_state me cpu_thread_state.cpu_state_active) hA (by simp)
        (by simpa [release_events] using heq)
      refine ⟨(h ++ (Event.prlog log_level.PR_INFO
          "RESET: Boot CPU waiting for everybody...\n" :: w1)) ++
          ((if env.proc_gen = proc_gen_t.proc_gen_p9 then [Event.xive_reset] else []) ++
            [Event.prlog log_level.PR_INFO "RESET: Releasing secondaries...\n", Event.sync]),
        cl ++ [Event.sync] ++ rest, ?_, ?_⟩
      · rw [hpre]
        simp
      · simp [hinit]
  cases hs with
  | parked h o hh _ => exact hnone l (hent l hh)
  | secondary h t o _ hh ht _ =>
    refine hnone (h ++ t) ?_
    intro e he
    rcases List.mem_append.1 he with he | he
    · exact hent h hh e he
    · exact hsec t ht e he
  | boot h t o _ hh hb =>
    cases hb with
    | wait_present w1 hw1 _ =>
      refine hnone _ ?_
      intro e he
      rcases List.mem_append.1 he with he | he
      · exact hent h hh e he
      · rcases List.mem_cons.1 he with rfl | he
        · exact neutral_of_class _ (Or.inl rfl)
        · exact hwait w1 hw1 e he
    | wait_active w1 cl w2 b1 hw1 hm1 hcl1 hinit hw2 _ =>
      obtain ⟨s1, s2⟩ := hset h w1 cl w2 b1 hh hw1 hm1 hcl1 hinit
      refine ⟨s1, s2, ?_⟩
      intro pre e post heq hg
      refine (not_split_of_none global_cleanup _ pre post e ?_ hg heq).elim
      intro x hx
      simp only [release_events, List.mem_append, List.mem_cons, List.mem_singleton,
        List.not_mem_nil, or_false] at hx
      rcases hx with hx | rfl | hx | (hx | (rfl | rfl | rfl) | hx | rfl | rfl | rfl) | hx
      · exact (hent h hh x hx).1
      · rfl
      · exact (hwait w1 hw1 x hx).1
      · rw [xive_events_spec env x hx]
        rfl
      · rfl
      · rfl
      · rfl
      · exact (hcl cl hcl1 x hx).1
      · rfl
      · rfl
      · rfl
      · exact (hwait w2 hw2 x hx).1
    | finished w1 cl w2 b1 b2 hw1 hm1 hcl1 hinit hw2 hm2 =>
      obtain ⟨s1, s2⟩ := hset h w1 cl (w2 ++ finish_events env) b1 hh hw1 hm1 hcl1 hinit
      refine ⟨s1, s2, ?_⟩
      intro pre e post heq hg
      have hA : ∀ x ∈ (h ++ (Event.prlog log_level.PR_INFO
          "RESET: Boot CPU waiting for everybody...\n" ::
            (w1 ++ (release_events env me cl ++ w2)))) ++
          [Event.sync, Event.prlog log_level.PR_INFO "RESET: All done, cleaning up...\n",
            Event.store_release false], global_cleanup x = false := by
        intro x hx
        simp only [release_events, List.mem_append, List.mem_cons, List.mem_singleton,
          List.not_mem_nil, or_false] at hx
        rcases hx with (hx | rfl | hx | (hx | (rfl | rfl | rfl) | hx | rfl | rfl | rfl) | hx)
          | rfl | rfl | rfl
        · exact (hent h hh x hx).1
        · rfl
        · exact (hwait w1 hw1 x hx).1
        · rw [xive_events_spec env x hx]
          rfl
        · rfl
        · rfl
        · rfl
        · exact (hcl cl hcl1 x hx).1
        · rfl
        · rfl
        · rfl
        · exact (hwait w2 hw2 x hx).1
        · rfl
        · rfl
        · rfl
      obtain ⟨rest, hpre, hrest⟩ := split_after global_cleanup _ (global_events env) pre post e
        hA hg (by simpa [finish_events] using heq)
      refine ⟨h ++ (Event.prlog log_level.PR_INFO
          "RESET: Boot CPU waiting for everybody...\n" ::
            (w1 ++ (release_events env me cl ++ w2))) ++
          [Event.sync, Event.prlog log_level.PR_INFO "RESET: All done, cleaning up...\n"],
        rest, b2, ?_, ?_, ?_⟩
      · rw [hpre]
        simp
      · simp [hm2]
      · intro v hv
        have hin : Event.store_release v ∈ global_events env := by
          rw [hrest]
          simp [hv]
        exact (global_events_spec env).1 _ hin v rfl

/-- Either a run of the reset handler performs no global cleanup and ends neither in
the payload nor halted, or it is a run of the boot CPU whose events end with the whole
global cleanup. -/
theorem entry_shape_split (env : Env) (me : Nat) (o : Outcome) (l : List Event)
    (hs : EntryShape env me o l) :
    ((∀ e ∈ l, global_cleanup e = false) ∧ o ≠ Outcome.payload ∧ o ≠ Outcome.halted) ∨
    (me = env.boot_cpu ∧ ∃ A, l = A ++ global_events env ∧
      (∀ e ∈ A, global_cleanup e = false) ∧
      o = (if env.pci_reset ≠ 0 then Outcome.halted else Outcome.payload)) := by
  cases hs with
  | parked h o hh hor =>
    refine Or.inl ⟨fun e he => (neutral_of_class e (Or.inl (hh e he))).1, ?_, ?_⟩ <;>
      rcases hor with rfl | rfl <;> simp
  | secondary h t o _ hh ht hfin =>
    refine Or.inl ⟨?_, ?_, ?_⟩
    · intro e he
      rcases List.mem_append.1 he with he | he
      · exact (neutral_of_class e (Or.inl (hh e he))).1
      · exact (neutral_of_class e (Or.inr (Or.inr (Or.inr (ht e he))))).1
    · rcases hfin with rfl | ⟨rfl, _⟩ <;> simp
    · rcases hfin with rfl | ⟨rfl, _⟩ <;> simp
  | boot h t o hme hh hb =>
    cases hb with
    | wait_present w1 hw1 _ =>
      refine Or.inl ⟨?_, by simp, by simp⟩
      intro e he
      rcases List.mem_append.1 he with he | he
      · exact (neutral_of_class e (Or.inl (hh e he))).1
      · rcases List.mem_cons.1 he with rfl | he
        · rfl
        · exact (neutral_of_class e (Or.inr (Or.inl (hw1 e he)))).1
    | wait_active w1 cl w2 b1 hw1 hm1 hcl1 hinit hw2 _ =>
      refine Or.inl ⟨?_, by simp, by simp⟩
      intro x hx
      simp only [release_events, List.mem_append, List.mem_cons, List.mem_singleton,
        List.not_mem_nil, or_false] at hx
      rcases hx with hx | rfl | hx | (hx | (rfl | rfl | rfl) | hx | rfl | rfl | rfl) | hx
      · exact (neutral_of_class x (Or.inl (hh x hx))).1
      · rfl
      · exact (neutral_of_class x (Or.inr (Or.inl (hw1 x hx)))).1
      · rw [xive_events_spec env x hx]
        rfl
      · rfl
      · rfl
      · rfl
      · exact (neutral_of_class x (Or.inr (Or.inr (Or.inl (hcl1 x hx))))).1
      · rfl
      · rfl
      · rfl
      · exact (neutral_of_class x (Or.inr (Or.inl (hw2 x hx)))).1
    | finished w1 cl w2 b1 b2 hw1 hm1 hcl1 hinit hw2 hm2 =>
      refine Or.inr ⟨hme, (h ++ (Event.prlog log_level.PR_INFO
          "RESET: Boot CPU waiting for everybody...\n" ::
            (w1 ++ (release_events env me cl ++ w2)))) ++
          [Event.sync, Event.prlog log_level.PR_INFO "RESET: All done, cleaning up...\n",
            Event.store_release false], by simp [finish_events], ?_, rfl⟩
      intro x hx
      simp only [release_events, List.mem_append, List.mem_cons, List.mem_singleton,
        List.not_mem_nil, or_false] at hx
      rcases hx with (hx | rfl | hx | (hx | (rfl | rfl | rfl) | hx | rfl | rfl | rfl) | hx)
        | rfl | rfl | rfl
      · exact (neutral_of_class x (Or.inl (hh x hx))).1
      · rfl
      · exact (neutral_of_class x (Or.inr (Or.inl (hw1 x hx)))).1
      · rw [xive_events_spec env x hx]
        rfl
      · rfl
      · rfl
      · rfl
      · exact (neutral_of_class x (Or.inr (Or.inr (Or.inl (hcl1 x hx))))).1
      · rfl
      · rfl
      · rfl
      · exact (neutral_of_class x (Or.inr (Or.inl (hw2 x hx)))).1
      · rfl
      · rfl
      · rfl

/-- A run of the reset handler on a unit other than the boot CPU is parked by the
unsplit coordinator, still spinning, or ends in `__secondary_cpu_entry`. -/
theorem entry_shape_other (env : Env) (me : Nat) (o : Outcome) (l : List Event)
    (hs : EntryShape env me o l) (hme : me ≠ env.boot_cpu) :
    (o = Outcome.worker_loop ∧ l.getLast? = some Event.secondary_cpu_entry) ∨
    o = Outcome.napping ∨ o = Outcome.spinning := by
  cases hs with
  | parked h o hh hor => exact Or.inr hor
  | secondary h t o _ hh ht hfin =>
    rcases hfin with rfl | ⟨rfl, hl⟩
    · exact Or.inr (Or.inr rfl)
    · exact Or.inl ⟨rfl, by simp [hl]⟩
  | boot h t o hb _ _ => exact absurd hb hme

/-- When a run of the reset handler ends in the payload or halted, the release flag is
false in memory. -/
theorem fast_reboot_entry_flag (env : Env) (me fuel : Nat) (m : Machine)
    (h : (fast_reboot_entry env me fuel m).1 = Outcome.payload ∨
      (fast_reboot_entry env me fuel m).1 = Outcome.halted) :
    (fast_reboot_entry env me fuel m).2.fast_boot_release = false := by
  have hpres : ∀ x : Machine, ((fast_reboot_present env me fuel x).1 = Outcome.payload ∨
      (fast_reboot_present env me fuel x).1 = Outcome.halted) →
      (fast_reboot_present env me fuel x).2.fast_boot_release = false := by
    intro x hx
    unfold fast_reboot_present at hx ⊢
    split_ifs at hx ⊢ with hme
    · obtain ⟨_, _, _, t3⟩ := fast_reboot_secondary_spec env me fuel
        (emit Event.sync (store_state me cpu_thread_state.cpu_state_present (emit Event.sync x)))
      rcases t3 with t3 | ⟨t3, _⟩ <;> rw [t3] at hx <;> simp at hx
    · obtain ⟨_, _, t2, _⟩ := fast_reboot_boot_shape env me fuel
        (emit Event.sync (store_state me cpu_thread_state.cpu_state_present (emit Event.sync x)))
      rcases t2 with t2 | t2
      · rw [t2] at hx
        simp at hx
      · exact t2
  unfold fast_reboot_entry at h ⊢
  split_ifs at h ⊢
  · exact hpres _ h
  · obtain ⟨_, _, _, _, c4⟩ := check_split_core_spec env me fuel
      (emit Event.reset_cpu_icp
        (emit (Event.prlog log_level.PR_DEBUG "RESET: CPU 0x%04x reset in\n") m))
    rcases hr : check_split_core env me fuel
      (emit Event.reset_cpu_icp
        (emit (Event.prlog log_level.PR_DEBUG "RESET: CPU 0x%04x reset in\n") m))
      with ⟨o, m1⟩
    rw [hr] at c4 h
    simp only at c4 h ⊢
    rcases c4 with rfl | rfl | rfl
    · exact hpres _ h
    · simp at h
    · simp at h
  · exact hpres _ h

/-- The payload loader on a run of the reset handler, read off the shape of its
events. -/
theorem entry_shape_loader (env : Env) (me : Nat) (o : Outcome) (l : List Event)
    (hs : EntryShape env me o l) :
    (∀ b, Event.load_and_boot_kernel b ∈ l → b = true ∧ me = env.boot_cpu) ∧
    l.count (Event.load_and_boot_kernel true) ≤ 1 ∧
    (o = Outcome.payload ↔ Event.load_and_boot_kernel true ∈ l) ∧
    (o = Outcome.payload → l.getLast? = some (Event.load_and_boot_kernel true) ∧
      l.count (Event.load_and_boot_kernel true) = 1) := by
  have hno : ∀ A : List Event, (∀ e ∈ A, global_cleanup e = false) →
      ∀ b, Event.load_and_boot_kernel b ∉ A := by
    intro A hA b hb
    have := hA _ hb
    simp [global_cleanup] at this
  rcases entry_shape_split env me o l hs with ⟨hall, hp, _⟩ | ⟨hme, A, rfl, hA, ho⟩
  · refine ⟨fun b hb => absurd hb (hno l hall b), ?_, ?_, fun h => absurd h hp⟩
    · rw [List.count_eq_zero_of_not_mem (hno l hall true)]
      exact Nat.zero_le 1
    · exact ⟨fun h => absurd h hp, fun h => absurd h (hno l hall true)⟩
  · obtain ⟨_, g2, g3⟩ := global_events_spec env
    by_cases hp : env.pci_reset = 0
    · obtain ⟨g, hg, hgn⟩ := g3 hp
      have hcount : (A ++ global_events env).count (Event.load_and_boot_kernel true) = 1 := by
        rw [hg, List.count_append, List.count_append,
          List.count_eq_zero_of_not_mem (hno A hA true),
          List.count_eq_zero_of_not_mem (hgn true)]
        simp
      have hmem : Event.load_and_boot_kernel true ∈ A ++ global_events env := by
        rw [hg]
        simp
      refine ⟨?_, le_of_eq hcount, ⟨fun _ => hmem, fun _ => by simp [ho, hp]⟩, fun _ => ⟨?_, hcount⟩⟩
      · intro b hb
        rcases List.mem_append.1 hb with hb | hb
        · exact absurd hb (hno A hA b)
        · exact ⟨(g2 b hb).1, hme⟩
      · rw [hg, ← List.append_assoc, List.getLast?_concat]
    · have hnone : ∀ b, Event.load_and_boot_kernel b ∉ A ++ global_events env := by
        intro b hb
        rcases List.mem_append.1 hb with hb | hb
        · exact hno A hA b hb
        · exact hp (g2 b hb).2
      have ho2 : o ≠ Outcome.payload := by simp [ho, hp]
      refine ⟨fun b hb => absurd hb (hnone b), ?_, ⟨fun h => absurd h ho2,
        fun h => absurd h (hnone true)⟩, fun h => absurd h ho2⟩
      rw [List.count_eq_zero_of_not_mem (hnone true)]
      exact Nat.zero_le 1

/-- On a unit other than the boot CPU whose core is not split, once the release flag
reads true from clock `T` on, the reset handler ends in the worker loop when given more
than `T - clock` iterations. -/
theorem fast_reboot_entry_other_ends (env : Env) (me fuel : Nat) (m : Machine)
    (hme : me ≠ env.boot_cpu)
    (hsplit : env.proc_gen ≠ proc_gen_t.proc_gen_p8 ∨
      ∀ t, env.hid0 t % 2 ^ 64 &&& split_mask env = 0)
    (T : Nat) (hT : ∀ t, T ≤ t → env.fast_boot_release t = true)
    (hf : T - m.clock < fuel) :
    (fast_reboot_entry env me fuel m).1 = Outcome.worker_loop := by
  have hpres : ∀ x : Machine, m.clock ≤ x.clock →
      (fast_reboot_present env me fuel x).1 = Outcome.worker_loop := by
    intro x hx
    unfold fast_reboot_present
    rw [if_pos hme]
    exact fast_reboot_secondary_ends env me T hT fuel _ (by simp [store_state]; omega)
  unfold fast_reboot_entry
  split_ifs with h9 h8
  · exact hpres _ (by simp)
  · rcases hsplit with hs | hs
    · exact absurd h8 hs
    · have hc : check_split_core env me fuel
          (emit Event.reset_cpu_icp
            (emit (Event.prlog log_level.PR_DEBUG "RESET: CPU 0x%04x reset in\n") m))
          = (Outcome.returned, (load_hid0 env (emit Event.reset_cpu_icp
            (emit (Event.prlog log_level.PR_DEBUG "RESET: CPU 0x%04x reset in\n") m))).2) := by
        unfold check_split_core
        rw [if_pos (by simpa [load_hid0] using hs m.clock)]
      rw [hc]
      exact hpres _ (by simp [load_hid0])
  · exact hpres _ (by simp)

theorem kick_siblings_trace (me : Nat) : ∀ (l : List Nat) (m : Machine),
    (kick_siblings me l m).trace
      = m.trace ++ (l.filter (other_sibling m.cpus me)).map Event.icp_kick_cpu ∧
    (kick_siblings me l m).cpus = m.cpus := by
  intro l
  induction l with
  | nil => intro m; simp [kick_siblings]
  | cons c rest ih =>
    intro m
    rw [kick_siblings]
    split_ifs with h
    · have hp : other_sibling m.cpus me c = false := by
        unfold other_sibling
        rcases h with h | h
        · simp [this_cpu] at h
          simp [h]
        · simp [h]
      rw [List.filter_cons_of_neg (by simp [hp])]
      exact ih m
    · have hp : other_sibling m.cpus me c = true := by
        unfold other_sibling
        simp only [not_or] at h
        simp [this_cpu] at h
        simp [h.1, h.2]
      rw [List.filter_cons_of_pos hp]
      obtain ⟨h1, h2⟩ := ih (emit (Event.icp_kick_cpu c) m)
      simp only [emit_cpus] at h1 h2
      exact ⟨by simp [h1], h2⟩

theorem count_kicks (p : Nat → Bool) (n c : Nat) :
    (((List.range n).filter p).map Event.icp_kick_cpu).count (Event.icp_kick_cpu c)
      = if c < n ∧ p c = true then 1 else 0 := by
  have hinj : Function.Injective Event.icp_kick_cpu := by
    intro a b h
    injection h
  rw [List.count_map_of_injective _ _ hinj]
  have hnd : ((List.range n).filter p).Nodup := (List.nodup_range n).filter _
  split_ifs with h
  · exact List.count_eq_one_of_mem hnd (by simp [h.1, h.2])
  · apply List.count_eq_zero_of_not_mem
    simp only [List.mem_filter, List.mem_range]
    exact h

theorem unsplit_wait_polls (env : Env) : ∀ (fuel : Nat) (m : Machine), ∃ ev,
    (unsplit_wait env fuel m).2.trace = m.trace ++ ev ∧
    (∀ e ∈ ev, unsplit_poll e = true) ∧
    (unsplit_wait env fuel m).2.cpus = m.cpus := by
  intro fuel
  induction fuel with
  | zero => intro m; exact ⟨[], by simp [unsplit_wait], by simp, rfl⟩
  | succ fuel ih =>
    intro m
    rw [unsplit_wait]
    split_ifs
    · obtain ⟨ev, h1, h2, h3⟩ := ih (emit Event.cpu_relax (load_hid0 env m).2)
      refine ⟨[Event.load_hid0 (load_hid0 env m).1, Event.cpu_relax] ++ ev, ?_, ?_, ?_⟩
      · rw [h1]
        simp [load_hid0]
      · intro e he
        rcases List.mem_append.1 he with he | he
        · simp at he
          rcases he with rfl | rfl <;> rfl
        · exact h2 e he
      · rw [h3]
        rfl
    · exact ⟨[Event.load_hid0 (load_hid0 env m).1], by simp [load_hid0],
        by simp [unsplit_poll], rfl⟩

/-- Once `HID0` reads unsplit from clock `T` on, the wait for unsplit ends within
`T - clock + 1` iterations. -/
theorem unsplit_wait_ends (env : Env) (T : Nat)
    (hT : ∀ t, T ≤ t → env.hid0 t % 2 ^ 64 &&& split_mask env = 0) :
    ∀ (fuel : Nat) (m : Machine), T - m.clock < fuel → (unsplit_wait env fuel m).1 = true := by
  intro fuel
  induction fuel with
  | zero => intro m h; omega
  | succ fuel ih =>
    intro m h
    rw [unsplit_wait]
    split_ifs with h1
    · refine ih _ ?_
      have hlt : m.clock < T := by
        by_contra hc
        exact h1 (by simpa [load_hid0] using hT m.clock (not_lt.1 hc))
      simp [load_hid0]
      omega
    · rfl

theorem check_split_core_lead (env : Env) (me fuel : Nat) (m : Machine)
    (hsplit : (load_hid0 env m).1 &&& split_mask env ≠ 0)
    (hlead : (this_cpu m me).pir &&& 7 = 0) :
    ∃ w, (∀ e ∈ w, unsplit_poll e = true) ∧
      (check_split_core env me fuel m).2.cpus = m.cpus ∧
      (((check_split_core env me fuel m).1 = Outcome.spinning ∧
          (check_split_core env me fuel m).2.trace
            = m.trace ++ (unsplit_events env (this_cpu m me).pir (load_hid0 env m).1 ++ w)) ∨
       ((check_split_core env me fuel m).1 = Outcome.returned ∧
          (check_split_core env me fuel m).2.trace
            = m.trace ++ (unsplit_events env (this_cpu m me).pir (load_hid0 env m).1 ++ w ++
                Event.prlog log_level.PR_INFO "RESET: Waking unsplit secondaries... \n" ::
                ((all_cpus m.cpus).filter (other_sibling m.cpus me)).map
                  Event.icp_kick_cpu))) ∧
      ∀ T, (∀ t, T ≤ t → env.hid0 t % 2 ^ 64 &&& split_mask env = 0) → T - m.clock < fuel →
        (check_split_core env me fuel m).1 = Outcome.returned := by
  unfold check_split_core
  rw [if_neg hsplit, if_neg (not_not.2 hlead)]
  obtain ⟨w, h1, h2, h3⟩ := unsplit_wait_polls env fuel
      (emit (Event.opal_slw_set_reg (this_cpu m me).pir
          ((load_hid0 env m).1 &&& not64 env.SPR_HID0_POWER8_DYNLPARDIS))
        (emit (Event.set_hid0
            ((load_hid0 env m).1 &&& not64 env.SPR_HID0_POWER8_DYNLPARDIS))
          (emit (Event.prlog log_level.PR_INFO "RESET: Primary, unsplitting... \n")
            (emit (Event.prlog log_level.PR_INFO "RESET: CPU 0x%04x is split !\n")
              (load_hid0 env m).2))))
  have hend := fun T hT => unsplit_wait_ends env T hT fuel
      (emit (Event.opal_slw_set_reg (this_cpu m me).pir
          ((load_hid0 env m).1 &&& not64 env.SPR_HID0_POWER8_DYNLPARDIS))
        (emit (Event.set_hid0
            ((load_hid0 env m).1 &&& not64 env.SPR_HID0_POWER8_DYNLPARDIS))
          (emit (Event.prlog log_level.PR_INFO "RESET: Primary, unsplitting... \n")
            (emit (Event.prlog log_level.PR_INFO "RESET: CPU 0x%04x is split !\n")
              (load_hid0 env m).2))))
  rcases hr : unsplit_wait env fuel
      (emit (Event.opal_slw_set_reg (this_cpu m me).pir
          ((load_hid0 env m).1 &&& not64 env.SPR_HID0_POWER8_DYNLPARDIS))
        (emit (Event.set_hid0
            ((load_hid0 env m).1 &&& not64 env.SPR_HID0_POWER8_DYNLPARDIS))
          (emit (Event.prlog log_level.PR_INFO "RESET: Primary, unsplitting... \n")
            (emit (Event.prlog log_level.PR_INFO "RESET: CPU 0x%04x is split !\n")
              (load_hid0 env m).2)))) with ⟨b, m1⟩
  rw [hr] at h1 h3 hend
  simp only at h1 h3 hend
  have hc : m1.cpus = m.cpus := by
    rw [h3]
    rfl
  have ht : m1.trace
      = m.trace ++ (unsplit_events env (this_cpu m me).pir (load_hid0 env m).1 ++ w) := by
    rw [h1]
    simp [load_hid0, unsplit_events]
  refine ⟨w, h2, ?_⟩
  cases b with
  | false =>
    refine ⟨hc, Or.inl ⟨rfl, ht⟩, ?_⟩
    intro T hT hf
    have := hend T hT (by simp [load_hid0]; omega)
    simp at this
  | true =>
    obtain ⟨k1, k2⟩ := kick_siblings_trace me (all_cpus m1.cpus)
      (emit (Event.prlog log_level.PR_INFO "RESET: Waking unsplit secondaries... \n") m1)
    simp only [emit_cpus, emit_trace] at k1 k2
    refine ⟨k2.trans hc, Or.inr ⟨rfl, ?_⟩, fun _ _ _ => rfl⟩
    show (kick_siblings me (all_cpus m1.cpus) _).trace = _
    rw [k1, ht, hc]
    simp

/-- A run of the reset handler never ends by returning or by the branch to `0x100`. -/
theorem entry_shape_no_return (env : Env) (me : Nat) (o : Outcome) (l : List Event)
    (hs : EntryShape env me o l) : o ≠ Outcome.returned ∧ o ≠ Outcome.branched := by
  cases hs with
  | parked h o hh hor => rcases hor with rfl | rfl <;> simp
  | secondary h t o _ hh ht hfin => rcases hfin with rfl | ⟨rfl, _⟩ <;> simp
  | boot h t o _ _ hb =>
    cases hb with
    | wait_present w1 _ _ => simp
    | wait_active w1 cl w2 b1 _ _ _ _ _ _ => simp
    | finished w1 cl w2 b1 b2 _ _ _ _ _ _ => split_ifs <;> simp

/-- The global cleanup when `pci_reset()` fails: it ends with the failed call, the log
line and the call of `platform.cec_reboot` when there is one. -/
theorem global_events_failed (env : Env) (hfail : env.pci_reset ≠ 0) :
    ∃ g, global_events env
      = g ++ (Event.pci_reset env.pci_reset ::
          Event.prlog log_level.PR_NOTICE "RESET: Fast reboot failed to reset PCI\n" ::
          (if env.has_cec_reboot = true then [Event.cec_reboot] else [])) ∧
      Event.cec_reboot ∉ g ∧ (∀ rc, Event.pci_reset rc ∉ g) ∧
      ∀ b, Event.load_and_boot_kernel b ∉ global_events env := by
  unfold global_events
  rw [if_pos hfail]
  refine ⟨[Event.cpu_fast_reboot_complete, Event.cpu_set_sreset_enable true,
      Event.cpu_set_ipi_enable true, Event.start_preload_kernel, Event.fsp_console_reset] ++
      (if env.proc_gen = proc_gen_t.proc_gen_p8 then [Event.psi_irq_reset] else []),
    by simp, ?_, ?_, ?_⟩
  · split_ifs <;> simp
  · intro rc
    split_ifs <;> simp
  · intro b
    split_ifs <;> simp

/-- The events of the part of `fast_reboot` that follows the preparation when the wait
for present succeeds. -/
theorem fast_reboot_commit_success (env : Env) (me fuel : Nat) (m : Machine)
    (hs : env.sreset_all_others = OPAL_SUCCESS)
    (hw : (cpu_state_wait_all_others env me cpu_thread_state.cpu_state_present
      (env.msecs_to_tb 100) fuel (fast_reboot_broadcast env m)).1 = some true) :
    (fast_reboot_commit env me fuel m).1 = Outcome.branched ∧
    ∃ w, (fast_reboot_commit env me fuel m).2.trace = m.trace ++
        (((ungarded_cpus m.cpus).map (fun c => Event.store_save_r1 c 0) ++
          [Event.copy_exception_vectors, Event.setup_reset_vector,
            Event.sreset_all_others OPAL_SUCCESS]) ++ (w ++
          [Event.wait_returned cpu_thread_state.cpu_state_present (env.msecs_to_tb 100) true,
            Event.prlog log_level.PR_DEBUG "RESET: Releasing special wakeups...\n",
            Event.sreset_all_finish,
            Event.opal_quiesce quiesce_type.QUIESCE_RESUME_FAST_REBOOT (-1)
              (env.opal_quiesce quiesce_type.QUIESCE_RESUME_FAST_REBOOT),
            Event.branch_0x100])) ∧
      (∀ e ∈ w, poll_event e = true) ∧
      ∀ u ∈ ungarded_cpus m.cpus, u ≠ me →
        Event.load_state u cpu_thread_state.cpu_state_present ∈ w := by
  obtain ⟨ev, h1, _, h3⟩ := wait_all_spec env me cpu_thread_state.cpu_state_present
    (env.msecs_to_tb 100) fuel (fast_reboot_broadcast env m)
  rw [(fast_reboot_broadcast_frame env m).2] at h3
  unfold fast_reboot_commit
  rw [if_neg (not_not.2 hs)]
  rcases hr : cpu_state_wait_all_others env me cpu_thread_state.cpu_state_present
    (env.msecs_to_tb 100) fuel (fast_reboot_broadcast env m) with ⟨r, m1⟩
  rw [hr] at h1 h3 hw
  simp only at h1 h3 hw
  subst hw
  refine ⟨rfl, Event.load_tb (mftb env (fast_reboot_broadcast env m)).1 :: Event.sync :: ev,
    ?_, ?_, ?_⟩
  · simp [opal_quiesce, h1, fast_reboot_broadcast_trace, ret_events, hs]
  · intro e he
    rcases List.mem_cons.1 he with rfl | he
    · rfl
    · rcases List.mem_cons.1 he with rfl | he
      · rfl
      · exact h3.quiet e he
  · intro u hu hne
    exact List.mem_cons_of_mem _ (List.mem_cons_of_mem _ (h3.seen rfl u hu hne))

theorem cleanup_cpu_state_trace (env : Env) (me : Nat) (m : Machine) :
    (cleanup_cpu_state env me m).trace = m.trace ++ cleanup_events env (this_cpu m me) ∧
    (cleanup_cpu_state env me m).cpus = m.cpus := by
  unfold cleanup_cpu_state cleanup_p8 cleanup_events
  have ht : ∀ e x, this_cpu (emit e x) me = this_cpu x me := fun _ _ => rfl
  split_ifs <;> simp_all [this_cpu]

theorem cleanup_events_counts (env : Env) (c : cpu_thread) :
    (cleanup_events env c).count Event.init_shared_sprs
      = (if cpu_is_thread0 c = true then 1 else 0) ∧
    (cleanup_events env c).count Event.chiptod_wakeup_resync
      = (if cpu_is_thread0 c = true then 1 else 0) ∧
    (cleanup_events env c).count Event.init_replicated_sprs = 1 := by
  unfold cleanup_events
  split_ifs <;> simp

theorem cleanup_all_trace (env : Env) : ∀ (units : List Nat) (m : Machine),
    (cleanup_all env units m).trace
      = m.trace ++ (units.map (fun u => cleanup_events env (this_cpu m u))).flatten ∧
    (cleanup_all env units m).cpus = m.cpus := by
  intro units
  induction units with
  | nil => intro m; simp [cleanup_all]
  | cons u rest ih =>
    intro m
    obtain ⟨h1, h2⟩ := cleanup_cpu_state_trace env u m
    obtain ⟨i1, i2⟩ := ih (cleanup_cpu_state env u m)
    have hc : ∀ v, this_cpu (cleanup_cpu_state env u m) v = this_cpu m v := by
      intro v
      simp [this_cpu, h2]
    unfold cleanup_all at i1 i2 ⊢
    rw [List.foldl_cons, i1, i2, h1, h2]
    simp [hc]

theorem count_flatten_cleanup (env : Env) (m : Machine) (x : Event)
    (f : cpu_thread → Nat) (hf : ∀ c, (cleanup_events env c).count x = f c) :
    ∀ units : List Nat,
      ((units.map (fun u => cleanup_events env (this_cpu m u))).flatten).count x
        = (units.map (fun u => f (this_cpu m u))).sum := by
  intro units
  induction units with
  | nil => simp
  | cons u rest ih => simp [List.count_append, hf, ih]

theorem one_lead_thread (m : Machine) (P : Nat) : ∀ units : List Nat,
    (∀ u ∈ units, (this_cpu m u).primary = P) →
    (units.map (fun u => if cpu_is_thread0 (this_cpu m u) = true then 1 else 0)).sum
      = (units.map (fun u => (this_cpu m u).pir)).count P := by
  intro units
  induction units with
  | nil => intro _; simp
  | cons u rest ih =>
    intro h
    have hu := h u (List.mem_cons_self _ _)
    rw [List.map_cons, List.sum_cons, List.map_cons, List.count_cons,
      ih (fun v hv => h v (List.mem_cons_of_mem _ hv))]
    unfold cpu_is_thread0
    rw [hu]
    by_cases hp : (this_cpu m u).pir = P
    · simp [hp]
      omega
    · have hp2 : ¬ P = (this_cpu m u).pir := fun h => hp h.symm
      simp [hp, hp2]

theorem check_split_core_unsplit (env : Env) (me fuel : Nat) (m : Machine)
    (h : (load_hid0 env m).1 &&& split_mask env = 0) :
    check_split_core env me fuel m = (Outcome.returned, (load_hid0 env m).2) := by
  unfold check_split_core
  rw [if_pos h]

theorem check_split_core_nap (env : Env) (me fuel : Nat) (m : Machine)
    (hsplit : (load_hid0 env m).1 &&& split_mask env ≠ 0)
    (hsec : (this_cpu m me).pir &&& 7 ≠ 0) :
    (check_split_core env me fuel m).1 = Outcome.napping ∧
    (check_split_core env me fuel m).2.trace = m.trace ++ nap_events env (load_hid0 env m).1 ∧
    (check_split_core env me fuel m).2.cpus = m.cpus := by
  unfold check_split_core
  rw [if_neg hsplit, if_pos hsec]
  exact ⟨rfl, by simp [load_hid0, nap_events], rfl⟩

/-- The ways a call of `fast_reboot` goes: it returns before preparing the secondaries,
with no other effect than log lines, the NVRAM query and quiesce calls; or it returns
after the preparation failed, its last effect being the quiesce resume; or it runs the
part that follows the preparation. -/
theorem fast_reboot_cases (env : Env) (me fuel : Nat) (m : Machine) :
    ((fast_reboot env me fuel m).1 = Outcome.returned ∧
      ∀ e ∈ new_events m (fast_reboot env me fuel m).2, inert e = true ∨
        (∃ rc, e = Event.opal_quiesce quiesce_type.QUIESCE_HOLD (-1) rc) ∨
        (∃ rc, e = Event.opal_quiesce quiesce_type.QUIESCE_RESUME (-1) rc)) ∨
    ((fast_reboot env me fuel m).1 = Outcome.returned ∧ env.sreset_all_prepare ≠ 0 ∧
      new_events m (fast_reboot env me fuel m).2
        = prepare_events env ++
          [Event.prlog log_level.PR_NOTICE
            "RESET: Fast reboot failed to prepare secondaries for system reset\n",
           Event.opal_quiesce quiesce_type.QUIESCE_RESUME (-1)
             (env.opal_quiesce quiesce_type.QUIESCE_RESUME)]) ∨
    (env.sreset_all_prepare = 0 ∧
      fast_reboot env me fuel m = fast_reboot_commit env me fuel (fast_reboot_prepare env
        (opal_quiesce env quiesce_type.QUIESCE_HOLD (fast_reboot_nvram env m)))) := by
  have hnv : ∀ e ∈ nvram_events env, inert e = true := by
    intro e he
    unfold nvram_events at he
    split_ifs at he <;> simp at he
    subst he
    rfl
  unfold fast_reboot
  split_ifs with h1 h2 h3 h4 h5 h6
  · refine Or.inl ⟨rfl, ?_⟩
    intro e he
    simp only [new_events, fast_reboot_nvram_trace, List.drop_left] at he
    exact Or.inl (hnv e he)
  · refine Or.inl ⟨rfl, ?_⟩
    intro e he
    simp only [new_events, fast_reboot_nvram_trace, emit_trace, List.append_assoc,
      List.drop_left, List.mem_append, List.mem_singleton] at he
    rcases he with he | rfl
    · exact Or.inl (hnv e he)
    · exact Or.inl rfl
  · refine Or.inl ⟨rfl, ?_⟩
    intro e he
    simp only [new_events, fast_reboot_nvram_trace, emit_trace, List.append_assoc,
      List.drop_left, List.mem_append, List.mem_singleton] at he
    rcases he with he | rfl
    · exact Or.inl (hnv e he)
    · exact Or.inl rfl
  · refine Or.inl ⟨rfl, ?_⟩
    intro e he
    simp only [new_events, fast_reboot_nvram_trace, emit_trace, opal_quiesce_trace,
      List.append_assoc, List.drop_left, List.mem_append, List.mem_singleton] at he
    rcases he with he | rfl | rfl
    · exact Or.inl (hnv e he)
    · exact Or.inr (Or.inl ⟨_, rfl⟩)
    · exact Or.inl rfl
  · refine Or.inl ⟨rfl, ?_⟩
    intro e he
    simp only [new_events, fast_reboot_nvram_trace, emit_trace, opal_quiesce_trace,
      List.append_assoc, List.drop_left, List.mem_append, List.mem_singleton] at he
    rcases he with he | rfl | rfl | rfl
    · exact Or.inl (hnv e he)
    · exact Or.inr (Or.inl ⟨_, rfl⟩)
    · exact Or.inl rfl
    · exact Or.inr (Or.inr ⟨_, rfl⟩)
  · refine Or.inr (Or.inl ⟨rfl, h6, ?_⟩)
    obtain ⟨ht, _, _⟩ := fast_reboot_prepared env m
    simp only [new_events, emit_trace, opal_quiesce_trace, ht, List.append_assoc,
      List.drop_left]
    simp
  · exact Or.inr (Or.inr ⟨not_not.1 h6, rfl⟩)

/-- The events of the part of `fast_reboot` that follows the preparation, by the way it
ends; `w` are the polling events of the wait for present. -/
theorem fast_reboot_commit_cases (env : Env) (me fuel : Nat) (m : Machine) :
    (env.sreset_all_others ≠ OPAL_SUCCESS ∧
      (fast_reboot_commit env me fuel m).1 = Outcome.returned ∧
      (fast_reboot_commit env me fuel m).2.trace = m.trace ++
        (((ungarded_cpus m.cpus).map (fun c => Event.store_save_r1 c 0) ++
          [Event.copy_exception_vectors, Event.setup_reset_vector,
            Event.sreset_all_others env.sreset_all_others]) ++
          [Event.prlog log_level.PR_NOTICE
            "RESET: Fast reboot failed to system reset secondaries\n"])) ∨
    (env.sreset_all_others = OPAL_SUCCESS ∧ ∃ w, (∀ e ∈ w, poll_event e = true) ∧
      (((fast_reboot_commit env me fuel m).1 = Outcome.spinning ∧
        (fast_reboot_commit env me fuel m).2.trace = m.trace ++
          (((ungarded_cpus m.cpus).map (fun c => Event.store_save_r1 c 0) ++
            [Event.copy_exception_vectors, Event.setup_reset_vector,
              Event.sreset_all_others OPAL_SUCCESS]) ++ w)) ∨
       ((fast_reboot_commit env me fuel m).1 = Outcome.returned ∧
        (fast_reboot_commit env me fuel m).2.trace = m.trace ++
          (((ungarded_cpus m.cpus).map (fun c => Event.store_save_r1 c 0) ++
            [Event.copy_exception_vectors, Event.setup_reset_vector,
              Event.sreset_all_others OPAL_SUCCESS]) ++ (w ++
            [Event.wait_returned cpu_thread_state.cpu_state_present (env.msecs_to_tb 100)
                false,
              Event.prlog log_level.PR_NOTICE
                "RESET: Fast reboot timed out waiting for secondaries to call in\n"]))) ∨
       ((fast_reboot_commit env me fuel m).1 = Outcome.branched ∧
        (fast_reboot_commit env me fuel m).2.trace = m.trace ++
          (((ungarded_cpus m.cpus).map (fun c => Event.store_save_r1 c 0) ++
            [Event.copy_exception_vectors, Event.setup_reset_vector,
              Event.sreset_all_others OPAL_SUCCESS]) ++ (w ++
            [Event.wait_returned cpu_thread_state.cpu_state_present (env.msecs_to_tb 100)
                true,
              Event.prlog log_level.PR_DEBUG "RESET: Releasing special wakeups...\n",
              Event.sreset_all_finish,
              Event.opal_quiesce quiesce_type.QUIESCE_RESUME_FAST_REBOOT (-1)
                (env.opal_quiesce quiesce_type.QUIESCE_RESUME_FAST_REBOOT),
              Event.branch_0x100]))))) := by
  by_cases hs : env.sreset_all_others = OPAL_SUCCESS
  · right
    obtain ⟨ev, h1, _, h3⟩ := wait_all_spec env me cpu_thread_state.cpu_state_present
      (env.msecs_to_tb 100) fuel (fast_reboot_broadcast env m)
    refine ⟨hs, Event.load_tb (mftb env (fast_reboot_broadcast env m)).1 :: Event.sync :: ev,
      ?_, ?_⟩
    · intro e he
      rcases List.mem_cons.1 he with rfl | he
      · rfl
      · rcases List.mem_cons.1 he with rfl | he
        · rfl
        · exact h3.quiet e he
    · unfold fast_reboot_commit
      rw [if_neg (not_not.2 hs)]
      rcases hr : cpu_state_wait_all_others env me cpu_thread_state.cpu_state_present
        (env.msecs_to_tb 100) fuel (fast_reboot_broadcast env m) with ⟨r, m1⟩
      rw [hr] at h1
      simp only at h1
      rcases r with _ | _ | _
      · exact Or.inl ⟨rfl, by simp [h1, fast_reboot_broadcast_trace, ret_events, hs]⟩
      · exact Or.inr (Or.inl ⟨rfl, by
          simp [h1, fast_reboot_broadcast_trace, ret_events, hs]⟩)
      · exact Or.inr (Or.inr ⟨rfl, by
          simp [opal_quiesce, h1, fast_reboot_broadcast_trace, ret_events, hs]⟩)
  · left
    refine ⟨hs, ?_, ?_⟩
    · simp [fast_reboot_commit, hs]
    · simp [fast_reboot_commit, hs, fast_reboot_broadcast_trace]

/-- A log line or the NVRAM query is none of the calls of the reboot sequence. -/
theorem inert_class (e : Event) (h : inert e = true) :
    resumes e = false ∧ e ≠ Event.sreset_all_finish ∧
    (∀ rc, e ≠ Event.sreset_all_others rc) ∧ (∀ s t b, e ≠ Event.wait_returned s t b) ∧
    (∀ rc, e ≠ Event.sreset_all_prepare rc) := by
  cases e <;> simp_all [inert, resumes]

/-- A polling event of a wait is none of the calls of the reboot sequence. -/
theorem poll_class (e : Event) (h : poll_event e = true) :
    resumes e = false ∧ e ≠ Event.sreset_all_finish ∧
    (∀ rc, e ≠ Event.sreset_all_others rc) ∧ (∀ s t b, e ≠ Event.wait_returned s t b) ∧
    (∀ rc, e ≠ Event.sreset_all_prepare rc) := by
  cases e <;> simp_all [poll_event, resumes]

/-- The events of `fast_reboot` up to `sreset_all_prepare`: no resume, no release of
the wakeups, no broadcast, no return of a wait. -/
theorem prepare_events_class (env : Env) (e : Event) (he : e ∈ prepare_events env) :
    resumes e = false ∧ e ≠ Event.sreset_all_finish ∧
    (∀ rc, e ≠ Event.sreset_all_others rc) ∧ (∀ s t b, e ≠ Event.wait_returned s t b) ∧
    (∀ rc, e = Event.sreset_all_prepare rc → rc = env.sreset_all_prepare) := by
  simp only [prepare_events, nvram_events, List.mem_append, List.mem_cons,
    List.mem_singleton, List.not_mem_nil, or_false] at he
  rcases he with he | rfl | rfl | rfl | rfl | rfl
  · split_ifs at he <;> simp at he
    subst he
    simp [resumes]
  · simp [resumes]
  · simp [resumes]
  · simp [resumes]
  · simp [resumes]
  · simp [resumes]

/-- The events of `fast_reboot` from the stores of `save_r1` to the broadcast: no
resume, no release of the wakeups, no return of a wait, no preparation. -/
theorem broadcast_events_class (env : Env) (cpus : List Nat) (e : Event)
    (he : e ∈ cpus.map (fun c => Event.store_save_r1 c 0) ++
      [Event.copy_exception_vectors, Event.setup_reset_vector,
        Event.sreset_all_others env.sreset_all_others]) :
    resumes e = false ∧ e ≠ Event.sreset_all_finish ∧
    (∀ rc, e = Event.sreset_all_others rc → rc = env.sreset_all_others) ∧
    (∀ s t b, e ≠ Event.wait_returned s t b) ∧ (∀ rc, e ≠ Event.sreset_all_prepare rc) := by
  simp only [List.mem_append, List.mem_map, List.mem_cons, List.mem_singleton,
    List.not_mem_nil, or_false] at he
  rcases he with ⟨c, _, rfl⟩ | rfl | rfl | rfl <;> simp [resumes]

/-- The events of a call of `fast_reboot` that runs the part after the preparation:
those of the preparation, those up to the broadcast, then a tail `tl` fixed by the way
the call ends, `w` being polling events of the wait. -/
theorem fast_reboot_commit_events (env : Env) (me fuel : Nat) (m : Machine) :
    ∃ tl, new_events m (fast_reboot_commit env me fuel (fast_reboot_prepare env
        (opal_quiesce env quiesce_type.QUIESCE_HOLD (fast_reboot_nvram env m)))).2
      = prepare_events env ++
        (((ungarded_cpus m.cpus).map (fun c => Event.store_save_r1 c 0) ++
          [Event.copy_exception_vectors, Event.setup_reset_vector,
            Event.sreset_all_others env.sreset_all_others]) ++ tl) ∧
    ((env.sreset_all_others ≠ OPAL_SUCCESS ∧
      (fast_reboot_commit env me fuel (fast_reboot_prepare env
        (opal_quiesce env quiesce_type.QUIESCE_HOLD (fast_reboot_nvram env m)))).1
        = Outcome.returned ∧
      tl = [Event.prlog log_level.PR_NOTICE
        "RESET: Fast reboot failed to system reset secondaries\n"]) ∨
    (env.sreset_all_others = OPAL_SUCCESS ∧ ∃ w, (∀ e ∈ w, poll_event e = true) ∧
      (((fast_reboot_commit env me fuel (fast_reboot_prepare env
          (opal_quiesce env quiesce_type.QUIESCE_HOLD (fast_reboot_nvram env m)))).1
          = Outcome.spinning ∧ tl = w) ∨
       ((fast_reboot_commit env me fuel (fast_reboot_prepare env
          (opal_quiesce env quiesce_type.QUIESCE_HOLD (fast_reboot_nvram env m)))).1
          = Outcome.returned ∧
        tl = w ++
          [Event.wait_returned cpu_thread_state.cpu_state_present (env.msecs_to_tb 100) false,
            Event.prlog log_level.PR_NOTICE
              "RESET: Fast reboot timed out waiting for secondaries to call in\n"]) ∨
       ((fast_reboot_commit env me fuel (fast_reboot_prepare env
          (opal_quiesce env quiesce_type.QUIESCE_HOLD (fast_reboot_nvram env m)))).1
          = Outcome.branched ∧
        tl = w ++
          [Event.wait_returned cpu_thread_state.cpu_state_present (env.msecs_to_tb 100) true,
            Event.prlog log_level.PR_DEBUG "RESET: Releasing special wakeups...\n",
            Event.sreset_all_finish,
            Event.opal_quiesce quiesce_type.QUIESCE_RESUME_FAST_REBOOT (-1)
              (env.opal_quiesce quiesce_type.QUIESCE_RESUME_FAST_REBOOT),
            Event.branch_0x100])))) := by
  obtain ⟨ht, _, hc⟩ := fast_reboot_prepared env m
  have hsplit : ∀ l : List Event, (fast_reboot_commit env me fuel (fast_reboot_prepare env
      (opal_quiesce env quiesce_type.QUIESCE_HOLD (fast_reboot_nvram env m)))).2.trace
        = (fast_reboot_prepare env (opal_quiesce env quiesce_type.QUIESCE_HOLD
            (fast_reboot_nvram env m))).trace ++ l →
      new_events m (fast_reboot_commit env me fuel (fast_reboot_prepare env
        (opal_quiesce env quiesce_type.QUIESCE_HOLD (fast_reboot_nvram env m)))).2
        = prepare_events env ++ l := by
    intro l hl
    apply new_events_append
    rw [hl, ht, List.append_assoc]
  rcases fast_reboot_commit_cases env me fuel (fast_reboot_prepare env
      (opal_quiesce env quiesce_type.QUIESCE_HOLD (fast_reboot_nvram env m))) with
    ⟨hs, ho, htr⟩ | ⟨hs, w, hw, ⟨ho, htr⟩ | ⟨ho, htr⟩ | ⟨ho, htr⟩⟩
  · exact ⟨_, by rw [hsplit _ htr, hc], Or.inl ⟨hs, ho, rfl⟩⟩
  · exact ⟨_, by rw [hsplit _ htr, hc, hs], Or.inr ⟨hs, w, hw, Or.inl ⟨ho, rfl⟩⟩⟩
  · exact ⟨_, by rw [hsplit _ htr, hc, hs], Or.inr ⟨hs, w, hw, Or.inr (Or.inl ⟨ho, rfl⟩)⟩⟩
  · exact ⟨_, by rw [hsplit _ htr, hc, hs], Or.inr ⟨hs, w, hw, Or.inr (Or.inr ⟨ho, rfl⟩)⟩⟩

theorem release_wait_trace (env : Env) : ∀ (fuel : Nat) (m : Machine), ∃ sp,
    (∀ e ∈ sp, spin_event e = true) ∧
    (release_wait env fuel m).2.cpus = m.cpus ∧
    (((release_wait env fuel m).1 = false ∧
        (release_wait env fuel m).2.trace = m.trace ++ sp) ∨
      ((release_wait env fuel m).1 = true ∧
        (release_wait env fuel m).2.trace = m.trace ++ (sp ++ [Event.load_release true]))) := by
  intro fuel
  induction fuel with
  | zero => intro m; exact ⟨[], by simp, rfl, Or.inl ⟨rfl, by simp [release_wait]⟩⟩
  | succ fuel ih =>
    intro m
    rw [release_wait]
    by_cases h : (load_release env m).1 = false
    · rw [if_pos h]
      obtain ⟨sp, h1, h2, h3⟩ := ih (emit Event.barrier (load_release env m).2)
      have hv : env.fast_boot_release m.clock = false := h
      refine ⟨Event.load_release false :: Event.barrier :: sp, ?_, ?_, ?_⟩
      · intro e he
        rcases List.mem_cons.1 he with rfl | he
        · rfl
        · rcases List.mem_cons.1 he with rfl | he
          · rfl
          · exact h1 e he
      · rw [h2]
        rfl
      · rcases h3 with ⟨a, b⟩ | ⟨a, b⟩
        · exact Or.inl ⟨a, by rw [b]; simp [load_release, hv]⟩
        · exact Or.inr ⟨a, by rw [b]; simp [load_release, hv]⟩
    · rw [if_neg h]
      have hv : env.fast_boot_release m.clock = true := by
        simpa [load_release] using h
      exact ⟨[], by simp, rfl, Or.inr ⟨rfl, by simp [load_release, hv]⟩⟩

theorem fast_reboot_secondary_trace (env : Env) (me fuel : Nat) (m : Machine) : ∃ sp,
    (∀ e ∈ sp, spin_event e = true) ∧
    (fast_reboot_secondary env me fuel m).2.cpus = m.cpus ∧
    (((fast_reboot_secondary env me fuel m).1 = Outcome.spinning ∧
        (fast_reboot_secondary env me fuel m).2.trace = m.trace ++ sp) ∨
      ((fast_reboot_secondary env me fuel m).1 = Outcome.worker_loop ∧
        ∃ md, (md = [] ∨ md = [Event.smt_medium]) ∧
          (fast_reboot_secondary env me fuel m).2.trace
            = m.trace ++ (sp ++ released_events env (this_cpu m me) md))) := by
  have hfin : ∀ x : Machine, x.cpus = m.cpus →
      (secondary_finish env me x).1 = Outcome.worker_loop ∧
      (secondary_finish env me x).2.cpus = m.cpus ∧
      (secondary_finish env me x).2.trace
        = x.trace ++ Event.sync :: (cleanup_events env (this_cpu m me) ++
          [Event.secondary_cpu_entry]) := by
    intro x hx
    obtain ⟨c1, c2⟩ := cleanup_cpu_state_trace env me (emit Event.sync x)
    have ht : this_cpu (emit Event.sync x) me = this_cpu m me := by
      simp [this_cpu, hx]
    rw [ht] at c1
    refine ⟨rfl, ?_, ?_⟩
    · show (cleanup_cpu_state env me (emit Event.sync x)).cpus = _
      rw [c2]
      exact hx
    · show (cleanup_cpu_state env me (emit Event.sync x)).trace ++ _ = _
      rw [c1]
      simp
  unfold fast_reboot_secondary
  split_ifs with h
  · obtain ⟨sp, h1, h2, h3⟩ := release_wait_trace env fuel
      (emit Event.smt_lowest (load_release env m).2)
    have hsp : ∀ e ∈ Event.load_release false :: Event.smt_lowest :: sp,
        spin_event e = true := by
      intro e he
      rcases List.mem_cons.1 he with rfl | he
      · rfl
      · rcases List.mem_cons.1 he with rfl | he
        · rfl
        · exact h1 e he
    have hv : env.fast_boot_release m.clock = false := h
    rcases hr : release_wait env fuel (emit Event.smt_lowest (load_release env m).2)
      with ⟨b, m1⟩
    rw [hr] at h2 h3
    simp only at h2 h3
    have hc : m1.cpus = m.cpus := by
      rw [h2]
      rfl
    refine ⟨Event.load_release false :: Event.smt_lowest :: sp, hsp, ?_⟩
    rcases h3 with ⟨rfl, h3⟩ | ⟨rfl, h3⟩
    · refine ⟨hc, Or.inl ⟨rfl, ?_⟩⟩
      show m1.trace = _
      rw [h3]
      simp [load_release, hv]
    · obtain ⟨f1, f2, f3⟩ := hfin (emit Event.smt_medium m1) hc
      refine ⟨f2, Or.inr ⟨f1, [Event.smt_medium], Or.inr rfl, ?_⟩⟩
      show (secondary_finish env me (emit Event.smt_medium m1)).2.trace = _
      rw [f3]
      simp [h3, load_release, hv, released_events]
  · obtain ⟨f1, f2, f3⟩ := hfin (load_release env m).2 rfl
    have hv : env.fast_boot_release m.clock = true := by
      simpa [load_release] using h
    refine ⟨[], by simp, f2, Or.inr ⟨f1, [], Or.inl rfl, ?_⟩⟩
    rw [f3]
    simp [load_release, hv, released_events]

theorem unsplit_poll_coordinator (e : Event) (h : unsplit_poll e = true) :
    coordinator_event e = true := by
  cases e <;> simp_all [unsplit_poll, coordinator_event]

theorem unsplit_events_coordinator (env : Env) (pir v : Nat) :
    ∀ e ∈ unsplit_events env pir v, coordinator_event e = true := by
  intro e he
  simp only [unsplit_events, List.mem_cons, List.mem_singleton, List.not_mem_nil,
    or_false] at he
  rcases he with rfl | rfl | rfl | rfl | rfl <;> simp [coordinator_event]

theorem nap_events_coordinator (env : Env) (v : Nat) :
    ∀ e ∈ nap_events env v, coordinator_event e = true := by
  intro e he
  simp only [nap_events, List.mem_cons, List.mem_singleton, List.not_mem_nil,
    or_false] at he
  rcases he with rfl | rfl | rfl | rfl | rfl <;> simp [coordinator_event]

/-- The events of `check_split_core` are those of the coordinator, and it leaves the
registry as it is. -/
theorem check_split_core_coordinator (env : Env) (me fuel : Nat) (m : Machine) : ∃ h,
    (check_split_core env me fuel m).2.trace = m.trace ++ h ∧
    (∀ e ∈ h, coordinator_event e = true) ∧
    (check_split_core env me fuel m).2.cpus = m.cpus ∧
    ((check_split_core env me fuel m).1 = Outcome.returned ∨
      (check_split_core env me fuel m).1 = Outcome.napping ∨
      (check_split_core env me fuel m).1 = Outcome.spinning) := by
  by_cases hsplit : (load_hid0 env m).1 &&& split_mask env = 0
  · rw [check_split_core_unsplit env me fuel m hsplit]
    exact ⟨[Event.load_hid0 (load_hid0 env m).1], by simp [load_hid0],
      by simp [coordinator_event], rfl, Or.inl rfl⟩
  · by_cases hlead : (this_cpu m me).pir &&& 7 = 0
    · obtain ⟨w, hw, hc, hcase, _⟩ := check_split_core_lead env me fuel m hsplit hlead
      have hw2 : ∀ e ∈ w, coordinator_event e = true :=
        fun e he => unsplit_poll_coordinator e (hw e he)
      have hu := unsplit_events_coordinator env (this_cpu m me).pir (load_hid0 env m).1
      rcases hcase with ⟨ho, ht⟩ | ⟨ho, ht⟩
      · refine ⟨_, ht, ?_, hc, Or.inr (Or.inr ho)⟩
        intro e he
        rcases List.mem_append.1 he with he | he
        · exact hu e he
        · exact hw2 e he
      · refine ⟨_, ht, ?_, hc, Or.inl ho⟩
        intro e he
        rcases List.mem_append.1 he with he | he
        · rcases List.mem_append.1 he with he | he
          · exact hu e he
          · exact hw2 e he
        · rcases List.mem_cons.1 he with rfl | he
          · rfl
          · obtain ⟨c, _, rfl⟩ := List.mem_map.1 he
            rfl
    · obtain ⟨h1, h2, h3⟩ := check_split_core_nap env me fuel m hsplit hlead
      exact ⟨_, h2, nap_events_coordinator env _, h3, Or.inr (Or.inl h1)⟩

theorem this_cpu_store_state (me : Nat) (s : cpu_thread_state) (m : Machine) :
    (this_cpu (store_state me s m) me).pir = (this_cpu m me).pir ∧
    (this_cpu (store_state me s m) me).primary = (this_cpu m me).primary ∧
    (this_cpu (store_state me s m) me).in_fast_sleep = (this_cpu m me).in_fast_sleep := by
  unfold this_cpu store_state
  simp only [cpu_at_update_cpu]
  cases cpu_at m.cpus me with
  | none => exact ⟨rfl, rfl, rfl⟩
  | some x => simp

theorem cleanup_events_congr (env : Env) (a b : cpu_thread) (h1 : a.pir = b.pir)
    (h2 : a.primary = b.primary) (h3 : a.in_fast_sleep = b.in_fast_sleep) :
    cleanup_events env a = cleanup_events env b := by
  unfold cleanup_events cpu_is_thread0
  rw [h1, h2, h3]

/-- The events and the registry of a run of the reset handler from the store of
`cpu_state_present` on, on a unit other than the boot CPU. -/
theorem fast_reboot_present_other (env : Env) (me fuel : Nat) (m : Machine)
    (hme : me ≠ env.boot_cpu) : ∃ sp,
    (∀ e ∈ sp, spin_event e = true) ∧
    (fast_reboot_present env me fuel m).2.cpus
      = update_cpu (fun c => { c with state := cpu_thread_state.cpu_state_present }) m.cpus me ∧
    (((fast_reboot_present env me fuel m).1 = Outcome.spinning ∧
        (fast_reboot_present env me fuel m).2.trace = m.trace ++ (present_events me ++ sp)) ∨
      ((fast_reboot_present env me fuel m).1 = Outcome.worker_loop ∧
        ∃ md, (md = [] ∨ md = [Event.smt_medium]) ∧
          (fast_reboot_present env me fuel m).2.trace
            = m.trace ++ (present_events me ++
                (sp ++ released_events env (this_cpu m me) md)))) := by
  obtain ⟨sp, h1, h2, h3⟩ := fast_reboot_secondary_trace env me fuel
    (emit Event.sync (store_state me cpu_thread_state.cpu_state_present (emit Event.sync m)))
  obtain ⟨p1, p2, p3⟩ := this_cpu_store_state me cpu_thread_state.cpu_state_present m
  have hcl : cleanup_events env (this_cpu (emit Event.sync
      (store_state me cpu_thread_state.cpu_state_present (emit Event.sync m))) me)
      = cleanup_events env (this_cpu m me) := cleanup_events_congr env _ _ p1 p2 p3
  simp only [released_events, hcl] at h3
  have ht : (emit Event.sync (store_state me cpu_thread_state.cpu_state_present
      (emit Event.sync m))).trace = m.trace ++ present_events me := by
    simp [store_state, present_events]
  rw [ht] at h3
  unfold fast_reboot_present
  rw [if_pos hme]
  refine ⟨sp, h1, h2, ?_⟩
  rcases h3 with ⟨a, b⟩ | ⟨a, md, hmd, b⟩
  · exact Or.inl ⟨a, by rw [b, List.append_assoc]⟩
  · exact Or.inr ⟨a, md, hmd, by rw [b, List.append_assoc, released_events]⟩

/-- The events and the registry of a run of the reset handler on a unit other than the
boot CPU: the events `h` of the coordinator, where it may stay; then the store of
`cpu_state_present`, the events `sp` of the wait for the release flag, where it may
stay; then the read of the flag true, the cleanup and the entry into the worker loop. -/
theorem fast_reboot_entry_other_trace (env : Env) (me fuel : Nat) (m : Machine)
    (hme : me ≠ env.boot_cpu) : ∃ h sp,
    (∀ e ∈ h, coordinator_event e = true) ∧ (∀ e ∈ sp, spin_event e = true) ∧
    ((((fast_reboot_entry env me fuel m).1 = Outcome.napping ∨
          (fast_reboot_entry env me fuel m).1 = Outcome.spinning) ∧
        new_events m (fast_reboot_entry env me fuel m).2 = h ∧
        (fast_reboot_entry env me fuel m).2.cpus = m.cpus) ∨
      ((fast_reboot_entry env me fuel m).1 = Outcome.spinning ∧
        new_events m (fast_reboot_entry env me fuel m).2 = h ++ (present_events me ++ sp) ∧
        (fast_reboot_entry env me fuel m).2.cpus = update_cpu
          (fun c => { c with state := cpu_thread_state.cpu_state_present }) m.cpus me) ∨
      ((fast_reboot_entry env me fuel m).1 = Outcome.worker_loop ∧
        (∃ md, (md = [] ∨ md = [Event.smt_medium]) ∧
          new_events m (fast_reboot_entry env me fuel m).2
            = h ++ (present_events me ++ (sp ++ released_events env (this_cpu m me) md))) ∧
        (fast_reboot_entry env me fuel m).2.cpus = update_cpu
          (fun c => { c with state := cpu_thread_state.cpu_state_present }) m.cpus me)) := by
  -- from the store of present on, in a machine `x` reached by coordinator events
  have hpres : ∀ (x : Machine) (h : List Event), x.trace = m.trace ++ h → x.cpus = m.cpus →
      (∀ e ∈ h, coordinator_event e = true) → ∃ sp, (∀ e ∈ sp, spin_event e = true) ∧
      (((fast_reboot_present env me fuel x).1 = Outcome.spinning ∧
        new_events m (fast_reboot_present env me fuel x).2 = h ++ (present_events me ++ sp) ∧
        (fast_reboot_present env me fuel x).2.cpus = update_cpu
          (fun c => { c with state := cpu_thread_state.cpu_state_present }) m.cpus me) ∨
      ((fast_reboot_present env me fuel x).1 = Outcome.worker_loop ∧
        (∃ md, (md = [] ∨ md = [Event.smt_medium]) ∧
          new_events m (fast_reboot_present env me fuel x).2
            = h ++ (present_events me ++ (sp ++ released_events env (this_cpu m me) md))) ∧
        (fast_reboot_present env me fuel x).2.cpus = update_cpu
          (fun c => { c with state := cpu_thread_state.cpu_state_present }) m.cpus me)) := by
    intro x h hx hc hh
    obtain ⟨sp, s1, s2, s3⟩ := fast_reboot_present_other env me fuel x hme
    have htc : this_cpu x me = this_cpu m me := by
      simp [this_cpu, hc]
    rw [hc] at s2
    rw [hx, htc] at s3
    refine ⟨sp, s1, ?_⟩
    rcases s3 with ⟨a, b⟩ | ⟨a, md, hmd, b⟩
    · exact Or.inl ⟨a, new_events_append _ _ _ (by rw [b, List.append_assoc]), s2⟩
    · exact Or.inr ⟨a, ⟨md, hmd, new_events_append _ _ _ (by rw [b, List.append_assoc])⟩, s2⟩
  unfold fast_reboot_entry
  split_ifs with h9 h8
  · obtain ⟨sp, s1, s2⟩ := hpres
      (emit Event.reset_cpu_xive
        (emit (Event.prlog log_level.PR_DEBUG "RESET: CPU 0x%04x reset in\n") m))
      [Event.prlog log_level.PR_DEBUG "RESET: CPU 0x%04x reset in\n", Event.reset_cpu_xive]
      (by simp) rfl (by simp [coordinator_event])
    exact ⟨_, sp, by simp [coordinator_event], s1, Or.inr s2⟩
  · obtain ⟨ev, c1, c2, c3, c4⟩ := check_split_core_coordinator env me fuel
      (emit Event.reset_cpu_icp
        (emit (Event.prlog log_level.PR_DEBUG "RESET: CPU 0x%04x reset in\n") m))
    have hh : ∀ e ∈ [Event.prlog log_level.PR_DEBUG "RESET: CPU 0x%04x reset in\n",
        Event.reset_cpu_icp] ++ ev, coordinator_event e = true := by
      intro e he
      rcases List.mem_append.1 he with he | he
      · simp at he
        rcases he with rfl | rfl <;> rfl
      · exact c2 e he
    rcases hr : check_split_core env me fuel
      (emit Event.reset_cpu_icp
        (emit (Event.prlog log_level.PR_DEBUG "RESET: CPU 0x%04x reset in\n") m))
      with ⟨o, m1⟩
    rw [hr] at c1 c3 c4
    simp only at c1 c3 c4
    have ht : m1.trace = m.trace ++
        ([Event.prlog log_level.PR_DEBUG "RESET: CPU 0x%04x reset in\n",
          Event.reset_cpu_icp] ++ ev) := by
      simp [c1]
    have hc : m1.cpus = m.cpus := by
      rw [c3]
      rfl
    cases o with
    | returned =>
      obtain ⟨sp, s1, s2⟩ := hpres m1 _ ht hc hh
      exact ⟨_, sp, hh, s1, Or.inr s2⟩
    | napping =>
      exact ⟨_, [], hh, by simp, Or.inl ⟨Or.inl rfl, new_events_append _ _ _ ht, hc⟩⟩
    | spinning =>
      exact ⟨_, [], hh, by simp, Or.inl ⟨Or.inr rfl, new_events_append _ _ _ ht, hc⟩⟩
    | branched => simp at c4
    | worker_loop => simp at c4
    | payload => simp at c4
    | halted => simp at c4
  · obtain ⟨sp, s1, s2⟩ := hpres
      (emit (Event.prlog log_level.PR_DEBUG "RESET: CPU 0x%04x reset in\n") m)
      [Event.prlog log_level.PR_DEBUG "RESET: CPU 0x%04x reset in\n"]
      (by simp) rfl (by simp [coordinator_event])
    exact ⟨_, sp, by simp [coordinator_event], s1, Or.inr s2⟩

theorem coordinator_class (e : Event) (h : coordinator_event e = true) :
    flag_or_wait e = false ∧ cleanup_call e = false ∧ (∀ c s, e ≠ Event.store_state c s) ∧
    (∀ v, e ≠ Event.load_release v) := by
  cases e <;> simp_all [coordinator_event, flag_or_wait, cleanup_call]

theorem spin_class (e : Event) (h : spin_event e = true) :
    flag_or_wait e = false ∧ cleanup_call e = false ∧ (∀ c s, e ≠ Event.store_state c s) ∧
    e ≠ Event.load_release true := by
  cases e <;>
    first
    | (simp_all [spin_event, flag_or_wait, cleanup_call]; done)
    | (rename_i v
       cases v <;> simp_all [spin_event, flag_or_wait, cleanup_call])

theorem present_class (me : Nat) (e : Event) (h : e ∈ present_events me) :
    flag_or_wait e = false ∧ cleanup_call e = false ∧
    (∀ c s, e = Event.store_state c s → c = me ∧ s = cpu_thread_state.cpu_state_present) ∧
    (∀ v, e ≠ Event.load_release v) := by
  simp only [present_events, List.mem_cons, List.mem_singleton, List.not_mem_nil,
    or_false] at h
  rcases h with rfl | rfl | rfl <;> simp [flag_or_wait, cleanup_call]

theorem cleanup_events_cleanup (env : Env) (c : cpu_thread) :
    ∀ e ∈ cleanup_events env c, cleanup_event e = true := by
  unfold cleanup_events
  split_ifs <;> simp [cleanup_event]

theorem cleanup_events_class (env : Env) (c : cpu_thread) (e : Event)
    (h : e ∈ cleanup_events env c) :
    flag_or_wait e = false ∧ (∀ u s, e ≠ Event.store_state u s) := by
  have := cleanup_events_cleanup env c e h
  cases e <;> simp_all [cleanup_event, flag_or_wait]

theorem released_class (env : Env) (c : cpu_thread) (md : List Event)
    (hmd : md = [] ∨ md = [Event.smt_medium]) (e : Event)
    (h : e ∈ released_events env c md) :
    flag_or_wait e = false ∧ (∀ u s, e ≠ Event.store_state u s) := by
  unfold released_events at h
  simp only [List.mem_cons, List.mem_append, List.mem_singleton, List.not_mem_nil,
    or_false] at h
  rcases h with rfl | h | rfl | h | rfl
  · simp [flag_or_wait]
  · rcases hmd with rfl | rfl
    · simp at h
    · simp at h
      subst h
      simp [flag_or_wait]
  · simp [flag_or_wait]
  · exact cleanup_events_class env c e h
  · simp [flag_or_wait]

theorem states_update_cpu (f : cpu_thread → cpu_thread) (hf : ∀ c, (f c).state = c.state) :
    ∀ (cpus : List cpu_thread) (i : Nat), states (update_cpu f cpus i) = states cpus := by
  intro cpus
  induction cpus with
  | nil => intro i; rfl
  | cons c cs ih =>
    intro i
    cases i with
    | zero => simp [update_cpu, states, hf]
    | succ n =>
      have := ih n
      simp only [states] at this
      simp [update_cpu, states, this]

theorem clear_save_r1_states : ∀ (l : List Nat) (m : Machine),
    states (clear_save_r1 l m).cpus = states m.cpus := by
  intro l
  induction l with
  | nil => intro m; rfl
  | cons c rest ih =>
    intro m
    rw [clear_save_r1, ih]
    exact states_update_cpu (fun x => { x with save_r1 := 0 }) (fun _ => rfl) m.cpus c

theorem fast_reboot_commit_states (env : Env) (me fuel : Nat) (m : Machine) :
    states (fast_reboot_commit env me fuel m).2.cpus = states m.cpus := by
  have hb : states (fast_reboot_broadcast env m).cpus = states m.cpus :=
    clear_save_r1_states _ m
  obtain ⟨_, _, hmem, _⟩ := wait_all_spec env me cpu_thread_state.cpu_state_present
    (env.msecs_to_tb 100) fuel (fast_reboot_broadcast env m)
  unfold fast_reboot_commit
  split_ifs
  · exact hb
  · rcases hr : cpu_state_wait_all_others env me cpu_thread_state.cpu_state_present
      (env.msecs_to_tb 100) fuel (fast_reboot_broadcast env m) with ⟨r, m1⟩
    rw [hr] at hmem
    have hc : m1.cpus = (fast_reboot_broadcast env m).cpus := hmem.1
    rcases r with _ | _ | _
    · show states m1.cpus = _
      rw [hc, hb]
    · show states m1.cpus = _
      rw [hc, hb]
    · show states m1.cpus = _
      rw [hc, hb]

theorem fast_reboot_states (env : Env) (me fuel : Nat) (m : Machine) :
    states (fast_reboot env me fuel m).2.cpus = states m.cpus := by
  have hn : (fast_reboot_nvram env m).cpus = m.cpus := (fast_reboot_nvram_frame env m).2
  obtain ⟨_, _, hp⟩ := fast_reboot_prepared env m
  unfold fast_reboot
  split_ifs
  · rw [hn]
  · show states (fast_reboot_nvram env m).cpus = _
    rw [hn]
  · show states (fast_reboot_nvram env m).cpus = _
    rw [hn]
  · show states (fast_reboot_nvram env m).cpus = _
    rw [hn]
  · show states (fast_reboot_nvram env m).cpus = _
    rw [hn]
  · show states (fast_reboot_prepare env
      (opal_quiesce env quiesce_type.QUIESCE_HOLD (fast_reboot_nvram env m))).cpus = _
    rw [hp]
  · rw [fast_reboot_commit_states, hp]

theorem inert_no_store (e : Event) (h : inert e = true) : state_store e = false := by
  cases e <;> simp_all [inert, state_store]

theorem poll_no_store (e : Event) (h : poll_event e = true) : state_store e = false := by
  cases e <;> simp_all [poll_event, state_store]

theorem wait_no_store (e : Event) (h : wait_event e = true) : state_store e = false := by
  cases e <;> simp_all [wait_event, poll_event, state_store]

theorem cleanup_no_store (e : Event) (h : cleanup_event e = true) : state_store e = false := by
  cases e <;> simp_all [cleanup_event, state_store]

theorem coordinator_no_store (e : Event) (h : coordinator_event e = true) :
    state_store e = false := by
  cases e <;> simp_all [coordinator_event, state_store]

theorem prepare_events_no_store (env : Env) :
    ∀ e ∈ prepare_events env, state_store e = false := by
  unfold prepare_events nvram_events
  split_ifs <;> simp [state_store]

theorem global_events_no_store (env : Env) :
    ∀ e ∈ global_events env, state_store e = false := by
  unfold global_events
  split_ifs <;> simp [state_store]

/-- No event of `fast_reboot` is a store into a state field. -/
theorem fast_reboot_no_store (env : Env) (me fuel : Nat) (m : Machine) :
    ∀ e ∈ new_events m (fast_reboot env me fuel m).2, state_store e = false := by
  rcases fast_reboot_cases env me fuel m with ⟨_, hev⟩ | ⟨_, _, hev⟩ | ⟨_, hrun⟩
  · intro e he
    rcases hev e he with h | ⟨rc, rfl⟩ | ⟨rc, rfl⟩
    · exact inert_no_store e h
    · rfl
    · rfl
  · intro e he
    rw [hev] at he
    rcases List.mem_append.1 he with he | he
    · exact prepare_events_no_store env e he
    · simp at he
      rcases he with rfl | rfl <;> rfl
  · rw [hrun]
    obtain ⟨tl, hl, hcase⟩ := fast_reboot_commit_events env me fuel m
    rw [hl]
    intro e he
    rcases List.mem_append.1 he with he | he
    · exact prepare_events_no_store env e he
    · rcases List.mem_append.1 he with he | he
      · simp only [List.mem_append, List.mem_map, List.mem_cons, List.mem_singleton,
          List.not_mem_nil, or_false] at he
        rcases he with ⟨c, _, rfl⟩ | rfl | rfl | rfl <;> rfl
      · rcases hcase with ⟨_, _, rfl⟩ | ⟨_, w, hw, ⟨_, rfl⟩ | ⟨_, rfl⟩ | ⟨_, rfl⟩⟩
        · simp at he
          subst he
          rfl
        · exact poll_no_store e (hw e he)
        · rcases List.mem_append.1 he with he | he
          · exact poll_no_store e (hw e he)
          · simp at he
            rcases he with rfl | rfl <;> rfl
        · rcases List.mem_append.1 he with he | he
          · exact poll_no_store e (hw e he)
          · simp at he
            rcases he with rfl | rfl | rfl | rfl | rfl <;> rfl

/-- No event of `cpu_state_wait_all_others` is a store into a state field, and the call
leaves the registry as it is. -/
theorem wait_all_no_store (env : Env) (me : Nat) (state : cpu_thread_state)
    (timeout_tb fuel : Nat) (m : Machine) :
    (∀ e ∈ new_events m (cpu_state_wait_all_others env me state timeout_tb fuel m).2,
      state_store e = false) ∧
    (cpu_state_wait_all_others env me state timeout_tb fuel m).2.cpus = m.cpus := by
  obtain ⟨ev, h1, h2, h3⟩ := wait_all_spec env me state timeout_tb fuel m
  refine ⟨?_, h2.1⟩
  rw [new_events_append _ _ _ h1]
  intro e he
  rcases List.mem_cons.1 he with rfl | he
  · rfl
  · rcases List.mem_cons.1 he with rfl | he
    · rfl
    · rcases List.mem_append.1 he with he | he
      · exact poll_no_store e (h3.quiet e he)
      · cases hr : (cpu_state_wait_all_others env me state timeout_tb fuel m).1 with
        | none =>
          rw [hr] at he
          simp [ret_events] at he
        | some b =>
          rw [hr] at he
          simp [ret_events] at he
          subst he
          rfl

/-- The only store into a state field among the events of the boot CPU after its store
of `cpu_state_present` is the one of `cpu_state_active` into its own slot. -/
theorem boot_shape_stores (env : Env) (me : Nat) (o : Outcome) (t : List Event)
    (hb : BootShape env me o t) :
    ∀ e ∈ t, state_store e = true →
      e = Event.store_state me cpu_thread_state.cpu_state_active := by
  have hrel : ∀ cl : List Event, (∀ e ∈ cl, cleanup_event e = true) →
      ∀ e ∈ release_events env me cl, state_store e = true →
        e = Event.store_state me cpu_thread_state.cpu_state_active := by
    intro cl hcl e he hs
    simp only [release_events, List.mem_append, List.mem_cons, List.mem_singleton,
      List.not_mem_nil, or_false] at he
    rcases he with he | (rfl | rfl | rfl) | he | rfl | rfl | rfl
    · rw [xive_events_spec env e he] at hs
      simp [state_store] at hs
    · simp [state_store] at hs
    · simp [state_store] at hs
    · simp [state_store] at hs
    · rw [cleanup_no_store e (hcl e he)] at hs
      simp at hs
    · simp [state_store] at hs
    · rfl
    · simp [state_store] at hs
  have hw : ∀ w : List Event, (∀ e ∈ w, wait_event e = true) → ∀ e ∈ w,
      state_store e = true → e = Event.store_state me cpu_thread_state.cpu_state_active := by
    intro w hw e he hs
    rw [wait_no_store e (hw e he)] at hs
    simp at hs
  cases hb with
  | wait_present w1 hw1 _ =>
    intro e he hs
    rcases List.mem_cons.1 he with rfl | he
    · simp [state_store] at hs
    · exact hw w1 hw1 e he hs
  | wait_active w1 cl w2 b1 hw1 _ hcl _ hw2 _ =>
    intro e he hs
    rcases List.mem_cons.1 he with rfl | he
    · simp [state_store] at hs
    · rcases List.mem_append.1 he with he | he
      · exact hw w1 hw1 e he hs
      · rcases List.mem_append.1 he with he | he
        · exact hrel cl hcl e he hs
        · exact hw w2 hw2 e he hs
  | finished w1 cl w2 b1 b2 hw1 _ hcl _ hw2 _ =>
    intro e he hs
    rcases List.mem_cons.1 he with rfl | he
    · simp [state_store] at hs
    · rcases List.mem_append.1 he with he | he
      · exact hw w1 hw1 e he hs
      · rcases List.mem_append.1 he with he | he
        · exact hrel cl hcl e he hs
        · rcases List.mem_append.1 he with he | he
          · exact hw w2 hw2 e he hs
          · simp only [finish_events, List.mem_append, List.mem_cons, List.mem_singleton,
              List.not_mem_nil, or_false] at he
            rcases he with (rfl | rfl | rfl) | he
            · simp [state_store] at hs
            · simp [state_store] at hs
            · simp [state_store] at hs
            · rw [global_events_no_store env e he] at hs
              simp at hs

/-- A run of the reset handler either stays in the unsplit coordinator or goes on, from
a machine reached by events of the coordinator with the registry as it was, with the
store of `cpu_state_present`. -/
theorem fast_reboot_entry_prefix (env : Env) (me fuel : Nat) (m : Machine) : ∃ h x,
    (∀ e ∈ h, coordinator_event e = true) ∧ x.trace = m.trace ++ h ∧ x.cpus = m.cpus ∧
    ((((fast_reboot_entry env me fuel m).1 = Outcome.napping ∨
        (fast_reboot_entry env me fuel m).1 = Outcome.spinning) ∧
        (fast_reboot_entry env me fuel m).2 = x) ∨
      fast_reboot_entry env me fuel m = fast_reboot_present env me fuel x) := by
  unfold fast_reboot_entry
  split_ifs with h9 h8
  · refine ⟨[Event.prlog log_level.PR_DEBUG "RESET: CPU 0x%04x reset in\n",
        Event.reset_cpu_xive],
      emit Event.reset_cpu_xive
        (emit (Event.prlog log_level.PR_DEBUG "RESET: CPU 0x%04x reset in\n") m),
      ?_, ?_, rfl, Or.inr rfl⟩
    · intro e he
      simp at he
      rcases he with rfl | rfl <;> rfl
    · simp
  · obtain ⟨ev, c1, c2, c3, c4⟩ := check_split_core_coordinator env me fuel
      (emit Event.reset_cpu_icp
        (emit (Event.prlog log_level.PR_DEBUG "RESET: CPU 0x%04x reset in\n") m))
    have hh : ∀ e ∈ [Event.prlog log_level.PR_DEBUG "RESET: CPU 0x%04x reset in\n",
        Event.reset_cpu_icp] ++ ev, coordinator_event e = true := by
      intro e he
      rcases List.mem_append.1 he with he | he
      · simp at he
        rcases he with rfl | rfl <;> rfl
      · exact c2 e he
    rcases hr : check_split_core env me fuel
      (emit Event.reset_cpu_icp
        (emit (Event.prlog log_level.PR_DEBUG "RESET: CPU 0x%04x reset in\n") m))
      with ⟨o, m1⟩
    rw [hr] at c1 c3 c4
    simp only at c1 c3 c4
    have ht : m1.trace = m.trace ++
        ([Event.prlog log_level.PR_DEBUG "RESET: CPU 0x%04x reset in\n",
          Event.reset_cpu_icp] ++ ev) := by
      simp [c1]
    have hc : m1.cpus = m.cpus := by
      rw [c3]
      rfl
    cases o with
    | returned => exact ⟨_, m1, hh, ht, hc, Or.inr rfl⟩
    | napping => exact ⟨_, m1, hh, ht, hc, Or.inl ⟨Or.inl rfl, rfl⟩⟩
    | spinning => exact ⟨_, m1, hh, ht, hc, Or.inl ⟨Or.inr rfl, rfl⟩⟩
    | branched => simp at c4
    | worker_loop => simp at c4
    | payload => simp at c4
    | halted => simp at c4
  · refine ⟨[Event.prlog log_level.PR_DEBUG "RESET: CPU 0x%04x reset in\n"],
      emit (Event.prlog log_level.PR_DEBUG "RESET: CPU 0x%04x reset in\n") m,
      ?_, ?_, rfl, Or.inr rfl⟩
    · intro e he
      simp at he
      subst he
      rfl
    · simp

theorem cpu_at_update_other (f : cpu_thread → cpu_thread) (cpus : List cpu_thread)
    (me c : Nat) (h : c ≠ me) : cpu_at (update_cpu f cpus me) c = cpu_at cpus c := by
  rw [cpu_at_update_cpu]
  cases cpu_at cpus c with
  | none => rfl
  | some x => simp [h]

theorem boot_release_cpus (env : Env) (me : Nat) (m : Machine) :
    (boot_release env me m).cpus
      = update_cpu (fun c => { c with state := cpu_thread_state.cpu_state_active })
          m.cpus me := by
  unfold boot_release
  split_ifs <;>
  · show update_cpu _ (cleanup_cpu_state env me _).cpus me = _
    rw [(cleanup_cpu_state_trace env me _).2]
    rfl

theorem boot_finish_cpus (env : Env) (m : Machine) : (boot_finish env m).2.cpus = m.cpus := by
  unfold boot_finish post_reboot_cleanup
  split_ifs <;> rfl

/-- The boot CPU's part of the reset handler leaves the slots of the other units as
they were. -/
theorem fast_reboot_boot_others (env : Env) (me fuel : Nat) (m : Machine) (c : Nat)
    (hc : c ≠ me) :
    cpu_at (fast_reboot_boot env me fuel m).2.cpus c = cpu_at m.cpus c := by
  obtain ⟨_, a2⟩ := wait_all_no_store env me cpu_thread_state.cpu_state_present 0 fuel
    (emit (Event.prlog log_level.PR_INFO "RESET: Boot CPU waiting for everybody...\n") m)
  unfold fast_reboot_boot
  rcases h1 : cpu_state_wait_all_others env me cpu_thread_state.cpu_state_present 0 fuel
    (emit (Event.prlog log_level.PR_INFO "RESET: Boot CPU waiting for everybody...\n") m)
    with ⟨r1, m1⟩
  rw [h1] at a2
  simp only at a2
  have hm1 : m1.cpus = m.cpus := a2
  rcases r1 with _ | b1
  · simp only
    rw [hm1]
  · obtain ⟨_, d2⟩ := wait_all_no_store env me cpu_thread_state.cpu_state_active 0 fuel
      (boot_release env me m1)
    simp only
    rcases h2 : cpu_state_wait_all_others env me cpu_thread_state.cpu_state_active 0 fuel
      (boot_release env me m1) with ⟨r2, m2⟩
    rw [h2] at d2
    simp only at d2
    have hm2 : cpu_at m2.cpus c = cpu_at m.cpus c := by
      rw [d2, boot_release_cpus, cpu_at_update_other _ _ _ _ hc, hm1]
    rcases r2 with _ | b2
    · exact hm2
    · simp only
      rw [boot_finish_cpus]
      exact hm2

/-- The stores into state fields of a run of the reset handler: `cpu_state_present`
into the slot of the running unit and, on the boot CPU, `cpu_state_active` into that
slot; the slots of the other units are left as they were. -/
theorem fast_reboot_entry_stores (env : Env) (me fuel : Nat) (m : Machine) :
    (∀ e ∈ new_events m (fast_reboot_entry env me fuel m).2, state_store e = true →
      e = Event.store_state me cpu_thread_state.cpu_state_present ∨
      (e = Event.store_state me cpu_thread_state.cpu_state_active ∧ me = env.boot_cpu)) ∧
    (∀ c, c ≠ me → cpu_at (fast_reboot_entry env me fuel m).2.cpus c = cpu_at m.cpus c) := by
  obtain ⟨h, x, hh, hx, hc, hcase⟩ := fast_reboot_entry_prefix env me fuel m
  rcases hcase with ⟨_, hr⟩ | hr
  · rw [hr]
    refine ⟨?_, fun c _ => by rw [hc]⟩
    rw [new_events_append _ _ _ hx]
    intro e he hs
    rw [coordinator_no_store e (hh e he)] at hs
    simp at hs
  · rw [hr]
    by_cases hme : me = env.boot_cpu
    · obtain ⟨t, t1, _, t3⟩ := fast_reboot_boot_shape env me fuel
        (emit Event.sync (store_state me cpu_thread_state.cpu_state_present
          (emit Event.sync x)))
      have hrun : fast_reboot_present env me fuel x = fast_reboot_boot env me fuel
          (emit Event.sync (store_state me cpu_thread_state.cpu_state_present
            (emit Event.sync x))) := by
        unfold fast_reboot_present
        rw [if_neg (not_not.2 hme)]
      rw [hrun]
      refine ⟨?_, ?_⟩
      · rw [new_events_append _ _ (h ++ (present_events me ++ t))
          (by rw [t1]; simp [store_state, hx, present_events])]
        intro e he hs
        rcases List.mem_append.1 he with he | he
        · rw [coordinator_no_store e (hh e he)] at hs
          simp at hs
        · rcases List.mem_append.1 he with he | he
          · simp only [present_events, List.mem_cons, List.mem_singleton, List.not_mem_nil,
              or_false] at he
            rcases he with rfl | rfl | rfl
            · simp [state_store] at hs
            · exact Or.inl rfl
            · simp [state_store] at hs
          · exact Or.inr ⟨boot_shape_stores env me _ t t3 e he hs, hme⟩
      · intro c hcm
        rw [fast_reboot_boot_others env me fuel _ c hcm]
        show cpu_at (update_cpu _ x.cpus me) c = _
        rw [cpu_at_update_other _ _ _ _ hcm, hc]
    · obtain ⟨sp, s1, s2, s3⟩ := fast_reboot_present_other env me fuel x hme
      refine ⟨?_, ?_⟩
      · have hev : ∃ tl, new_events m (fast_reboot_present env me fuel x).2
            = h ++ (present_events me ++ tl) ∧ ∀ e ∈ tl, state_store e = false := by
          rcases s3 with ⟨_, b⟩ | ⟨_, md, hmd, b⟩
          · refine ⟨sp, new_events_append _ _ _ (by rw [b, hx, List.append_assoc]), ?_⟩
            intro e he
            have := (spin_class e (s1 e he)).2.2.1
            cases e <;> simp_all [state_store]
          · refine ⟨_, new_events_append _ _ _ (by rw [b, hx, List.append_assoc]), ?_⟩
            intro e he
            rcases List.mem_append.1 he with he | he
            · have := (spin_class e (s1 e he)).2.2.1
              cases e <;> simp_all [state_store]
            · have := (released_class env _ md hmd e he).2
              cases e <;> simp_all [state_store]
        obtain ⟨tl, htl, hno⟩ := hev
        rw [htl]
        intro e he hs
        rcases List.mem_append.1 he with he | he
        · rw [coordinator_no_store e (hh e he)] at hs
          simp at hs
        · rcases List.mem_append.1 he with he | he
          · simp only [present_events, List.mem_cons, List.mem_singleton, List.not_mem_nil,
              or_false] at he
            rcases he with rfl | rfl | rfl
            · simp [state_store] at hs
            · exact Or.inl rfl
            · simp [state_store] at hs
          · rw [hno e he] at hs
            simp at hs
      · intro c hcm
        rw [s2, cpu_at_update_other _ _ _ _ hcm, hc]

/-! ## The wait barrier: claims -/

/-- C1: `cpu_state_wait_all_others` returns success if and only if every non-garded unit
other than the caller was observed in the target state during the call (a load of its
state returning the target state is among the events of the call); the result does not
depend on the caller's own state nor on the states of garded units, neither as stored in
the registry nor as a load would return them. -/
theorem wait_all_success_iff (env : Env) (me : Nat) (state : cpu_thread_state)
    (timeout_tb fuel : Nat) (m : Machine) :
    ((cpu_state_wait_all_others env me state timeout_tb fuel m).1 = some true ↔
      ∀ cpu ∈ ungarded_cpus m.cpus, cpu ≠ me →
        Event.load_state cpu state ∈
          (cpu_state_wait_all_others env me state timeout_tb fuel m).2.trace.drop
            m.trace.length) ∧
    (∀ (env2 : Env) (m2 : Machine),
      env2.mftb = env.mftb → env2.tb_compare = env.tb_compare → m2.clock = m.clock →
      ungarded_cpus m2.cpus = ungarded_cpus m.cpus →
      (∀ cpu ∈ ungarded_cpus m.cpus, cpu ≠ me →
        ∀ t, env2.cpu_state t cpu = env.cpu_state t cpu) →
      (cpu_state_wait_all_others env2 me state timeout_tb fuel m2).1
        = (cpu_state_wait_all_others env me state timeout_tb fuel m).1) := by
  constructor
  · obtain ⟨ev, h1, _, h3⟩ := wait_all_spec env me state timeout_tb fuel m
    rw [h1, List.drop_left]
    constructor
    · intro hr cpu hc hne
      exact List.mem_cons_of_mem _ (List.mem_cons_of_mem _
        (List.mem_append.2 (Or.inl (h3.seen hr cpu hc hne))))
    · intro hall
      by_contra hr
      obtain ⟨u, hu, hne, hns, _, _⟩ := h3.stuck hr
      have hm := hall u hu hne
      simp only [List.mem_cons, List.mem_append, reduceCtorEq, false_or] at hm
      rcases hm with hm | hm
      · exact hns hm
      · exact load_state_not_mem_ret_events _ _ _ _ _ hm
  · intro env2 m2 ht hc hk hu hs
    have hend : wait_end env2 timeout_tb m2 = wait_end env timeout_tb m := by
      simp [wait_end, ht, hk]
    have h := wait_cpus_congr env env2 me state timeout_tb (wait_end env timeout_tb m) fuel
      ht hc (ungarded_cpus m.cpus) (emit Event.sync (mftb env m).2)
      (emit Event.sync (mftb env2 m2).2) (by simp [hk]) hs
    unfold cpu_state_wait_all_others
    rw [hend, hu]
    rcases h1 : wait_cpus env me state timeout_tb (wait_end env timeout_tb m) fuel
      (ungarded_cpus m.cpus) (emit Event.sync (mftb env m).2) with ⟨r, m1⟩
    rcases h2 : wait_cpus env2 me state timeout_tb (wait_end env timeout_tb m) fuel
      (ungarded_cpus m.cpus) (emit Event.sync (mftb env2 m2).2) with ⟨r2, m3⟩
    rw [h1, h2] at h
    simp only at h
    obtain ⟨rfl, _⟩ := h
    rcases r2 with _ | _ | _ <;> rfl

/-- C1 at the example configuration: the call made by unit 0 succeeds, unit 1 was
observed present, and the result is the same when unit 0 and the garded unit 2 show
other states. -/
theorem wait_all_success_iff_witness :
    (cpu_state_wait_all_others example_env 0 cpu_thread_state.cpu_state_present 0 4
        example_machine).1 = some true ∧
    (cpu_state_wait_all_others example_env_others 0 cpu_thread_state.cpu_state_present 0 4
        example_machine_others).1
      = (cpu_state_wait_all_others example_env 0 cpu_thread_state.cpu_state_present 0 4
        example_machine).1 :=
  ⟨by decide,
    (wait_all_success_iff example_env 0 cpu_thread_state.cpu_state_present 0 4
      example_machine).2 example_env_others example_machine_others rfl rfl rfl (by decide)
      (by
        intro cpu hc hne t
        have h : cpu = 0 ∨ cpu = 1 := by
          have : ungarded_cpus example_machine.cpus = [0, 1] := by decide
          rw [this] at hc
          simpa using hc
        rcases h with rfl | rfl
        · exact absurd rfl hne
        · rfl)⟩

/-- C3: a call of `fast_reboot` made while a reason is stored in `fast_reboot_disabled`
returns to its caller with the memory image unchanged (registry, release flag, reason
and counter); none of its effects is a store into the registry, the preparation of the
secondaries, the installation of vectors or the broadcast reset; and when it obtained a
quiesce hold, its last effect is the quiesce resume, the only one it issues. -/
theorem fast_reboot_disabled_frame (env : Env) (me fuel : Nat) (m : Machine)
    (h : m.fast_reboot_disabled ≠ none) :
    (fast_reboot env me fuel m).1 = Outcome.returned ∧
    same_memory m (fast_reboot env me fuel m).2 ∧
    (∀ e ∈ new_events m (fast_reboot env me fuel m).2,
      writes_registry e = false ∧ prepares e = false ∧ installs_vectors e = false ∧
      broadcasts e = false) ∧
    (new_events m (fast_reboot env me fuel m).2).countP holds
      = (new_events m (fast_reboot env me fuel m).2).countP resumes ∧
    ((∃ e ∈ new_events m (fast_reboot env me fuel m).2, holds e = true) →
      (new_events m (fast_reboot env me fuel m).2).getLast?
        = some (Event.opal_quiesce quiesce_type.QUIESCE_RESUME (-1)
            (env.opal_quiesce quiesce_type.QUIESCE_RESUME))) := by
  unfold fast_reboot
  split_ifs with h1 h2 h3 h4
  · refine ⟨rfl, same_memory_nvram env m, ?_⟩
    simp only [new_events, fast_reboot_nvram_trace, nvram_events, List.drop_left]
    split_ifs <;> simp [writes_registry, prepares, installs_vectors, broadcasts, holds, resumes]
  · refine ⟨rfl, same_memory_trans (same_memory_nvram env m) (same_memory_emit _ _), ?_⟩
    simp only [new_events, fast_reboot_nvram_trace, nvram_events, emit_trace, List.append_assoc,
      List.drop_left]
    split_ifs <;> simp [writes_registry, prepares, installs_vectors, broadcasts, holds, resumes]
  · refine ⟨rfl, same_memory_trans (same_memory_nvram env m) (same_memory_emit _ _), ?_⟩
    simp only [new_events, fast_reboot_nvram_trace, nvram_events, emit_trace, List.append_assoc,
      List.drop_left]
    split_ifs <;> simp [writes_registry, prepares, installs_vectors, broadcasts, holds, resumes]
  · refine ⟨rfl, same_memory_trans (same_memory_nvram env m)
      (same_memory_trans (same_memory_opal_quiesce env _ _) (same_memory_emit _ _)), ?_⟩
    simp only [new_events, fast_reboot_nvram_trace, nvram_events, emit_trace, opal_quiesce_trace,
      List.append_assoc, List.drop_left]
    split_ifs <;>
      simp [writes_registry, prepares, installs_vectors, broadcasts, holds, resumes, h4]
  · refine ⟨rfl, same_memory_trans (same_memory_nvram env m)
      (same_memory_trans (same_memory_opal_quiesce env _ _)
        (same_memory_trans (same_memory_emit _ _) (same_memory_opal_quiesce env _ _))), ?_⟩
    simp only [new_events, fast_reboot_nvram_trace, nvram_events, emit_trace, opal_quiesce_trace,
      List.append_assoc, List.drop_left]
    split_ifs <;>
      simp [writes_registry, prepares, installs_vectors, broadcasts, holds, resumes, h4,
        List.countP_cons]

/-- C3 at the example configuration with a stored reason: the hypothesis holds, the
call returns and the registry is as before. -/
theorem fast_reboot_disabled_frame_witness :
    example_machine_disabled.fast_reboot_disabled ≠ none ∧
    (fast_reboot example_env 0 4 example_machine_disabled).1 = Outcome.returned ∧
    same_memory example_machine_disabled
      (fast_reboot example_env 0 4 example_machine_disabled).2 :=
  ⟨by decide,
    (fast_reboot_disabled_frame example_env 0 4 example_machine_disabled (by decide)).1,
    (fast_reboot_disabled_frame example_env 0 4 example_machine_disabled (by decide)).2.1⟩

/-- C4, as stated, fails: when the quiesce hold is refused, `fast_reboot` returns after
the refused request and one log line, and issues no quiesce resume. -/
theorem hold_failure_issues_no_resume :
    (fast_reboot example_env_hold_fails 0 4 example_machine).1 = Outcome.returned ∧
    new_events example_machine (fast_reboot example_env_hold_fails 0 4 example_machine).2
      = [Event.opal_quiesce quiesce_type.QUIESCE_HOLD (-1) 0,
         Event.prlog log_level.PR_NOTICE
           "RESET: Fast reboot disabled because OPAL quiesce timed out\n"] ∧
    (new_events example_machine
      (fast_reboot example_env_hold_fails 0 4 example_machine).2).countP resumes = 0 := by
  decide

/-- C4 amended: when `opal_quiesce(QUIESCE_HOLD, -1)` reports failure, `fast_reboot`
returns to its caller without issuing a quiesce resume of either kind (no hold was
obtained); the memory image is unchanged and nothing is prepared, installed, broadcast
or stored; on supported hardware the refused hold request is among its effects. -/
theorem fast_reboot_hold_refused (env : Env) (me fuel : Nat) (m : Machine)
    (h : env.opal_quiesce quiesce_type.QUIESCE_HOLD = 0) :
    (fast_reboot env me fuel m).1 = Outcome.returned ∧
    same_memory m (fast_reboot env me fuel m).2 ∧
    (∀ e ∈ new_events m (fast_reboot env me fuel m).2,
      resumes e = false ∧ holds e = false ∧ writes_registry e = false ∧
      prepares e = false ∧ installs_vectors e = false ∧ broadcasts e = false) ∧
    (¬ unsupported env →
      Event.opal_quiesce quiesce_type.QUIESCE_HOLD (-1) 0
        ∈ new_events m (fast_reboot env me fuel m).2) := by
  unfold fast_reboot
  split_ifs with h1 h2 h3
  · refine ⟨rfl, same_memory_nvram env m, ?_, ?_⟩
    · simp only [new_events, fast_reboot_nvram_trace, nvram_events, List.drop_left]
      split_ifs <;>
        simp [writes_registry, prepares, installs_vectors, broadcasts, holds, resumes]
    · intro hu
      exact absurd (Or.inr (Or.inr h1)) hu
  · refine ⟨rfl, same_memory_trans (same_memory_nvram env m) (same_memory_emit _ _), ?_, ?_⟩
    · simp only [new_events, fast_reboot_nvram_trace, nvram_events, emit_trace, List.append_assoc,
        List.drop_left]
      split_ifs <;>
        simp [writes_registry, prepares, installs_vectors, broadcasts, holds, resumes]
    · intro hu
      exact absurd (Or.inl ⟨h2.2.1, h2.2.2, h2.1⟩) hu
  · refine ⟨rfl, same_memory_trans (same_memory_nvram env m) (same_memory_emit _ _), ?_, ?_⟩
    · simp only [new_events, fast_reboot_nvram_trace, nvram_events, emit_trace, List.append_assoc,
        List.drop_left]
      split_ifs <;>
        simp [writes_registry, prepares, installs_vectors, broadcasts, holds, resumes]
    · intro hu
      exact absurd (Or.inr (Or.inl h3)) hu
  · refine ⟨rfl, same_memory_trans (same_memory_nvram env m)
      (same_memory_trans (same_memory_opal_quiesce env _ _) (same_memory_emit _ _)), ?_, ?_⟩
    · simp only [new_events, fast_reboot_nvram_trace, nvram_events, emit_trace, opal_quiesce_trace,
        List.append_assoc, List.drop_left]
      split_ifs <;>
        simp [writes_registry, prepares, installs_vectors, broadcasts, holds, resumes, h]
    · intro _
      simp only [new_events, fast_reboot_nvram_trace, nvram_events, emit_trace, opal_quiesce_trace,
        List.append_assoc, List.drop_left]
      simp [h]

/-- C4 amended, at the example configuration in which the hold is refused. -/
theorem fast_reboot_hold_refused_witness :
    example_env_hold_fails.opal_quiesce quiesce_type.QUIESCE_HOLD = 0 ∧
    (fast_reboot example_env_hold_fails 0 4 example_machine).1 = Outcome.returned ∧
    same_memory example_machine (fast_reboot example_env_hold_fails 0 4 example_machine).2 :=
  ⟨rfl, (fast_reboot_hold_refused example_env_hold_fails 0 4 example_machine rfl).1,
    (fast_reboot_hold_refused example_env_hold_fails 0 4 example_machine rfl).2.1⟩

/-- C7: on unsupported hardware `fast_reboot` returns to its caller, leaves the memory
image (registry, release flag, reason, reboot counter) and the clock unchanged, and
performs nothing but a log line and, on P9, the read-only NVRAM query: no quiesce
request, no preparation, no vector installation, no broadcast. -/
theorem fast_reboot_unsupported (env : Env) (me fuel : Nat) (m : Machine)
    (h : unsupported env) :
    (fast_reboot env me fuel m).1 = Outcome.returned ∧
    same_memory m (fast_reboot env me fuel m).2 ∧
    (fast_reboot env me fuel m).2.clock = m.clock ∧
    (∀ e ∈ new_events m (fast_reboot env me fuel m).2, inert e = true) := by
  have hclock : (fast_reboot_nvram env m).clock = m.clock := by
    unfold fast_reboot_nvram
    split_ifs <;> rfl
  unfold fast_reboot
  split_ifs with h1 h2 h3
  · refine ⟨rfl, same_memory_nvram env m, hclock, ?_⟩
    simp only [new_events, fast_reboot_nvram_trace, nvram_events, List.drop_left]
    split_ifs <;> simp [inert]
  · refine ⟨rfl, same_memory_trans (same_memory_nvram env m) (same_memory_emit _ _),
      hclock, ?_⟩
    simp only [new_events, fast_reboot_nvram_trace, nvram_events, emit_trace, List.append_assoc,
      List.drop_left]
    split_ifs <;> simp [inert]
  · refine ⟨rfl, same_memory_trans (same_memory_nvram env m) (same_memory_emit _ _),
      hclock, ?_⟩
    simp only [new_events, fast_reboot_nvram_trace, nvram_events, emit_trace, List.append_assoc,
      List.drop_left]
    split_ifs <;> simp [inert]
  all_goals
    exfalso
    rcases h with ⟨a, b, c⟩ | a | ⟨a, b⟩
    · exact h2 ⟨c, a, b⟩
    · exact h3 a
    · exact h1 ⟨a, b⟩

/-- C7 at the example configuration on a P7. -/
theorem fast_reboot_unsupported_witness :
    unsupported example_env_p7 ∧
    (fast_reboot example_env_p7 0 4 example_machine).1 = Outcome.returned ∧
    same_memory example_machine (fast_reboot example_env_p7 0 4 example_machine).2 :=
  ⟨Or.inl ⟨by decide, by decide, rfl⟩,
    (fast_reboot_unsupported example_env_p7 0 4 example_machine
      (Or.inl ⟨by decide, by decide, rfl⟩)).1,
    (fast_reboot_unsupported example_env_p7 0 4 example_machine
      (Or.inl ⟨by decide, by decide, rfl⟩)).2.1⟩

/-- C8: when the call of `sreset_all_prepare` made by `fast_reboot` returns non-zero,
`fast_reboot` returns to its caller after exactly one quiesce resume, which is its last
effect; the registry is unchanged and none of its effects installs a vector, broadcasts a
reset or stores a unit's state or saved resume address. -/
theorem fast_reboot_prepare_failure (env : Env) (me fuel : Nat) (m : Machine)
    (h : ∃ rc, rc ≠ 0 ∧
      Event.sreset_all_prepare rc ∈ new_events m (fast_reboot env me fuel m).2) :
    (fast_reboot env me fuel m).1 = Outcome.returned ∧
    (new_events m (fast_reboot env me fuel m).2).countP resumes = 1 ∧
    (new_events m (fast_reboot env me fuel m).2).getLast?
      = some (Event.opal_quiesce quiesce_type.QUIESCE_RESUME (-1)
          (env.opal_quiesce quiesce_type.QUIESCE_RESUME)) ∧
    (fast_reboot env me fuel m).2.cpus = m.cpus ∧
    (∀ e ∈ new_events m (fast_reboot env me fuel m).2,
      installs_vectors e = false ∧ broadcasts e = false ∧ writes_registry e = false) := by
  obtain ⟨rc, hrc, hmem⟩ := h
  unfold fast_reboot at hmem ⊢
  split_ifs at hmem ⊢ with h1 h2 h3 h4 h5 h6
  · exfalso
    simp only [new_events, fast_reboot_nvram_trace, nvram_events, List.drop_left] at hmem
    split_ifs at hmem <;> simp at hmem
  · exfalso
    simp only [new_events, fast_reboot_nvram_trace, nvram_events, emit_trace,
      List.append_assoc, List.drop_left] at hmem
    split_ifs at hmem <;> simp at hmem
  · exfalso
    simp only [new_events, fast_reboot_nvram_trace, nvram_events, emit_trace,
      List.append_assoc, List.drop_left] at hmem
    split_ifs at hmem <;> simp at hmem
  · exfalso
    simp only [new_events, fast_reboot_nvram_trace, nvram_events, emit_trace,
      opal_quiesce_trace, List.append_assoc, List.drop_left] at hmem
    split_ifs at hmem <;> simp at hmem
  · exfalso
    simp only [new_events, fast_reboot_nvram_trace, nvram_events, emit_trace,
      opal_quiesce_trace, List.append_assoc, List.drop_left] at hmem
    split_ifs at hmem <;> simp at hmem
  · obtain ⟨ht, _, hc⟩ := fast_reboot_prepared env m
    refine ⟨rfl, ?_, ?_, by simpa [opal_quiesce] using hc, ?_⟩
    all_goals
      simp only [new_events, emit_trace, opal_quiesce_trace, ht, List.append_assoc,
        List.drop_left, prepare_events, nvram_events]
      split_ifs <;>
        simp [resumes, installs_vectors, broadcasts, writes_registry, List.countP_cons]
  · exfalso
    obtain ⟨ev, he, hq, _, _⟩ := fast_reboot_committed env me fuel m
    rw [he] at hmem
    simp only [prepare_events, nvram_events, List.mem_append, List.mem_map] at hmem
    rcases hmem with (hmem | hmem) | (⟨_, _, hmem⟩ | hmem) | hmem
    · split_ifs at hmem <;> simp at hmem
    · simp at hmem
      exact hrc (hmem.trans (not_not.1 h6))
    · simp at hmem
    · simp at hmem
    · have := hq _ hmem
      simp [after_broadcast_event, wait_event, poll_event] at this

/-- C8 at the example configuration in which preparing the secondaries fails. -/
theorem fast_reboot_prepare_failure_witness :
    (fast_reboot example_env_prepare_fails 0 4 example_machine).1 = Outcome.returned ∧
    (new_events example_machine
      (fast_reboot example_env_prepare_fails 0 4 example_machine).2).countP resumes = 1 :=
  ⟨(fast_reboot_prepare_failure example_env_prepare_fails 0 4 example_machine
      ⟨-1, by decide, by decide⟩).1,
    (fast_reboot_prepare_failure example_env_prepare_fails 0 4 example_machine
      ⟨-1, by decide, by decide⟩).2.1⟩

/-- C5, as stated, fails: unit 1 never shows present, every load takes 100 ms, and
`fast_reboot`, having broadcast the reset, logs the timeout and returns to its caller. -/
theorem fast_reboot_returns_after_broadcast :
    (fast_reboot example_env_timeout 0 4 example_machine).1 = Outcome.returned ∧
    new_events example_machine (fast_reboot example_env_timeout 0 4 example_machine).2
      = [Event.opal_quiesce quiesce_type.QUIESCE_HOLD (-1) 1,
         Event.prlog log_level.PR_NOTICE "RESET: Initiating fast reboot %d...\n",
         Event.store_release false,
         Event.sync,
         Event.sreset_all_prepare 0,
         Event.store_save_r1 0 0,
         Event.store_save_r1 1 0,
         Event.copy_exception_vectors,
         Event.setup_reset_vector,
         Event.sreset_all_others 0,
         Event.load_tb 1000,
         Event.sync,
         Event.load_state 1 (cpu_thread_state.cpu_state_other 3),
         Event.smt_lowest,
         Event.load_state 1 (cpu_thread_state.cpu_state_other 3),
         Event.barrier,
         Event.load_tb 153601000,
         Event.smt_medium,
         Event.wait_returned cpu_thread_state.cpu_state_present 51200000 false,
         Event.prlog log_level.PR_NOTICE
           "RESET: Fast reboot timed out waiting for secondaries to call in\n"] := by
  decide

/-- C5 amended: once `fast_reboot` has issued the broadcast reset it never invokes the
payload loader; it returns to its caller when the broadcast reports a failure, and,
after a successful broadcast, it either is still waiting, or returns to its caller right
after observing the time base past `start + msecs_to_tb(100)` (its last load) and logging
the timeout, or, every other non-garded unit having been observed present, it ends
with the branch to 0x100 and does not return.  In the timeout case it does return: with
a unit that never shows present and a time base that stays past the deadline, enough
fuel gives the outcome `returned`. -/
theorem fast_reboot_after_broadcast (env : Env) (me fuel : Nat) (m : Machine)
    (hb : ∃ rc, Event.sreset_all_others rc ∈ new_events m (fast_reboot env me fuel m).2) :
    (∀ b, Event.load_and_boot_kernel b ∉ new_events m (fast_reboot env me fuel m).2) ∧
    (env.sreset_all_others ≠ OPAL_SUCCESS →
      (fast_reboot env me fuel m).1 = Outcome.returned) ∧
    (env.sreset_all_others = OPAL_SUCCESS →
      (fast_reboot env me fuel m).1 = Outcome.spinning ∨
      ((fast_reboot env me fuel m).1 = Outcome.returned ∧
        ∃ ev0 v, new_events m (fast_reboot env me fuel m).2
            = ev0 ++ [Event.load_tb v, Event.smt_medium,
              Event.wait_returned cpu_thread_state.cpu_state_present
                (env.msecs_to_tb 100) false,
              Event.prlog log_level.PR_NOTICE
                "RESET: Fast reboot timed out waiting for secondaries to call in\n"] ∧
          env.tb_compare v (wait_end env (env.msecs_to_tb 100) m) = tb_cmpval.TB_AAFTERB) ∨
      ((fast_reboot env me fuel m).1 = Outcome.branched ∧
        (new_events m (fast_reboot env me fuel m).2).getLast? = some Event.branch_0x100 ∧
        ∀ u ∈ ungarded_cpus m.cpus, u ≠ me →
          Event.load_state u cpu_thread_state.cpu_state_present
            ∈ new_events m (fast_reboot env me fuel m).2)) ∧
    (env.sreset_all_others = OPAL_SUCCESS → env.msecs_to_tb 100 ≠ 0 →
      ∀ u ∈ ungarded_cpus m.cpus, u ≠ me →
      (∀ t, env.cpu_state t u ≠ cpu_thread_state.cpu_state_present) →
      ∀ T, (∀ t, T ≤ t → env.tb_compare (env.mftb t % 2 ^ 64)
          (wait_end env (env.msecs_to_tb 100) m) = tb_cmpval.TB_AAFTERB) →
        T - m.clock < fuel → (fast_reboot env me fuel m).1 = Outcome.returned) := by
  obtain ⟨rc, hmem⟩ := hb
  unfold fast_reboot at hmem ⊢
  split_ifs at hmem ⊢ with h1 h2 h3 h4 h5 h6
  · exfalso
    simp only [new_events, fast_reboot_nvram_trace, nvram_events, List.drop_left] at hmem
    split_ifs at hmem <;> simp at hmem
  · exfalso
    simp only [new_events, fast_reboot_nvram_trace, nvram_events, emit_trace,
      List.append_assoc, List.drop_left] at hmem
    split_ifs at hmem <;> simp at hmem
  · exfalso
    simp only [new_events, fast_reboot_nvram_trace, nvram_events, emit_trace,
      List.append_assoc, List.drop_left] at hmem
    split_ifs at hmem <;> simp at hmem
  · exfalso
    simp only [new_events, fast_reboot_nvram_trace, nvram_events, emit_trace,
      opal_quiesce_trace, List.append_assoc, List.drop_left] at hmem
    split_ifs at hmem <;> simp at hmem
  · exfalso
    simp only [new_events, fast_reboot_nvram_trace, nvram_events, emit_trace,
      opal_quiesce_trace, List.append_assoc, List.drop_left] at hmem
    split_ifs at hmem <;> simp at hmem
  · exfalso
    obtain ⟨ht, _, _⟩ := fast_reboot_prepared env m
    simp only [new_events, emit_trace, opal_quiesce_trace, ht, List.append_assoc,
      List.drop_left, prepare_events, nvram_events] at hmem
    split_ifs at hmem <;> simp at hmem
  · obtain ⟨ev, he, hq, a2, a3⟩ := fast_reboot_committed env me fuel m
    obtain ⟨_, hk, hc⟩ := fast_reboot_prepared env m
    refine ⟨?_, fun hs => (a2 hs).1, ?_, ?_⟩
    · intro b hm
      rw [he] at hm
      simp only [prepare_events, nvram_events, List.mem_append, List.mem_map] at hm
      rcases hm with (hm | hm) | (⟨_, _, hm⟩ | hm) | hm
      · split_ifs at hm <;> simp at hm
      · simp at hm
      · simp at hm
      · simp at hm
      · have := hq _ hm
        simp [after_broadcast_event, wait_event, poll_event] at this
    · intro hs
      rcases a3 hs with ⟨ho, _⟩ | ⟨ho, ev0, v, hev, hv, _⟩ | ⟨ho, ev0, hev, _, hseen⟩
      · exact Or.inl ho
      · refine Or.inr (Or.inl ⟨ho, prepare_events env ++
          (((ungarded_cpus m.cpus).map (fun c => Event.store_save_r1 c 0) ++
            [Event.copy_exception_vectors, Event.setup_reset_vector,
              Event.sreset_all_others env.sreset_all_others]) ++ ev0), v, ?_, hv⟩)
        rw [he, hev]
        simp
      · refine Or.inr (Or.inr ⟨ho, ?_, ?_⟩)
        · have hl : new_events m (fast_reboot_commit env me fuel (fast_reboot_prepare env
              (opal_quiesce env quiesce_type.QUIESCE_HOLD (fast_reboot_nvram env m)))).2
              = (prepare_events env ++
                (((ungarded_cpus m.cpus).map (fun c => Event.store_save_r1 c 0) ++
                  [Event.copy_exception_vectors, Event.setup_reset_vector,
                    Event.sreset_all_others env.sreset_all_others]) ++
                  (ev0 ++ [Event.prlog log_level.PR_DEBUG
                      "RESET: Releasing special wakeups...\n",
                    Event.sreset_all_finish,
                    Event.opal_quiesce quiesce_type.QUIESCE_RESUME_FAST_REBOOT (-1)
                      (env.opal_quiesce quiesce_type.QUIESCE_RESUME_FAST_REBOOT)])))
                ++ [Event.branch_0x100] := by
            rw [he, hev]
            simp
          rw [hl, List.getLast?_concat]
        · intro u hu hne
          rw [he, hev]
          simp [hseen u hu hne]
    · intro hs h0 u hu hne hn T hT hf
      exact fast_reboot_commit_times_out env me fuel _ hs h0 u (by rw [hc]; exact hu) hne hn T
        (by simpa [wait_end, hk] using hT) (by rw [hk]; exact hf)

/-- C5 amended, at the example configuration in which unit 1 never shows present and
every load takes 100 ms: the broadcast was issued and the call returns to its caller. -/
theorem fast_reboot_after_broadcast_witness :
    (∃ rc, Event.sreset_all_others rc
      ∈ new_events example_machine (fast_reboot example_env_timeout 0 4 example_machine).2) ∧
    ((fast_reboot example_env_timeout 0 4 example_machine).1 = Outcome.spinning ∨
      ((fast_reboot example_env_timeout 0 4 example_machine).1 = Outcome.returned ∧
        ∃ ev0 v, new_events example_machine
            (fast_reboot example_env_timeout 0 4 example_machine).2
            = ev0 ++ [Event.load_tb v, Event.smt_medium,
              Event.wait_returned cpu_thread_state.cpu_state_present
                (example_env_timeout.msecs_to_tb 100) false,
              Event.prlog log_level.PR_NOTICE
                "RESET: Fast reboot timed out waiting for secondaries to call in\n"] ∧
          example_env_timeout.tb_compare v
            (wait_end example_env_timeout (example_env_timeout.msecs_to_tb 100)
              example_machine) = tb_cmpval.TB_AAFTERB) ∨
      ((fast_reboot example_env_timeout 0 4 example_machine).1 = Outcome.branched ∧
        (new_events example_machine
          (fast_reboot example_env_timeout 0 4 example_machine).2).getLast?
            = some Event.branch_0x100 ∧
        ∀ u ∈ ungarded_cpus example_machine.cpus, u ≠ 0 →
          Event.load_state u cpu_thread_state.cpu_state_present
            ∈ new_events example_machine
              (fast_reboot example_env_timeout 0 4 example_machine).2)) :=
  ⟨⟨0, by decide⟩,
    (fast_reboot_after_broadcast example_env_timeout 0 4 example_machine
      ⟨0, by decide⟩).2.2.1 rfl⟩

/-- C6, as stated, fails: after `disable_fast_reboot("first")` then
`disable_fast_reboot("second")` the stored reason is "second", not the first one passed;
and a later call passing `NULL` clears the stored reason. -/
theorem disable_fast_reboot_overwrites :
    (disable_calls [some "first", some "second"] example_machine).fast_reboot_disabled
      = some "second" ∧
    (disable_calls [some "first", some "second"] example_machine).fast_reboot_disabled
      ≠ some "first" ∧
    (disable_calls [some "first", none] example_machine).fast_reboot_disabled = none := by
  decide

/-- C6 amended: after any sequence of calls of `disable_fast_reboot` the stored reason
is the one passed by the last call (a later call replaces it, also with `NULL`);
repeating a call with the same reason changes nothing more; the calls touch nothing
but the stored reason. -/
theorem disable_fast_reboot_last_wins (reasons : List (Option String))
    (reason : Option String) (m : Machine) :
    (disable_calls (reasons ++ [reason]) m).fast_reboot_disabled = reason ∧
    disable_fast_reboot reason (disable_fast_reboot reason m) = disable_fast_reboot reason m ∧
    disable_calls (reasons ++ [reason, reason]) m = disable_calls (reasons ++ [reason]) m ∧
    (disable_calls reasons m).cpus = m.cpus ∧
    (disable_calls reasons m).fast_boot_release = m.fast_boot_release ∧
    (disable_calls reasons m).fast_reboot_count = m.fast_reboot_count ∧
    (disable_calls reasons m).trace = m.trace ∧
    (disable_calls reasons m).clock = m.clock := by
  have hframe : ∀ (l : List (Option String)) (x : Machine),
      (disable_calls l x).cpus = x.cpus ∧
      (disable_calls l x).fast_boot_release = x.fast_boot_release ∧
      (disable_calls l x).fast_reboot_count = x.fast_reboot_count ∧
      (disable_calls l x).trace = x.trace ∧
      (disable_calls l x).clock = x.clock := by
    intro l
    induction l with
    | nil => intro x; exact ⟨rfl, rfl, rfl, rfl, rfl⟩
    | cons r rest ih =>
      intro x
      have h := ih (disable_fast_reboot r x)
      simpa [disable_calls, disable_fast_reboot] using h
  refine ⟨?_, rfl, ?_, hframe reasons m⟩
  · simp [disable_calls, List.foldl_append, disable_fast_reboot]
  · simp [disable_calls, List.foldl_append, disable_fast_reboot]

/-! ## The reset handler `fast_reboot_entry`: claims -/

/-- C9, as stated, fails: unit 1 initiates the fast reboot (its call of `fast_reboot`
ends with the branch to 0x100) while the boot CPU is unit 0; in the reset handler the
initiator ends in the worker loop without invoking the loader, and the loader is
invoked, once, by unit 0, which did not initiate the reboot. -/
theorem loader_not_invoked_by_initiator :
    (fast_reboot example_env_reboot 1 4 example_machine).1 = Outcome.branched ∧
    (fast_reboot_entry example_env_reboot 1 4
      (fast_reboot example_env_reboot 1 4 example_machine).2).1 = Outcome.worker_loop ∧
    (fast_reboot_entry example_env_reboot 1 4
      (fast_reboot example_env_reboot 1 4 example_machine).2).2.trace.count
        (Event.load_and_boot_kernel true) = 0 ∧
    (fast_reboot_entry example_env_reboot 0 4 example_machine).1 = Outcome.payload ∧
    (new_events example_machine
      (fast_reboot_entry example_env_reboot 0 4 example_machine).2).count
        (Event.load_and_boot_kernel true) = 1 := by
  decide

/-- C9 amended: in the reset handler the payload loader is invoked only with
`resume = true` and only by the unit that is `boot_cpu`, whether or not that unit
initiated the fast reboot; it is invoked at most once, and exactly once, as the last
effect, when the run ends in the payload (both waits returned and `pci_reset` succeeded).
Every other unit, the initiator included when it is not `boot_cpu`, never reaches the
loader: it is parked by the unsplit coordinator, still spinning, or ends in
`__secondary_cpu_entry`, and it does end there once its core is not split and the
release flag stays set. -/
theorem loader_only_by_boot_cpu (env : Env) (me fuel : Nat) (m : Machine) :
    (∀ b, Event.load_and_boot_kernel b ∈ new_events m (fast_reboot_entry env me fuel m).2 →
      b = true ∧ me = env.boot_cpu) ∧
    (new_events m (fast_reboot_entry env me fuel m).2).count
      (Event.load_and_boot_kernel true) ≤ 1 ∧
    ((fast_reboot_entry env me fuel m).1 = Outcome.payload ↔
      Event.load_and_boot_kernel true ∈ new_events m (fast_reboot_entry env me fuel m).2) ∧
    ((fast_reboot_entry env me fuel m).1 = Outcome.payload →
      (new_events m (fast_reboot_entry env me fuel m).2).getLast?
        = some (Event.load_and_boot_kernel true) ∧
      (new_events m (fast_reboot_entry env me fuel m).2).count
        (Event.load_and_boot_kernel true) = 1) ∧
    (me ≠ env.boot_cpu →
      ((fast_reboot_entry env me fuel m).1 = Outcome.worker_loop ∧
        (new_events m (fast_reboot_entry env me fuel m).2).getLast?
          = some Event.secondary_cpu_entry) ∨
      (fast_reboot_entry env me fuel m).1 = Outcome.napping ∨
      (fast_reboot_entry env me fuel m).1 = Outcome.spinning) ∧
    (me ≠ env.boot_cpu →
      (env.proc_gen ≠ proc_gen_t.proc_gen_p8 ∨
        ∀ t, env.hid0 t % 2 ^ 64 &&& split_mask env = 0) →
      ∀ T, (∀ t, T ≤ t → env.fast_boot_release t = true) → T - m.clock < fuel →
      (fast_reboot_entry env me fuel m).1 = Outcome.worker_loop) := by
  obtain ⟨h1, h2, h3, h4⟩ := entry_shape_loader env me _ _ (fast_reboot_entry_shape env me fuel m)
  exact ⟨h1, h2, h3, h4,
    fun hme => entry_shape_other env me _ _ (fast_reboot_entry_shape env me fuel m) hme,
    fun hme hs T hT hf => fast_reboot_entry_other_ends env me fuel m hme hs T hT hf⟩

/-- C9 amended, at the example configuration: unit 1, which is not the boot CPU, ends in
the worker loop, and the run of the boot CPU invokes the loader exactly once. -/
theorem loader_only_by_boot_cpu_witness :
    (fast_reboot_entry example_env_reboot 1 4 example_machine).1 = Outcome.worker_loop ∧
    (new_events example_machine
      (fast_reboot_entry example_env_reboot 0 4 example_machine).2).count
        (Event.load_and_boot_kernel true) = 1 :=
  ⟨(loader_only_by_boot_cpu example_env_reboot 1 4 example_machine).2.2.2.2.2
      (by decide) (Or.inr (fun _ => Nat.zero_and _)) 0 (fun _ _ => rfl) (by decide),
    ((loader_only_by_boot_cpu example_env_reboot 0 4 example_machine).2.2.2.1
      (by decide)).2⟩

/-- C10: on any run of the reset handler, the release flag is set only after the
unbounded wait for present returned; the unit stores `cpu_state_active` in its slot only
after the store that sets the flag and after its own cleanup, which ran in between; and
every step of the global post-reboot cleanup, the payload loader included, comes after
the store that clears the flag, itself after the return of the unbounded wait for
active, with no store of the flag in between; when the run ends in the payload or
halted, the flag is false in memory. -/
theorem release_flag_protocol (env : Env) (me fuel : Nat) (m : Machine) :
    (∀ pre post, new_events m (fast_reboot_entry env me fuel m).2
        = pre ++ Event.store_release true :: post →
      ∃ b, Event.wait_returned cpu_thread_state.cpu_state_present 0 b ∈ pre) ∧
    (∀ pre post, new_events m (fast_reboot_entry env me fuel m).2
        = pre ++ Event.store_state me cpu_thread_state.cpu_state_active :: post →
      ∃ p1 p2, pre = p1 ++ Event.store_release true :: p2 ∧
        Event.init_replicated_sprs ∈ p2) ∧
    (∀ pre e post, new_events m (fast_reboot_entry env me fuel m).2 = pre ++ e :: post →
      global_cleanup e = true →
      ∃ p1 p2 b, pre = p1 ++ Event.store_release false :: p2 ∧
        Event.wait_returned cpu_thread_state.cpu_state_active 0 b ∈ p1 ∧
        ∀ v, Event.store_release v ∉ p2) ∧
    (((fast_reboot_entry env me fuel m).1 = Outcome.payload ∨
        (fast_reboot_entry env me fuel m).1 = Outcome.halted) →
      (fast_reboot_entry env me fuel m).2.fast_boot_release = false) := by
  obtain ⟨h1, h2, h3⟩ :=
    entry_shape_protocol env me _ _ (fast_reboot_entry_shape env me fuel m)
  exact ⟨h1, h2, h3, fast_reboot_entry_flag env me fuel m⟩

/-- C10 at the example configuration: the run of the boot CPU ends in the payload, it
does set the flag and store `cpu_state_active`, and the flag is false at the end. -/
theorem release_flag_protocol_witness :
    (fast_reboot_entry example_env_reboot 0 4 example_machine).1 = Outcome.payload ∧
    Event.store_release true
      ∈ new_events example_machine (fast_reboot_entry example_env_reboot 0 4 example_machine).2 ∧
    Event.store_state 0 cpu_thread_state.cpu_state_active
      ∈ new_events example_machine (fast_reboot_entry example_env_reboot 0 4 example_machine).2 ∧
    (fast_reboot_entry example_env_reboot 0 4 example_machine).2.fast_boot_release = false :=
  ⟨by decide, by decide, by decide,
    (release_flag_protocol example_env_reboot 0 4 example_machine).2.2.2 (Or.inl (by decide))⟩

/-- C11: the lead thread of a split core (`HID0` read with a split bit set, `pir & 7`
zero) either returns from `check_split_core` or is still in its wait for unsplit; when
it returns it has sent exactly one `icp_kick_cpu` to every other unit of the registry
that is a sibling of it, and none to itself, to a unit of another core or to anything
else; and it does return once `HID0` reads unsplit from some time on and the fuel
covers that time. -/
theorem check_split_core_kicks (env : Env) (me fuel : Nat) (m : Machine)
    (hsplit : (load_hid0 env m).1 &&& split_mask env ≠ 0)
    (hlead : (this_cpu m me).pir &&& 7 = 0) :
    ((check_split_core env me fuel m).1 = Outcome.returned ∨
      (check_split_core env me fuel m).1 = Outcome.spinning) ∧
    ((check_split_core env me fuel m).1 = Outcome.returned →
      ∀ c, (new_events m (check_split_core env me fuel m).2).count (Event.icp_kick_cpu c)
        = if c < m.cpus.length ∧ c ≠ me ∧
              cpu_is_sibling (this_cpu m c) (this_cpu m me) = true then 1 else 0) ∧
    (∀ T, (∀ t, T ≤ t → env.hid0 t % 2 ^ 64 &&& split_mask env = 0) → T - m.clock < fuel →
      (check_split_core env me fuel m).1 = Outcome.returned) := by
  obtain ⟨w, hw, -, hcase, hlive⟩ := check_split_core_lead env me fuel m hsplit hlead
  have hwc : ∀ c, w.count (Event.icp_kick_cpu c) = 0 := by
    intro c
    apply List.count_eq_zero_of_not_mem
    intro hmem
    have := hw _ hmem
    simp [unsplit_poll] at this
  refine ⟨?_, ?_, hlive⟩
  · rcases hcase with h | h
    · exact Or.inr h.1
    · exact Or.inl h.1
  · intro hret c
    rcases hcase with h | h
    · rw [h.1] at hret
      cases hret
    · unfold new_events
      rw [h.2, List.drop_left]
      have hk := count_kicks (other_sibling m.cpus me) m.cpus.length c
      rw [List.count_append, List.count_append, List.count_cons, hwc c]
      unfold all_cpus
      rw [hk]
      simp [unsplit_events, other_sibling, this_cpu, and_comm]

theorem check_split_core_kicks_witness :
    (check_split_core example_env_split 0 5 example_machine_cores).1 = Outcome.returned ∧
    (new_events example_machine_cores
        (check_split_core example_env_split 0 5 example_machine_cores).2).count
      (Event.icp_kick_cpu 1) = 1 ∧
    (new_events example_machine_cores
        (check_split_core example_env_split 0 5 example_machine_cores).2).count
      (Event.icp_kick_cpu 2) = 0 :=
  have h := check_split_core_kicks example_env_split 0 5 example_machine_cores
    (by decide) (by decide)
  have hr := h.2.2 3 (fun t ht => by
    show (if t < 3 then 2 ^ 61 else 0) % 2 ^ 64 &&& split_mask example_env_split = 0
    rw [if_neg (by omega)]
    rfl) (by decide)
  ⟨hr, (h.2.1 hr 1).trans (by decide), (h.2.1 hr 2).trans (by decide)⟩

/-- C12: when a call of `pci_reset()` returns a status other than zero on a run of the
reset handler, the run ends halted (the endless loop: it neither returns nor reaches
the worker loop or the payload), the payload loader is not invoked, and the events of
the run finish with the failed call, the log line and, exactly when the platform has a
`cec_reboot`, one call of it, which is the only one of the run. -/
theorem pci_reset_failure_halts (env : Env) (me fuel : Nat) (m : Machine)
    (hpci : ∃ rc, rc ≠ 0 ∧
      Event.pci_reset rc ∈ new_events m (fast_reboot_entry env me fuel m).2) :
    (fast_reboot_entry env me fuel m).1 = Outcome.halted ∧
    (∀ b, Event.load_and_boot_kernel b ∉ new_events m (fast_reboot_entry env me fuel m).2) ∧
    (∃ A, new_events m (fast_reboot_entry env me fuel m).2
        = A ++ (Event.pci_reset env.pci_reset ::
            Event.prlog log_level.PR_NOTICE "RESET: Fast reboot failed to reset PCI\n" ::
            (if env.has_cec_reboot = true then [Event.cec_reboot] else [])) ∧
      Event.cec_reboot ∉ A ∧ ∀ rc, Event.pci_reset rc ∉ A) ∧
    (new_events m (fast_reboot_entry env me fuel m).2).count Event.cec_reboot
      = (if env.has_cec_reboot = true then 1 else 0) := by
  obtain ⟨rc, hrc, hmem⟩ := hpci
  have hs := fast_reboot_entry_shape env me fuel m
  rcases entry_shape_split env me _ _ hs with ⟨hall, _, _⟩ | ⟨_, A, hl, hA, ho⟩
  · have := hall _ hmem
    simp [global_cleanup] at this
  · rw [hl] at hmem ⊢
    have hAn : ∀ e ∈ A, e ≠ Event.cec_reboot ∧ (∀ r, e ≠ Event.pci_reset r) ∧
        ∀ b, e ≠ Event.load_and_boot_kernel b := by
      intro e he
      have := hA e he
      refine ⟨?_, ?_, ?_⟩
      · rintro rfl
        simp [global_cleanup] at this
      · rintro r rfl
        simp [global_cleanup] at this
      · rintro b rfl
        simp [global_cleanup] at this
    have hfail : env.pci_reset ≠ 0 := by
      rcases List.mem_append.1 hmem with h | h
      · exact absurd rfl ((hAn _ h).2.1 rc)
      · unfold global_events at h
        simp only [List.mem_append, List.mem_cons] at h
        split_ifs at h <;> simp at h <;> aesop
    obtain ⟨g, hg, hg1, hg2, hg3⟩ := global_events_failed env hfail
    refine ⟨by rw [ho, if_pos hfail], ?_, ⟨A ++ g, ?_, ?_, ?_⟩, ?_⟩
    · intro b hb
      rcases List.mem_append.1 hb with h | h
      · exact (hAn _ h).2.2 b rfl
      · exact hg3 b h
    · rw [hg]
      simp
    · intro h
      rcases List.mem_append.1 h with h | h
      · exact (hAn _ h).1 rfl
      · exact hg1 h
    · intro r h
      rcases List.mem_append.1 h with h | h
      · exact (hAn _ h).2.1 r rfl
      · exact hg2 r h
    · rw [hg, List.count_append, List.count_append,
        List.count_eq_zero_of_not_mem (fun h => (hAn _ h).1 rfl),
        List.count_eq_zero_of_not_mem hg1]
      split_ifs <;> simp

/-- C12 at the example configuration in which `pci_reset()` fails: the run of the boot
CPU ends halted after one call of `platform.cec_reboot`. -/
theorem pci_reset_failure_halts_witness :
    (fast_reboot_entry example_env_pci_fails 0 4 example_machine).1 = Outcome.halted ∧
    (new_events example_machine
      (fast_reboot_entry example_env_pci_fails 0 4 example_machine).2).count
        Event.cec_reboot = 1 :=
  have h := pci_reset_failure_halts example_env_pci_fails 0 4 example_machine
    ⟨-1, by decide, by decide⟩
  ⟨h.1, h.2.2.2⟩

/-- C15: on an attempt where the hardware is supported, the quiesce hold is obtained,
no disable reason is set, `sreset_all_prepare` and `sreset_all_others` succeed and the
wait for present returns true, `fast_reboot` does not return (it ends in the branch to
`0x100`) and its events are exactly, in this order: the NVRAM query on P9, the quiesce
hold, the log line, the store clearing the release flag, `sync`,
`sreset_all_prepare`, the store of 0 in `save_r1` of every non-garded unit, the two
vector installations, `sreset_all_others`, the polling events `w` of the single call
`cpu_state_wait_all_others(cpu_state_present, msecs_to_tb(100))` in which every other
non-garded unit was seen present, its return, the log line, `sreset_all_finish`, the
quiesce resume in fast-reboot mode and the branch. -/
theorem fast_reboot_success_sequence (env : Env) (me fuel : Nat) (m : Machine)
    (hsup : ¬ unsupported env)
    (hhold : env.opal_quiesce quiesce_type.QUIESCE_HOLD ≠ 0)
    (hdis : m.fast_reboot_disabled = none)
    (hprep : env.sreset_all_prepare = 0)
    (hbro : env.sreset_all_others = OPAL_SUCCESS)
    (hwait : (cpu_state_wait_all_others env me cpu_thread_state.cpu_state_present
      (env.msecs_to_tb 100) fuel (fast_reboot_broadcast env (fast_reboot_prepare env
        (opal_quiesce env quiesce_type.QUIESCE_HOLD (fast_reboot_nvram env m))))).1
      = some true) :
    (fast_reboot env me fuel m).1 = Outcome.branched ∧
    ∃ w, new_events m (fast_reboot env me fuel m).2
        = nvram_events env ++
          ([Event.opal_quiesce quiesce_type.QUIESCE_HOLD (-1)
              (env.opal_quiesce quiesce_type.QUIESCE_HOLD),
            Event.prlog log_level.PR_NOTICE "RESET: Initiating fast reboot %d...\n",
            Event.store_release false,
            Event.sync,
            Event.sreset_all_prepare 0] ++
          ((ungarded_cpus m.cpus).map (fun c => Event.store_save_r1 c 0) ++
          ([Event.copy_exception_vectors, Event.setup_reset_vector,
            Event.sreset_all_others OPAL_SUCCESS] ++
          (w ++
          [Event.wait_returned cpu_thread_state.cpu_state_present (env.msecs_to_tb 100) true,
            Event.prlog log_level.PR_DEBUG "RESET: Releasing special wakeups...\n",
            Event.sreset_all_finish,
            Event.opal_quiesce quiesce_type.QUIESCE_RESUME_FAST_REBOOT (-1)
              (env.opal_quiesce quiesce_type.QUIESCE_RESUME_FAST_REBOOT),
            Event.branch_0x100])))) ∧
      (∀ e ∈ w, poll_event e = true) ∧
      ∀ u ∈ ungarded_cpus m.cpus, u ≠ me →
        Event.load_state u cpu_thread_state.cpu_state_present ∈ w := by
  obtain ⟨ht, _, hc⟩ := fast_reboot_prepared env m
  obtain ⟨hb, w, h1, h2, h3⟩ := fast_reboot_commit_success env me fuel (fast_reboot_prepare env
    (opal_quiesce env quiesce_type.QUIESCE_HOLD (fast_reboot_nvram env m))) hbro hwait
  rw [ht, hc] at h1
  rw [hc] at h3
  have hrun : fast_reboot env me fuel m = fast_reboot_commit env me fuel
      (fast_reboot_prepare env
        (opal_quiesce env quiesce_type.QUIESCE_HOLD (fast_reboot_nvram env m))) := by
    unfold unsupported at hsup
    simp only [not_or, not_and] at hsup
    obtain ⟨s1, s2, s3⟩ := hsup
    unfold fast_reboot
    rw [if_neg (by
        rintro ⟨a, b⟩
        exact s3 a b),
      if_neg (by
        rintro ⟨a, b, c⟩
        exact s1 b c a),
      if_neg s2, if_neg hhold, if_neg (by simp [hdis]), if_neg (by simp [hprep])]
  rw [hrun]
  refine ⟨hb, w, ?_, h2, h3⟩
  apply new_events_append
  rw [h1]
  simp [prepare_events, hprep]

/-- C15 at the example configuration: the attempt of unit 0 succeeds and ends in the
branch to `0x100`. -/
theorem fast_reboot_success_sequence_witness :
    (fast_reboot example_env 0 4 example_machine).1 = Outcome.branched :=
  (fast_reboot_success_sequence example_env 0 4 example_machine
    (by unfold unsupported; decide) (by decide) rfl rfl rfl (by decide)).1

/-- C17: `cleanup_cpu_state` performs `init_shared_sprs()` and
`chiptod_wakeup_resync()`, once each, when the caller is the lead thread of its core
(`cpu_is_thread0`) and not at all otherwise, and performs `init_replicated_sprs()` once
for every caller; hence when the units of `units`, which all belong to the core whose
lead thread has the identifier `P`, have pairwise distinct identifiers, include that
lead thread, and run the cleanup once each, the two per-core calls are made exactly
once and `init_replicated_sprs()` once per unit. -/
theorem cleanup_per_core_once (env : Env) (m : Machine) :
    (∀ me, new_events m (cleanup_cpu_state env me m) = cleanup_events env (this_cpu m me) ∧
      (Event.init_shared_sprs ∈ new_events m (cleanup_cpu_state env me m)
        ↔ cpu_is_thread0 (this_cpu m me) = true) ∧
      (Event.chiptod_wakeup_resync ∈ new_events m (cleanup_cpu_state env me m)
        ↔ cpu_is_thread0 (this_cpu m me) = true) ∧
      (new_events m (cleanup_cpu_state env me m)).count Event.init_shared_sprs ≤ 1 ∧
      (new_events m (cleanup_cpu_state env me m)).count Event.chiptod_wakeup_resync ≤ 1 ∧
      (new_events m (cleanup_cpu_state env me m)).count Event.init_replicated_sprs = 1) ∧
    (∀ (units : List Nat) (P : Nat),
      (∀ u ∈ units, (this_cpu m u).primary = P) →
      (units.map (fun u => (this_cpu m u).pir)).Nodup →
      (∃ u ∈ units, (this_cpu m u).pir = P) →
      (new_events m (cleanup_all env units m)).count Event.init_shared_sprs = 1 ∧
      (new_events m (cleanup_all env units m)).count Event.chiptod_wakeup_resync = 1 ∧
      (new_events m (cleanup_all env units m)).count Event.init_replicated_sprs
        = units.length) := by
  refine ⟨?_, ?_⟩
  · intro me
    obtain ⟨c1, c2, c3⟩ := cleanup_events_counts env (this_cpu m me)
    rw [new_events_append _ _ _ (cleanup_cpu_state_trace env me m).1]
    refine ⟨rfl, ?_, ?_, ?_, ?_, c3⟩
    · rw [← List.count_pos_iff, c1]
      split_ifs with h <;> simp [h]
    · rw [← List.count_pos_iff, c2]
      split_ifs with h <;> simp [h]
    · rw [c1]
      split_ifs <;> simp
    · rw [c2]
      split_ifs <;> simp
  · intro units P hcore hnd hlead
    rw [new_events_append _ _ _ (cleanup_all_trace env units m).1]
    have hone : (units.map (fun u => (this_cpu m u).pir)).count P = 1 := by
      apply List.count_eq_one_of_mem hnd
      obtain ⟨u, hu, hp⟩ := hlead
      exact List.mem_map.2 ⟨u, hu, hp⟩
    refine ⟨?_, ?_, ?_⟩
    · rw [count_flatten_cleanup env m _ _ (fun c => (cleanup_events_counts env c).1),
        one_lead_thread m P units hcore, hone]
    · rw [count_flatten_cleanup env m _ _ (fun c => (cleanup_events_counts env c).2.1),
        one_lead_thread m P units hcore, hone]
    · rw [count_flatten_cleanup env m _ _ (fun c => (cleanup_events_counts env c).2.2)]
      simp

/-- C17 at the example machine with two cores: units 3, 0 and 1 are the threads of the
core of thread `8`; when each runs the cleanup once the per-core calls are made once. -/
theorem cleanup_per_core_once_witness :
    (new_events example_machine_cores
      (cleanup_all example_env example_core example_machine_cores)).count
        Event.init_shared_sprs = 1 ∧
    (new_events example_machine_cores
      (cleanup_all example_env example_core example_machine_cores)).count
        Event.init_replicated_sprs = 3 :=
  have h := (cleanup_per_core_once example_env example_machine_cores).2 example_core 8
    (by decide) (by decide) (by decide)
  ⟨h.1, h.2.2⟩

/-- C18: `check_split_core` never changes the registry, and: when `HID0` reads with the
split bits zero it returns after that read and nothing else; on a thread of a split
core whose `pir & 7` is not zero it does not return but ends in `enter_nap`, its events
being the read, the log line, `icp_prep_for_pm()`, the write of `LPCR` that leaves
`PECE2` (wake on external interrupt) as the only wake-up cause, and `enter_nap()`;
so the writes of `HID0` and of its SLW copy and the wake signals only occur when the
core is split and the caller is the lead thread, where the two writes, of the value
read without `DYNLPARDIS`, do occur. -/
theorem check_split_core_frame (env : Env) (me fuel : Nat) (m : Machine) :
    (check_split_core env me fuel m).2.cpus = m.cpus ∧
    ((load_hid0 env m).1 &&& split_mask env = 0 →
      (check_split_core env me fuel m).1 = Outcome.returned ∧
      new_events m (check_split_core env me fuel m).2 = [Event.load_hid0 (load_hid0 env m).1]) ∧
    ((load_hid0 env m).1 &&& split_mask env ≠ 0 → (this_cpu m me).pir &&& 7 ≠ 0 →
      (check_split_core env me fuel m).1 = Outcome.napping ∧
      new_events m (check_split_core env me fuel m).2 = nap_events env (load_hid0 env m).1) ∧
    (∀ e ∈ new_events m (check_split_core env me fuel m).2, unsplit_action e = true →
      (load_hid0 env m).1 &&& split_mask env ≠ 0 ∧ (this_cpu m me).pir &&& 7 = 0) ∧
    ((load_hid0 env m).1 &&& split_mask env ≠ 0 → (this_cpu m me).pir &&& 7 = 0 →
      Event.set_hid0 ((load_hid0 env m).1 &&& not64 env.SPR_HID0_POWER8_DYNLPARDIS)
        ∈ new_events m (check_split_core env me fuel m).2 ∧
      Event.opal_slw_set_reg (this_cpu m me).pir
          ((load_hid0 env m).1 &&& not64 env.SPR_HID0_POWER8_DYNLPARDIS)
        ∈ new_events m (check_split_core env me fuel m).2) := by
  by_cases hsplit : (load_hid0 env m).1 &&& split_mask env = 0
  · have h := check_split_core_unsplit env me fuel m hsplit
    have hn : new_events m (check_split_core env me fuel m).2
        = [Event.load_hid0 (load_hid0 env m).1] := by
      rw [h]
      exact new_events_append _ _ _ (by simp [load_hid0])
    refine ⟨by rw [h]; rfl, fun _ => ⟨by rw [h], hn⟩, fun h1 => absurd hsplit h1, ?_,
      fun h1 => absurd hsplit h1⟩
    intro e he ha
    rw [hn] at he
    simp at he
    subst he
    simp [unsplit_action] at ha
  · by_cases hlead : (this_cpu m me).pir &&& 7 = 0
    · obtain ⟨w, hw, hc, hcase, _⟩ := check_split_core_lead env me fuel m hsplit hlead
      have hpre : ∃ t, new_events m (check_split_core env me fuel m).2
          = unsplit_events env (this_cpu m me).pir (load_hid0 env m).1 ++ t := by
        rcases hcase with ⟨_, ht⟩ | ⟨_, ht⟩
        · exact ⟨w, new_events_append _ _ _ ht⟩
        · exact ⟨_, new_events_append _ _ _ (by rw [ht, List.append_assoc])⟩
      obtain ⟨t, ht⟩ := hpre
      refine ⟨hc, fun h1 => absurd h1 hsplit, fun _ h2 => absurd hlead h2,
        fun _ _ _ => ⟨hsplit, hlead⟩, fun _ _ => ?_⟩
      rw [ht]
      simp [unsplit_events]
    · obtain ⟨h1, h2, h3⟩ := check_split_core_nap env me fuel m hsplit hlead
      have hn := new_events_append _ _ _ h2
      refine ⟨h3, fun h => absurd h hsplit, fun _ _ => ⟨h1, hn⟩, ?_, fun _ h => absurd h hlead⟩
      intro e he ha
      rw [hn] at he
      simp [nap_events] at he
      rcases he with rfl | rfl | rfl | rfl | rfl <;> simp [unsplit_action] at ha

/-- C18 at the example configuration of a split core: thread `9` (unit 1) goes to nap
without any write of the coordinator, and at a time when the core is not split any more
the call returns after the single read. -/
theorem check_split_core_frame_witness :
    (check_split_core example_env_split 1 5 example_machine_cores).1 = Outcome.napping ∧
    new_events example_machine_cores
        (check_split_core example_env_split 1 5 example_machine_cores).2
      = nap_events example_env_split (2 ^ 61) ∧
    (check_split_core example_env_split 0 5 example_machine_later).1 = Outcome.returned ∧
    new_events example_machine_later
        (check_split_core example_env_split 0 5 example_machine_later).2
      = [Event.load_hid0 0] :=
  have h1 := (check_split_core_frame example_env_split 1 5 example_machine_cores).2.2.1
    (by decide) (by decide)
  have h2 := (check_split_core_frame example_env_split 0 5 example_machine_later).2.1
    (by decide)
  ⟨h1.1, h1.2, h2.1, h2.2⟩

/-- C19: when `sreset_all_others` returned a status other than `OPAL_SUCCESS`, or when
the wait for present returned false, `fast_reboot` returns without any quiesce resume,
of either kind, and without `sreset_all_finish()`; whereas when `sreset_all_prepare`
returned a status other than zero, `fast_reboot` returns after a single quiesce resume,
`opal_quiesce(QUIESCE_RESUME, -1)`, its last effect. -/
theorem commit_failure_no_resume (env : Env) (me fuel : Nat) (m : Machine) :
    ((∃ rc, rc ≠ OPAL_SUCCESS ∧
        Event.sreset_all_others rc ∈ new_events m (fast_reboot env me fuel m).2) →
      (fast_reboot env me fuel m).1 = Outcome.returned ∧
      ∀ e ∈ new_events m (fast_reboot env me fuel m).2,
        resumes e = false ∧ e ≠ Event.sreset_all_finish) ∧
    ((∃ s t, Event.wait_returned s t false ∈ new_events m (fast_reboot env me fuel m).2) →
      (fast_reboot env me fuel m).1 = Outcome.returned ∧
      ∀ e ∈ new_events m (fast_reboot env me fuel m).2,
        resumes e = false ∧ e ≠ Event.sreset_all_finish) ∧
    ((∃ rc, rc ≠ 0 ∧
        Event.sreset_all_prepare rc ∈ new_events m (fast_reboot env me fuel m).2) →
      (fast_reboot env me fuel m).1 = Outcome.returned ∧
      (new_events m (fast_reboot env me fuel m).2).getLast?
        = some (Event.opal_quiesce quiesce_type.QUIESCE_RESUME (-1)
            (env.opal_quiesce quiesce_type.QUIESCE_RESUME)) ∧
      (new_events m (fast_reboot env me fuel m).2).countP resumes = 1) := by
  rcases fast_reboot_cases env me fuel m with ⟨ho, hev⟩ | ⟨ho, hp, hev⟩ | ⟨hp, hrun⟩
  · -- returned before the preparation
    have hnone : ∀ e ∈ new_events m (fast_reboot env me fuel m).2,
        (∀ rc, e ≠ Event.sreset_all_others rc) ∧ (∀ s t b, e ≠ Event.wait_returned s t b) ∧
        (∀ rc, e ≠ Event.sreset_all_prepare rc) := by
      intro e he
      rcases hev e he with h | ⟨rc, rfl⟩ | ⟨rc, rfl⟩
      · exact (inert_class e h).2.2
      · simp
      · simp
    refine ⟨?_, ?_, ?_⟩
    · rintro ⟨rc, _, hm⟩
      exact absurd rfl ((hnone _ hm).1 rc)
    · rintro ⟨s, t, hm⟩
      exact absurd rfl ((hnone _ hm).2.1 s t false)
    · rintro ⟨rc, _, hm⟩
      exact absurd rfl ((hnone _ hm).2.2 rc)
  · -- the preparation failed
    refine ⟨?_, ?_, ?_⟩
    · rintro ⟨rc, _, hm⟩
      rw [hev] at hm
      rcases List.mem_append.1 hm with hm | hm
      · exact absurd rfl ((prepare_events_class env _ hm).2.2.1 rc)
      · simp at hm
    · rintro ⟨s, t, hm⟩
      rw [hev] at hm
      rcases List.mem_append.1 hm with hm | hm
      · exact absurd rfl ((prepare_events_class env _ hm).2.2.2.1 s t false)
      · simp at hm
    · intro _
      refine ⟨ho, ?_, ?_⟩
      · rw [hev]
        simp [List.getLast?_append]
      · rw [hev, List.countP_append, List.countP_eq_zero.2 (fun e he => by
          rw [(prepare_events_class env e he).1]
          simp)]
        rfl
  · -- the part after the preparation
    rw [hrun]
    obtain ⟨tl, hl, hcase⟩ := fast_reboot_commit_events env me fuel m
    rw [hl]
    have hmem : ∀ e, e ∈ prepare_events env ++
        (((ungarded_cpus m.cpus).map (fun c => Event.store_save_r1 c 0) ++
          [Event.copy_exception_vectors, Event.setup_reset_vector,
            Event.sreset_all_others env.sreset_all_others]) ++ tl) →
        e ∈ prepare_events env ∨
        e ∈ (ungarded_cpus m.cpus).map (fun c => Event.store_save_r1 c 0) ++
          [Event.copy_exception_vectors, Event.setup_reset_vector,
            Event.sreset_all_others env.sreset_all_others] ∨ e ∈ tl := by
      intro e he
      rcases List.mem_append.1 he with he | he
      · exact Or.inl he
      · rcases List.mem_append.1 he with he | he
        · exact Or.inr (Or.inl he)
        · exact Or.inr (Or.inr he)
    -- what the tail holds, by the way the call ends
    have htail : ((fast_reboot_commit env me fuel (fast_reboot_prepare env
          (opal_quiesce env quiesce_type.QUIESCE_HOLD (fast_reboot_nvram env m)))).1
          = Outcome.returned ∧
        ∀ e ∈ tl, resumes e = false ∧ e ≠ Event.sreset_all_finish ∧
          (∀ rc, e ≠ Event.sreset_all_others rc) ∧ (∀ rc, e ≠ Event.sreset_all_prepare rc)) ∨
      (env.sreset_all_others = OPAL_SUCCESS ∧
        ∀ e ∈ tl, (∀ s t, e ≠ Event.wait_returned s t false) ∧
          (∀ rc, e ≠ Event.sreset_all_others rc) ∧
          (∀ rc, e ≠ Event.sreset_all_prepare rc)) := by
      rcases hcase with ⟨hs, ho, rfl⟩ | ⟨hs, w, hw, ⟨ho, rfl⟩ | ⟨ho, rfl⟩ | ⟨ho, rfl⟩⟩
      · refine Or.inl ⟨ho, ?_⟩
        intro e he
        simp only [List.mem_singleton] at he
        subst he
        simp [resumes]
      · refine Or.inr ⟨hs, ?_⟩
        intro e he
        obtain ⟨_, _, a, b, c⟩ := poll_class e (hw e he)
        exact ⟨fun s t => b s t false, a, c⟩
      · refine Or.inl ⟨ho, ?_⟩
        intro e he
        rcases List.mem_append.1 he with he | he
        · obtain ⟨a, b, c, _, d⟩ := poll_class e (hw e he)
          exact ⟨a, b, c, d⟩
        · simp only [List.mem_cons, List.mem_singleton, List.not_mem_nil, or_false] at he
          rcases he with rfl | rfl <;> simp [resumes]
      · refine Or.inr ⟨hs, ?_⟩
        intro e he
        rcases List.mem_append.1 he with he | he
        · obtain ⟨_, _, a, b, c⟩ := poll_class e (hw e he)
          exact ⟨fun s t => b s t false, a, c⟩
        · simp only [List.mem_cons, List.mem_singleton, List.not_mem_nil, or_false] at he
          rcases he with rfl | rfl | rfl | rfl | rfl <;> simp
    refine ⟨?_, ?_, ?_⟩
    · rintro ⟨rc, hrc, hm⟩
      rcases htail with ⟨ho, ht⟩ | ⟨hs, ht⟩
      · refine ⟨ho, ?_⟩
        intro e he
        rcases hmem e he with h | h | h
        · exact ⟨(prepare_events_class env e h).1, (prepare_events_class env e h).2.1⟩
        · exact ⟨(broadcast_events_class env _ e h).1, (broadcast_events_class env _ e h).2.1⟩
        · exact ⟨(ht e h).1, (ht e h).2.1⟩
      · exfalso
        rcases hmem _ hm with h | h | h
        · exact (prepare_events_class env _ h).2.2.1 rc rfl
        · exact hrc (((broadcast_events_class env _ _ h).2.2.1 rc rfl).trans hs)
        · exact (ht _ h).2.1 rc rfl
    · rintro ⟨s, t, hm⟩
      rcases htail with ⟨ho, ht⟩ | ⟨hs, ht⟩
      · refine ⟨ho, ?_⟩
        intro e he
        rcases hmem e he with h | h | h
        · exact ⟨(prepare_events_class env e h).1, (prepare_events_class env e h).2.1⟩
        · exact ⟨(broadcast_events_class env _ e h).1, (broadcast_events_class env _ e h).2.1⟩
        · exact ⟨(ht e h).1, (ht e h).2.1⟩
      · exfalso
        rcases hmem _ hm with h | h | h
        · exact (prepare_events_class env _ h).2.2.2.1 s t false rfl
        · exact (broadcast_events_class env _ _ h).2.2.2.1 s t false rfl
        · exact (ht _ h).1 s t rfl
    · rintro ⟨rc, hrc, hm⟩
      exfalso
      rcases hmem _ hm with h | h | h
      · exact hrc (((prepare_events_class env _ h).2.2.2.2 rc rfl).trans hp)
      · exact (broadcast_events_class env _ _ h).2.2.2.2 rc rfl
      · rcases htail with ⟨_, ht⟩ | ⟨_, ht⟩
        · exact (ht _ h).2.2.2 rc rfl
        · exact (ht _ h).2.2 rc rfl

/-- C19 at the example configurations: when no unit shows present and the time base
runs past the deadline `fast_reboot` returns with no resume at all, and when the
preparation fails it returns after one resume. -/
theorem commit_failure_no_resume_witness :
    ((fast_reboot example_env_timeout 0 10 example_machine).1 = Outcome.returned ∧
      ∀ e ∈ new_events example_machine (fast_reboot example_env_timeout 0 10 example_machine).2,
        resumes e = false ∧ e ≠ Event.sreset_all_finish) ∧
    ((fast_reboot example_env_prepare_fails 0 10 example_machine).1 = Outcome.returned ∧
      (new_events example_machine
        (fast_reboot example_env_prepare_fails 0 10 example_machine).2).countP resumes = 1) :=
  ⟨(commit_failure_no_resume example_env_timeout 0 10 example_machine).2.1
      ⟨cpu_thread_state.cpu_state_present, 51200000, by decide⟩,
    ((commit_failure_no_resume example_env_prepare_fails 0 10 example_machine).2.2
      ⟨-1, by decide, by decide⟩).1,
    ((commit_failure_no_resume example_env_prepare_fails 0 10 example_machine).2.2
      ⟨-1, by decide, by decide⟩).2.2⟩

/-- C16, as stated, fails: unit 1 initiates the fast reboot (its call of `fast_reboot`
ends with the branch to 0x100) while the boot CPU is unit 0; in the reset handler unit
0, which is not the initiator, calls `cpu_state_wait_all_others`, sets and clears the
release flag, and ends in the payload, not in the worker loop. -/
theorem boot_cpu_sets_flag_without_initiating :
    (fast_reboot example_env_reboot 1 4 example_machine).1 = Outcome.branched ∧
    Event.wait_returned cpu_thread_state.cpu_state_present 0 true
      ∈ new_events example_machine (fast_reboot_entry example_env_reboot 0 4 example_machine).2 ∧
    Event.store_release true
      ∈ new_events example_machine (fast_reboot_entry example_env_reboot 0 4 example_machine).2 ∧
    Event.store_release false
      ∈ new_events example_machine (fast_reboot_entry example_env_reboot 0 4 example_machine).2 ∧
    (fast_reboot_entry example_env_reboot 0 4 example_machine).1 = Outcome.payload := by
  decide

/-- C16 amended: on a unit other than `boot_cpu`, whether or not it initiated the
reboot, the events of a run of the reset handler are: the events `h` of the log line,
of the interrupt reset and of the unsplit coordinator, in which the run may stay
(napping or spinning, with nothing stored); then the store of `cpu_state_present` in
its own slot between two `sync()`; then the events `sp` of the wait for the release
flag (reads of the flag that find it false, the priority lowering, barriers), in which
the run may stay; then the read of the flag that finds it true, the optional priority
restore, `sync()`, the events of one `cleanup_cpu_state()` and
`__secondary_cpu_entry()`.  So every call of the cleanup comes after the store of
present and after a read of the flag that found it set; `init_replicated_sprs()` is
called once when the run ends in the worker loop and not at all otherwise; no event
stores the release flag or belongs to `cpu_state_wait_all_others`; and the run does
end in the worker loop when the core is not split, the flag reads true from some time
on and the fuel covers that time. -/
theorem other_unit_release_protocol (env : Env) (me fuel : Nat) (m : Machine)
    (hme : me ≠ env.boot_cpu) :
    (∃ h sp, (∀ e ∈ h, coordinator_event e = true) ∧ (∀ e ∈ sp, spin_event e = true) ∧
      ((((fast_reboot_entry env me fuel m).1 = Outcome.napping ∨
            (fast_reboot_entry env me fuel m).1 = Outcome.spinning) ∧
          new_events m (fast_reboot_entry env me fuel m).2 = h) ∨
        ((fast_reboot_entry env me fuel m).1 = Outcome.spinning ∧
          new_events m (fast_reboot_entry env me fuel m).2
            = h ++ (present_events me ++ sp)) ∨
        ((fast_reboot_entry env me fuel m).1 = Outcome.worker_loop ∧
          ∃ md, (md = [] ∨ md = [Event.smt_medium]) ∧
            new_events m (fast_reboot_entry env me fuel m).2
              = h ++ (present_events me ++
                  (sp ++ released_events env (this_cpu m me) md))))) ∧
    (∀ pre e post, new_events m (fast_reboot_entry env me fuel m).2 = pre ++ e :: post →
      cleanup_call e = true →
      Event.store_state me cpu_thread_state.cpu_state_present ∈ pre ∧
      Event.load_release true ∈ pre) ∧
    (new_events m (fast_reboot_entry env me fuel m).2).count Event.init_replicated_sprs
      = (if (fast_reboot_entry env me fuel m).1 = Outcome.worker_loop then 1 else 0) ∧
    (∀ e ∈ new_events m (fast_reboot_entry env me fuel m).2, flag_or_wait e = false) ∧
    ((env.proc_gen ≠ proc_gen_t.proc_gen_p8 ∨
        ∀ t, env.hid0 t % 2 ^ 64 &&& split_mask env = 0) →
      ∀ T, (∀ t, T ≤ t → env.fast_boot_release t = true) → T - m.clock < fuel →
      (fast_reboot_entry env me fuel m).1 = Outcome.worker_loop) := by
  obtain ⟨h, sp, hh, hsp, hcase⟩ := fast_reboot_entry_other_trace env me fuel m hme
  have hcnt : ∀ l : List Event, (∀ e ∈ l, cleanup_call e = false) →
      l.count Event.init_replicated_sprs = 0 := by
    intro l hl
    apply List.count_eq_zero_of_not_mem
    intro hm
    have := hl _ hm
    simp [cleanup_call] at this
  have hA : ∀ e ∈ h ++ (present_events me ++ sp), cleanup_call e = false ∧
      flag_or_wait e = false := by
    intro e he
    rcases List.mem_append.1 he with he | he
    · exact ⟨(coordinator_class e (hh e he)).2.1, (coordinator_class e (hh e he)).1⟩
    · rcases List.mem_append.1 he with he | he
      · exact ⟨(present_class me e he).2.1, (present_class me e he).1⟩
      · exact ⟨(spin_class e (hsp e he)).2.1, (spin_class e (hsp e he)).1⟩
  refine ⟨⟨h, sp, hh, hsp, ?_⟩, ?_, ?_, ?_,
    fun hs T hT hf => fast_reboot_entry_other_ends env me fuel m hme hs T hT hf⟩
  · rcases hcase with ⟨ho, hl, _⟩ | ⟨ho, hl, _⟩ | ⟨ho, hl, _⟩
    · exact Or.inl ⟨ho, hl⟩
    · exact Or.inr (Or.inl ⟨ho, hl⟩)
    · exact Or.inr (Or.inr ⟨ho, hl⟩)
  · intro pre e post heq hc
    rcases hcase with ⟨_, hl, _⟩ | ⟨_, hl, _⟩ | ⟨_, ⟨md, hmd, hl⟩, _⟩
    · rw [hl] at heq
      exact (not_split_of_none cleanup_call h pre post e
        (fun x hx => (coordinator_class x (hh x hx)).2.1) hc heq).elim
    · rw [hl] at heq
      exact (not_split_of_none cleanup_call _ pre post e (fun x hx => (hA x hx).1) hc heq).elim
    · rw [hl] at heq
      have hB : ∀ x ∈ (h ++ (present_events me ++ sp)) ++
          (Event.load_release true :: (md ++ [Event.sync])), cleanup_call x = false := by
        intro x hx
        rcases List.mem_append.1 hx with hx | hx
        · exact (hA x hx).1
        · rcases List.mem_cons.1 hx with rfl | hx
          · rfl
          · rcases List.mem_append.1 hx with hx | hx
            · rcases hmd with rfl | rfl
              · simp at hx
              · simp at hx
                subst hx
                rfl
            · simp at hx
              subst hx
              rfl
      obtain ⟨rest, hpre, _⟩ := split_after cleanup_call _
        (cleanup_events env (this_cpu m me) ++ [Event.secondary_cpu_entry]) pre post e hB hc
        (by simpa [released_events] using heq)
      rw [hpre]
      simp [present_events]
  · rcases hcase with ⟨ho, hl, _⟩ | ⟨ho, hl, _⟩ | ⟨ho, ⟨md, hmd, hl⟩, _⟩
    · rw [hl, hcnt h (fun x hx => (coordinator_class x (hh x hx)).2.1), if_neg]
      rcases ho with ho | ho <;> rw [ho] <;> simp
    · rw [hl, hcnt _ (fun x hx => (hA x hx).1), if_neg]
      rw [ho]
      simp
    · rw [hl, if_pos ho, ← List.append_assoc, ← List.append_assoc, List.count_append,
        hcnt _ (fun x hx => by
          rw [List.append_assoc] at hx
          exact (hA x hx).1)]
      unfold released_events
      rcases hmd with rfl | rfl <;>
        simp [List.count_cons, List.count_append, (cleanup_events_counts env _).2.2]
  · intro e he
    rcases hcase with ⟨_, hl, _⟩ | ⟨_, hl, _⟩ | ⟨_, ⟨md, hmd, hl⟩, _⟩
    · rw [hl] at he
      exact (coordinator_class e (hh e he)).1
    · rw [hl] at he
      exact (hA e he).2
    · rw [hl, ← List.append_assoc, ← List.append_assoc] at he
      rcases List.mem_append.1 he with he | he
      · rw [List.append_assoc] at he
        exact (hA e he).2
      · exact (released_class env _ md hmd e he).1

/-- C16 amended, at the example configuration: unit 1, which is not the boot CPU, ends
in the worker loop after one cleanup and without any store of the release flag. -/
theorem other_unit_release_protocol_witness :
    (1 : Nat) ≠ example_env_reboot.boot_cpu ∧
    (fast_reboot_entry example_env_reboot 1 4 example_machine).1 = Outcome.worker_loop ∧
    (new_events example_machine
      (fast_reboot_entry example_env_reboot 1 4 example_machine).2).count
        Event.init_replicated_sprs = 1 ∧
    ∀ e ∈ new_events example_machine
      (fast_reboot_entry example_env_reboot 1 4 example_machine).2, flag_or_wait e = false :=
  have h := other_unit_release_protocol example_env_reboot 1 4 example_machine (by decide)
  ⟨by decide, by decide, h.2.2.1.trans (by decide), h.2.2.2.1⟩

/-- C20, as stated, fails: unit 1 initiates the fast reboot (its call of `fast_reboot`
ends with the branch to 0x100) while the boot CPU is unit 0; in the reset handler
`cpu_state_active` is stored by unit 0, which is not the initiator, and is not stored
by the initiator. -/
theorem active_stored_by_boot_cpu_only :
    (fast_reboot example_env_reboot 1 4 example_machine).1 = Outcome.branched ∧
    Event.store_state 0 cpu_thread_state.cpu_state_active
      ∈ new_events example_machine (fast_reboot_entry example_env_reboot 0 4 example_machine).2 ∧
    Event.store_state 1 cpu_thread_state.cpu_state_active
      ∉ new_events (fast_reboot example_env_reboot 1 4 example_machine).2
        (fast_reboot_entry example_env_reboot 1 4
          (fast_reboot example_env_reboot 1 4 example_machine).2).2 := by
  decide

/-- C20 amended: no event of `fast_reboot` run by unit `me` is a store into a state
field and the state fields of the registry are afterwards what they were; the same
holds of `cpu_state_wait_all_others`, which leaves the whole registry as it was; and in
the reset handler run by unit `me` every store into a state field is a store into the
slot of `me`, of `cpu_state_present` or, only when `me` is `boot_cpu` (whether or not it
initiated the reboot), of `cpu_state_active`, the slots of all other units being
afterwards what they were. -/
theorem state_single_writer (env : Env) (me fuel : Nat) (m : Machine) :
    (∀ e ∈ new_events m (fast_reboot env me fuel m).2, state_store e = false) ∧
    states (fast_reboot env me fuel m).2.cpus = states m.cpus ∧
    (∀ state timeout_tb,
      (∀ e ∈ new_events m (cpu_state_wait_all_others env me state timeout_tb fuel m).2,
        state_store e = false) ∧
      (cpu_state_wait_all_others env me state timeout_tb fuel m).2.cpus = m.cpus) ∧
    (∀ c s, Event.store_state c s ∈ new_events m (fast_reboot_entry env me fuel m).2 →
      c = me ∧ (s = cpu_thread_state.cpu_state_present ∨
        (s = cpu_thread_state.cpu_state_active ∧ me = env.boot_cpu))) ∧
    (∀ c, c ≠ me → cpu_at (fast_reboot_entry env me fuel m).2.cpus c = cpu_at m.cpus c) := by
  refine ⟨fast_reboot_no_store env me fuel m, fast_reboot_states env me fuel m,
    fun state timeout_tb => wait_all_no_store env me state timeout_tb fuel m, ?_,
    (fast_reboot_entry_stores env me fuel m).2⟩
  intro c s hm
  rcases (fast_reboot_entry_stores env me fuel m).1 _ hm rfl with h | ⟨h, hb⟩
  · injection h with h1 h2
    exact ⟨h1, Or.inl h2⟩
  · injection h with h1 h2
    exact ⟨h1, Or.inr ⟨h2, hb⟩⟩

/-- C20 amended, at the example configuration: the store of `cpu_state_active` by unit
0 is a store into its own slot by the boot CPU. -/
theorem state_single_writer_witness :
    Event.store_state 0 cpu_thread_state.cpu_state_active
      ∈ new_events example_machine (fast_reboot_entry example_env_reboot 0 4 example_machine).2 ∧
    (0 : Nat) = example_env_reboot.boot_cpu :=
  ⟨by decide,
    ((state_single_writer example_env_reboot 0 4 example_machine).2.2.2.1 0
      cpu_thread_state.cpu_state_active (by decide)).2.elim (fun h => by cases h) (fun h => h.2)⟩

end FastReboot

namespace Blocklevel

/-! ## The table of ECC protected ranges: claims -/

/-- C13, the code at the failing input, for fields of 64 bits and of 32 bits: on an
empty table `blocklevel_ecc_protect(bl, 0, 16)` then `blocklevel_ecc_protect(bl, 8, 16)`
both succeed and leave the single entry `[0, 16)`, so that `ecc_protected(bl, 16, 8)`
returns `0` for a region inside `[8, 24)`: the chunk after the existing range was
dropped instead of added. -/
theorem ecc_protect_drops_chunk_after :
    (example_overlap (2 ^ 64)).1 = 0 ∧ (example_overlap (2 ^ 64)).2.1 = 0 ∧
    (example_overlap (2 ^ 64)).2.2.ecc_prot.prot = [{ start := 0, len := 16 }] ∧
    ecc_protected (2 ^ 64) (example_overlap (2 ^ 64)).2.2 16 8 = 0 ∧
    (example_overlap (2 ^ 32)).1 = 0 ∧ (example_overlap (2 ^ 32)).2.1 = 0 ∧
    (example_overlap (2 ^ 32)).2.2.ecc_prot.prot = [{ start := 0, len := 16 }] ∧
    ecc_protected (2 ^ 32) (example_overlap (2 ^ 32)).2.2 16 8 = 0 := by
  decide

/-! ## The smart write: claims -/

/-- For a byte `a`, `a & ~b` is not zero exactly when a bit is set in `a` that is clear
in `b`. -/
theorem and_not_ne_zero_iff (a b : Nat) (ha : a < 256) :
    a &&& (255 ^^^ b) ≠ 0 ↔ ∃ k, a.testBit k = true ∧ b.testBit k = false := by
  have h255 : ∀ k, (255 : Nat).testBit k = decide (k < 8) := by
    intro k
    have := Nat.testBit_two_pow_sub_one 8 k
    simpa using this
  have hk : ∀ k, a.testBit k = true → k < 8 := by
    intro k h
    by_contra hge
    have h2 : a < 2 ^ k := lt_of_lt_of_le ha (by
      calc (256 : Nat) = 2 ^ 8 := by norm_num
        _ ≤ 2 ^ k := Nat.pow_le_pow_right (by norm_num) (not_lt.1 hge))
    rw [Nat.testBit_lt_two_pow h2] at h
    exact absurd h (by simp)
  constructor
  · intro h
    obtain ⟨k, hk1⟩ := Nat.ne_zero_implies_bit_true h
    rw [Nat.testBit_and, Nat.testBit_xor, h255] at hk1
    simp only [Bool.and_eq_true] at hk1
    obtain ⟨h1, h2⟩ := hk1
    refine ⟨k, h1, ?_⟩
    have := hk k h1
    simp [this] at h2
    simpa using h2
  · rintro ⟨k, h1, h2⟩ h0
    have : (a &&& (255 ^^^ b)).testBit k = true := by
      rw [Nat.testBit_and, Nat.testBit_xor, h255, h1, h2]
      simp [hk k h1]
    rw [h0] at this
    simp at this

theorem flashcmp_loop_spec (f m : Nat → Nat) : ∀ (left i : Nat) (same : Bool),
    (flashcmp_loop f m left i same = -1 ↔
      ∃ j, i ≤ j ∧ j < i + left ∧ (m j % 256) &&& (255 ^^^ (f j % 256)) ≠ 0) ∧
    (flashcmp_loop f m left i same = 0 ↔
      same = true ∧ ∀ j, i ≤ j → j < i + left → m j % 256 = f j % 256) ∧
    (flashcmp_loop f m left i same = -1 ∨ flashcmp_loop f m left i same = 0 ∨
      flashcmp_loop f m left i same = 1) := by
  intro left
  induction left with
  | zero =>
    intro i same
    have hnone : ∀ j, i ≤ j → ¬ j < i + 0 := fun j h1 h2 => by omega
    refine ⟨?_, ?_, ?_⟩
    · constructor
      · intro h
        cases same <;> simp [flashcmp_loop] at h
      · rintro ⟨j, h1, h2, _⟩
        exact absurd h2 (hnone j h1)
    · constructor
      · intro h
        cases same
        · simp [flashcmp_loop] at h
        · exact ⟨rfl, fun j h1 h2 => absurd h2 (hnone j h1)⟩
      · rintro ⟨rfl, _⟩
        simp [flashcmp_loop]
    · cases same <;> simp [flashcmp_loop]
  | succ left ih =>
    intro i same
    rw [flashcmp_loop]
    by_cases hb : (m i % 256) &&& (255 ^^^ (f i % 256)) ≠ 0
    · rw [if_pos hb]
      refine ⟨⟨fun _ => ⟨i, le_refl _, by omega, hb⟩, fun _ => rfl⟩, ?_, Or.inl rfl⟩
      constructor
      · intro h
        exact absurd h (by decide)
      · rintro ⟨_, h⟩
        exfalso
        apply hb
        rw [h i (le_refl _) (by omega)]
        have hlt : f i % 256 < 256 := Nat.mod_lt _ (by norm_num)
        by_contra hne
        obtain ⟨k, h1, h2⟩ := (and_not_ne_zero_iff _ _ hlt).1 hne
        rw [h1] at h2
        exact absurd h2 (by simp)
    · rw [if_neg hb]
      obtain ⟨i1, i2, i3⟩ := ih (i + 1)
        (if same = true ∧ m i % 256 ≠ f i % 256 then false else same)
      refine ⟨?_, ?_, i3⟩
      · rw [i1]
        constructor
        · rintro ⟨j, h1, h2, h3⟩
          exact ⟨j, by omega, by omega, h3⟩
        · rintro ⟨j, h1, h2, h3⟩
          rcases Nat.eq_or_lt_of_le h1 with rfl | hlt
          · exact absurd h3 hb
          · exact ⟨j, hlt, by omega, h3⟩
      · rw [i2]
        constructor
        · rintro ⟨h1, h2⟩
          by_cases hs : same = true ∧ m i % 256 ≠ f i % 256
          · rw [if_pos hs] at h1
            exact absurd h1 (by simp)
          · rw [if_neg hs] at h1
            refine ⟨h1, ?_⟩
            intro j hj1 hj2
            rcases Nat.eq_or_lt_of_le hj1 with rfl | hlt
            · by_contra hne
              exact hs ⟨h1, hne⟩
            · exact h2 j hlt (by omega)
        · rintro ⟨h1, h2⟩
          have he := h2 i (le_refl _) (by omega)
          rw [if_neg (fun h => h.2 he)]
          exact ⟨h1, fun j hj1 hj2 => h2 j (by omega) (by omega)⟩

/-- C22: `blocklevel_flashcmp(flash, mem, len)` returns `-1` if and only if some index
`i < len` has a bit set in `mem[i]` that is clear in `flash[i]`; it returns `0` if and
only if the two buffers hold the same bytes at every index below `len` (which excludes
the first case, and holds when `len` is 0); it returns `1` in every other case, and no
other value. -/
theorem flashcmp_tristate (flash_buf mem_buf : Nat → Nat) (len : Nat) :
    (blocklevel_flashcmp flash_buf mem_buf len = -1 ↔
      ∃ i, i < len ∧ ∃ k, (mem_buf i % 256).testBit k = true ∧
        (flash_buf i % 256).testBit k = false) ∧
    (blocklevel_flashcmp flash_buf mem_buf len = 0 ↔
      ∀ i, i < len → mem_buf i % 256 = flash_buf i % 256) ∧
    (blocklevel_flashcmp flash_buf mem_buf len = 1 ↔
      (¬ ∃ i, i < len ∧ ∃ k, (mem_buf i % 256).testBit k = true ∧
        (flash_buf i % 256).testBit k = false) ∧
      ¬ ∀ i, i < len → mem_buf i % 256 = flash_buf i % 256) ∧
    ((∀ i, i < len → mem_buf i % 256 = flash_buf i % 256) →
      ¬ ∃ i, i < len ∧ ∃ k, (mem_buf i % 256).testBit k = true ∧
        (flash_buf i % 256).testBit k = false) := by
  obtain ⟨h1, h2, h3⟩ := flashcmp_loop_spec flash_buf mem_buf len 0 true
  have hbad : (∃ j, 0 ≤ j ∧ j < 0 + len ∧
      (mem_buf j % 256) &&& (255 ^^^ (flash_buf j % 256)) ≠ 0) ↔
      ∃ i, i < len ∧ ∃ k, (mem_buf i % 256).testBit k = true ∧
        (flash_buf i % 256).testBit k = false := by
    constructor
    · rintro ⟨j, _, hj, hb⟩
      exact ⟨j, by omega, (and_not_ne_zero_iff _ _ (Nat.mod_lt _ (by norm_num))).1 hb⟩
    · rintro ⟨j, hj, hb⟩
      exact ⟨j, Nat.zero_le _, by omega,
        (and_not_ne_zero_iff _ _ (Nat.mod_lt _ (by norm_num))).2 hb⟩
  have hsame : (true = true ∧ ∀ j, 0 ≤ j → j < 0 + len →
      mem_buf j % 256 = flash_buf j % 256) ↔
      ∀ i, i < len → mem_buf i % 256 = flash_buf i % 256 := by
    constructor
    · rintro ⟨_, h⟩ i hi
      exact h i (Nat.zero_le _) (by omega)
    · intro h
      exact ⟨rfl, fun j _ hj => h j (by omega)⟩
  unfold blocklevel_flashcmp
  rw [hbad] at h1
  rw [hsame] at h2
  have hexcl : (∀ i, i < len → mem_buf i % 256 = flash_buf i % 256) →
      ¬ ∃ i, i < len ∧ ∃ k, (mem_buf i % 256).testBit k = true ∧
        (flash_buf i % 256).testBit k = false := by
    rintro h ⟨i, hi, k, hk1, hk2⟩
    rw [h i hi, hk2] at hk1
    exact absurd hk1 (by simp)
  refine ⟨h1, h2, ?_, hexcl⟩
  constructor
  · intro h
    rw [← h1, ← h2, h]
    exact ⟨by decide, by decide⟩
  · rintro ⟨n1, n2⟩
    rcases h3 with h | h | h
    · exact absurd (h1.1 h) n1
    · exact absurd (h2.1 h) n2
    · exact h

/-! ## The table of ECC protected ranges: coverage and well-formedness -/

/-- C21, the code at the failing input, for fields of 64 bits and of 32 bits: on an
empty table `blocklevel_ecc_protect(bl, 0, 16)` then `blocklevel_ecc_protect(bl, 16, 16)`
both succeed and leave the two entries `[0, 16)` and `[16, 32)` unmerged; every byte of
`[8, 24)` lies in an entry, and `ecc_protected(bl, 8, 16)` returns `-1`. -/
theorem ecc_protected_partial_on_adjacent :
    (example_adjacent (2 ^ 64)).1 = 0 ∧ (example_adjacent (2 ^ 64)).2.1 = 0 ∧
    (example_adjacent (2 ^ 64)).2.2.ecc_prot.prot =
      [{ start := 0, len := 16 }, { start := 16, len := 16 }] ∧
    (List.range' 8 16).all (covered (example_adjacent (2 ^ 64)).2.2.ecc_prot.prot) = true ∧
    ecc_protected (2 ^ 64) (example_adjacent (2 ^ 64)).2.2 8 16 = -1 ∧
    (example_adjacent (2 ^ 32)).1 = 0 ∧ (example_adjacent (2 ^ 32)).2.1 = 0 ∧
    (example_adjacent (2 ^ 32)).2.2.ecc_prot.prot =
      [{ start := 0, len := 16 }, { start := 16, len := 16 }] ∧
    (List.range' 8 16).all (covered (example_adjacent (2 ^ 32)).2.2.ecc_prot.prot) = true ∧
    ecc_protected (2 ^ 32) (example_adjacent (2 ^ 32)).2.2 8 16 = -1 := by
  decide


theorem scan_step_cases (W : Nat) (hW : 2 ^ 32 ≤ W) (r : bl_prot_range) (pos len : Nat)
    (hr : 0 < r.len ∧ r.start + r.len < 2 ^ 32) (hlen : 0 < len)
    (hpl : pos + len < 2 ^ 32)
    (hfit : ¬ (r.start ≤ pos ∧ (r.start + r.len) % W ≥ (pos + len) % 2 ^ 32)) :
    (pos ≤ r.start ∧ r.start ≤ pos + len ∧ scan_step W r pos len =
      ({ start := pos, len := r.start + r.len - pos }, r.start + r.len,
        len - (r.start + r.len - pos))) ∨
    (r.start < pos ∧ pos < r.start + r.len ∧ scan_step W r pos len = (r, pos, 0)) ∨
    (pos + len < r.start ∧ scan_step W r pos len = (r, pos, len)) ∨
    (r.start + r.len ≤ pos ∧ scan_step W r pos len = (r, pos, len)) := by
  have hmod : ∀ x, x < 2 ^ 32 → x % W = x := fun x hx =>
    Nat.mod_eq_of_lt (lt_of_lt_of_le hx hW)
  have h32 : ∀ x, x < 2 ^ 32 → x % 2 ^ 32 = x := fun x hx => Nat.mod_eq_of_lt hx
  obtain ⟨hr1, hr2⟩ := hr
  rw [hmod _ hr2, h32 _ hpl] at hfit
  by_cases hext : pos ≤ r.start ∧ r.start ≤ pos + len
  · left
    refine ⟨hext.1, hext.2, ?_⟩
    have e1 : r.len + (r.start - pos) = r.start + r.len - pos := by omega
    have e2 : r.start + r.len - pos < 2 ^ 32 := by omega
    have e3 : pos + (r.start + r.len - pos) = r.start + r.len := by omega
    have hed : extend_down W r pos len =
        ({ start := pos, len := r.start + r.len - pos }, r.start + r.len,
          len - (r.start + r.len - pos)) := by
      unfold extend_down
      rw [h32 _ hpl, if_pos ⟨hext.1, hext.2⟩, e1, hmod _ e2, e3, hmod _ hr2, h32 _ hr2]
      by_cases hge : r.start + r.len - pos ≥ len
      · rw [if_pos hge]
        have : len - (r.start + r.len - pos) = 0 := by omega
        rw [this]
      · rw [if_neg hge]
    unfold scan_step
    rw [hed]
    unfold jump_over
    have e4 : pos + (r.start + r.len - pos) = r.start + r.len := by omega
    simp only [e4, hmod _ hr2]
    rw [if_neg (by omega)]
  · have hed : extend_down W r pos len = (r, pos, len) := by
      unfold extend_down
      rw [h32 _ hpl, if_neg hext]
    unfold scan_step
    rw [hed]
    unfold jump_over
    simp only [hmod _ hr2]
    by_cases hj : pos ≥ r.start ∧ pos < r.start + r.len
    · right; left
      rw [if_pos hj, if_neg (by omega)]
      exact ⟨by omega, hj.2, rfl⟩
    · rw [if_neg hj]
      by_cases hlt : pos < r.start
      · right; right; left
        exact ⟨by omega, rfl⟩
      · right; right; right
        exact ⟨by omega, rfl⟩

theorem well_formed_nil : well_formed [] :=
  ⟨fun _ h => absurd h (List.not_mem_nil _), List.Pairwise.nil⟩

theorem well_formed_append_cons (v c : List bl_prot_range) (x : bl_prot_range) :
    well_formed (v ++ x :: c) ↔
      well_formed (v ++ c) ∧ (0 < x.len ∧ x.start + x.len < 2 ^ 32) ∧
        (∀ a ∈ v, a.start + a.len ≤ x.start) ∧ (∀ b ∈ c, x.start + x.len ≤ b.start) := by
  unfold well_formed
  simp only [List.mem_append, List.mem_cons, List.pairwise_append, List.pairwise_cons]
  constructor
  · rintro ⟨h1, h2, ⟨h3, h4⟩, h5⟩
    refine ⟨⟨fun r hr => ?_, h2, h4, fun a ha b hb => h5 a ha b (Or.inr hb)⟩,
      h1 x (Or.inr (Or.inl rfl)), fun a ha => h5 a ha x (Or.inl rfl), h3⟩
    rcases hr with hr | hr
    · exact h1 r (Or.inl hr)
    · exact h1 r (Or.inr (Or.inr hr))
  · rintro ⟨⟨h1, h2, h3, h4⟩, h5, h6, h7⟩
    refine ⟨fun r hr => ?_, h2, ⟨h7, h3⟩, fun a ha b hb => ?_⟩
    · rcases hr with hr | rfl | hr
      · exact h1 r (Or.inl hr)
      · exact h5
      · exact h1 r (Or.inr hr)
    · rcases hb with rfl | hb
      · exact h6 a ha
      · exact h4 a ha b hb

theorem insert_scan_well_formed (W : Nat) (hW : 2 ^ 32 ≤ W) :
    ∀ (rest visited : List bl_prot_range) (pos len : Nat),
      well_formed (visited ++ rest) →
      (len ≠ 0 → pos + len < 2 ^ 32 ∧ ∀ v ∈ visited, v.start + v.len ≤ pos) →
      well_formed ((insert_scan W visited rest pos len).visited ++
        (insert_scan W visited rest pos len).current) ∧
      ((insert_scan W visited rest pos len).len ≠ 0 →
        well_formed ((insert_scan W visited rest pos len).visited ++
          { start := (insert_scan W visited rest pos len).pos,
            len := (insert_scan W visited rest pos len).len } ::
          (insert_scan W visited rest pos len).current)) := by
  intro rest
  induction rest with
  | nil =>
    intro visited pos len hwf hinv
    rw [insert_scan]
    refine ⟨hwf, fun hl => ?_⟩
    have := hinv hl
    rw [well_formed_append_cons]
    exact ⟨hwf, ⟨Nat.pos_of_ne_zero hl, this.1⟩, this.2,
      fun b hb => absurd hb (List.not_mem_nil _)⟩
  | cons r rest ih =>
    intro visited pos len hwf hinv
    rw [insert_scan]
    by_cases hl : len = 0
    · rw [if_pos hl]
      exact ⟨hwf, fun h => absurd hl h⟩
    · rw [if_neg hl]
      by_cases hfit : r.start ≤ pos ∧ (r.start + r.len) % W ≥ (pos + len) % 2 ^ 32
      · rw [if_pos hfit]
        exact ⟨hwf, fun h => absurd rfl h⟩
      · rw [if_neg hfit]
        obtain ⟨hpl, hvis⟩ := hinv hl
        have hwf2 := (well_formed_append_cons visited rest r).1 hwf
        obtain ⟨hwf0, hr, hvr, hrc⟩ := hwf2
        have hlen : 0 < len := Nat.pos_of_ne_zero hl
        rcases scan_step_cases W hW r pos len hr hlen hpl hfit with
          ⟨h1, h2, hs⟩ | ⟨h1, h2, hs⟩ | ⟨h1, hs⟩ | ⟨h1, hs⟩
        · -- the entry is extended down to `pos`
          rw [hs]
          rw [if_neg (by simp only; omega)]
          simp only
          have hwf1 : well_formed ((visited ++
              [{ start := pos, len := r.start + r.len - pos }]) ++ rest) := by
            rw [List.append_assoc, List.singleton_append, well_formed_append_cons]
            exact ⟨hwf0, ⟨by simp only; omega, by simp only; omega⟩,
              fun a ha => hvis a ha,
              fun b hb => by have := hrc b hb; simp only; omega⟩
          refine ih _ _ _ hwf1 (fun hl2 => ⟨by omega, ?_⟩)
          intro v hv
          rcases List.mem_append.1 hv with hv | hv
          · have := hvis v hv
            omega
          · rw [List.mem_singleton] at hv
            subst hv
            simp only
            omega
        · -- the rest of the range ends inside the entry
          rw [hs]
          rw [if_neg (by simp only; omega)]
          simp only
          have hwf1 : well_formed ((visited ++ [r]) ++ rest) := by
            rw [List.append_assoc, List.singleton_append]
            exact hwf
          exact ih _ _ _ hwf1 (fun h => absurd rfl h)
        · -- the range goes before the entry
          rw [hs]
          rw [if_pos (by
            simp only
            rw [Nat.mod_eq_of_lt hpl]
            omega)]
          simp only
          refine ⟨hwf, fun _ => ?_⟩
          rw [well_formed_append_cons]
          refine ⟨hwf, ⟨hlen, hpl⟩, hvis, ?_⟩
          intro b hb
          rcases List.mem_cons.1 hb with rfl | hb
          · simp only
            omega
          · have := hrc b hb
            simp only
            omega
        · -- the range starts after the entry
          rw [hs]
          rw [if_neg (by simp only; omega)]
          simp only
          have hwf1 : well_formed ((visited ++ [r]) ++ rest) := by
            rw [List.append_assoc, List.singleton_append]
            exact hwf
          refine ih _ _ _ hwf1 (fun _ => ⟨hpl, ?_⟩)
          intro v hv
          rcases List.mem_append.1 hv with hv | hv
          · exact hvis v hv
          · rw [List.mem_singleton] at hv
            subst hv
            exact h1

theorem well_formed_cons (x : bl_prot_range) (c : List bl_prot_range) :
    well_formed (x :: c) ↔
      well_formed c ∧ (0 < x.len ∧ x.start + x.len < 2 ^ 32) ∧
        (∀ b ∈ c, x.start + x.len ≤ b.start) := by
  have h := well_formed_append_cons [] c x
  simp only [List.nil_append, List.not_mem_nil, false_imp_iff, implies_true, true_and] at h
  exact h

theorem merge_loop_well_formed (W : Nat) (hW : 2 ^ 32 ≤ W) :
    ∀ (fuel : Nat) (l : List bl_prot_range) (B : Nat),
      well_formed l → (∀ x ∈ l, B ≤ x.start) →
      well_formed (merge_loop W fuel l) ∧ ∀ x ∈ merge_loop W fuel l, B ≤ x.start := by
  intro fuel
  induction fuel with
  | zero =>
    intro l B hwf hB
    rw [merge_loop]
    · exact ⟨hwf, hB⟩
    · intro fuel a b rest h
      omega
  | succ fuel ih =>
    intro l B hwf hB
    match l, hwf, hB with
    | [], hwf, hB =>
      rw [merge_loop]
      · exact ⟨hwf, hB⟩
      · intro fuel a b rest h
        simp
    | [a], hwf, hB =>
      rw [merge_loop]
      · exact ⟨hwf, hB⟩
      · intro fuel a b rest h
        simp
    | a :: b :: rest, hwf, hB =>
      rw [merge_loop]
      obtain ⟨hwfb, ha, hab⟩ := (well_formed_cons a (b :: rest)).1 hwf
      obtain ⟨hwfr, hb, hbr⟩ := (well_formed_cons b rest).1 hwfb
      have hab1 := hab b (List.mem_cons_self _ _)
      by_cases hm : (a.start + a.len) % W = b.start
      · rw [if_pos hm]
        rw [Nat.mod_eq_of_lt (lt_of_lt_of_le ha.2 hW)] at hm
        have hlen : (a.len + b.len) % W = a.len + b.len :=
          Nat.mod_eq_of_lt (lt_of_lt_of_le (by omega) hW)
        rw [hlen]
        apply ih
        · rw [well_formed_cons]
          refine ⟨hwfr, ⟨by simp only; omega, by simp only; omega⟩, fun c hc => ?_⟩
          have := hbr c hc
          simp only
          omega
        · intro x hx
          rcases List.mem_cons.1 hx with rfl | hx
          · exact hB a (List.mem_cons_self _ _)
          · exact hB x (List.mem_cons_of_mem _ (List.mem_cons_of_mem _ hx))
      · rw [if_neg hm]
        obtain ⟨i1, i2⟩ := ih (b :: rest) (a.start + a.len) hwfb hab
        refine ⟨?_, ?_⟩
        · rw [well_formed_cons]
          exact ⟨i1, ha, i2⟩
        · intro x hx
          rcases List.mem_cons.1 hx with rfl | hx
          · exact hB _ (List.mem_cons_self _ _)
          · have := i2 x hx
            have := hB a (List.mem_cons_self _ _)
            omega

theorem merge_ranges_well_formed (W : Nat) (hW : 2 ^ 32 ≤ W) (ranges : blocklevel_range)
    (h : well_formed ranges.prot) : well_formed (merge_ranges W ranges).prot := by
  unfold merge_ranges
  split_ifs
  · exact (merge_loop_well_formed W hW _ _ 0 h (fun _ _ => Nat.zero_le _)).1
  · exact h

theorem insert_bl_prot_range_well_formed (W : Nat) (hW : 2 ^ 32 ≤ W) (realloc_ok : Bool)
    (ranges : blocklevel_range) (start len : Nat) (h : well_formed ranges.prot) :
    well_formed (insert_bl_prot_range W realloc_ok ranges start len).2.prot := by
  unfold insert_bl_prot_range
  by_cases h0 : len % 2 ^ 32 = 0
  · rw [if_pos h0]
    exact h
  · rw [if_neg h0]
    by_cases hov : (start % 2 ^ 32 + len % 2 ^ 32) % 2 ^ 32 < len % 2 ^ 32
    · rw [if_pos hov]
      exact h
    · rw [if_neg hov]
      have hs : start % 2 ^ 32 < 2 ^ 32 := Nat.mod_lt _ (by norm_num)
      have hl : len % 2 ^ 32 < 2 ^ 32 := Nat.mod_lt _ (by norm_num)
      have hpl : start % 2 ^ 32 + len % 2 ^ 32 < 2 ^ 32 := by
        by_contra hge
        apply hov
        have : (start % 2 ^ 32 + len % 2 ^ 32) % 2 ^ 32 =
            start % 2 ^ 32 + len % 2 ^ 32 - 2 ^ 32 := by
          rw [Nat.mod_eq_sub_mod (not_lt.1 hge)]
          exact Nat.mod_eq_of_lt (by omega)
        omega
      obtain ⟨i1, i2⟩ := insert_scan_well_formed W hW ranges.prot [] (start % 2 ^ 32)
        (len % 2 ^ 32) (by simpa using h)
        (fun _ => ⟨hpl, fun v hv => absurd hv (List.not_mem_nil _)⟩)
      generalize insert_scan W [] ranges.prot (start % 2 ^ 32) (len % 2 ^ 32) = st at i1 i2
      obtain ⟨visited, current, pos, len1⟩ := st
      simp only at i1 i2 ⊢
      by_cases hl1 : len1 ≠ 0
      · rw [if_pos hl1]
        split_ifs
        · exact merge_ranges_well_formed W hW _ (i2 hl1)
        · exact i1
        · exact merge_ranges_well_formed W hW _ (i2 hl1)
      · rw [if_neg hl1]
        exact merge_ranges_well_formed W hW _ i1

theorem blocklevel_ecc_protect_well_formed (W : Nat) (hW : 2 ^ 32 ≤ W)
    (BYTES_PER_ECC : Nat) (realloc_ok : Bool) (bl : blocklevel_device) (start len : Nat)
    (h : well_formed bl.ecc_prot.prot) :
    well_formed
      (blocklevel_ecc_protect W BYTES_PER_ECC realloc_ok bl start len).2.ecc_prot.prot := by
  unfold blocklevel_ecc_protect
  by_cases hb : len % 2 ^ 32 < BYTES_PER_ECC
  · rw [if_pos hb]
    exact h
  · rw [if_neg hb]
    exact insert_bl_prot_range_well_formed W hW _ _ _ _ h

theorem protect_calls_well_formed (W : Nat) (hW : 2 ^ 32 ≤ W) (BYTES_PER_ECC : Nat) :
    ∀ (calls : List (Nat × Nat × Bool)) (bl : blocklevel_device),
      well_formed bl.ecc_prot.prot →
      well_formed (protect_calls W BYTES_PER_ECC bl calls).ecc_prot.prot := by
  intro calls
  induction calls with
  | nil =>
    intro bl h
    exact h
  | cons c calls ih =>
    intro bl h
    rw [protect_calls]
    exact ih _ (blocklevel_ecc_protect_well_formed W hW _ _ _ _ _ h)

theorem well_formed_sorted (l : List bl_prot_range) (h : well_formed l) :
    l.Pairwise (fun a b => a.start < b.start) ∧
    l.Chain' (fun a b => a.start + a.len ≤ b.start) := by
  refine ⟨?_, List.Pairwise.chain' h.2⟩
  have h1 := h.1
  have h2 := h.2
  clear h
  induction l with
  | nil => exact List.Pairwise.nil
  | cons a l ih =>
    rw [List.pairwise_cons] at h2 ⊢
    refine ⟨fun b hb => ?_, ih (fun r hr => h1 r (List.mem_cons_of_mem _ hr)) h2.2⟩
    have := h2.1 b hb
    have := (h1 a (List.mem_cons_self _ _)).1
    omega

/-- C24: starting from an empty table, after every sequence of calls of
`blocklevel_ecc_protect`, successful or not, whatever `BYTES_PER_ECC` is and whether the
calls of `realloc` succeed or fail, for fields of 32 bits or more: the entries of the
table are sorted by strictly increasing start, every entry has a length above zero,
each entry ends at or before the start of the next, and the end `start + len` of every
entry stays below `2 ^ 32`, hence below the modulus of the fields. -/
theorem ecc_protect_keeps_table_well_formed (W BYTES_PER_ECC : Nat) (hW : 2 ^ 32 ≤ W)
    (calls : List (Nat × Nat × Bool)) :
    (protect_calls W BYTES_PER_ECC empty_device calls).ecc_prot.prot.Pairwise
      (fun a b => a.start < b.start) ∧
    (∀ r ∈ (protect_calls W BYTES_PER_ECC empty_device calls).ecc_prot.prot, 0 < r.len) ∧
    (protect_calls W BYTES_PER_ECC empty_device calls).ecc_prot.prot.Chain'
      (fun a b => a.start + a.len ≤ b.start) ∧
    (∀ r ∈ (protect_calls W BYTES_PER_ECC empty_device calls).ecc_prot.prot,
      r.start + r.len < 2 ^ 32 ∧ r.start + r.len < W) := by
  have h := protect_calls_well_formed W hW BYTES_PER_ECC calls empty_device well_formed_nil
  obtain ⟨s1, s2⟩ := well_formed_sorted _ h
  exact ⟨s1, fun r hr => (h.1 r hr).1, s2,
    fun r hr => ⟨(h.1 r hr).2, lt_of_lt_of_le (h.1 r hr).2 hW⟩⟩

/-- C24 at fields of 32 bits, `BYTES_PER_ECC` being 8, on the example sequence of calls,
which leaves the entries `[0, 16)`, `[24, 48)` and `[48, 64)`. -/
theorem ecc_protect_keeps_table_well_formed_witness :
    (2 : Nat) ^ 32 ≤ 2 ^ 32 ∧
    (protect_calls (2 ^ 32) 8 empty_device example_calls).ecc_prot.prot =
      [{ start := 0, len := 16 }, { start := 24, len := 24 }, { start := 48, len := 16 }] ∧
    ((protect_calls (2 ^ 32) 8 empty_device example_calls).ecc_prot.prot.Pairwise
      (fun a b => a.start < b.start) ∧
    (∀ r ∈ (protect_calls (2 ^ 32) 8 empty_device example_calls).ecc_prot.prot, 0 < r.len) ∧
    (protect_calls (2 ^ 32) 8 empty_device example_calls).ecc_prot.prot.Chain'
      (fun a b => a.start + a.len ≤ b.start) ∧
    (∀ r ∈ (protect_calls (2 ^ 32) 8 empty_device example_calls).ecc_prot.prot,
      r.start + r.len < 2 ^ 32 ∧ r.start + r.len < 2 ^ 32)) :=
  ⟨le_refl _, by decide, ecc_protect_keeps_table_well_formed (2 ^ 32) 8 (le_refl _)
    example_calls⟩

/-! ## The smart write through the backend: claims -/

theorem mask_pow (k : Nat) (hk : k < 32) : (2 ^ k + 2 ^ 32 - 1) % 2 ^ 32 = 2 ^ k - 1 := by
  have h1 : 0 < 2 ^ k := by positivity
  have h2 : 2 ^ k < 2 ^ 32 := Nat.pow_lt_pow_right (by norm_num) hk
  have h3 : 2 ^ k + 2 ^ 32 - 1 = (2 ^ k - 1) + 2 ^ 32 := by omega
  rw [h3, Nat.add_mod_right]
  exact Nat.mod_eq_of_lt (by omega)

theorem block_offset_pow (k pos : Nat) (hk : k < 32) :
    block_offset (2 ^ k) pos = pos % 2 ^ k := by
  unfold block_offset
  rw [mask_pow k hk, Nat.and_pow_two_sub_one_eq_mod]

theorem erase_block_pow (k pos : Nat) (hk : k < 32) (hpos : pos < 2 ^ 32) :
    erase_block (2 ^ k) pos = pos - pos % 2 ^ k := by
  unfold erase_block
  rw [mask_pow k hk]
  have hq : pos - pos % 2 ^ k = 2 ^ k * (pos >>> k) := by
    rw [Nat.shiftRight_eq_div_pow]
    have := Nat.div_add_mod pos (2 ^ k)
    omega
  rw [hq]
  apply Nat.eq_of_testBit_eq
  intro i
  rw [Nat.testBit_and, Nat.testBit_xor, Nat.testBit_two_pow_sub_one,
    Nat.testBit_two_pow_sub_one, Nat.testBit_mul_pow_two, Nat.testBit_shiftRight]
  by_cases h1 : i < k
  · have h2 : i < 32 := by omega
    simp [h1, h2]
  · by_cases h2 : i < 32
    · have h3 : k + (i - k) = i := by omega
      simp [h1, h2, h3]
      omega
    · have h3 : pos.testBit i = false :=
        Nat.testBit_lt_two_pow (lt_of_lt_of_le hpos
          (Nat.pow_le_pow_right (by norm_num) (not_lt.1 h2)))
      have h4 : k + (i - k) = i := by omega
      simp [h1, h2, h3, h4]

theorem chunk_size_pow (k pos len : Nat) (hk : k < 32) (hlen : 0 < len) :
    0 < chunk_size (2 ^ k) pos len ∧ chunk_size (2 ^ k) pos len ≤ len ∧
    pos % 2 ^ k + chunk_size (2 ^ k) pos len ≤ 2 ^ k := by
  have h1 : 0 < 2 ^ k := by positivity
  have h2 : 2 ^ k ≤ 2 ^ 31 := Nat.pow_le_pow_right (by norm_num) (by omega)
  have h3 : pos % 2 ^ k < 2 ^ k := Nat.mod_lt _ h1
  unfold chunk_size
  rw [block_offset_pow k pos hk]
  generalize 2 ^ k = E at h1 h2 h3
  generalize pos % E = off at h3
  have h4 : (if E > len then len else E) % 2 ^ 32 = if E > len then len else E := by
    apply Nat.mod_eq_of_lt
    split_ifs <;> omega
  rw [h4]
  have h5 : (off + if E > len then len else E) % 2 ^ 32 = off + if E > len then len else E := by
    apply Nat.mod_eq_of_lt
    split_ifs <;> omega
  rw [h5]
  have h6 : (E + 2 ^ 32 - off) % 2 ^ 32 = E - off := by
    have : E + 2 ^ 32 - off = (E - off) + 2 ^ 32 := by omega
    rw [this, Nat.add_mod_right]
    exact Nat.mod_eq_of_lt (by omega)
  rw [h6]
  split_ifs <;> omega

theorem and_of_no_bit_to_set (f m : Nat) (hm : m < 256) (h : ¬ m &&& (255 ^^^ f) ≠ 0) :
    f &&& m = m := by
  have hall : ∀ k, m.testBit k = true → f.testBit k = true := by
    intro k hk
    by_contra hf
    exact h ((and_not_ne_zero_iff m f hm).2 ⟨k, hk, by simpa using hf⟩)
  apply Nat.eq_of_testBit_eq
  intro i
  rw [Nat.testBit_and]
  cases hmi : m.testBit i
  · simp
  · simp [hall i hmi]

theorem and_byte (m : Nat) (hm : m < 256) : 255 &&& m = m := by
  have : (255 : Nat) = 2 ^ 8 - 1 := by norm_num
  rw [Nat.and_comm, this, Nat.and_pow_two_sub_one_eq_mod]
  exact Nat.mod_eq_of_lt (by norm_num; exact hm)

theorem ff_and_byte (x : Nat) : (255 % 2 ^ 8 &&& x % 2 ^ 8) % 2 ^ 8 = x % 256 := by
  have h : x % 256 < 256 := Nat.mod_lt _ (by norm_num)
  norm_num
  rw [and_byte _ h]
  exact Nat.mod_eq_of_lt h

theorem self_and_byte (x : Nat) : (x % 2 ^ 8 &&& x % 2 ^ 8 % 2 ^ 8) % 2 ^ 8 = x % 2 ^ 8 := by
  rw [Nat.mod_mod, Nat.and_self, Nat.mod_mod]

theorem stored_lt (s : nor_state) (a : Nat) : stored s a < 256 := by
  unfold stored
  exact Nat.mod_lt _ (by norm_num)

theorem stored_mod (s : nor_state) (a : Nat) : stored s a % 256 = stored s a :=
  Nat.mod_eq_of_lt (stored_lt s a)

theorem nor_write_block (E flags b off c pos : Nat) (wb : Nat → Nat) (s : nor_state)
    (log0 : List flash_op) (hpos : pos = b + off) (hc : off + c ≤ E)
    (hb : erase_block E pos = b) (ho : block_offset E pos = off) :
    ∃ s1 ops,
      write_block (nor_flash E flags) E pos (fun i => stored s (b + i)) wb c
        (blocklevel_flashcmp (fun i => stored s (b + (off + i))) wb c)
        { mem := s.mem, log := log0 } = write_outcome.returned 0 s1 ∧
      s1.log = log0 ++ ops ∧
      (∀ op ∈ ops, op.range = (b, E) ∧ ∃ i, i < c ∧ stored s (pos + i) ≠ wb i % 256) ∧
      (∀ a, stored s1 a =
        if pos ≤ a ∧ a < pos + c then wb (a - pos) % 256 else stored s a) := by
  obtain ⟨h1, h2, _⟩ :=
    flashcmp_loop_spec (fun i => stored s (b + (off + i))) wb c 0 true
  unfold blocklevel_flashcmp
  generalize flashcmp_loop (fun i => stored s (b + (off + i))) wb c 0 true = cmp at h1 h2 ⊢
  simp only [stored_mod, Nat.zero_add, Nat.zero_le, true_and, forall_const] at h1 h2
  have hidx : ∀ i, b + (off + i) = pos + i := fun i => by omega
  simp only [hidx] at h1 h2
  unfold write_block
  rw [hb, ho]
  simp only [nor_flash]
  by_cases h0 : cmp = 0
  · -- nothing to write
    rw [if_neg (not_not.2 h0)]
    refine ⟨_, [], rfl, by simp, fun _ h => absurd h (List.not_mem_nil _), fun a => ?_⟩
    have heq := h2.1 h0
    by_cases ha : pos ≤ a ∧ a < pos + c
    · rw [if_pos ha]
      have := heq (a - pos) (by omega)
      rw [show pos + (a - pos) = a by omega] at this
      exact this.symm
    · rw [if_neg ha]
      rfl
  · rw [if_pos h0]
    have hdiff : ∃ i, i < c ∧ stored s (pos + i) ≠ wb i % 256 := by
      by_contra hno
      apply h0
      apply h2.2
      intro j hj
      by_contra hne
      exact hno ⟨j, hj, fun h => hne h.symm⟩
    by_cases hm : cmp = -1
    · -- erase, then write
      rw [if_pos hm]
      refine ⟨_, [flash_op.erase b E, flash_op.write b E], rfl, by simp, ?_, fun a => ?_⟩
      · intro op hop
        simp only [List.mem_cons, List.mem_singleton, List.not_mem_nil, or_false] at hop
        rcases hop with rfl | rfl
        · exact ⟨rfl, hdiff⟩
        · exact ⟨rfl, hdiff⟩
      · by_cases hin : b ≤ a ∧ a < b + E
        · have hs : stored { mem := (fun a => if b ≤ a ∧ a < b + E then 0xff else s.mem a)
                             log := log0 ++ [flash_op.erase b E] } a = 255 := by
            simp [stored, hin]
          simp only [stored] at hs ⊢
          simp only [hin, and_self, if_true, hs]
          unfold patch
          by_cases ha : pos ≤ a ∧ a < pos + c
          · rw [if_pos ha, if_pos (by omega), show a - b - off = a - pos by omega]
            exact ff_and_byte _
          · rw [if_neg ha, if_neg (by omega)]
            have e : b + (a - b) = a := by omega
            simp only [e]
            rw [ff_and_byte]
            norm_num
        · have ha : ¬ (pos ≤ a ∧ a < pos + c) := by omega
          rw [if_neg ha]
          simp [stored, hin]
    · -- write over the block
      rw [if_neg hm]
      have hsub : ∀ j, j < c → ¬ wb j % 256 &&& (255 ^^^ stored s (pos + j)) ≠ 0 := by
        intro j hj hbad
        exact hm (h1.2 ⟨j, hj, hbad⟩)
      refine ⟨_, [flash_op.write b E], rfl, by simp, ?_, fun a => ?_⟩
      · intro op hop
        rw [List.mem_singleton] at hop
        subst hop
        exact ⟨rfl, hdiff⟩
      · by_cases hin : b ≤ a ∧ a < b + E
        · have hs : stored { mem := s.mem, log := log0 } a = stored s a := rfl
          simp only [stored] at hs ⊢
          simp only [hin, and_self, if_true, hs]
          unfold patch
          by_cases ha : pos ≤ a ∧ a < pos + c
          · rw [if_pos ha, if_pos (by omega), show a - b - off = a - pos by omega]
            have := hsub (a - pos) (by omega)
            rw [show pos + (a - pos) = a by omega] at this
            have h3 := and_of_no_bit_to_set (stored s a) (wb (a - pos) % 256)
              (Nat.mod_lt _ (by norm_num)) this
            simp only [stored] at h3
            norm_num at h3 ⊢
            rw [h3]
            norm_num
          · rw [if_neg ha, if_neg (by omega)]
            have e : b + (a - b) = a := by omega
            simp only [e]
            exact self_and_byte _
        · have ha : ¬ (pos ≤ a ∧ a < pos + c) := by omega
          rw [if_neg ha]
          simp [stored, hin]

theorem smart_write_loop_nor (k flags : Nat) (hk : k < 32) :
    ∀ (fuel pos : Nat) (wb : Nat → Nat) (len : Nat) (s : nor_state),
      len ≤ fuel → pos + len ≤ 2 ^ 32 →
      ∃ s1 ops,
        smart_write_loop (nor_flash (2 ^ k) flags) (2 ^ k) fuel pos wb len s
          = write_outcome.returned 0 s1 ∧
        s1.log = s.log ++ ops ∧
        (∀ op ∈ ops, op.range.1 % 2 ^ k = 0 ∧ op.range.2 = 2 ^ k ∧
          (op.is_read = false → ∃ a, op.range.1 ≤ a ∧ a < op.range.1 + 2 ^ k ∧
            pos ≤ a ∧ a < pos + len ∧ stored s a ≠ wb (a - pos) % 256)) ∧
        (∀ a, stored s1 a =
          if pos ≤ a ∧ a < pos + len then wb (a - pos) % 256 else stored s a) := by
  intro fuel
  induction fuel with
  | zero =>
    intro pos wb len s hf _
    have h0 : len = 0 := by omega
    subst h0
    refine ⟨s, [], ?_, by simp, fun _ h => absurd h (List.not_mem_nil _), fun a => ?_⟩
    · unfold smart_write_loop
      simp
    · rw [if_neg (by omega)]
  | succ fuel ih =>
    intro pos wb len s hf hend
    by_cases h0 : len = 0
    · subst h0
      refine ⟨s, [], ?_, by simp, fun _ h => absurd h (List.not_mem_nil _), fun a => ?_⟩
      · unfold smart_write_loop
        simp
      · rw [if_neg (by omega)]
    · have hlen : 0 < len := Nat.pos_of_ne_zero h0
      have hpos : pos < 2 ^ 32 := by omega
      obtain ⟨c1, c2, c3⟩ := chunk_size_pow k pos len hk hlen
      have hb := erase_block_pow k pos hk hpos
      have ho := block_offset_pow k pos hk
      have hmodle : pos % 2 ^ k ≤ pos := Nat.mod_le _ _
      have hsum : pos = erase_block (2 ^ k) pos + block_offset (2 ^ k) pos := by
        rw [hb, ho]
        omega
      obtain ⟨s1, ops1, e1, e2, e3, e4⟩ := nor_write_block (2 ^ k) flags
        (erase_block (2 ^ k) pos) (block_offset (2 ^ k) pos) (chunk_size (2 ^ k) pos len) pos
        wb s (s.log ++ [flash_op.read (erase_block (2 ^ k) pos) (2 ^ k)]) hsum
        (by rw [ho]; exact c3) rfl rfl
      have hp : (pos + chunk_size (2 ^ k) pos len) % 2 ^ 64 = pos + chunk_size (2 ^ k) pos len :=
        Nat.mod_eq_of_lt (by
          have : (2 : Nat) ^ 32 < 2 ^ 64 := by norm_num
          omega)
      have hl : (len + 2 ^ 64 - chunk_size (2 ^ k) pos len) % 2 ^ 64 =
          len - chunk_size (2 ^ k) pos len := by
        have : len + 2 ^ 64 - chunk_size (2 ^ k) pos len =
            (len - chunk_size (2 ^ k) pos len) + 2 ^ 64 := by omega
        rw [this, Nat.add_mod_right]
        exact Nat.mod_eq_of_lt (by
          have : (2 : Nat) ^ 32 < 2 ^ 64 := by norm_num
          omega)
      obtain ⟨s2, ops2, f1, f2, f3, f4⟩ := ih (pos + chunk_size (2 ^ k) pos len)
        (fun i => wb (i + chunk_size (2 ^ k) pos len)) (len - chunk_size (2 ^ k) pos len) s1
        (by omega) (by omega)
      have hstep : smart_write_loop (nor_flash (2 ^ k) flags) (2 ^ k) (fuel + 1) pos wb len s =
          smart_write_loop (nor_flash (2 ^ k) flags) (2 ^ k) fuel
            (pos + chunk_size (2 ^ k) pos len)
            (fun i => wb (i + chunk_size (2 ^ k) pos len))
            (len - chunk_size (2 ^ k) pos len) s1 := by
        rw [smart_write_loop, if_neg h0]
        simp only [nor_flash] at e1 ⊢
        simp only [ne_eq, not_true_eq_false, if_false]
        rw [e1]
        simp only [ne_eq, not_true_eq_false, if_false, hp, hl]
      refine ⟨s2, flash_op.read (erase_block (2 ^ k) pos) (2 ^ k) :: (ops1 ++ ops2), ?_, ?_, ?_,
        ?_⟩
      · rw [hstep, f1]
      · rw [f2, e2]
        simp
      · intro op hop
        rcases List.mem_cons.1 hop with rfl | hop
        · refine ⟨?_, rfl, fun h => absurd h (by simp [flash_op.is_read])⟩
          simp only [flash_op.range]
          rw [hb]
          exact Nat.sub_mod_eq_zero_of_mod_eq (by rw [Nat.mod_mod])
        · rcases List.mem_append.1 hop with hop | hop
          · obtain ⟨g1, i, gi, g2⟩ := e3 op hop
            rw [g1]
            refine ⟨?_, rfl, fun _ => ⟨pos + i, ?_, ?_, by omega, by omega, ?_⟩⟩
            · simp only
              rw [hb]
              exact Nat.sub_mod_eq_zero_of_mod_eq (by rw [Nat.mod_mod])
            · simp only
              rw [hb]
              omega
            · simp only
              rw [hb]
              omega
            · rw [show pos + i - pos = i by omega]
              exact g2
          · obtain ⟨g1, g2, g3⟩ := f3 op hop
            refine ⟨g1, g2, fun hr => ?_⟩
            obtain ⟨a, a1, a2, a3, a4, a5⟩ := g3 hr
            refine ⟨a, a1, a2, by omega, by omega, ?_⟩
            have hsa : stored s1 a = stored s a := by
              rw [e4 a, if_neg (by omega)]
            rw [← hsa]
            have hidx : a - (pos + chunk_size (2 ^ k) pos len) + chunk_size (2 ^ k) pos len
                = a - pos := by omega
            simp only [hidx] at a5
            exact a5
      · intro a
        rw [f4 a, e4 a]
        by_cases ha1 : pos + chunk_size (2 ^ k) pos len ≤ a ∧
            a < pos + chunk_size (2 ^ k) pos len + (len - chunk_size (2 ^ k) pos len)
        · rw [if_pos ha1, if_pos (by omega)]
          have hidx : a - (pos + chunk_size (2 ^ k) pos len) + chunk_size (2 ^ k) pos len
              = a - pos := by omega
          simp only [hidx]
        · rw [if_neg ha1]
          by_cases ha2 : pos ≤ a ∧ a < pos + chunk_size (2 ^ k) pos len
          · rw [if_pos ha2, if_pos (by omega)]
          · rw [if_neg ha2, if_neg (by omega)]

theorem nor_reacquire (E flags : Nat) (s : nor_state) :
    reacquire (nor_flash E flags) s = (0, s) := by
  simp [reacquire, nor_flash]

theorem nor_release (E flags : Nat) (s : nor_state) :
    release (nor_flash E flags) s = (0, s) := by
  simp [release, nor_flash]

theorem nor_get_info (h : Libflash) (E flags g : Nat) (s : nor_state) :
    blocklevel_get_info h (nor_flash E flags) g s = (0, E % 2 ^ 32, s) := by
  unfold blocklevel_get_info
  simp only [nor_reacquire, nor_release]
  simp [nor_flash]

/-- C23: on the model of a NOR flash chip as backend (a read returns the stored bytes,
an erase sets the block to all ones, a write stores old AND new), with the flag
`WRITE_NEED_ERASE` set, an erase size `2 ^ k` that fits a `uint32_t`, a region that
`ecc_protected` tells is not protected and `pos + len ≤ 2 ^ 32`, the allocation of the
erase buffer succeeding, `blocklevel_smart_write(bl, pos, buf, len)` returns, within
`len` iterations of its loop, and returns `0`; every call it makes to the backend
covers exactly one erase block, from its start; afterwards the stored bytes of
`[pos, pos + len)` are those of `buf` and every stored byte outside is unchanged; and
an erase block whose target bytes were already those of `buf` gets no erase and no
write. -/
theorem smart_write_nor_flash (W : Nat) (h : Libflash) (malloc_ok : Nat → Bool)
    (fuel k flags : Nat) (bl : blocklevel_device) (pos len : Nat) (buf : Nat → Nat)
    (s : nor_state) (hflag : flags &&& h.WRITE_NEED_ERASE ≠ 0) (hk : k < 32)
    (hecc : ecc_protected W bl pos len = 0) (hend : pos + len ≤ 2 ^ 32)
    (hmalloc : malloc_ok (2 ^ k) = true) (hfuel : len ≤ fuel) :
    ∃ s1 ops,
      blocklevel_smart_write W h malloc_ok fuel (nor_flash (2 ^ k) flags) bl pos (some buf)
        len s = write_outcome.returned 0 s1 ∧
      s1.log = s.log ++ ops ∧
      (∀ op ∈ ops, op.range.1 % 2 ^ k = 0 ∧ op.range.2 = 2 ^ k) ∧
      (∀ i, i < len → stored s1 (pos + i) = buf i % 256) ∧
      (∀ a, (a < pos ∨ pos + len ≤ a) → stored s1 a = stored s a) ∧
      (∀ b, (∀ a, b ≤ a → a < b + 2 ^ k → pos ≤ a → a < pos + len →
          stored s a = buf (a - pos) % 256) →
        ∀ n, flash_op.erase b n ∉ ops ∧ flash_op.write b n ∉ ops) := by
  have hE : 2 ^ k % 2 ^ 32 = 2 ^ k :=
    Nat.mod_eq_of_lt (Nat.pow_lt_pow_right (by norm_num) hk)
  obtain ⟨s1, ops, e1, e2, e3, e4⟩ := smart_write_loop_nor k flags hk fuel pos buf len s
    hfuel hend
  refine ⟨s1, ops, ?_, e2, fun op hop => ⟨(e3 op hop).1, (e3 op hop).2.1⟩, ?_, ?_, ?_⟩
  · unfold blocklevel_smart_write
    simp only [nor_get_info, nor_reacquire, hE, hecc, hmalloc]
    have hfl : (nor_flash (2 ^ k) flags).flags = flags := rfl
    rw [hfl, if_neg hflag]
    simp only [ne_eq, not_true_eq_false, if_false, Bool.true_eq_false]
    rw [e1]
    simp only [smart_write_out, nor_release]
  · intro i hi
    rw [e4 (pos + i), if_pos (by omega), show pos + i - pos = i by omega]
  · intro a ha
    rw [e4 a, if_neg (by omega)]
  · intro b hb n
    constructor
    · intro hin
      obtain ⟨a, a1, a2, a3, a4, a5⟩ := (e3 _ hin).2.2 rfl
      exact a5 (hb a a1 a2 a3 a4)
    · intro hin
      obtain ⟨a, a1, a2, a3, a4, a5⟩ := (e3 _ hin).2.2 rfl
      exact a5 (hb a a1 a2 a3 a4)

/-- C23 on the example chip, whose bytes all hold `0xf0`, with an erase size of 4:
writing the 8 bytes of the example buffer at 6 returns `0` after the calls listed, which
read the three blocks at 4, 8 and 12 and erase and write the block at 8 alone. -/
theorem smart_write_nor_flash_witness :
    (1 &&& example_libflash.WRITE_NEED_ERASE ≠ 0 ∧ 2 < 32 ∧
      ecc_protected (2 ^ 32) empty_device 6 8 = 0 ∧ 6 + 8 ≤ 2 ^ 32) ∧
    (blocklevel_smart_write (2 ^ 32) example_libflash (fun _ => true) 8 (nor_flash (2 ^ 2) 1)
      empty_device 6 (some example_buf) 8 example_nor).state.log =
      [flash_op.read 4 4, flash_op.read 8 4, flash_op.erase 8 4, flash_op.write 8 4,
        flash_op.read 12 4] ∧
    ∃ s1 ops,
      blocklevel_smart_write (2 ^ 32) example_libflash (fun _ => true) 8 (nor_flash (2 ^ 2) 1)
        empty_device 6 (some example_buf) 8 example_nor = write_outcome.returned 0 s1 ∧
      s1.log = example_nor.log ++ ops ∧
      (∀ op ∈ ops, op.range.1 % 2 ^ 2 = 0 ∧ op.range.2 = 2 ^ 2) ∧
      (∀ i, i < 8 → stored s1 (6 + i) = example_buf i % 256) ∧
      (∀ a, (a < 6 ∨ 6 + 8 ≤ a) → stored s1 a = stored example_nor a) ∧
      (∀ b, (∀ a, b ≤ a → a < b + 2 ^ 2 → 6 ≤ a → a < 6 + 8 →
          stored example_nor a = example_buf (a - 6) % 256) →
        ∀ n, flash_op.erase b n ∉ ops ∧ flash_op.write b n ∉ ops) :=
  ⟨⟨by decide, by decide, by decide, by norm_num⟩, by decide,
    smart_write_nor_flash (2 ^ 32) example_libflash (fun _ => true) 8 2 1 empty_device 6 8
      example_buf example_nor (by decide) (by decide) (by decide) (by norm_num) rfl
      (le_refl _)⟩

theorem smart_write_nor_malloc_fails (W : Nat) (h : Libflash) (malloc_ok : Nat → Bool)
    (fuel k flags : Nat) (bl : blocklevel_device) (pos len : Nat) (buf : Nat → Nat)
    (s : nor_state) (hflag : flags &&& h.WRITE_NEED_ERASE ≠ 0) (hk : k < 32)
    (hecc : ecc_protected W bl pos len = 0) (hmalloc : malloc_ok (2 ^ k) = false) :
    blocklevel_smart_write W h malloc_ok fuel (nor_flash (2 ^ k) flags) bl pos (some buf)
      len s = write_outcome.returned h.FLASH_ERR_MALLOC_FAILED s := by
  have hE : 2 ^ k % 2 ^ 32 = 2 ^ k :=
    Nat.mod_eq_of_lt (Nat.pow_lt_pow_right (by norm_num) hk)
  unfold blocklevel_smart_write
  simp only [nor_get_info, nor_reacquire, hE, hecc, hmalloc]
  have hfl : (nor_flash (2 ^ k) flags).flags = flags := rfl
  rw [hfl, if_neg hflag]
  simp

end Blocklevel

namespace Lpc

/-! ## The LPC accesses: claims -/

theorem prepare_wraps {σ : Type} (p : Platform σ) (lpc : lpcm) (t : OpalLPCAddressType)
    (addr sz opb_base : Nat) (is_write : Bool) (s : σ) (hs : sz < 2 ^ 32)
    (hw : 2 ^ 32 ≤ addr + sz) :
    lpc_opb_prepare p lpc t addr sz opb_base is_write s = (OPAL_PARAMETER, opb_base, lpc, s) := by
  unfold lpc_opb_prepare
  rw [if_pos]
  norm_num at hs hw ⊢
  omega

theorem prepare_invalid {σ : Type} (p : Platform σ) (lpc : lpcm) (t : OpalLPCAddressType)
    (addr sz opb_base : Nat) (is_write : Bool) (s : σ) (hs : sz < 2 ^ 32)
    (hinv : invalid_access t addr sz = true) :
    (lpc_opb_prepare p lpc t addr sz opb_base is_write s).1 = OPAL_PARAMETER ∧
    (lpc_opb_prepare p lpc t addr sz opb_base is_write s).2.2 = (lpc, s) := by
  by_cases hw : 2 ^ 32 ≤ addr + sz
  · rw [prepare_wraps p lpc t addr sz opb_base is_write s hs hw]
    exact ⟨rfl, rfl⟩
  · have htop : (addr + sz) % 2 ^ 32 = addr + sz := Nat.mod_eq_of_lt (not_le.1 hw)
    unfold lpc_opb_prepare
    rw [htop, if_neg (by omega)]
    unfold invalid_access at hinv
    simp only [Bool.or_eq_true, Bool.and_eq_true, decide_eq_true_eq, Bool.not_eq_true'] at hinv
    cases t with
    | OPAL_LPC_MEM =>
      simp only [hw, false_or, reduceCtorEq, false_and, true_and, or_false, known_type]
        at hinv
      simp only
      split_ifs <;> first | exact ⟨rfl, rfl⟩ | (exfalso; norm_num at *; omega)
    | OPAL_LPC_IO =>
      simp only [hw, false_or, reduceCtorEq, false_and, true_and, or_false, known_type]
        at hinv
      simp only
      split_ifs <;> first | exact ⟨rfl, rfl⟩ | (exfalso; norm_num at *; omega)
    | OPAL_LPC_FW =>
      simp only [hw, false_or, reduceCtorEq, false_and, true_and, or_false, known_type]
        at hinv
      simp only
      rw [if_pos]
      · exact ⟨rfl, rfl⟩
      · norm_num at hs hw hinv ⊢
        omega
    | unknown v => exact ⟨rfl, rfl⟩

theorem prepare_valid {σ : Type} (p : Platform σ) (lpc : lpcm) (t : OpalLPCAddressType)
    (addr sz opb_base : Nat) (is_write : Bool) (s : σ)
    (hinv : invalid_access t addr sz = false) :
    (t = OpalLPCAddressType.OPAL_LPC_IO →
      lpc_opb_prepare p lpc t addr sz opb_base is_write s
        = (OPAL_SUCCESS, lpc_io_opb_base, lpc, s)) ∧
    (t = OpalLPCAddressType.OPAL_LPC_MEM →
      lpc_opb_prepare p lpc t addr sz opb_base is_write s
        = (OPAL_SUCCESS, lpc_mem_opb_base, lpc, s)) := by
  unfold invalid_access at hinv
  simp only [Bool.or_eq_false_iff, Bool.and_eq_false_iff, decide_eq_false_iff_not, not_le,
    Bool.not_eq_false', decide_eq_true_eq] at hinv
  obtain ⟨⟨⟨⟨hw, hio⟩, hmem⟩, _⟩, _⟩ := hinv
  have htop : (addr + sz) % 2 ^ 32 = addr + sz := Nat.mod_eq_of_lt hw
  refine ⟨?_, ?_⟩
  · rintro rfl
    simp only [true_and, not_true_eq_false, false_or] at hio
    simp only [Bool.or_eq_false_iff, decide_eq_false_iff_not, not_not, not_lt] at hio
    unfold lpc_opb_prepare
    rw [htop, if_neg (by omega)]
    simp only
    rw [if_neg (by omega), if_neg (by omega)]
  · rintro rfl
    simp only [true_and, not_true_eq_false, false_or] at hmem
    simp only [Bool.or_eq_false_iff, decide_eq_false_iff_not, not_not, not_lt] at hmem
    unfold lpc_opb_prepare
    rw [htop, if_neg (by omega)]
    simp only
    rw [if_neg (by omega), if_neg (by omega)]

theorem set_lpc_self {σ : Type} (sys : System σ) (chip_id : Nat) (chip : proc_chip)
    (lpc : lpcm) (h1 : sys.get_chip chip_id = some chip) (h2 : chip.lpc = some lpc) :
    set_lpc sys chip_id lpc sys.hw = sys := by
  cases sys with
  | mk hw d g =>
    cases chip with
    | mk l =>
      simp only at h1 h2
      subst h2
      simp only [set_lpc, ← h1, Function.update_eq_self]

/-- C14: an invalid access (`addr + sz` wraps past `2 ^ 32`, an IO access that is not
a byte access or ends above `0x10000`, a MEM access that is not a byte access or ends
above `0x10000000`, a FW access whose first and last byte lie in different segments of
256 MB, an unknown address type) is rejected with `OPAL_PARAMETER` by
`lpc_opb_prepare`, `__lpc_write`, `__lpc_read`, `lpc_write` and `lpc_read`, on every
platform, with the hardware state as it was (no primitive was called) and with the
controller, hence its cached IDSEL and read size, as it was; every other IO or MEM
access passes `lpc_opb_prepare` with `lpc_io_opb_base`, respectively
`lpc_mem_opb_base`, as the window base and with nothing changed. -/
theorem lpc_invalid_access_rejected {σ : Type} (p : Platform σ) (t : OpalLPCAddressType)
    (addr sz : Nat) (hs : sz < 2 ^ 32) :
    (invalid_access t addr sz = true →
      (∀ lpc opb_base is_write s,
        (lpc_opb_prepare p lpc t addr sz opb_base is_write s).1 = OPAL_PARAMETER ∧
        (lpc_opb_prepare p lpc t addr sz opb_base is_write s).2.2 = (lpc, s)) ∧
      (∀ lpc data s,
        __lpc_write p lpc t addr data sz s = (OPAL_PARAMETER, lpc, s) ∧
        __lpc_read p lpc t addr data sz s = (OPAL_PARAMETER, data, lpc, s)) ∧
      (∀ data sys,
        lpc_write p t addr data sz sys = (OPAL_PARAMETER, sys) ∧
        lpc_read p t addr data sz sys = (OPAL_PARAMETER, data, sys))) ∧
    (invalid_access t addr sz = false →
      (t = OpalLPCAddressType.OPAL_LPC_IO → ∀ lpc opb_base is_write s,
        lpc_opb_prepare p lpc t addr sz opb_base is_write s
          = (OPAL_SUCCESS, lpc_io_opb_base, lpc, s)) ∧
      (t = OpalLPCAddressType.OPAL_LPC_MEM → ∀ lpc opb_base is_write s,
        lpc_opb_prepare p lpc t addr sz opb_base is_write s
          = (OPAL_SUCCESS, lpc_mem_opb_base, lpc, s))) := by
  refine ⟨?_, ?_⟩
  · intro hinv
    have hprep := fun lpc opb_base is_write s =>
      prepare_invalid p lpc t addr sz opb_base is_write s hs hinv
    have hw : ∀ lpc data s, __lpc_write p lpc t addr data sz s = (OPAL_PARAMETER, lpc, s) := by
      intro lpc data s
      obtain ⟨h1, h2⟩ := hprep lpc 0 true s
      unfold __lpc_write
      rcases hr : lpc_opb_prepare p lpc t addr sz 0 true s with ⟨rc, base, lpc1, s1⟩
      rw [hr] at h1 h2
      simp only at h1 h2
      simp only [h1, h2, OPAL_PARAMETER]
      simp
    have hr : ∀ lpc data s,
        __lpc_read p lpc t addr data sz s = (OPAL_PARAMETER, data, lpc, s) := by
      intro lpc data s
      obtain ⟨h1, h2⟩ := hprep lpc 0 false s
      unfold __lpc_read
      rcases hr : lpc_opb_prepare p lpc t addr sz 0 false s with ⟨rc, base, lpc1, s1⟩
      rw [hr] at h1 h2
      simp only at h1 h2
      simp only [h1, h2, OPAL_PARAMETER]
      simp
    refine ⟨hprep, fun lpc data s => ⟨hw lpc data s, hr lpc data s⟩, ?_⟩
    intro data sys
    refine ⟨?_, ?_⟩
    · unfold lpc_write
      split_ifs
      · rfl
      · rcases hc : sys.get_chip sys.lpc_default_chip_id.toNat with _ | chip
        · rfl
        · rcases hl : chip.lpc with _ | lpc
          · simp only [hl]
          · simp only [hl, hw lpc data sys.hw, set_lpc_self sys _ chip lpc hc hl]
    · unfold lpc_read
      split_ifs
      · rfl
      · rcases hc : sys.get_chip sys.lpc_default_chip_id.toNat with _ | chip
        · rfl
        · rcases hl : chip.lpc with _ | lpc
          · simp only [hl]
          · simp only [hl, hr lpc data sys.hw, set_lpc_self sys _ chip lpc hc hl]
  · intro hinv
    exact ⟨fun h lpc opb_base is_write s =>
        (prepare_valid p lpc t addr sz opb_base is_write s hinv).1 h,
      fun h lpc opb_base is_write s =>
        (prepare_valid p lpc t addr sz opb_base is_write s hinv).2 h⟩

/-- C14 on the example platform: the IO access of one byte at `0x10000` is rejected by
`lpc_write` with nothing changed, no access logged, and the MEM access of one byte at
`0x10000` passes the check with the MEM window as base. -/
theorem lpc_invalid_access_rejected_witness :
    lpc_write example_platform OpalLPCAddressType.OPAL_LPC_IO 0x10000 0xab 1 example_system
      = (OPAL_PARAMETER, example_system) ∧
    example_system.hw.log = [] ∧
    lpc_opb_prepare example_platform example_lpcm OpalLPCAddressType.OPAL_LPC_MEM 0x10000 1 0
      true example_system.hw = (OPAL_SUCCESS, lpc_mem_opb_base, example_lpcm, example_system.hw) :=
  ⟨(((lpc_invalid_access_rejected example_platform OpalLPCAddressType.OPAL_LPC_IO 0x10000 1
      (by norm_num)).1 (by decide)).2.2 0xab example_system).1,
    rfl,
    ((lpc_invalid_access_rejected example_platform OpalLPCAddressType.OPAL_LPC_MEM 0x10000 1
      (by norm_num)).2 (by decide)).2 rfl example_lpcm 0 true example_system.hw⟩

/-! ## The OPAL variants of the accesses: claims -/

theorem byte_access_prepare {σ : Type} (p : Platform σ) (lpc : lpcm)
    (t : OpalLPCAddressType)
    (ht : t = OpalLPCAddressType.OPAL_LPC_IO ∨ t = OpalLPCAddressType.OPAL_LPC_MEM)
    (addr opb_base : Nat) (is_write : Bool) (s : σ) (ha : addr < 2 ^ 32) :
    (addr + 1 ≤ window_size t →
      lpc_opb_prepare p lpc t addr 1 opb_base is_write s
        = (OPAL_SUCCESS, window_base t, lpc, s)) ∧
    (¬ addr + 1 ≤ window_size t →
      lpc_opb_prepare p lpc t addr 1 opb_base is_write s
        = (OPAL_PARAMETER, opb_base, lpc, s)) := by
  constructor
  · intro h
    have hinv : invalid_access t addr 1 = false := by
      rcases ht with rfl | rfl <;>
        · simp only [window_size] at h
          simp [invalid_access, known_type]
          omega
    rcases ht with rfl | rfl
    · exact (prepare_valid p lpc _ addr 1 opb_base is_write s hinv).1 rfl
    · exact (prepare_valid p lpc _ addr 1 opb_base is_write s hinv).2 rfl
  · intro h
    by_cases hw : 2 ^ 32 ≤ addr + 1
    · exact prepare_wraps p lpc t addr 1 opb_base is_write s (by norm_num) hw
    · have htop : (addr + 1) % 2 ^ 32 = addr + 1 := Nat.mod_eq_of_lt (not_le.1 hw)
      unfold lpc_opb_prepare
      rw [htop, if_neg (by omega)]
      rcases ht with rfl | rfl
      · simp only [window_size] at h
        simp only
        rw [if_pos (by omega)]
      · simp only [window_size] at h
        simp only
        rw [if_pos (by omega)]

theorem window_no_wrap (t : OpalLPCAddressType)
    (ht : t = OpalLPCAddressType.OPAL_LPC_IO ∨ t = OpalLPCAddressType.OPAL_LPC_MEM)
    (addr : Nat) (h : addr + 1 ≤ window_size t) :
    (window_base t + addr) % 2 ^ 32 = window_base t + addr := by
  apply Nat.mod_eq_of_lt
  rcases ht with rfl | rfl
  · simp only [window_size, window_base, lpc_io_opb_base] at h ⊢
    norm_num
    omega
  · simp only [window_size, window_base, lpc_mem_opb_base] at h ⊢
    norm_num
    omega

theorem lpc_write_byte {σ : Type} (p : Platform σ) (lpc : lpcm) (t : OpalLPCAddressType)
    (ht : t = OpalLPCAddressType.OPAL_LPC_IO ∨ t = OpalLPCAddressType.OPAL_LPC_MEM)
    (addr v : Nat) (s : σ) (ha : addr < 2 ^ 32) :
    (addr + 1 ≤ window_size t →
      __lpc_write p lpc t addr v 1 s =
        ((opb_write p lpc (window_base t + addr) v 1 s).1, lpc,
          (opb_write p lpc (window_base t + addr) v 1 s).2)) ∧
    (¬ addr + 1 ≤ window_size t →
      __lpc_write p lpc t addr v 1 s = (OPAL_PARAMETER, lpc, s)) := by
  obtain ⟨h1, h2⟩ := byte_access_prepare p lpc t ht addr 0 true s ha
  constructor
  · intro h
    unfold __lpc_write
    rw [h1 h]
    simp only [OPAL_SUCCESS, ne_eq, not_true_eq_false, if_false, window_no_wrap t ht addr h]
  · intro h
    unfold __lpc_write
    rw [h2 h]
    simp [OPAL_PARAMETER]

theorem lpc_read_byte {σ : Type} (p : Platform σ) (lpc : lpcm) (t : OpalLPCAddressType)
    (ht : t = OpalLPCAddressType.OPAL_LPC_IO ∨ t = OpalLPCAddressType.OPAL_LPC_MEM)
    (addr d : Nat) (s : σ) (ha : addr < 2 ^ 32) :
    (addr + 1 ≤ window_size t →
      __lpc_read p lpc t addr d 1 s =
        ((opb_read p lpc (window_base t + addr) d 1 s).1,
          (opb_read p lpc (window_base t + addr) d 1 s).2.1, lpc,
          (opb_read p lpc (window_base t + addr) d 1 s).2.2)) ∧
    (¬ addr + 1 ≤ window_size t →
      __lpc_read p lpc t addr d 1 s = (OPAL_PARAMETER, d, lpc, s)) := by
  obtain ⟨h1, h2⟩ := byte_access_prepare p lpc t ht addr 0 false s ha
  constructor
  · intro h
    unfold __lpc_read
    rw [h1 h]
    simp only [OPAL_SUCCESS, ne_eq, not_true_eq_false, if_false, window_no_wrap t ht addr h]
  · intro h
    unfold __lpc_read
    rw [h2 h]
    simp [OPAL_PARAMETER]

theorem window_size_lt (t : OpalLPCAddressType) : window_size t < 2 ^ 32 := by
  cases t <;> simp [window_size]

theorem opal_lpc_write_loop_stores {σ : Type} (p : Platform σ) (lpc : lpcm)
    (mem : σ → Nat → Nat) (hst : byte_storage p lpc mem) (t : OpalLPCAddressType)
    (ht : t = OpalLPCAddressType.OPAL_LPC_IO ∨ t = OpalLPCAddressType.OPAL_LPC_MEM) :
    ∀ (n addr data : Nat) (s : σ), addr < 2 ^ 32 →
      (opal_lpc_write_loop p t n lpc addr data s).1 = OPAL_SUCCESS →
      (opal_lpc_write_loop p t n lpc addr data s).2.1 = lpc ∧
      (0 < n → addr + n ≤ window_size t) ∧
      (∀ k, k < n → mem (opal_lpc_write_loop p t n lpc addr data s).2.2
        (window_base t + addr + k) = data / 2 ^ (8 * k) % 2 ^ 8) ∧
      (∀ x, x < window_base t + addr →
        mem (opal_lpc_write_loop p t n lpc addr data s).2.2 x = mem s x) := by
  intro n
  induction n with
  | zero =>
    intro addr data s _ _
    rw [opal_lpc_write_loop]
    exact ⟨rfl, fun h => absurd h (lt_irrefl _), fun k hk => absurd hk (Nat.not_lt_zero _),
      fun _ _ => rfl⟩
  | succ n ih =>
    intro addr data s ha hrc
    obtain ⟨w1, w2⟩ := lpc_write_byte p lpc t ht addr (data &&& 0xff) s ha
    rw [opal_lpc_write_loop] at hrc ⊢
    by_cases hin : addr + 1 ≤ window_size t
    · have hw := w1 hin
      by_cases hrc0 : (opb_write p lpc (window_base t + addr) (data &&& 0xff) 1 s).1 ≠ 0
      · rw [hw, if_pos hrc0] at hrc
        exact absurd hrc hrc0
      · rw [hw, if_neg hrc0] at hrc ⊢
        simp only at hrc ⊢
        have hlt := window_size_lt t
        have hmod : (addr + 1) % 2 ^ 32 = addr + 1 := Nat.mod_eq_of_lt (by omega)
        rw [hmod] at hrc ⊢
        have hm := hst.1 (window_base t + addr) (data &&& 0xff) s (not_not.1 hrc0)
        have hand : (data &&& 0xff) % 2 ^ 8 = data % 2 ^ 8 := by
          have : (0xff : Nat) = 2 ^ 8 - 1 := by norm_num
          rw [this, Nat.and_pow_two_sub_one_eq_mod, Nat.mod_mod]
        rw [hand] at hm
        obtain ⟨i1, i2, i3, i4⟩ := ih (addr + 1) (data / 2 ^ 8)
          (opb_write p lpc (window_base t + addr) (data &&& 0xff) 1 s).2 (by omega) hrc
        refine ⟨i1, fun _ => ?_, ?_, ?_⟩
        · rcases Nat.eq_zero_or_pos n with h0 | h0
          · omega
          · have := i2 h0
            omega
        · intro k hk
          cases k with
          | zero =>
            rw [i4 _ (by omega), hm]
            simp
          | succ k =>
            have := i3 k (by omega)
            rw [show window_base t + addr + (k + 1) = window_base t + (addr + 1) + k by omega,
              this, Nat.div_div_eq_div_mul, ← pow_add]
            congr 3
            omega
        · intro x hx
          rw [i4 x (by omega), hm, Function.update_noteq (by omega)]
    · rw [w2 hin, if_pos (by simp [OPAL_PARAMETER])] at hrc
      exact absurd hrc (by simp [OPAL_PARAMETER, OPAL_SUCCESS])

theorem opal_lpc_read_loop_assembles {σ : Type} (p : Platform σ) (lpc : lpcm)
    (mem : σ → Nat → Nat) (hst : byte_storage p lpc mem) (t : OpalLPCAddressType)
    (ht : t = OpalLPCAddressType.OPAL_LPC_IO ∨ t = OpalLPCAddressType.OPAL_LPC_MEM) :
    ∀ (n addr data q : Nat) (s : σ), n ≤ 4 → addr + n ≤ window_size t →
      (∀ k, k < n → mem s (window_base t + addr + k) = data / 2 ^ (8 * k) % 2 ^ 8) →
      (opal_lpc_read_loop p t n lpc addr (2 ^ (8 * n) * q) s).1 = OPAL_SUCCESS ∧
      (opal_lpc_read_loop p t n lpc addr (2 ^ (8 * n) * q) s).2.1 =
        2 ^ (8 * n) * q + reversed_bytes n data ∧
      (opal_lpc_read_loop p t n lpc addr (2 ^ (8 * n) * q) s).2.2.1 = lpc ∧
      mem (opal_lpc_read_loop p t n lpc addr (2 ^ (8 * n) * q) s).2.2.2 = mem s := by
  intro n
  induction n with
  | zero =>
    intro addr data q s _ _ _
    rw [opal_lpc_read_loop]
    exact ⟨rfl, rfl, rfl, rfl⟩
  | succ n ih =>
    intro addr data q s hn hin hmem
    have hlt := window_size_lt t
    obtain ⟨r1, _⟩ := lpc_read_byte p lpc t ht addr 0 s (by omega)
    have hr := r1 (by omega)
    obtain ⟨o1, o2, o3⟩ := hst.2 (window_base t + addr) 0 s
    rw [opal_lpc_read_loop, hr]
    simp only
    rw [if_neg (by rw [o1]; simp [OPAL_SUCCESS])]
    have hmod : (addr + 1) % 2 ^ 32 = addr + 1 := Nat.mod_eq_of_lt (by omega)
    have hb : mem s (window_base t + addr) = data % 2 ^ 8 := by
      have := hmem 0 (by omega)
      simpa using this
    rw [hmod, o2, hb]
    have hblt : data % 2 ^ 8 * 2 ^ (8 * n) < 2 ^ (8 * (n + 1)) := by
      rw [show 8 * (n + 1) = 8 + 8 * n by ring, pow_add]
      exact Nat.mul_lt_mul_of_pos_right (Nat.mod_lt _ (by norm_num)) (by positivity)
    have hle : 2 ^ (8 * (n + 1)) ≤ 2 ^ 32 := Nat.pow_le_pow_right (by norm_num) (by omega)
    rw [Nat.mod_eq_of_lt (lt_of_lt_of_le hblt hle), ← Nat.mul_add_lt_is_or hblt]
    have hacc : 2 ^ (8 * (n + 1)) * q + data % 2 ^ 8 * 2 ^ (8 * n) =
        2 ^ (8 * n) * (2 ^ 8 * q + data % 2 ^ 8) := by
      rw [show 8 * (n + 1) = 8 * n + 8 by ring, pow_add]
      ring
    rw [hacc]
    obtain ⟨i1, i2, i3, i4⟩ := ih (addr + 1) (data / 2 ^ 8) (2 ^ 8 * q + data % 2 ^ 8)
      (opb_read p lpc (window_base t + addr) 0 1 s).2.2 (by omega) (by omega) (by
        intro k hk
        rw [o3, show window_base t + (addr + 1) + k = window_base t + addr + (k + 1) by omega,
          hmem (k + 1) (by omega), Nat.div_div_eq_div_mul, ← pow_add]
        congr 3
        omega)
    refine ⟨i1, ?_, i3, i4.trans o3⟩
    rw [i2, reversed_bytes, ← hacc]
    ring

theorem example_byte_storage :
    byte_storage example_platform example_lpcm_mmio example_mem := by
  constructor
  · intro a v s _
    funext x
    by_cases hx : x = a
    · subst hx
      simp [opb_write, opb_mmio_write, example_lpcm_mmio, example_platform, example_mem]
    · have hne : 0x6030000000000 + x ≠ 0x6030000000000 + a := by omega
      simp [opb_write, opb_mmio_write, example_lpcm_mmio, example_platform, example_mem,
        Function.update_noteq hx, Function.update_noteq hne]
  · intro a d s
    simp [opb_read, opb_mmio_read, example_lpcm_mmio, example_platform, example_mem,
      OPAL_SUCCESS]
    rfl

theorem opal_lpc_write_eq {σ : Type} (p : Platform σ) (sys : System σ) (chip_id : Nat)
    (chip : proc_chip) (lpc : lpcm) (t : OpalLPCAddressType) (addr data sz : Nat)
    (hchip : sys.get_chip chip_id = some chip) (hlpc : chip.lpc = some lpc) :
    opal_lpc_write p chip_id t addr data sz sys =
      if t = OpalLPCAddressType.OPAL_LPC_FW ∨ sz = 1 then
        ((__lpc_write p lpc t addr data sz sys.hw).1,
          set_lpc sys chip_id (__lpc_write p lpc t addr data sz sys.hw).2.1
            (__lpc_write p lpc t addr data sz sys.hw).2.2)
      else
        ((opal_lpc_write_loop p t sz lpc addr data sys.hw).1,
          set_lpc sys chip_id (opal_lpc_write_loop p t sz lpc addr data sys.hw).2.1
            (opal_lpc_write_loop p t sz lpc addr data sys.hw).2.2) := by
  unfold opal_lpc_write
  rw [hchip]
  simp only
  rw [hlpc]

theorem opal_lpc_read_eq {σ : Type} (p : Platform σ) (sys : System σ) (chip_id : Nat)
    (chip : proc_chip) (lpc : lpcm) (t : OpalLPCAddressType) (addr data sz : Nat)
    (hchip : sys.get_chip chip_id = some chip) (hlpc : chip.lpc = some lpc) :
    opal_lpc_read p chip_id t addr data sz sys =
      if t = OpalLPCAddressType.OPAL_LPC_FW ∨ sz = 1 then
        ((__lpc_read p lpc t addr data sz sys.hw).1,
          (__lpc_read p lpc t addr data sz sys.hw).2.1,
          set_lpc sys chip_id (__lpc_read p lpc t addr data sz sys.hw).2.2.1
            (__lpc_read p lpc t addr data sz sys.hw).2.2.2)
      else
        ((opal_lpc_read_loop p t sz lpc addr 0 sys.hw).1,
          (opal_lpc_read_loop p t sz lpc addr 0 sys.hw).2.1,
          set_lpc sys chip_id (opal_lpc_read_loop p t sz lpc addr 0 sys.hw).2.2.1
            (opal_lpc_read_loop p t sz lpc addr 0 sys.hw).2.2.2) := by
  unfold opal_lpc_read
  rw [hchip]
  simp only
  rw [hlpc]

theorem set_lpc_get_chip {σ : Type} (sys : System σ) (chip_id : Nat) (lpc : lpcm) (s : σ) :
    (set_lpc sys chip_id lpc s).get_chip chip_id = some { lpc := some lpc } ∧
    (set_lpc sys chip_id lpc s).hw = s := by
  simp [set_lpc]

theorem read_after_write_byte {σ : Type} (p : Platform σ) (lpc : lpcm)
    (mem : σ → Nat → Nat) (hst : byte_storage p lpc mem) (t : OpalLPCAddressType)
    (ht : t = OpalLPCAddressType.OPAL_LPC_IO ∨ t = OpalLPCAddressType.OPAL_LPC_MEM)
    (addr data d0 : Nat) (s : σ) (ha : addr < 2 ^ 32)
    (hw : (__lpc_write p lpc t addr data 1 s).1 = OPAL_SUCCESS) :
    (__lpc_write p lpc t addr data 1 s).2.1 = lpc ∧
    (__lpc_read p lpc t addr d0 1 (__lpc_write p lpc t addr data 1 s).2.2).1
      = OPAL_SUCCESS ∧
    (__lpc_read p lpc t addr d0 1 (__lpc_write p lpc t addr data 1 s).2.2).2.1
      = data % 2 ^ 8 := by
  obtain ⟨w1, w2⟩ := lpc_write_byte p lpc t ht addr data s ha
  by_cases hin : addr + 1 ≤ window_size t
  · rw [w1 hin] at hw ⊢
    simp only at hw ⊢
    obtain ⟨r1, _⟩ := lpc_read_byte p lpc t ht addr d0
      (opb_write p lpc (window_base t + addr) data 1 s).2 ha
    rw [r1 hin]
    obtain ⟨o1, o2, _⟩ := hst.2 (window_base t + addr) d0
      (opb_write p lpc (window_base t + addr) data 1 s).2
    refine ⟨trivial, o1, ?_⟩
    simp only
    rw [o2, hst.1 _ _ _ hw, Function.update_same]
  · rw [w2 hin] at hw
    exact absurd hw (by simp [OPAL_PARAMETER, OPAL_SUCCESS])

theorem reversed_bytes_one (data : Nat) (h : data < 2 ^ 8) : reversed_bytes 1 data = data := by
  norm_num at h
  simp [reversed_bytes, Nat.mod_eq_of_lt h]

/-- C25, the code at the failing input: on the example platform, whose MMIO window is a
storage of bytes, `opal_lpc_write(0, OPAL_LPC_IO, 0x80, 0x1234, 2)` succeeds and
`opal_lpc_read(0, OPAL_LPC_IO, 0x80, &data, 2)` issued after it succeeds and returns
`0x3412`, which is not the value written: the emulated write stores the least
significant byte at `addr`, the emulated read takes the byte at `addr` as the most
significant one. The sibling path of the same two functions that is not emulated, the
FW space, does return the value written: after
`opal_lpc_write(0, OPAL_LPC_FW, 0x80, 0x1234, 2)`, which succeeds,
`opal_lpc_read(0, OPAL_LPC_FW, 0x80, &data, 2)` succeeds and returns `0x1234`. -/
theorem opal_lpc_read_swaps_written_bytes :
    byte_storage example_platform example_lpcm_mmio example_mem ∧
    (opal_lpc_write example_platform 0 OpalLPCAddressType.OPAL_LPC_IO 0x80 0x1234 2
      example_system_mmio).1 = OPAL_SUCCESS ∧
    (opal_lpc_read example_platform 0 OpalLPCAddressType.OPAL_LPC_IO 0x80 0 2
      (opal_lpc_write example_platform 0 OpalLPCAddressType.OPAL_LPC_IO 0x80 0x1234 2
        example_system_mmio).2).1 = OPAL_SUCCESS ∧
    (opal_lpc_read example_platform 0 OpalLPCAddressType.OPAL_LPC_IO 0x80 0 2
      (opal_lpc_write example_platform 0 OpalLPCAddressType.OPAL_LPC_IO 0x80 0x1234 2
        example_system_mmio).2).2.1 = 0x3412 ∧
    (0x3412 : Nat) ≠ 0x1234 ∧
    (opal_lpc_write example_platform 0 OpalLPCAddressType.OPAL_LPC_FW 0x80 0x1234 2
      example_system_mmio).1 = OPAL_SUCCESS ∧
    (opal_lpc_read example_platform 0 OpalLPCAddressType.OPAL_LPC_FW 0x80 0 2
      (opal_lpc_write example_platform 0 OpalLPCAddressType.OPAL_LPC_FW 0x80 0x1234 2
        example_system_mmio).2).1 = OPAL_SUCCESS ∧
    (opal_lpc_read example_platform 0 OpalLPCAddressType.OPAL_LPC_FW 0x80 0 2
      (opal_lpc_write example_platform 0 OpalLPCAddressType.OPAL_LPC_FW 0x80 0x1234 2
        example_system_mmio).2).2.1 = 0x1234 :=
  ⟨example_byte_storage, by decide, by decide, by decide, by decide, by decide, by decide,
    by decide⟩

/-- What the emulated accesses do as they stand: for the IO or MEM space of a
controller backed by a storage of bytes, for every `addr`, every `sz` in {1, 2, 4} and
every `data` below `2 ^ (8 * sz)`,
`opal_lpc_read(chip_id, addr_type, addr, &data, sz)` issued after a successful
`opal_lpc_write(chip_id, addr_type, addr, data, sz)` succeeds and returns `data` with
its `sz` bytes in reverse order, which is `data` itself only when `sz` is 1: the value
written is not read back for an access of 2 or 4 bytes. -/
theorem opal_lpc_read_after_write {σ : Type} (p : Platform σ) (sys : System σ)
    (chip_id : Nat) (chip : proc_chip) (lpc : lpcm) (mem : σ → Nat → Nat)
    (t : OpalLPCAddressType) (addr data sz d0 : Nat)
    (hchip : sys.get_chip chip_id = some chip) (hlpc : chip.lpc = some lpc)
    (hst : byte_storage p lpc mem)
    (ht : t = OpalLPCAddressType.OPAL_LPC_IO ∨ t = OpalLPCAddressType.OPAL_LPC_MEM)
    (hsz : sz = 1 ∨ sz = 2 ∨ sz = 4) (ha : addr < 2 ^ 32) (hd : data < 2 ^ (8 * sz))
    (hw : (opal_lpc_write p chip_id t addr data sz sys).1 = OPAL_SUCCESS) :
    (opal_lpc_read p chip_id t addr d0 sz
      (opal_lpc_write p chip_id t addr data sz sys).2).1 = OPAL_SUCCESS ∧
    (opal_lpc_read p chip_id t addr d0 sz
      (opal_lpc_write p chip_id t addr data sz sys).2).2.1 = reversed_bytes sz data ∧
    (sz = 1 → (opal_lpc_read p chip_id t addr d0 sz
      (opal_lpc_write p chip_id t addr data sz sys).2).2.1 = data) := by
  have hfw : t ≠ OpalLPCAddressType.OPAL_LPC_FW := by
    rcases ht with rfl | rfl <;> simp
  rw [opal_lpc_write_eq p sys chip_id chip lpc t addr data sz hchip hlpc] at hw ⊢
  by_cases h1 : sz = 1
  · subst h1
    rw [if_pos (Or.inr rfl)] at hw ⊢
    simp only at hw ⊢
    obtain ⟨b1, b2, b3⟩ := read_after_write_byte p lpc mem hst t ht addr data d0 sys.hw ha hw
    obtain ⟨g1, g2⟩ := set_lpc_get_chip sys chip_id
      (__lpc_write p lpc t addr data 1 sys.hw).2.1 (__lpc_write p lpc t addr data 1 sys.hw).2.2
    rw [opal_lpc_read_eq p _ chip_id _ _ t addr d0 1 g1 rfl, if_pos (Or.inr rfl)]
    simp only
    rw [g2, b1, b2, b3]
    have hdm : data % 2 ^ 8 = data := Nat.mod_eq_of_lt (by simpa using hd)
    rw [hdm, reversed_bytes_one data (by simpa using hd)]
    exact ⟨rfl, rfl, fun _ => rfl⟩
  · have hno : ¬ (t = OpalLPCAddressType.OPAL_LPC_FW ∨ sz = 1) := by
      rintro (h | h)
      · exact hfw h
      · exact h1 h
    rw [if_neg hno] at hw ⊢
    simp only at hw ⊢
    obtain ⟨l1, l2, l3, _⟩ := opal_lpc_write_loop_stores p lpc mem hst t ht sz addr data
      sys.hw ha hw
    obtain ⟨g1, g2⟩ := set_lpc_get_chip sys chip_id
      (opal_lpc_write_loop p t sz lpc addr data sys.hw).2.1
      (opal_lpc_write_loop p t sz lpc addr data sys.hw).2.2
    rw [opal_lpc_read_eq p _ chip_id _ _ t addr d0 sz g1 rfl, if_neg hno]
    simp only
    rw [g2, l1]
    have hpos : 0 < sz := by omega
    obtain ⟨r1, r2, _, _⟩ := opal_lpc_read_loop_assembles p lpc mem hst t ht sz addr data 0
      (opal_lpc_write_loop p t sz lpc addr data sys.hw).2.2 (by omega) (l2 hpos) l3
    rw [Nat.mul_zero] at r1 r2
    rw [Nat.zero_add] at r2
    exact ⟨r1, r2, fun h => absurd h h1⟩

/-- The emulated accesses on the example platform: after
`opal_lpc_write(0, OPAL_LPC_MEM, 0x80, 0x12345678, 4)`, which succeeds,
`opal_lpc_read(0, OPAL_LPC_MEM, 0x80, &data, 4)` succeeds and returns `0x78563412`. -/
theorem opal_lpc_read_after_write_witness :
    reversed_bytes 4 0x12345678 = 0x78563412 ∧
    (opal_lpc_write example_platform 0 OpalLPCAddressType.OPAL_LPC_MEM 0x80 0x12345678 4
      example_system_mmio).1 = OPAL_SUCCESS ∧
    ((opal_lpc_read example_platform 0 OpalLPCAddressType.OPAL_LPC_MEM 0x80 0 4
      (opal_lpc_write example_platform 0 OpalLPCAddressType.OPAL_LPC_MEM 0x80 0x12345678 4
        example_system_mmio).2).1 = OPAL_SUCCESS ∧
    (opal_lpc_read example_platform 0 OpalLPCAddressType.OPAL_LPC_MEM 0x80 0 4
      (opal_lpc_write example_platform 0 OpalLPCAddressType.OPAL_LPC_MEM 0x80 0x12345678 4
        example_system_mmio).2).2.1 = reversed_bytes 4 0x12345678 ∧
    ((4 : Nat) = 1 → (opal_lpc_read example_platform 0 OpalLPCAddressType.OPAL_LPC_MEM 0x80 0 4
      (opal_lpc_write example_platform 0 OpalLPCAddressType.OPAL_LPC_MEM 0x80 0x12345678 4
        example_system_mmio).2).2.1 = 0x12345678)) :=
  ⟨by decide, by decide,
    opal_lpc_read_after_write example_platform example_system_mmio 0
      { lpc := some example_lpcm_mmio } example_lpcm_mmio example_mem
      OpalLPCAddressType.OPAL_LPC_MEM 0x80 0x12345678 4 0 rfl rfl example_byte_storage
      (Or.inr rfl) (Or.inr (Or.inr rfl)) (by norm_num) (by norm_num) (by decide)⟩

end Lpc
